import Mathlib

/-!
# Nearest-point solvers of OpenTURNS: AbdoRackwitz and SQP

A shallow embedding of `lib/src/Base/Optim/AbdoRackwitz/AbdoRackwitz.cxx` and
`lib/src/Base/Optim/SQP/SQP.cxx`.

Conventions of the embedding

* `NumericalScalar` is an arbitrary linearly ordered field `K` (exact arithmetic); the square
  root used by `NumericalPoint::norm` is passed explicitly as `sqrt : K → K`.  Theorems about
  exact real arithmetic instantiate `K := ℝ` and `sqrt := Real.sqrt`.
* `NumericalPoint` is `List K`; the dimension is the length of the list.  The sum, the
  difference and the dot product of two points of different dimensions, on which the library
  throws `InvalidArgumentException`, truncate to the shorter point.  Reading a component
  outside of a point yields `0`.
* Division is the division of the field, for which `x / 0 = 0`; the divisions are those of
  the source, and a theorem that depends on a divisor says which one and what it is.  The
  comparison `compareA > compareB` of `computeLineSearch`, whose operands are NaN in the source
  when a divisor is null, is false in that case.
* `UnsignedInteger` is `Nat`: the iteration counter does not wrap around.  This is the
  behaviour of the source as long as the counter stays below the largest value of the type,
  an unsigned machine integer of 32 bits at least.
* A C++ exception is modelled by state passing: the solver state at the moment of the `throw`
  together with the exception that was raised.
* The `do ... while` loop of `computeLineSearch` need not terminate for every `tau`; it is
  run under a fuel and yields `none` when the fuel is exhausted.
* Logging (`LOGINFO`, `LOGWARN`, `getVerbose`) has no effect on the state and is left out.
-/

namespace OT

/-- The two exception classes raised by the solvers. -/
inductive Exception where
  | InvalidArgumentException
  | InternalException
  deriving DecidableEq, Repr

section Point

variable {K : Type} [LinearOrderedField K]

/-- `NumericalPoint(n)`: the point of dimension `n` filled with zeros. -/
def NumericalPoint.zero (n : Nat) : List K := List.replicate n 0

/-- `a + b` on `NumericalPoint`, for two points of one dimension (the library throws on two
points of different dimensions, the model truncates to the shorter one). -/
def NumericalPoint.add (a b : List K) : List K := List.zipWith (fun x y => x + y) a b

/-- `-a` on `NumericalPoint`. -/
def NumericalPoint.neg (a : List K) : List K := a.map (fun x => -x)

/-- `a - b` on `NumericalPoint`, for two points of one dimension (the library throws on two
points of different dimensions, the model truncates to the shorter one). -/
def NumericalPoint.sub (a b : List K) : List K := List.zipWith (fun x y => x - y) a b

/-- `c * a` for a scalar `c` and a `NumericalPoint` `a`. -/
def NumericalPoint.smul (c : K) (a : List K) : List K := a.map (fun x => c * x)

/-- `a / c` for a `NumericalPoint` `a` and a scalar `c`. -/
def NumericalPoint.sdiv (a : List K) (c : K) : List K := a.map (fun x => x / c)

/-- `dot(a, b)`, for two points of one dimension (the library throws on two points of
different dimensions, the model truncates to the shorter one). -/
def dot (a b : List K) : K := (List.zipWith (fun x y => x * y) a b).sum

/-- `NumericalPoint::normSquare`. -/
def NumericalPoint.normSquare (a : List K) : K := dot a a

/-- `NumericalPoint::norm`, the square root of `normSquare`. -/
def NumericalPoint.norm (sqrt : K → K) (a : List K) : K := sqrt (NumericalPoint.normSquare a)

/-- `a[i]` read access; an index outside of the point reads `0` in the model. -/
def NumericalPoint.get (a : List K) (i : Nat) : K := a.getD i 0

end Point

/-! ## Collaborators that are not part of the two source files -/

/-- Modelled from the spec: `SymmetricMatrix`, whose declaration is not among the sources.
Only the lower triangle `i ≥ j` is stored and the accessor `(i, j)` reads or writes the
stored entry `(max i j, min i j)`, so the matrix is symmetric by construction. -/
structure SymmetricMatrix (K : Type) where
  dim : Nat
  data : Nat → Nat → K

namespace SymmetricMatrix

variable {K : Type} [LinearOrderedField K]

/-- `SymmetricMatrix(n)`: the null matrix of dimension `n`. -/
def zero (n : Nat) : SymmetricMatrix K := ⟨n, fun _ _ => 0⟩

/-- Read access `M(i, j)`. -/
def get (M : SymmetricMatrix K) (i j : Nat) : K :=
  if i > j then M.data i j else M.data j i

/-- Write access `M(i, j) = v`. -/
def set (M : SymmetricMatrix K) (i j : Nat) (v : K) : SymmetricMatrix K :=
  if i > j then
    { M with data := fun a b => if a = i ∧ b = j then v else M.data a b }
  else
    { M with data := fun a b => if a = j ∧ b = i then v else M.data a b }

/-- The matrix-vector product `M * x`, row by row. -/
def mulVec (M : SymmetricMatrix K) (x : List K) : List K :=
  (List.range M.dim).map fun i =>
    ((List.range M.dim).map fun j => M.get i j * NumericalPoint.get x j).sum

end SymmetricMatrix

/-- Modelled from the spec: the level function adapter `NumericalMathFunction` with its
evaluation `G(u)`, its gradient and its Hessian (sheet `0`), all deterministic. -/
structure NumericalMathFunction (K : Type) where
  eval : List K → K
  gradient : List K → List K
  hessian : List K → SymmetricMatrix K

/-- Modelled from the spec: the problem descriptor `OptimizationProblem`, with the three
predicates consulted by `checkProblem`, the level function and the level value `G0`. -/
structure OptimizationProblem (K : Type) where
  hasLevelFunction : Bool
  hasMultipleObjective : Bool
  hasBounds : Bool
  levelFunction : NumericalMathFunction K
  levelValue : K

/-- Modelled from the spec: one entry of the history kept by `OptimizationResult::store`. -/
structure ResultEntry (K : Type) where
  point : List K
  value : K
  absoluteError : K
  relativeError : K
  residualError : K
  constraintError : K

/-- Modelled from the spec: `OptimizationResult`, the optimal point and value, the iteration
number, the four current errors and the ordered history of stored entries. -/
structure OptimizationResult (K : Type) where
  optimalPoint : List K
  optimalValue : K
  iterationNumber : Nat
  absoluteError : K
  relativeError : K
  residualError : K
  constraintError : K
  history : List (ResultEntry K)

namespace OptimizationResult

variable {K : Type}

/-- The constructor `OptimizationResult(point, value, iterationNumber, abs, rel, res, con)`:
the history is empty. -/
def new (point : List K) (value : K) (iterationNumber : Nat)
    (absoluteError relativeError residualError constraintError : K) : OptimizationResult K :=
  ⟨point, value, iterationNumber, absoluteError, relativeError, residualError,
    constraintError, []⟩

/-- `OptimizationResult::update(point, iterationNumber)`. -/
def update (r : OptimizationResult K) (point : List K) (iterationNumber : Nat) :
    OptimizationResult K :=
  { r with optimalPoint := point, iterationNumber := iterationNumber }

/-- `OptimizationResult::store(point, value, abs, rel, res, con)`. -/
def store (r : OptimizationResult K) (point : List K) (value : K)
    (absoluteError relativeError residualError constraintError : K) : OptimizationResult K :=
  { r with
    optimalPoint := point
    optimalValue := value
    absoluteError := absoluteError
    relativeError := relativeError
    residualError := residualError
    constraintError := constraintError
    history := r.history ++
      [⟨point, value, absoluteError, relativeError, residualError, constraintError⟩] }

end OptimizationResult

/-- Modelled from the spec: the bookkeeping of the base class
`OptimizationSolverImplementation`: problem, starting point, error bounds, iteration budget
and result. -/
structure OptimizationSolverImplementation (K : Type) where
  problem : OptimizationProblem K
  startingPoint : List K
  maximumIterationsNumber : Nat
  maximumAbsoluteError : K
  maximumRelativeError : K
  maximumResidualError : K
  maximumConstraintError : K
  result : OptimizationResult K

/-- The state after `k` executions of a loop body `body`, started from `r`, whatever the
loop condition says; `none` as soon as one execution yields `none`. -/
def iterateBody {σ : Type} (body : σ → Option σ) (r : σ) : Nat → Option σ
  | 0 => some r
  | k + 1 => (iterateBody body r k).bind body

/-! ## AbdoRackwitz -/

/-- The class `AbdoRackwitz`: the base-class bookkeeping, the tunables and the optimization
state.  `oldPoint_` and `oldLevelValue_` are the members read and written by
`computeLineSearch`. -/
structure AbdoRackwitz (K : Type) extends OptimizationSolverImplementation K where
  tau_ : K
  omega_ : K
  smooth_ : K
  currentSigma_ : K
  currentPoint_ : List K
  currentDirection_ : List K
  currentLevelValue_ : K
  currentGradient_ : List K
  currentLambda_ : K
  oldPoint_ : List K
  oldLevelValue_ : K

/-- The solver together with the local variables of `run()`; `thrown` records the exception
that left the loop, if any. -/
structure AbdoRackwitz.RunState (K : Type) where
  solver : AbdoRackwitz K
  convergence : Bool
  iterationNumber : Nat
  absoluteError : K
  constraintError : K
  relativeError : K
  residualError : K
  thrown : Option Exception

/-- The local variables of the `do ... while` loop of `computeLineSearch`. -/
structure LineSearchStep (K : Type) where
  step : K
  currentStepPoint : List K
  currentStepLevelValue : K
  currentStepTheta : K

namespace AbdoRackwitz

variable {K : Type} [LinearOrderedField K]

/-- The method `initialize()` of `AbdoRackwitz`. -/
def initialise (s : AbdoRackwitz K) : AbdoRackwitz K :=
  { s with currentSigma_ := 0, currentLevelValue_ := 0, currentLambda_ := 0 }

/-- The constructor `AbdoRackwitz(problem, tau, omega, smooth)`: the points are empty
(dimension `0`), `initialise` is called, and `oldLevelValue_` is left uninitialised, which
the model renders by the extra argument `uninitialised`.  The bookkeeping of the base class
is passed as `base`. -/
def new (base : OptimizationSolverImplementation K) (tau omega smooth : K)
    (uninitialised : K) : AbdoRackwitz K :=
  initialise
    { toOptimizationSolverImplementation := base
      tau_ := tau
      omega_ := omega
      smooth_ := smooth
      currentSigma_ := uninitialised
      currentPoint_ := []
      currentDirection_ := []
      currentLevelValue_ := uninitialised
      currentGradient_ := []
      currentLambda_ := uninitialised
      oldPoint_ := []
      oldLevelValue_ := uninitialised }

/-- `AbdoRackwitz::checkProblem`: a `const` method that either returns or throws. -/
def checkProblem (problem : OptimizationProblem K) : Except Exception Unit :=
  if !problem.hasLevelFunction then
    Except.error Exception.InvalidArgumentException
  else if problem.hasMultipleObjective then
    Except.error Exception.InvalidArgumentException
  else if problem.hasBounds then
    Except.error Exception.InvalidArgumentException
  else
    Except.ok ()

/-- The `do ... while` loop of `AbdoRackwitz::computeLineSearch`, entered with the value
`step`; `none` when the fuel is exhausted before the loop condition fails. -/
def lineSearchLoop (s : AbdoRackwitz K) (levelValue currentSigma currentTheta minStep
    levelIncrement : K) : Nat → K → Option (LineSearchStep K)
  | 0, _ => none
  | fuel + 1, step =>
    let currentStepPoint := NumericalPoint.add s.currentPoint_
      (NumericalPoint.smul step s.currentDirection_)
    let currentStepLevelValue := s.problem.levelFunction.eval currentStepPoint
    let currentStepTheta := (1 / 2) * NumericalPoint.normSquare currentStepPoint
      + currentSigma * |currentStepLevelValue - levelValue|
    let step := step * s.tau_
    if step ≥ minStep ∧ currentStepTheta > currentTheta + step * levelIncrement then
      lineSearchLoop s levelValue currentSigma currentTheta minStep levelIncrement fuel step
    else
      some ⟨step, currentStepPoint, currentStepLevelValue, currentStepTheta⟩

/-- `AbdoRackwitz::computeLineSearch`: the returned step and the updated solver.  The test
`compareA > compareB` compares two quotients of floating-point numbers: a quotient whose
divisor is null is a NaN there (its dividend, the dot product with a point of null norm, is
null as well) and a comparison with a NaN is false, so the model tests the two divisors
before it compares the quotients of the field. -/
def computeLineSearch (sqrt : K → K) (fuel : Nat) (s : AbdoRackwitz K) :
    Option (K × AbdoRackwitz K) :=
  let levelFunction := s.problem.levelFunction
  let levelValue := s.problem.levelValue
  let currentSigma := max (s.currentSigma_ + 1)
    (s.smooth_ * NumericalPoint.norm sqrt s.currentPoint_
      / NumericalPoint.norm sqrt s.currentGradient_)
  let currentTheta := (1 / 2) * NumericalPoint.normSquare s.currentPoint_
    + currentSigma * |s.currentLevelValue_ - levelValue|
  let minStep := s.tau_ ^ 9
  let levelIncrement := s.omega_ * dot
    (NumericalPoint.add s.currentPoint_
      (NumericalPoint.smul
        (currentSigma * (if s.currentLevelValue_ > levelValue then 1 else -1))
        s.currentGradient_))
    s.currentDirection_
  let oldBeta := NumericalPoint.norm sqrt s.oldPoint_
  let currentBeta := NumericalPoint.norm sqrt s.currentPoint_
  match lineSearchLoop s levelValue currentSigma currentTheta minStep levelIncrement fuel 1 with
  | none => none
  | some r =>
    let checked : List K × K :=
      if oldBeta ≠ 0 then
        let compareA := dot s.oldPoint_ r.currentStepPoint
          / (NumericalPoint.norm sqrt s.oldPoint_
            * NumericalPoint.norm sqrt r.currentStepPoint)
        let compareB := dot s.currentPoint_ r.currentStepPoint
          / (NumericalPoint.norm sqrt s.currentPoint_
            * NumericalPoint.norm sqrt r.currentStepPoint)
        if (NumericalPoint.norm sqrt s.oldPoint_
              * NumericalPoint.norm sqrt r.currentStepPoint ≠ 0
            ∧ NumericalPoint.norm sqrt s.currentPoint_
              * NumericalPoint.norm sqrt r.currentStepPoint ≠ 0)
            ∧ compareA > compareB then
          let StepBeta := (currentBeta * (s.oldLevelValue_ - levelValue)
            - oldBeta * (s.currentLevelValue_ - levelValue))
            / (s.oldLevelValue_ - s.currentLevelValue_)
          let currentStepPoint := NumericalPoint.sdiv
            (NumericalPoint.smul StepBeta (NumericalPoint.add s.oldPoint_ s.currentPoint_))
            (NumericalPoint.norm sqrt (NumericalPoint.add s.oldPoint_ s.currentPoint_))
          (currentStepPoint, levelFunction.eval currentStepPoint)
        else
          (r.currentStepPoint, r.currentStepLevelValue)
      else
        (r.currentStepPoint, r.currentStepLevelValue)
    some (r.step / s.tau_,
      { s with
        currentSigma_ := currentSigma
        oldPoint_ := s.currentPoint_
        oldLevelValue_ := s.currentLevelValue_
        currentPoint_ := checked.1
        currentLevelValue_ := checked.2 })

/-- First statement of the loop body of `AbdoRackwitz::run`: the gradient at the current
point.  The product of the gradient matrix by `NumericalPoint(1, 1.0)` is the gradient as a
point. -/
def evalGradient (s : AbdoRackwitz K) : AbdoRackwitz K :=
  { s with currentGradient_ := s.problem.levelFunction.gradient s.currentPoint_ }

/-- The statements of the loop body of `AbdoRackwitz::run` between the test of the gradient
and the line search: the Lagrange multiplier and the direction. -/
def computeDirection (s : AbdoRackwitz K) : AbdoRackwitz K :=
  let levelValue := s.problem.levelValue
  let normGradientSquared := NumericalPoint.normSquare s.currentGradient_
  let s2 : AbdoRackwitz K :=
    { s with
      currentLambda_ := (s.currentLevelValue_ - levelValue
        - dot s.currentGradient_ s.currentPoint_) / normGradientSquared }
  { s2 with
    currentDirection_ := NumericalPoint.sub
      (NumericalPoint.smul (-s2.currentLambda_) s2.currentGradient_) s2.currentPoint_ }

/-- The statements of the loop body of `AbdoRackwitz::run` that follow the line search: the
four errors, the convergence test and the update of the result. -/
def updateErrors (sqrt : K → K) (alpha : K) (s : AbdoRackwitz K) (iterationNumber : Nat) :
    RunState K :=
  let levelValue := s.problem.levelValue
  let absoluteError := |alpha| * NumericalPoint.norm sqrt s.currentDirection_
  let constraintError := |s.currentLevelValue_ - levelValue|
  let pointNorm := NumericalPoint.norm sqrt s.currentPoint_
  let relativeError := if pointNorm > 0 then absoluteError / pointNorm else -1
  let residualError := NumericalPoint.norm sqrt
    (NumericalPoint.add s.currentPoint_
      (NumericalPoint.smul s.currentLambda_ s.currentGradient_))
  let convergence : Bool :=
    (decide (absoluteError < s.maximumAbsoluteError)
      && decide (relativeError < s.maximumRelativeError))
    || (decide (residualError < s.maximumResidualError)
      && decide (constraintError < s.maximumConstraintError))
  let s1 : AbdoRackwitz K :=
    { s with result := s.result.update s.currentPoint_ iterationNumber }
  let s2 : AbdoRackwitz K :=
    { s1 with
      result := s1.result.store s1.currentPoint_ s1.currentLevelValue_ absoluteError
        relativeError residualError constraintError }
  { solver := s2
    convergence := convergence
    iterationNumber := iterationNumber
    absoluteError := absoluteError
    constraintError := constraintError
    relativeError := relativeError
    residualError := residualError
    thrown := none }

/-- The body of the `while` loop of `AbdoRackwitz::run`; `none` when the line search runs
out of fuel. -/
def iteration (sqrt : K → K) (fuel : Nat) (r : RunState K) : Option (RunState K) :=
  let iterationNumber := r.iterationNumber + 1
  let s1 := evalGradient r.solver
  let normGradientSquared := NumericalPoint.normSquare s1.currentGradient_
  if normGradientSquared = 0 then
    some { r with
      solver := { s1 with result := s1.result.update s1.currentPoint_ iterationNumber }
      iterationNumber := iterationNumber
      thrown := some Exception.InternalException }
  else
    match computeLineSearch sqrt fuel (computeDirection s1) with
    | none => none
    | some (alpha, s4) => some (updateErrors sqrt alpha s4 iterationNumber)

/-- The `while` loop of `AbdoRackwitz::run`.  A thrown exception leaves the loop.  The counter
`iterationNumber` is a natural number: the loop is that of the source as long as the budget
`maximumIterationsNumber` is below the largest value of `UnsignedInteger`. -/
def runLoop (sqrt : K → K) (fuel : Nat) (r : RunState K) : Option (RunState K) :=
  if hc : r.thrown = none ∧ (!r.convergence) = true
      ∧ r.iterationNumber ≤ r.solver.maximumIterationsNumber then
    match h : iteration sqrt fuel r with
    | none => none
    | some r1 =>
      have : r1.solver.maximumIterationsNumber + 1 - r1.iterationNumber
          < r.solver.maximumIterationsNumber + 1 - r.iterationNumber := by
        have hm : r1.solver.maximumIterationsNumber = r.solver.maximumIterationsNumber
            ∧ r1.iterationNumber = r.iterationNumber + 1 := by
          unfold iteration at h
          simp only [] at h
          split at h
          · simp only [Option.some.injEq] at h
            subst h
            exact ⟨rfl, rfl⟩
          · split at h
            · exact absurd h (by simp)
            · rename_i alpha s4 hls
              simp only [Option.some.injEq] at h
              subst h
              unfold computeLineSearch at hls
              simp only [] at hls
              split at hls
              · exact absurd hls (by simp)
              · simp only [Option.some.injEq, Prod.mk.injEq] at hls
                obtain ⟨-, hs⟩ := hls
                subst hs
                exact ⟨rfl, rfl⟩
        have hle := hc.2.2
        omega
      runLoop sqrt fuel r1
  else
    some r
termination_by r.solver.maximumIterationsNumber + 1 - r.iterationNumber

/-- The part of `AbdoRackwitz::run` that precedes the `while` loop.  The declarations
`NumericalPoint oldPoint_(currentPoint_)` and `NumericalScalar oldLevelValue_(currentLevelValue_)`
of the source introduce local variables that are never read afterwards; the members
`oldPoint_` and `oldLevelValue_` keep the values they had on entry. -/
def runInit (s : AbdoRackwitz K) : RunState K :=
  let s1 := initialise s
  let levelFunction := s1.problem.levelFunction
  let s2 : AbdoRackwitz K := { s1 with currentPoint_ := s1.startingPoint }
  let absoluteError : K := -1
  let constraintError : K := -1
  let relativeError : K := -1
  let residualError : K := -1
  let s3 : AbdoRackwitz K :=
    { s2 with currentLevelValue_ := levelFunction.eval s2.currentPoint_ }
  let s4 : AbdoRackwitz K :=
    { s3 with
      result := OptimizationResult.new s3.currentPoint_ s3.currentLevelValue_ 0
        absoluteError relativeError residualError constraintError }
  { solver := s4
    convergence := false
    iterationNumber := 0
    absoluteError := absoluteError
    constraintError := constraintError
    relativeError := relativeError
    residualError := residualError
    thrown := none }

/-- `AbdoRackwitz::run`: the initialisation followed by the `while` loop. -/
def run (sqrt : K → K) (fuel : Nat) (s : AbdoRackwitz K) : Option (RunState K) :=
  runLoop sqrt fuel (runInit s)

end AbdoRackwitz

/-! ## SQP -/

/-- The class `SQP`: the base-class bookkeeping, the tunables and the optimization state,
which holds the Hessian, the system matrix and the second member in addition to the fields
of `AbdoRackwitz`. -/
structure SQP (K : Type) extends OptimizationSolverImplementation K where
  tau_ : K
  omega_ : K
  smooth_ : K
  currentSigma_ : K
  currentPoint_ : List K
  currentDirection_ : List K
  currentLevelValue_ : K
  currentGradient_ : List K
  currentHessian_ : SymmetricMatrix K
  currentSystemMatrix_ : SymmetricMatrix K
  currentSecondMember_ : List K
  currentLambda_ : K
  oldPoint_ : List K
  oldLevelValue_ : K

/-- The solver together with the local variables of `run()`; `thrown` records the exception
that left the loop, if any. -/
structure SQP.RunState (K : Type) where
  solver : SQP K
  convergence : Bool
  iterationNumber : Nat
  absoluteError : K
  constraintError : K
  relativeError : K
  residualError : K
  thrown : Option Exception

namespace SQP

variable {K : Type} [LinearOrderedField K]

/-- The method `initialize()` of `SQP`. -/
def initialise (s : SQP K) : SQP K :=
  { s with currentSigma_ := 0, currentLevelValue_ := 0, currentLambda_ := 0 }

/-- The constructor `SQP(problem, tau, omega, smooth)`: the points and the matrices are
empty (dimension `0`), `initialise` is called, and `oldLevelValue_` is left uninitialised,
which the model renders by the extra argument `uninitialised`.  The bookkeeping of the base
class is passed as `base`. -/
def new (base : OptimizationSolverImplementation K) (tau omega smooth : K)
    (uninitialised : K) : SQP K :=
  initialise
    { toOptimizationSolverImplementation := base
      tau_ := tau
      omega_ := omega
      smooth_ := smooth
      currentSigma_ := uninitialised
      currentPoint_ := []
      currentDirection_ := []
      currentLevelValue_ := uninitialised
      currentGradient_ := []
      currentHessian_ := SymmetricMatrix.zero 0
      currentSystemMatrix_ := SymmetricMatrix.zero 0
      currentSecondMember_ := []
      currentLambda_ := uninitialised
      oldPoint_ := []
      oldLevelValue_ := uninitialised }

/-- `SQP::checkProblem`: a `const` method that either returns or throws. -/
def checkProblem (problem : OptimizationProblem K) : Except Exception Unit :=
  if !problem.hasLevelFunction then
    Except.error Exception.InvalidArgumentException
  else if problem.hasMultipleObjective then
    Except.error Exception.InvalidArgumentException
  else if problem.hasBounds then
    Except.error Exception.InvalidArgumentException
  else
    Except.ok ()

/-- The `do ... while` loop of `SQP::computeLineSearch`, entered with the value
`step`; `none` when the fuel is exhausted before the loop condition fails. -/
def lineSearchLoop (s : SQP K) (levelValue currentSigma currentTheta minStep
    levelIncrement : K) : Nat → K → Option (LineSearchStep K)
  | 0, _ => none
  | fuel + 1, step =>
    let currentStepPoint := NumericalPoint.add s.currentPoint_
      (NumericalPoint.smul step s.currentDirection_)
    let currentStepLevelValue := s.problem.levelFunction.eval currentStepPoint
    let currentStepTheta := (1 / 2) * NumericalPoint.normSquare currentStepPoint
      + currentSigma * |currentStepLevelValue - levelValue|
    let step := step * s.tau_
    if step ≥ minStep ∧ currentStepTheta > currentTheta + step * levelIncrement then
      lineSearchLoop s levelValue currentSigma currentTheta minStep levelIncrement fuel step
    else
      some ⟨step, currentStepPoint, currentStepLevelValue, currentStepTheta⟩

/-- `SQP::computeLineSearch`: the returned step and the updated solver.  The test
`compareA > compareB` compares two quotients of floating-point numbers: a quotient whose
divisor is null is a NaN there (its dividend, the dot product with a point of null norm, is
null as well) and a comparison with a NaN is false, so the model tests the two divisors
before it compares the quotients of the field. -/
def computeLineSearch (sqrt : K → K) (fuel : Nat) (s : SQP K) :
    Option (K × SQP K) :=
  let levelFunction := s.problem.levelFunction
  let levelValue := s.problem.levelValue
  let currentSigma := max (s.currentSigma_ + 1)
    (s.smooth_ * NumericalPoint.norm sqrt s.currentPoint_
      / NumericalPoint.norm sqrt s.currentGradient_)
  let currentTheta := (1 / 2) * NumericalPoint.normSquare s.currentPoint_
    + currentSigma * |s.currentLevelValue_ - levelValue|
  let minStep := s.tau_ ^ 9
  let levelIncrement := s.omega_ * dot
    (NumericalPoint.add s.currentPoint_
      (NumericalPoint.smul
        (currentSigma * (if s.currentLevelValue_ > levelValue then 1 else -1))
        s.currentGradient_))
    s.currentDirection_
  let oldBeta := NumericalPoint.norm sqrt s.oldPoint_
  let currentBeta := NumericalPoint.norm sqrt s.currentPoint_
  match lineSearchLoop s levelValue currentSigma currentTheta minStep levelIncrement fuel 1 with
  | none => none
  | some r =>
    let checked : List K × K :=
      if oldBeta ≠ 0 then
        let compareA := dot s.oldPoint_ r.currentStepPoint
          / (NumericalPoint.norm sqrt s.oldPoint_
            * NumericalPoint.norm sqrt r.currentStepPoint)
        let compareB := dot s.currentPoint_ r.currentStepPoint
          / (NumericalPoint.norm sqrt s.currentPoint_
            * NumericalPoint.norm sqrt r.currentStepPoint)
        if (NumericalPoint.norm sqrt s.oldPoint_
              * NumericalPoint.norm sqrt r.currentStepPoint ≠ 0
            ∧ NumericalPoint.norm sqrt s.currentPoint_
              * NumericalPoint.norm sqrt r.currentStepPoint ≠ 0)
            ∧ compareA > compareB then
          let StepBeta := (currentBeta * (s.oldLevelValue_ - levelValue)
            - oldBeta * (s.currentLevelValue_ - levelValue))
            / (s.oldLevelValue_ - s.currentLevelValue_)
          let currentStepPoint := NumericalPoint.sdiv
            (NumericalPoint.smul StepBeta (NumericalPoint.add s.oldPoint_ s.currentPoint_))
            (NumericalPoint.norm sqrt (NumericalPoint.add s.oldPoint_ s.currentPoint_))
          (currentStepPoint, levelFunction.eval currentStepPoint)
        else
          (r.currentStepPoint, r.currentStepLevelValue)
      else
        (r.currentStepPoint, r.currentStepLevelValue)
    some (r.step / s.tau_,
      { s with
        currentSigma_ := currentSigma
        oldPoint_ := s.currentPoint_
        oldLevelValue_ := s.currentLevelValue_
        currentPoint_ := checked.1
        currentLevelValue_ := checked.2 })

/-- The two nested `for` loops of `SQP::run` that fill the system matrix: for each row `i`
the entries `(i, j)`, `j ≤ i`, are overwritten, then `2` is added on the diagonal and the
border entry `(i, n)` receives the gradient. -/
def assembleSystemMatrix (s : SQP K) : SymmetricMatrix K :=
  (List.range s.currentPoint_.length).foldl
    (fun M i =>
      let M1 := (List.range (i + 1)).foldl
        (fun M j => M.set i j (s.currentLambda_ * s.currentHessian_.get i j)) M
      let M2 := M1.set i i (M1.get i i + 2)
      M2.set i s.currentPoint_.length (NumericalPoint.get s.currentGradient_ i))
    s.currentSystemMatrix_

/-- The loop of `SQP::run` that fills the second member, and the assignment of its last
component. -/
def assembleSecondMember (s : SQP K) (levelValue : K) : List K :=
  ((List.range s.currentPoint_.length).foldl
    (fun b i => b.set i (-(NumericalPoint.get s.currentPoint_ i)))
    s.currentSecondMember_).set s.currentPoint_.length (-s.currentLevelValue_ + levelValue)

/-- The loop of `SQP::run` that copies the first `n` components of the solution into the
direction. -/
def copyDirection (s : SQP K) (Solution : List K) : List K :=
  (List.range s.currentPoint_.length).foldl
    (fun d i => d.set i (NumericalPoint.get Solution i)) s.currentDirection_

/-- First statement of the loop body of `SQP::run`: the gradient at the current point.  The
product of the gradient matrix by `NumericalPoint(1, 1.0)` is the gradient as a point. -/
def evalGradient (s : SQP K) : SQP K :=
  { s with currentGradient_ := s.problem.levelFunction.gradient s.currentPoint_ }

/-- The statements of the loop body of `SQP::run` between the test of the gradient and the
line search: the system matrix, the second member, the solution of the linear system, the
direction and the multiplier.  `solveLinearSystem` stands for
`SymmetricMatrix::solveLinearSystem`, which is not part of the sources. -/
def computeDirection (solveLinearSystem : SymmetricMatrix K → List K → List K) (s : SQP K) :
    SQP K :=
  let levelValue := s.problem.levelValue
  let s2 : SQP K := { s with currentSystemMatrix_ := assembleSystemMatrix s }
  let s3 : SQP K := { s2 with currentSecondMember_ := assembleSecondMember s2 levelValue }
  let Solution := solveLinearSystem s3.currentSystemMatrix_ s3.currentSecondMember_
  let s4 : SQP K := { s3 with currentDirection_ := copyDirection s3 Solution }
  { s4 with currentLambda_ := NumericalPoint.get Solution s4.currentPoint_.length }

/-- The statements of the loop body of `SQP::run` that follow the line search: the four
errors, the convergence test and the update of the result. -/
def updateErrors (sqrt : K → K) (alpha : K) (s : SQP K) (iterationNumber : Nat) :
    RunState K :=
  let levelValue := s.problem.levelValue
  let absoluteError := |alpha| * NumericalPoint.norm sqrt s.currentDirection_
  let constraintError := |s.currentLevelValue_ - levelValue|
  let pointNorm := NumericalPoint.norm sqrt s.currentPoint_
  let relativeError := if pointNorm > 0 then absoluteError / pointNorm else -1
  let residualError := NumericalPoint.norm sqrt
    (NumericalPoint.add s.currentPoint_
      (NumericalPoint.smul s.currentLambda_ s.currentGradient_))
  let convergence : Bool :=
    (decide (absoluteError < s.maximumAbsoluteError)
      && decide (relativeError < s.maximumRelativeError))
    || (decide (residualError < s.maximumResidualError)
      && decide (constraintError < s.maximumConstraintError))
  let s1 : SQP K :=
    { s with result := s.result.update s.currentPoint_ iterationNumber }
  let s2 : SQP K :=
    { s1 with
      result := s1.result.store s1.currentPoint_ s1.currentLevelValue_ absoluteError
        relativeError residualError constraintError }
  { solver := s2
    convergence := convergence
    iterationNumber := iterationNumber
    absoluteError := absoluteError
    constraintError := constraintError
    relativeError := relativeError
    residualError := residualError
    thrown := none }

/-- The body of the `while` loop of `SQP::run`; `none` when the line search runs out of
fuel. -/
def iteration (sqrt : K → K) (solveLinearSystem : SymmetricMatrix K → List K → List K)
    (fuel : Nat) (r : RunState K) : Option (RunState K) :=
  let iterationNumber := r.iterationNumber + 1
  let s1 := evalGradient r.solver
  let normGradientSquared := NumericalPoint.normSquare s1.currentGradient_
  if normGradientSquared = 0 then
    some { r with
      solver := { s1 with result := s1.result.update s1.currentPoint_ iterationNumber }
      iterationNumber := iterationNumber
      thrown := some Exception.InternalException }
  else
    match computeLineSearch sqrt fuel (computeDirection solveLinearSystem s1) with
    | none => none
    | some (alpha, s4) => some (updateErrors sqrt alpha s4 iterationNumber)

/-- The `while` loop of `SQP::run`.  A thrown exception leaves the loop.  The counter
`iterationNumber` is a natural number: the loop is that of the source as long as the budget
`maximumIterationsNumber` is below the largest value of `UnsignedInteger`. -/
def runLoop (sqrt : K → K) (solveLinearSystem : SymmetricMatrix K → List K → List K)
    (fuel : Nat) (r : RunState K) : Option (RunState K) :=
  if hc : r.thrown = none ∧ (!r.convergence) = true
      ∧ r.iterationNumber ≤ r.solver.maximumIterationsNumber then
    match h : iteration sqrt solveLinearSystem fuel r with
    | none => none
    | some r1 =>
      have : r1.solver.maximumIterationsNumber + 1 - r1.iterationNumber
          < r.solver.maximumIterationsNumber + 1 - r.iterationNumber := by
        have hm : r1.solver.maximumIterationsNumber = r.solver.maximumIterationsNumber
            ∧ r1.iterationNumber = r.iterationNumber + 1 := by
          unfold iteration at h
          simp only [] at h
          split at h
          · simp only [Option.some.injEq] at h
            subst h
            exact ⟨rfl, rfl⟩
          · split at h
            · exact absurd h (by simp)
            · rename_i alpha s4 hls
              simp only [Option.some.injEq] at h
              subst h
              unfold computeLineSearch at hls
              simp only [] at hls
              split at hls
              · exact absurd hls (by simp)
              · simp only [Option.some.injEq, Prod.mk.injEq] at hls
                obtain ⟨-, hs⟩ := hls
                subst hs
                exact ⟨rfl, rfl⟩
        have hle := hc.2.2
        omega
      runLoop sqrt solveLinearSystem fuel r1
  else
    some r
termination_by r.solver.maximumIterationsNumber + 1 - r.iterationNumber

/-- The part of `SQP::run` that precedes the `while` loop.  The declarations
`NumericalPoint oldPoint_(currentPoint_)` and `NumericalScalar oldLevelValue_(currentLevelValue_)`
of the source introduce local variables that are never read afterwards; the members
`oldPoint_` and `oldLevelValue_` keep the values they had on entry.  The Hessian is
evaluated here, once, before the loop. -/
def runInit (s : SQP K) : RunState K :=
  let s1 := initialise s
  let s2 : SQP K := { s1 with currentPoint_ := s1.startingPoint }
  let dimension := s2.currentPoint_.length
  let s3 : SQP K :=
    { s2 with
      currentSystemMatrix_ := SymmetricMatrix.zero (dimension + 1)
      currentSecondMember_ := NumericalPoint.zero (dimension + 1)
      currentDirection_ := NumericalPoint.zero dimension }
  let levelFunction := s3.problem.levelFunction
  let s4 : SQP K := { s3 with currentHessian_ := levelFunction.hessian s3.currentPoint_ }
  let absoluteError : K := -1
  let constraintError : K := -1
  let relativeError : K := -1
  let residualError : K := -1
  let s5 : SQP K :=
    { s4 with currentLevelValue_ := levelFunction.eval s4.currentPoint_ }
  let s6 : SQP K :=
    { s5 with
      result := OptimizationResult.new s5.currentPoint_ s5.currentLevelValue_ 0
        absoluteError relativeError residualError constraintError }
  { solver := s6
    convergence := false
    iterationNumber := 0
    absoluteError := absoluteError
    constraintError := constraintError
    relativeError := relativeError
    residualError := residualError
    thrown := none }

/-- `SQP::run`: the initialisation followed by the `while` loop. -/
def run (sqrt : K → K) (solveLinearSystem : SymmetricMatrix K → List K → List K)
    (fuel : Nat) (s : SQP K) : Option (RunState K) :=
  runLoop sqrt solveLinearSystem fuel (runInit s)

end SQP

/-! ## Scenario A and the exactness of the linear solver -/

section Scenario

variable {K : Type} [LinearOrderedField K]

/-- The level function of Scenario A, `G(u) = u1 + 2*u2 - 3*u3 + 4*u4`, with its constant
gradient `(1, 2, -3, 4)` and its null Hessian. -/
def scenarioA.levelFunction : NumericalMathFunction K where
  eval := fun u => NumericalPoint.get u 0 + 2 * NumericalPoint.get u 1
    - 3 * NumericalPoint.get u 2 + 4 * NumericalPoint.get u 3
  gradient := fun _ => [1, 2, -3, 4]
  hessian := fun _ => SymmetricMatrix.zero 4

/-- The problem of Scenario A: the level function above with the level value `2`. -/
def scenarioA.problem : OptimizationProblem K where
  hasLevelFunction := true
  hasMultipleObjective := false
  hasBounds := false
  levelFunction := scenarioA.levelFunction
  levelValue := 2

/-- The base-class bookkeeping of a solver set up for Scenario A: the starting point is the
origin; the bounds and the initial result are arbitrary. -/
def scenarioA.base (maxIter : Nat) (maxAbs maxRel maxRes maxCon : K)
    (result : OptimizationResult K) : OptimizationSolverImplementation K where
  problem := scenarioA.problem
  startingPoint := [0, 0, 0, 0]
  maximumIterationsNumber := maxIter
  maximumAbsoluteError := maxAbs
  maximumRelativeError := maxRel
  maximumResidualError := maxRes
  maximumConstraintError := maxCon
  result := result

/-- An `AbdoRackwitz` solver freshly constructed for Scenario A with the default tunables
`tau = 1/2`, `omega = 1/10000`, `smooth = 6/5`, a budget of `100` iterations and all error
bounds equal to `1/100000`. -/
def scenarioA.abdoRackwitz : AbdoRackwitz K :=
  AbdoRackwitz.new
    (scenarioA.base 100 (1 / 100000) (1 / 100000) (1 / 100000) (1 / 100000)
      (OptimizationResult.new [] 0 0 0 0 0 0))
    (1 / 2) (1 / 10000) (6 / 5) 0

/-- An `SQP` solver freshly constructed for Scenario A with the same settings. -/
def scenarioA.sqp : SQP K :=
  SQP.new
    (scenarioA.base 100 (1 / 100000) (1 / 100000) (1 / 100000) (1 / 100000)
      (OptimizationResult.new [] 0 0 0 0 0 0))
    (1 / 2) (1 / 10000) (6 / 5) 0

/-- A level function whose first iterate is the origin: `G(u) = u1` in dimension `1`, with
its constant gradient `(1)` and its null Hessian. -/
def scenarioOrigin.levelFunction : NumericalMathFunction K where
  eval := fun u => NumericalPoint.get u 0
  gradient := fun _ => [1]
  hessian := fun _ => SymmetricMatrix.zero 1

/-- The problem `G(u) = 0` for the level function above. -/
def scenarioOrigin.problem : OptimizationProblem K where
  hasLevelFunction := true
  hasMultipleObjective := false
  hasBounds := false
  levelFunction := scenarioOrigin.levelFunction
  levelValue := 0

/-- The base-class bookkeeping of a solver started at `(1)` on the problem above, with
`maxAbsoluteError = 2`, `maxRelativeError = 1/2` and null `maxResidualError` and
`maxConstraintError`, so that only the first branch of the convergence test can hold. -/
def scenarioOrigin.base : OptimizationSolverImplementation K where
  problem := scenarioOrigin.problem
  startingPoint := [1]
  maximumIterationsNumber := 100
  maximumAbsoluteError := 2
  maximumRelativeError := 1 / 2
  maximumResidualError := 0
  maximumConstraintError := 0
  result := OptimizationResult.new [] 0 0 0 0 0 0

/-- An `AbdoRackwitz` solver freshly constructed on the problem above with the default
tunables. -/
def scenarioOrigin.abdoRackwitz : AbdoRackwitz K :=
  AbdoRackwitz.new scenarioOrigin.base (1 / 2) (1 / 10000) (6 / 5) 0

/-- An `SQP` solver freshly constructed on the problem above with the default tunables. -/
def scenarioOrigin.sqp : SQP K :=
  SQP.new scenarioOrigin.base (1 / 2) (1 / 10000) (6 / 5) 0

/-- Scenario B: a constant level function, whose gradient vanishes identically. -/
def scenarioB.levelFunction : NumericalMathFunction K where
  eval := fun _ => 5
  gradient := fun u => NumericalPoint.zero u.length
  hessian := fun u => SymmetricMatrix.zero u.length

/-- The problem of Scenario B: the constant level function with the level value `2`. -/
def scenarioB.problem : OptimizationProblem K where
  hasLevelFunction := true
  hasMultipleObjective := false
  hasBounds := false
  levelFunction := scenarioB.levelFunction
  levelValue := 2

/-- The base-class bookkeeping of a solver set up for Scenario B, started at `(1, 2)`. -/
def scenarioB.base : OptimizationSolverImplementation K where
  problem := scenarioB.problem
  startingPoint := [1, 2]
  maximumIterationsNumber := 100
  maximumAbsoluteError := 1 / 100000
  maximumRelativeError := 1 / 100000
  maximumResidualError := 1 / 100000
  maximumConstraintError := 1 / 100000
  result := OptimizationResult.new [] 0 0 0 0 0 0

/-- An `AbdoRackwitz` solver freshly constructed for Scenario B with the default tunables. -/
def scenarioB.abdoRackwitz : AbdoRackwitz K :=
  AbdoRackwitz.new scenarioB.base (1 / 2) (1 / 10000) (6 / 5) 0

/-- An `SQP` solver freshly constructed for Scenario B with the default tunables. -/
def scenarioB.sqp : SQP K :=
  SQP.new scenarioB.base (1 / 2) (1 / 10000) (6 / 5) 0

/-- The point `x` solves the system `M x = b`. -/
def IsSolution (M : SymmetricMatrix K) (b x : List K) : Prop :=
  x.length = M.dim ∧ M.mulVec x = b

/-- The assumption that `SymmetricMatrix::solveLinearSystem`, which is not part of the
sources, is exact: it returns the solution of every system that has exactly one solution (a
nonsingular system). -/
def ExactSolver (solveLinearSystem : SymmetricMatrix K → List K → List K) : Prop :=
  ∀ M b x, IsSolution M b x → (∀ y, IsSolution M b y → y = x) → solveLinearSystem M b = x

end Scenario


/-! ### The local quantities of `AbdoRackwitz::computeLineSearch`

The values held by the local variables of `AbdoRackwitz::computeLineSearch`, named as in the
source, as functions of the solver on entry. -/

namespace AbdoRackwitz

variable {K : Type} [LinearOrderedField K]

/-- The value `AbdoRackwitz::computeLineSearch` stores in `currentSigma_` by its first statement. -/
def sigmaUpdate (sqrt : K → K) (s : AbdoRackwitz K) : K :=
  max (s.currentSigma_ + 1)
    (s.smooth_ * NumericalPoint.norm sqrt s.currentPoint_
      / NumericalPoint.norm sqrt s.currentGradient_)

/-- The penalised objective `0.5 * normSquare v + sigma * fabs(G(v) - levelValue)` that
`AbdoRackwitz::computeLineSearch` evaluates at its trial points. -/
def theta (s : AbdoRackwitz K) (sigma : K) (v : List K) : K :=
  (1 / 2) * NumericalPoint.normSquare v
    + sigma * |s.problem.levelFunction.eval v - s.problem.levelValue|

/-- The local variable `currentTheta` of `AbdoRackwitz::computeLineSearch`: the penalised objective
at the current point, computed from the stored `currentLevelValue_`. -/
def currentTheta (sqrt : K → K) (s : AbdoRackwitz K) : K :=
  (1 / 2) * NumericalPoint.normSquare s.currentPoint_
    + sigmaUpdate sqrt s * |s.currentLevelValue_ - s.problem.levelValue|

/-- The local variable `levelIncrement` of `AbdoRackwitz::computeLineSearch`. -/
def levelIncrement (sqrt : K → K) (s : AbdoRackwitz K) : K :=
  s.omega_ * dot
    (NumericalPoint.add s.currentPoint_
      (NumericalPoint.smul
        (sigmaUpdate sqrt s * (if s.currentLevelValue_ > s.problem.levelValue then 1 else -1))
        s.currentGradient_))
    s.currentDirection_

/-- The local variable `compareA` of `AbdoRackwitz::computeLineSearch` for the trial point
`currentStepPoint` left by the backtracking loop, when its divisor is not null. -/
def compareA (sqrt : K → K) (s : AbdoRackwitz K) (currentStepPoint : List K) : K :=
  dot s.oldPoint_ currentStepPoint
    / (NumericalPoint.norm sqrt s.oldPoint_ * NumericalPoint.norm sqrt currentStepPoint)

/-- The local variable `compareB` of `AbdoRackwitz::computeLineSearch` for the trial point
`currentStepPoint` left by the backtracking loop, when its divisor is not null. -/
def compareB (sqrt : K → K) (s : AbdoRackwitz K) (currentStepPoint : List K) : K :=
  dot s.currentPoint_ currentStepPoint
    / (NumericalPoint.norm sqrt s.currentPoint_ * NumericalPoint.norm sqrt currentStepPoint)

/-- The two nested tests `oldBeta != 0` and `compareA > compareB` of
`AbdoRackwitz::computeLineSearch`: when both pass, the trial point is replaced by the interpolated
point.  The second test fails when a divisor of `compareA` or `compareB` is null: the
quotient is then a NaN in the source, and a comparison with a NaN is false. -/
def interpolates (sqrt : K → K) (s : AbdoRackwitz K) (currentStepPoint : List K) : Prop :=
  NumericalPoint.norm sqrt s.oldPoint_ ≠ 0
    ∧ (NumericalPoint.norm sqrt s.oldPoint_ * NumericalPoint.norm sqrt currentStepPoint ≠ 0
      ∧ NumericalPoint.norm sqrt s.currentPoint_
        * NumericalPoint.norm sqrt currentStepPoint ≠ 0)
    ∧ compareA sqrt s currentStepPoint > compareB sqrt s currentStepPoint

instance (sqrt : K → K) (s : AbdoRackwitz K) (currentStepPoint : List K) :
    Decidable (interpolates sqrt s currentStepPoint) := by
  unfold interpolates
  exact inferInstance

/-- The local variable `StepBeta` of `AbdoRackwitz::computeLineSearch`, when `oldLevelValue_` and
`currentLevelValue_` differ (its divisor is their difference). -/
def StepBeta (sqrt : K → K) (s : AbdoRackwitz K) : K :=
  (NumericalPoint.norm sqrt s.currentPoint_ * (s.oldLevelValue_ - s.problem.levelValue)
    - NumericalPoint.norm sqrt s.oldPoint_ * (s.currentLevelValue_ - s.problem.levelValue))
    / (s.oldLevelValue_ - s.currentLevelValue_)

/-- The point `StepBeta * (oldPoint_ + currentPoint_) / (oldPoint_ + currentPoint_).norm()`
by which `AbdoRackwitz::computeLineSearch` replaces the trial point, when the norm of the sum is
not null. -/
def interpolatedPoint (sqrt : K → K) (s : AbdoRackwitz K) : List K :=
  NumericalPoint.sdiv
    (NumericalPoint.smul (StepBeta sqrt s) (NumericalPoint.add s.oldPoint_ s.currentPoint_))
    (NumericalPoint.norm sqrt (NumericalPoint.add s.oldPoint_ s.currentPoint_))

end AbdoRackwitz

/-! ### The local quantities of `SQP::computeLineSearch`

The values held by the local variables of `SQP::computeLineSearch`, named as in the
source, as functions of the solver on entry. -/

namespace SQP

variable {K : Type} [LinearOrderedField K]

/-- The value `SQP::computeLineSearch` stores in `currentSigma_` by its first statement. -/
def sigmaUpdate (sqrt : K → K) (s : SQP K) : K :=
  max (s.currentSigma_ + 1)
    (s.smooth_ * NumericalPoint.norm sqrt s.currentPoint_
      / NumericalPoint.norm sqrt s.currentGradient_)

/-- The penalised objective `0.5 * normSquare v + sigma * fabs(G(v) - levelValue)` that
`SQP::computeLineSearch` evaluates at its trial points. -/
def theta (s : SQP K) (sigma : K) (v : List K) : K :=
  (1 / 2) * NumericalPoint.normSquare v
    + sigma * |s.problem.levelFunction.eval v - s.problem.levelValue|

/-- The local variable `currentTheta` of `SQP::computeLineSearch`: the penalised objective
at the current point, computed from the stored `currentLevelValue_`. -/
def currentTheta (sqrt : K → K) (s : SQP K) : K :=
  (1 / 2) * NumericalPoint.normSquare s.currentPoint_
    + sigmaUpdate sqrt s * |s.currentLevelValue_ - s.problem.levelValue|

/-- The local variable `levelIncrement` of `SQP::computeLineSearch`. -/
def levelIncrement (sqrt : K → K) (s : SQP K) : K :=
  s.omega_ * dot
    (NumericalPoint.add s.currentPoint_
      (NumericalPoint.smul
        (sigmaUpdate sqrt s * (if s.currentLevelValue_ > s.problem.levelValue then 1 else -1))
        s.currentGradient_))
    s.currentDirection_

/-- The local variable `compareA` of `SQP::computeLineSearch` for the trial point
`currentStepPoint` left by the backtracking loop, when its divisor is not null. -/
def compareA (sqrt : K → K) (s : SQP K) (currentStepPoint : List K) : K :=
  dot s.oldPoint_ currentStepPoint
    / (NumericalPoint.norm sqrt s.oldPoint_ * NumericalPoint.norm sqrt currentStepPoint)

/-- The local variable `compareB` of `SQP::computeLineSearch` for the trial point
`currentStepPoint` left by the backtracking loop, when its divisor is not null. -/
def compareB (sqrt : K → K) (s : SQP K) (currentStepPoint : List K) : K :=
  dot s.currentPoint_ currentStepPoint
    / (NumericalPoint.norm sqrt s.currentPoint_ * NumericalPoint.norm sqrt currentStepPoint)

/-- The two nested tests `oldBeta != 0` and `compareA > compareB` of
`SQP::computeLineSearch`: when both pass, the trial point is replaced by the interpolated
point.  The second test fails when a divisor of `compareA` or `compareB` is null: the
quotient is then a NaN in the source, and a comparison with a NaN is false. -/
def interpolates (sqrt : K → K) (s : SQP K) (currentStepPoint : List K) : Prop :=
  NumericalPoint.norm sqrt s.oldPoint_ ≠ 0
    ∧ (NumericalPoint.norm sqrt s.oldPoint_ * NumericalPoint.norm sqrt currentStepPoint ≠ 0
      ∧ NumericalPoint.norm sqrt s.currentPoint_
        * NumericalPoint.norm sqrt currentStepPoint ≠ 0)
    ∧ compareA sqrt s currentStepPoint > compareB sqrt s currentStepPoint

instance (sqrt : K → K) (s : SQP K) (currentStepPoint : List K) :
    Decidable (interpolates sqrt s currentStepPoint) := by
  unfold interpolates
  exact inferInstance

/-- The local variable `StepBeta` of `SQP::computeLineSearch`, when `oldLevelValue_` and
`currentLevelValue_` differ (its divisor is their difference). -/
def StepBeta (sqrt : K → K) (s : SQP K) : K :=
  (NumericalPoint.norm sqrt s.currentPoint_ * (s.oldLevelValue_ - s.problem.levelValue)
    - NumericalPoint.norm sqrt s.oldPoint_ * (s.currentLevelValue_ - s.problem.levelValue))
    / (s.oldLevelValue_ - s.currentLevelValue_)

/-- The point `StepBeta * (oldPoint_ + currentPoint_) / (oldPoint_ + currentPoint_).norm()`
by which `SQP::computeLineSearch` replaces the trial point, when the norm of the sum is
not null. -/
def interpolatedPoint (sqrt : K → K) (s : SQP K) : List K :=
  NumericalPoint.sdiv
    (NumericalPoint.smul (StepBeta sqrt s) (NumericalPoint.add s.oldPoint_ s.currentPoint_))
    (NumericalPoint.norm sqrt (NumericalPoint.add s.oldPoint_ s.currentPoint_))

end SQP

/-! ### A solver holding the snapshot of an earlier run -/

section ScenarioStale

variable {K : Type} [LinearOrderedField K]

/-- The problem `G(u) = 2` for the level function `G(u) = u1` of dimension `1`. -/
def scenarioStale.problem : OptimizationProblem K where
  hasLevelFunction := true
  hasMultipleObjective := false
  hasBounds := false
  levelFunction := scenarioOrigin.levelFunction
  levelValue := 2

/-- The base-class bookkeeping of a solver started at `(-1)` on the problem above, with a
budget of `maximumIterationsNumber` iterations and all four error bounds at `1e-5`. -/
def scenarioStale.base (maximumIterationsNumber : Nat) : OptimizationSolverImplementation K where
  problem := scenarioStale.problem
  startingPoint := [-1]
  maximumIterationsNumber := maximumIterationsNumber
  maximumAbsoluteError := 1 / 100000
  maximumRelativeError := 1 / 100000
  maximumResidualError := 1 / 100000
  maximumConstraintError := 1 / 100000
  result := OptimizationResult.new [] 0 0 0 0 0 0

/-- An `AbdoRackwitz` solver freshly constructed on the problem above with the default
tunables. -/
def scenarioStale.fresh (maximumIterationsNumber : Nat) : AbdoRackwitz K :=
  AbdoRackwitz.new (scenarioStale.base maximumIterationsNumber) (1 / 2) (1 / 10000) (6 / 5) 0

/-- The same solver with the members `oldPoint_ = (3)` and `oldLevelValue_ = oldLevelValue`,
as a line search started from the point `(3)` leaves them. -/
def scenarioStale.stale (maximumIterationsNumber : Nat) (oldLevelValue : K) : AbdoRackwitz K :=
  { scenarioStale.fresh maximumIterationsNumber with
    oldPoint_ := [3]
    oldLevelValue_ := oldLevelValue }

/-- The `AbdoRackwitz` solver at the first line search of a run on the problem `G(u) = 0`
with `G(u) = u1`, started at `(1)`, with `tau = 1/2`, `smooth = 6/5` and the given `omega`:
the gradient `(1)` has been evaluated and the direction `(-1)` computed. -/
def scenarioOrigin.atLineSearch (omega : K) : AbdoRackwitz K :=
  AbdoRackwitz.computeDirection (AbdoRackwitz.evalGradient
    (AbdoRackwitz.runInit (AbdoRackwitz.new scenarioOrigin.base (1 / 2) omega (6 / 5) 0)).solver)

/-- The `SQP` solver at the first line search of a run on the same problem with the same
tunables: the gradient is `(1)`, and the solution `(-1, 1)` of the system
`2 d + mu = -1`, `d = -1` has been copied into the direction `(-1)` and the multiplier `1`. -/
def scenarioOrigin.sqpAtLineSearch (omega : K) : SQP K :=
  { (SQP.runInit (SQP.new scenarioOrigin.base (1 / 2) omega (6 / 5) 0)).solver with
    currentGradient_ := [1]
    currentDirection_ := [-1]
    currentLambda_ := 1 }

end ScenarioStale

/-! ### A level function whose Hessian is not constant -/

section ScenarioCubic

variable {K : Type} [LinearOrderedField K]

/-- The level function `G(u) = u1 ^ 3` in dimension `1`, with its gradient `(3 u1 ^ 2)` and
its Hessian `(6 u1)`. -/
def scenarioCubic.levelFunction : NumericalMathFunction K where
  eval := fun u => NumericalPoint.get u 0 ^ 3
  gradient := fun u => [3 * NumericalPoint.get u 0 ^ 2]
  hessian := fun u => ⟨1, fun _ _ => 6 * NumericalPoint.get u 0⟩

/-- The problem `G(u) = 4` for the level function above. -/
def scenarioCubic.problem : OptimizationProblem K where
  hasLevelFunction := true
  hasMultipleObjective := false
  hasBounds := false
  levelFunction := scenarioCubic.levelFunction
  levelValue := 4

/-- The base-class bookkeeping of a solver started at `(1)` on the problem above, with a
budget of `100` iterations and all four error bounds at `1e-5`. -/
def scenarioCubic.base : OptimizationSolverImplementation K where
  problem := scenarioCubic.problem
  startingPoint := [1]
  maximumIterationsNumber := 100
  maximumAbsoluteError := 1 / 100000
  maximumRelativeError := 1 / 100000
  maximumResidualError := 1 / 100000
  maximumConstraintError := 1 / 100000
  result := OptimizationResult.new [] 0 0 0 0 0 0

/-- An `SQP` solver freshly constructed on the problem above with the default tunables. -/
def scenarioCubic.sqp : SQP K :=
  SQP.new scenarioCubic.base (1 / 2) (1 / 10000) (6 / 5) 0

end ScenarioCubic

/-! ### Consistent dimensions of the `SQP` state -/

section Dimensions

variable {K : Type} [LinearOrderedField K]

/-- The dimensions of the fields of an `SQP` solver agree with the dimension `n` of the
problem, as `SQP::run` sets them up before its loop: the current point and the direction have
dimension `n`, the system matrix and the second member have dimension `n + 1`, the corner
entry `(n, n)` of the matrix is null, and the previous point has dimension `n` unless its norm
is null (the anti-cycling test then never reads it further). -/
def SQP.Dimensioned (sqrt : K → K) (n : Nat) (s : SQP K) : Prop :=
  s.currentPoint_.length = n
    ∧ s.currentSystemMatrix_.dim = n + 1
    ∧ s.currentSystemMatrix_.get n n = 0
    ∧ s.currentSecondMember_.length = n + 1
    ∧ s.currentDirection_.length = n
    ∧ (s.oldPoint_.length = n ∨ NumericalPoint.norm sqrt s.oldPoint_ = 0)

end Dimensions

/-! ## Persistence

`AbdoRackwitz::save`, `AbdoRackwitz::load`, `SQP::save` and `SQP::load` write and read named
attributes through an `Advocate`.  The storage is a map from attribute names to values.  The
`save` and `load` methods of the base class `OptimizationSolverImplementation` are not part
of the sources: they are parameters `baseSave` and `baseLoad`. -/

/-- Modelled from the spec: the values held by the "named attributes" of the "persisted state
layout": a scalar, a point or a symmetric matrix.  The class `Advocate` and its storage
manager are not part of the sources. -/
inductive StoredValue (K : Type) where
  | scalar (value : K)
  | point (value : List K)
  | matrix (value : SymmetricMatrix K)

/-- Modelled from the spec: the "persisted state layout ... keyed by named attributes", a
map from attribute names to values.  The class `Advocate` is not part of the sources. -/
structure Advocate (K : Type) where
  attributes : String → Option (StoredValue K)

namespace Advocate

variable {K : Type}

/-- Modelled from the spec: `Advocate::saveAttribute(name, value)`, which binds `name` to
`value`. -/
def saveAttribute (adv : Advocate K) (name : String) (value : StoredValue K) : Advocate K :=
  ⟨fun n => if n = name then some value else adv.attributes n⟩

/-- Modelled from the spec: `Advocate::loadAttribute(name, value)` for a scalar: the stored
scalar, the value held before when the storage has no scalar of that name. -/
def loadScalar (adv : Advocate K) (name : String) (value : K) : K :=
  match adv.attributes name with
  | some (StoredValue.scalar x) => x
  | _ => value

/-- Modelled from the spec: `Advocate::loadAttribute(name, value)` for a point. -/
def loadPoint (adv : Advocate K) (name : String) (value : List K) : List K :=
  match adv.attributes name with
  | some (StoredValue.point x) => x
  | _ => value

/-- Modelled from the spec: `Advocate::loadAttribute(name, value)` for a symmetric
matrix. -/
def loadMatrix (adv : Advocate K) (name : String) (value : SymmetricMatrix K) :
    SymmetricMatrix K :=
  match adv.attributes name with
  | some (StoredValue.matrix x) => x
  | _ => value

end Advocate

namespace AbdoRackwitz

variable {K : Type} [LinearOrderedField K]

/-- `AbdoRackwitz::save`. -/
def save (baseSave : Advocate K → OptimizationSolverImplementation K → Advocate K)
    (adv : Advocate K) (s : AbdoRackwitz K) : Advocate K :=
  let adv := baseSave adv s.toOptimizationSolverImplementation
  let adv := adv.saveAttribute ("tau_") (StoredValue.scalar s.tau_)
  let adv := adv.saveAttribute ("omega_") (StoredValue.scalar s.omega_)
  let adv := adv.saveAttribute ("smooth_") (StoredValue.scalar s.smooth_)
  let adv := adv.saveAttribute ("currentSigma_") (StoredValue.scalar s.currentSigma_)
  let adv := adv.saveAttribute ("currentPoint_") (StoredValue.point s.currentPoint_)
  let adv := adv.saveAttribute ("currentDirection_") (StoredValue.point s.currentDirection_)
  let adv := adv.saveAttribute ("currentLevelValue_") (StoredValue.scalar s.currentLevelValue_)
  let adv := adv.saveAttribute ("currentGradient_") (StoredValue.point s.currentGradient_)
  adv.saveAttribute ("currentLambda_") (StoredValue.scalar s.currentLambda_)

/-- `AbdoRackwitz::load`: the attribute `currentGradient_` is not read. -/
def load (baseLoad : Advocate K → OptimizationSolverImplementation K →
      OptimizationSolverImplementation K)
    (adv : Advocate K) (s : AbdoRackwitz K) : AbdoRackwitz K :=
  let s : AbdoRackwitz K :=
    { s with
      toOptimizationSolverImplementation := baseLoad adv s.toOptimizationSolverImplementation }
  let s : AbdoRackwitz K := { s with tau_ := adv.loadScalar ("tau_") s.tau_ }
  let s : AbdoRackwitz K := { s with omega_ := adv.loadScalar ("omega_") s.omega_ }
  let s : AbdoRackwitz K := { s with smooth_ := adv.loadScalar ("smooth_") s.smooth_ }
  let s : AbdoRackwitz K :=
    { s with currentSigma_ := adv.loadScalar ("currentSigma_") s.currentSigma_ }
  let s : AbdoRackwitz K :=
    { s with currentPoint_ := adv.loadPoint ("currentPoint_") s.currentPoint_ }
  let s : AbdoRackwitz K :=
    { s with currentDirection_ := adv.loadPoint ("currentDirection_") s.currentDirection_ }
  let s : AbdoRackwitz K :=
    { s with currentLevelValue_ := adv.loadScalar ("currentLevelValue_") s.currentLevelValue_ }
  { s with currentLambda_ := adv.loadScalar ("currentLambda_") s.currentLambda_ }

end AbdoRackwitz

namespace SQP

variable {K : Type} [LinearOrderedField K]

/-- `SQP::save`. -/
def save (baseSave : Advocate K → OptimizationSolverImplementation K → Advocate K)
    (adv : Advocate K) (s : SQP K) : Advocate K :=
  let adv := baseSave adv s.toOptimizationSolverImplementation
  let adv := adv.saveAttribute ("tau_") (StoredValue.scalar s.tau_)
  let adv := adv.saveAttribute ("omega_") (StoredValue.scalar s.omega_)
  let adv := adv.saveAttribute ("smooth_") (StoredValue.scalar s.smooth_)
  let adv := adv.saveAttribute ("currentSigma_") (StoredValue.scalar s.currentSigma_)
  let adv := adv.saveAttribute ("currentPoint_") (StoredValue.point s.currentPoint_)
  let adv := adv.saveAttribute ("currentDirection_") (StoredValue.point s.currentDirection_)
  let adv := adv.saveAttribute ("currentLevelValue_") (StoredValue.scalar s.currentLevelValue_)
  let adv := adv.saveAttribute ("currentGradient_") (StoredValue.point s.currentGradient_)
  let adv := adv.saveAttribute ("currentHessian_") (StoredValue.matrix s.currentHessian_)
  let adv := adv.saveAttribute ("currentSystemMatrix_")
    (StoredValue.matrix s.currentSystemMatrix_)
  let adv := adv.saveAttribute ("currentSecondMember_")
    (StoredValue.point s.currentSecondMember_)
  adv.saveAttribute ("currentLambda_") (StoredValue.scalar s.currentLambda_)

/-- `SQP::load`. -/
def load (baseLoad : Advocate K → OptimizationSolverImplementation K →
      OptimizationSolverImplementation K)
    (adv : Advocate K) (s : SQP K) : SQP K :=
  let s : SQP K :=
    { s with
      toOptimizationSolverImplementation := baseLoad adv s.toOptimizationSolverImplementation }
  let s : SQP K := { s with tau_ := adv.loadScalar ("tau_") s.tau_ }
  let s : SQP K := { s with omega_ := adv.loadScalar ("omega_") s.omega_ }
  let s : SQP K := { s with smooth_ := adv.loadScalar ("smooth_") s.smooth_ }
  let s : SQP K := { s with currentSigma_ := adv.loadScalar ("currentSigma_") s.currentSigma_ }
  let s : SQP K := { s with currentPoint_ := adv.loadPoint ("currentPoint_") s.currentPoint_ }
  let s : SQP K :=
    { s with currentDirection_ := adv.loadPoint ("currentDirection_") s.currentDirection_ }
  let s : SQP K :=
    { s with currentLevelValue_ := adv.loadScalar ("currentLevelValue_") s.currentLevelValue_ }
  let s : SQP K :=
    { s with currentGradient_ := adv.loadPoint ("currentGradient_") s.currentGradient_ }
  let s : SQP K :=
    { s with currentHessian_ := adv.loadMatrix ("currentHessian_") s.currentHessian_ }
  let s : SQP K :=
    { s with
      currentSystemMatrix_ := adv.loadMatrix ("currentSystemMatrix_") s.currentSystemMatrix_ }
  let s : SQP K :=
    { s with
      currentSecondMember_ := adv.loadPoint ("currentSecondMember_") s.currentSecondMember_ }
  { s with currentLambda_ := adv.loadScalar ("currentLambda_") s.currentLambda_ }

end SQP

/-! ## GeneralizedExtremeValue

`GeneralizedExtremeValue` holds the parameters `mu_`, `sigma_`, `xi_` and the actual
distribution they stand for, a Gumbel, a Frechet or the opposite of a Weibull distribution.
The classes of these distributions and `ResourceMap` are not part of the sources: the
distributions are records of their parameters, and the value of the resource
`GeneralizedExtremeValue-XiThreshold` is the parameter `xiEpsilon`.  A method that can throw
returns the object as the exception leaves it together with the exception, if any.  The
name, the dimension, the range and the cached moments of the base class are left out.
`Scalar` is the field `K`, whose arithmetic is exact; `setMuSigmaXiRounded` is
`setMuSigmaXi` in an arithmetic whose quotients are rounded. -/

/-- Modelled from the spec: the `Gumbel` distribution, a record of its parameters
(`alpha > 0`); the class is not part of the sources. -/
structure Gumbel (K : Type) where
  alpha : K
  beta : K

/-- Modelled from the spec: the `Frechet` distribution, a record of its parameters
(`alpha > 0`, `beta > 0`); the class is not part of the sources. -/
structure Frechet (K : Type) where
  alpha : K
  beta : K
  gamma : K

/-- Modelled from the spec: the `Weibull` distribution, a record of its parameters
(`alpha > 0`, `beta > 0`); the class is not part of the sources. -/
structure Weibull (K : Type) where
  alpha : K
  beta : K
  gamma : K

/-- Modelled from the spec: an atom of a `RandomMixture`, told apart by the dynamic casts of
`setActualDistribution`: a Gumbel, a Frechet, a Weibull or any other distribution. -/
inductive Atom (K : Type) where
  | gumbel (d : Gumbel K)
  | frechet (d : Frechet K)
  | weibull (d : Weibull K)
  | other

/-- Modelled from the spec: `RandomMixture`, the affine combination
`constant + sum of weights * atoms`, with the accessors `getDimension`,
`getDistributionCollection`, `getWeights` (the row `0` of the weight matrix) and
`getConstant`; the class is not part of the sources. -/
structure RandomMixture (K : Type) where
  dimension : Nat
  distributionCollection : List (Atom K)
  weights : List K
  constant : List K

/-- Modelled from the spec: `Distribution`, as far as `GeneralizedExtremeValue` tells
distributions apart. -/
inductive Distribution (K : Type) where
  | gumbel (d : Gumbel K)
  | frechet (d : Frechet K)
  | weibull (d : Weibull K)
  | randomMixture (d : RandomMixture K)
  | other

section DistributionConstructors

variable {K : Type} [LinearOrderedField K]

/-- Modelled from the spec: the constructor `Gumbel(alpha, beta)`, which rejects an `alpha`
that is not positive. -/
def Gumbel.new (alpha beta : K) : Except Exception (Gumbel K) :=
  if ¬ (alpha > 0) then Except.error Exception.InvalidArgumentException
  else Except.ok ⟨alpha, beta⟩

/-- Modelled from the spec: the constructor `Frechet(alpha, beta, gamma)`, which rejects an
`alpha` or a `beta` that is not positive. -/
def Frechet.new (alpha beta gamma : K) : Except Exception (Frechet K) :=
  if ¬ (alpha > 0) then Except.error Exception.InvalidArgumentException
  else if ¬ (beta > 0) then Except.error Exception.InvalidArgumentException
  else Except.ok ⟨alpha, beta, gamma⟩

/-- Modelled from the spec: the constructor `Weibull(alpha, beta, gamma)`, which rejects an
`alpha` or a `beta` that is not positive. -/
def Weibull.new (alpha beta gamma : K) : Except Exception (Weibull K) :=
  if ¬ (alpha > 0) then Except.error Exception.InvalidArgumentException
  else if ¬ (beta > 0) then Except.error Exception.InvalidArgumentException
  else Except.ok ⟨alpha, beta, gamma⟩

/-- Modelled from the spec: the product `Weibull(...) * w` of a distribution by a scalar,
the one-atom `RandomMixture` of dimension `1` with the weight `w` and the constant `0`. -/
def Weibull.times (d : Weibull K) (w : K) : Distribution K :=
  Distribution.randomMixture ⟨1, [Atom.weibull d], [w], [0]⟩

end DistributionConstructors

/-- The members of `GeneralizedExtremeValue`. -/
structure GeneralizedExtremeValue (K : Type) where
  actualDistribution_ : Distribution K
  mu_ : K
  sigma_ : K
  xi_ : K
  isAlreadyComputedMean_ : Bool
  isAlreadyComputedCovariance_ : Bool

namespace GeneralizedExtremeValue

variable {K : Type} [LinearOrderedField K]

/-- The default constructor `GeneralizedExtremeValue()`. -/
def default : GeneralizedExtremeValue K :=
  { actualDistribution_ := Distribution.gumbel ⟨1, 0⟩
    mu_ := 0
    sigma_ := 1
    xi_ := 0
    isAlreadyComputedMean_ := false
    isAlreadyComputedCovariance_ := false }

/-- `GeneralizedExtremeValue::getMu`. -/
def getMu (g : GeneralizedExtremeValue K) : K := g.mu_

/-- `GeneralizedExtremeValue::getSigma`. -/
def getSigma (g : GeneralizedExtremeValue K) : K := g.sigma_

/-- `GeneralizedExtremeValue::getXi`. -/
def getXi (g : GeneralizedExtremeValue K) : K := g.xi_

/-- `GeneralizedExtremeValue::getParameter`. -/
def getParameter (g : GeneralizedExtremeValue K) : List K := [g.mu_, g.sigma_, g.xi_]

/-- `GeneralizedExtremeValue::getActualDistribution`. -/
def getActualDistribution (g : GeneralizedExtremeValue K) : Distribution K :=
  g.actualDistribution_

/-- `GeneralizedExtremeValue::setMuSigmaXi`: the object after the call and the exception
thrown, if any.  The three parameters are assigned before the actual distribution is built,
so an exception of a distribution constructor leaves them assigned. -/
def setMuSigmaXi (xiEpsilon : K) (g : GeneralizedExtremeValue K) (mu sigma xi : K) :
    GeneralizedExtremeValue K × Option Exception :=
  if ¬ (sigma > 0) then (g, some Exception.InvalidArgumentException)
  else
    let g1 : GeneralizedExtremeValue K := { g with mu_ := mu, sigma_ := sigma, xi_ := xi }
    let built : Except Exception (Distribution K) :=
      if g1.xi_ < -xiEpsilon then
        let alpha := -sigma / xi
        let beta := -1 / xi
        let gamma := sigma / xi - mu
        (Weibull.new alpha beta gamma).map (fun d => d.times (-1))
      else if g1.xi_ > xiEpsilon then
        let alpha := 1 / xi
        let beta := sigma / xi
        let gamma := mu - sigma / xi
        (Frechet.new alpha beta gamma).map Distribution.frechet
      else
        let alpha := 1 / sigma
        let beta := mu
        (Gumbel.new alpha beta).map Distribution.gumbel
    match built with
    | Except.error e => (g1, some e)
    | Except.ok d =>
      ({ g1 with
          actualDistribution_ := d
          isAlreadyComputedMean_ := false
          isAlreadyComputedCovariance_ := false }, none)

/-- `GeneralizedExtremeValue::setParameter`. -/
def setParameter (xiEpsilon : K) (g : GeneralizedExtremeValue K) (parameter : List K) :
    GeneralizedExtremeValue K × Option Exception :=
  if parameter.length ≠ 3 then (g, some Exception.InvalidArgumentException)
  else
    setMuSigmaXi xiEpsilon g (NumericalPoint.get parameter 0) (NumericalPoint.get parameter 1)
      (NumericalPoint.get parameter 2)

/-- `GeneralizedExtremeValue::setMu`. -/
def setMu (xiEpsilon : K) (g : GeneralizedExtremeValue K) (mu : K) :
    GeneralizedExtremeValue K × Option Exception :=
  setMuSigmaXi xiEpsilon g mu g.sigma_ g.xi_

/-- `GeneralizedExtremeValue::setSigma`. -/
def setSigma (xiEpsilon : K) (g : GeneralizedExtremeValue K) (sigma : K) :
    GeneralizedExtremeValue K × Option Exception :=
  setMuSigmaXi xiEpsilon g g.mu_ sigma g.xi_

/-- `GeneralizedExtremeValue::setXi`. -/
def setXi (xiEpsilon : K) (g : GeneralizedExtremeValue K) (xi : K) :
    GeneralizedExtremeValue K × Option Exception :=
  setMuSigmaXi xiEpsilon g g.mu_ g.sigma_ xi

/-- The constructor `GeneralizedExtremeValue(mu, sigma, xi)`, which calls `setMuSigmaXi` on
the members as they are before the body of the constructor, `uninitialised`; when
`setMuSigmaXi` throws, no object is constructed. -/
def new (xiEpsilon : K) (uninitialised : GeneralizedExtremeValue K) (mu sigma xi : K) :
    Except Exception (GeneralizedExtremeValue K) :=
  match setMuSigmaXi xiEpsilon uninitialised mu sigma xi with
  | (_, some e) => Except.error e
  | (g, none) => Except.ok g

end GeneralizedExtremeValue

/-! ### The state of the line search, common to both solvers -/

/-- The members and the problem data that `computeLineSearch` reads or writes, which
`AbdoRackwitz` and `SQP` both hold under the same names. -/
structure LineSearchState (K : Type) where
  levelFunction : NumericalMathFunction K
  levelValue : K
  tau_ : K
  omega_ : K
  smooth_ : K
  currentSigma_ : K
  currentPoint_ : List K
  currentDirection_ : List K
  currentLevelValue_ : K
  currentGradient_ : List K
  oldPoint_ : List K
  oldLevelValue_ : K

/-- The state of the line search held by an `AbdoRackwitz` solver. -/
def AbdoRackwitz.lineSearchState {K : Type} (s : AbdoRackwitz K) : LineSearchState K where
  levelFunction := s.problem.levelFunction
  levelValue := s.problem.levelValue
  tau_ := s.tau_
  omega_ := s.omega_
  smooth_ := s.smooth_
  currentSigma_ := s.currentSigma_
  currentPoint_ := s.currentPoint_
  currentDirection_ := s.currentDirection_
  currentLevelValue_ := s.currentLevelValue_
  currentGradient_ := s.currentGradient_
  oldPoint_ := s.oldPoint_
  oldLevelValue_ := s.oldLevelValue_

/-- The state of the line search held by an `SQP` solver. -/
def SQP.lineSearchState {K : Type} (s : SQP K) : LineSearchState K where
  levelFunction := s.problem.levelFunction
  levelValue := s.problem.levelValue
  tau_ := s.tau_
  omega_ := s.omega_
  smooth_ := s.smooth_
  currentSigma_ := s.currentSigma_
  currentPoint_ := s.currentPoint_
  currentDirection_ := s.currentDirection_
  currentLevelValue_ := s.currentLevelValue_
  currentGradient_ := s.currentGradient_
  oldPoint_ := s.oldPoint_
  oldLevelValue_ := s.oldLevelValue_


section ScenarioFeasible

variable {K : Type} [LinearOrderedField K]

/-- An `AbdoRackwitz` solver about to search from a feasible point of the problem `G(u) = 0`
with `G(u) = u1`: the state `scenarioOrigin.atLineSearch omega` (gradient `(1)`, `sigma = 0`,
`tau = 1/2`, `smooth = 6/5`) with the current point `(0)`, its level value `0` and the
direction `(1)`. -/
def scenarioOrigin.atFeasiblePoint (omega : K) : AbdoRackwitz K :=
  { scenarioOrigin.atLineSearch omega with
    currentPoint_ := [0]
    currentLevelValue_ := 0
    currentDirection_ := [1] }

end ScenarioFeasible

section ScenarioStationary

variable {K : Type} [LinearOrderedField K]

/-- The problem `G(u) = 1` for the level function `G(u) = u1` of dimension `1`. -/
def scenarioStationary.problem : OptimizationProblem K where
  hasLevelFunction := true
  hasMultipleObjective := false
  hasBounds := false
  levelFunction := scenarioOrigin.levelFunction
  levelValue := 1

/-- The base-class bookkeeping of a solver started at `(1)`, the solution of the problem
above, with a budget of `100` iterations and all four error bounds at `1e-5`. -/
def scenarioStationary.base : OptimizationSolverImplementation K where
  problem := scenarioStationary.problem
  startingPoint := [1]
  maximumIterationsNumber := 100
  maximumAbsoluteError := 1 / 100000
  maximumRelativeError := 1 / 100000
  maximumResidualError := 1 / 100000
  maximumConstraintError := 1 / 100000
  result := OptimizationResult.new [] 0 0 0 0 0 0

/-- An `AbdoRackwitz` solver freshly constructed on the problem above with the default
tunables. -/
def scenarioStationary.abdoRackwitz : AbdoRackwitz K :=
  AbdoRackwitz.new scenarioStationary.base (1 / 2) (1 / 10000) (6 / 5) 0

/-- An `SQP` solver freshly constructed on the problem above with the default tunables. -/
def scenarioStationary.sqp : SQP K :=
  SQP.new scenarioStationary.base (1 / 2) (1 / 10000) (6 / 5) 0

end ScenarioStationary

namespace GeneralizedExtremeValue

variable {K : Type} [LinearOrderedField K]

/-- `GeneralizedExtremeValue::setActualDistribution`: the object after the call and the
exception thrown, if any.  The dynamic casts to `Gumbel`, to `Frechet` and to
`RandomMixture` are tried in turn, and the first that succeeds assigns the members in the
order of the source, each from the values already assigned.  For a `RandomMixture` the
members are assigned only when its dimension is `1`, it has one atom, its weight `(0, 0)` is
negative and its atom is a `Weibull`.  A distribution of no such form leaves the object as
it was and raises nothing: the only `throw` stands in the handler of the third `try` block,
none of whose statements throws. -/
def setActualDistribution (g : GeneralizedExtremeValue K) (distribution : Distribution K) :
    GeneralizedExtremeValue K × Option Exception :=
  match distribution with
  | Distribution.gumbel p_gumbel =>
    let g1 : GeneralizedExtremeValue K := { g with mu_ := p_gumbel.beta }
    let g2 : GeneralizedExtremeValue K := { g1 with sigma_ := 1 / p_gumbel.alpha }
    let g3 : GeneralizedExtremeValue K := { g2 with xi_ := 0 }
    ({ g3 with
        actualDistribution_ := Distribution.gumbel p_gumbel
        isAlreadyComputedMean_ := false
        isAlreadyComputedCovariance_ := false }, none)
  | Distribution.frechet p_frechet =>
    let g1 : GeneralizedExtremeValue K := { g with xi_ := 1 / p_frechet.alpha }
    let g2 : GeneralizedExtremeValue K := { g1 with sigma_ := p_frechet.beta * g1.xi_ }
    let g3 : GeneralizedExtremeValue K := { g2 with mu_ := p_frechet.gamma + p_frechet.beta }
    ({ g3 with
        actualDistribution_ := Distribution.frechet p_frechet
        isAlreadyComputedMean_ := false
        isAlreadyComputedCovariance_ := false }, none)
  | Distribution.randomMixture p_mixture =>
    if p_mixture.dimension = 1 ∧ p_mixture.distributionCollection.length = 1
        ∧ NumericalPoint.get p_mixture.weights 0 < 0 then
      match p_mixture.distributionCollection with
      | Atom.weibull p_weibull :: _ =>
        let constant := NumericalPoint.get p_mixture.constant 0
        let weight := NumericalPoint.get p_mixture.weights 0
        let g1 : GeneralizedExtremeValue K := { g with xi_ := -1 / p_weibull.beta }
        let g2 : GeneralizedExtremeValue K :=
          { g1 with sigma_ := -(weight * p_weibull.alpha) * g1.xi_ }
        let g3 : GeneralizedExtremeValue K :=
          { g2 with mu_ := constant + g2.sigma_ / g2.xi_ - p_weibull.gamma * weight }
        ({ g3 with
            actualDistribution_ := Distribution.randomMixture p_mixture
            isAlreadyComputedMean_ := false
            isAlreadyComputedCovariance_ := false }, none)
      | _ => (g, none)
    else (g, none)
  | _ => (g, none)

end GeneralizedExtremeValue

/-! ### `setMuSigmaXi` in an arithmetic whose quotients are rounded -/

namespace GeneralizedExtremeValue

variable {K : Type} [LinearOrderedField K]

/-- `GeneralizedExtremeValue::setMuSigmaXi` in the arithmetic of `Scalar`, whose quotients
are rounded: `div x y` is the value that the source computes for `x / y`.  The statements
are those of `setMuSigmaXi`, which is this function for the exact division of the field;
only the quotients are taken by `div`, since they decide whether the constructor of the
actual distribution accepts its arguments. -/
def setMuSigmaXiRounded (div : K → K → K) (xiEpsilon : K) (g : GeneralizedExtremeValue K)
    (mu sigma xi : K) : GeneralizedExtremeValue K × Option Exception :=
  if ¬ (sigma > 0) then (g, some Exception.InvalidArgumentException)
  else
    let g1 : GeneralizedExtremeValue K := { g with mu_ := mu, sigma_ := sigma, xi_ := xi }
    let built : Except Exception (Distribution K) :=
      if g1.xi_ < -xiEpsilon then
        let alpha := div (-sigma) xi
        let beta := div (-1) xi
        let gamma := div sigma xi - mu
        (Weibull.new alpha beta gamma).map (fun d => d.times (-1))
      else if g1.xi_ > xiEpsilon then
        let alpha := div 1 xi
        let beta := div sigma xi
        let gamma := mu - div sigma xi
        (Frechet.new alpha beta gamma).map Distribution.frechet
      else
        let alpha := div 1 sigma
        let beta := mu
        (Gumbel.new alpha beta).map Distribution.gumbel
    match built with
    | Except.error e => (g1, some e)
    | Except.ok d =>
      ({ g1 with
          actualDistribution_ := d
          isAlreadyComputedMean_ := false
          isAlreadyComputedCovariance_ := false }, none)

/-- A division that underflows.  The division of `Scalar` is that of the doubles of IEEE 754,
which is not part of the sources and rounds a quotient below half of the smallest positive
double, `2 ^ (-1075)`, to `0`.  `underflowingDiv tiny` rounds a quotient whose absolute value
is below `tiny` to `0` and leaves the other quotients exact. -/
def underflowingDiv (tiny : K) (x y : K) : K :=
  if |x / y| < tiny then 0 else x / y

end GeneralizedExtremeValue
/-! ## Generic facts about loops -/

section Loops

variable {σ : Type}

theorem iterateBody_succ_left (body : σ → Option σ) (r : σ) (k : Nat) :
    iterateBody body r (k + 1) = (body r).bind (fun r1 => iterateBody body r1 k) := by
  induction k with
  | zero =>
    show (some r).bind body = (body r).bind (fun r1 => some r1)
    simp
  | succ k ih =>
    show (iterateBody body r (k + 1)).bind body = _
    rw [ih]
    cases body r with
    | none => rfl
    | some r1 => rfl

/-- A loop that satisfies the unfolding equation of `while (cond) body`, whose body preserves
an invariant and decreases a measure, returns the first iterate of the body at which the
condition fails. -/
theorem while_first_exit (loop body : σ → Option σ) (cond : σ → Prop) [DecidablePred cond]
    (Inv : σ → Prop) (μ : σ → Nat)
    (hunf : ∀ r, loop r = if cond r then (body r).bind loop else some r)
    (hbody : ∀ r, Inv r → cond r → ∃ r1, body r = some r1 ∧ Inv r1 ∧ μ r1 < μ r) :
    ∀ r, Inv r → ∃ m rf, loop r = some rf ∧ iterateBody body r m = some rf ∧ ¬ cond rf
      ∧ Inv rf ∧ ∀ j, j < m → ∃ rj, iterateBody body r j = some rj ∧ cond rj ∧ Inv rj := by
  intro r
  generalize hn : μ r = n
  induction n using Nat.strong_induction_on generalizing r with
  | _ n ih =>
    intro hInv
    by_cases hc : cond r
    · obtain ⟨r1, hb, hInv1, hlt⟩ := hbody r hInv hc
      obtain ⟨m, rf, hl, hi, hnc, hInvf, hall⟩ := ih (μ r1) (hn ▸ hlt) r1 rfl hInv1
      refine ⟨m + 1, rf, ?_, ?_, hnc, hInvf, ?_⟩
      · rw [hunf r, if_pos hc, hb]
        exact hl
      · rw [iterateBody_succ_left, hb]
        exact hi
      · intro j hj
        cases j with
        | zero => exact ⟨r, rfl, hc, hInv⟩
        | succ j =>
          obtain ⟨rj, hij, hcj, hInvj⟩ := hall j (by omega)
          refine ⟨rj, ?_, hcj, hInvj⟩
          rw [iterateBody_succ_left, hb]
          exact hij
    · refine ⟨0, r, ?_, rfl, hc, hInv, ?_⟩
      · rw [hunf r, if_neg hc]
      · intro j hj
        exact absurd hj (Nat.not_lt_zero j)

end Loops

/-! ## Auxiliary facts about `AbdoRackwitz` -/

section AbdoRackwitzFacts

variable {K : Type} [LinearOrderedField K]

theorem abdoRackwitz_runLoop_unfold (sqrt : K → K) (fuel : Nat) (r : AbdoRackwitz.RunState K) :
    AbdoRackwitz.runLoop sqrt fuel r =
      if r.thrown = none ∧ (!r.convergence) = true
          ∧ r.iterationNumber ≤ r.solver.maximumIterationsNumber then
        (AbdoRackwitz.iteration sqrt fuel r).bind (AbdoRackwitz.runLoop sqrt fuel)
      else some r := by
  rw [AbdoRackwitz.runLoop]
  split
  · split <;> simp_all
  · rfl

/-- For `0 < tau < 1` the backtracking loop entered at `tau ^ k`, `k ≤ 9`, stops after at most
`10 - k` trial points. -/
theorem abdoRackwitz_lineSearchLoop_terminates (s : AbdoRackwitz K)
    (levelValue currentSigma currentTheta levelIncrement : K)
    (h0 : 0 < s.tau_) (h1 : s.tau_ < 1) :
    ∀ (n k fuel : Nat), k + n = 9 → n + 1 ≤ fuel →
      ∃ r j, AbdoRackwitz.lineSearchLoop s levelValue currentSigma currentTheta (s.tau_ ^ 9)
          levelIncrement fuel (s.tau_ ^ k) = some r
        ∧ k ≤ j ∧ j ≤ 9 ∧ r.step = s.tau_ ^ (j + 1)
        ∧ r.currentStepPoint = NumericalPoint.add s.currentPoint_
            (NumericalPoint.smul (s.tau_ ^ j) s.currentDirection_)
        ∧ r.currentStepLevelValue = s.problem.levelFunction.eval r.currentStepPoint
        ∧ r.currentStepTheta = (1 / 2) * NumericalPoint.normSquare r.currentStepPoint
            + currentSigma * |r.currentStepLevelValue - levelValue|
        ∧ (j < 9 → ¬ (r.currentStepTheta > currentTheta + r.step * levelIncrement)) := by
  intro n
  induction n with
  | zero =>
    intro k fuel hk hf
    obtain ⟨f, rfl⟩ : ∃ f, fuel = f + 1 := ⟨fuel - 1, by omega⟩
    have hk9 : k = 9 := by omega
    subst hk9
    have hlt : ¬ (s.tau_ ^ 9 * s.tau_ ≥ s.tau_ ^ 9) := by
      have hp : 0 < s.tau_ ^ 9 := pow_pos h0 9
      nlinarith
    rw [AbdoRackwitz.lineSearchLoop]
    simp only [hlt, false_and, if_false]
    refine ⟨_, 9, rfl, le_refl _, le_refl _, ?_, rfl, rfl, rfl, ?_⟩
    · simp [pow_succ]
    · intro h; exact absurd h (by omega)
  | succ n ih =>
    intro k fuel hk hf
    obtain ⟨f, rfl⟩ : ∃ f, fuel = f + 1 := ⟨fuel - 1, by omega⟩
    rw [AbdoRackwitz.lineSearchLoop]
    split
    · obtain ⟨r, j, hr, hkj, hj9, rest⟩ := ih (k + 1) f (by omega) (by omega)
      refine ⟨r, j, ?_, by omega, hj9, rest⟩
      rw [← pow_succ]; exact hr
    · rename_i hc
      refine ⟨_, k, rfl, le_refl _, by omega, ?_, rfl, rfl, rfl, ?_⟩
      · simp [pow_succ]
      · intro _ hgt
        apply hc
        refine ⟨?_, hgt⟩
        have hk8 : k + 1 ≤ 9 := by omega
        have hp : s.tau_ ^ 9 ≤ s.tau_ ^ (k + 1) :=
          pow_le_pow_of_le_one (le_of_lt h0) (le_of_lt h1) hk8
        have he : s.tau_ ^ (k + 1) = s.tau_ ^ k * s.tau_ := pow_succ _ _
        rw [he] at hp
        exact hp

/-- What `computeLineSearch` leaves unchanged, and what it stores in `oldPoint_`,
`oldLevelValue_` and `currentSigma_`. -/
theorem abdoRackwitz_computeLineSearch_frame (sqrt : K → K) (fuel : Nat) (s s1 : AbdoRackwitz K)
    (alpha : K) (h : AbdoRackwitz.computeLineSearch sqrt fuel s = some (alpha, s1)) :
    s1.toOptimizationSolverImplementation = s.toOptimizationSolverImplementation
      ∧ s1.tau_ = s.tau_ ∧ s1.omega_ = s.omega_ ∧ s1.smooth_ = s.smooth_
      ∧ s1.currentGradient_ = s.currentGradient_ ∧ s1.currentDirection_ = s.currentDirection_
      ∧ s1.currentLambda_ = s.currentLambda_
      ∧ s1.oldPoint_ = s.currentPoint_ ∧ s1.oldLevelValue_ = s.currentLevelValue_
      ∧ s1.currentSigma_ = max (s.currentSigma_ + 1)
          (s.smooth_ * NumericalPoint.norm sqrt s.currentPoint_
            / NumericalPoint.norm sqrt s.currentGradient_) := by
  unfold AbdoRackwitz.computeLineSearch at h
  simp only [] at h
  split at h
  · exact absurd h (by simp)
  · simp only [Option.some.injEq, Prod.mk.injEq] at h
    obtain ⟨-, hs⟩ := h
    subst hs
    exact ⟨rfl, rfl, rfl, rfl, rfl, rfl, rfl, rfl, rfl, rfl⟩

/-- For `0 < tau < 1` a fuel of `10` is enough for `computeLineSearch` to return. -/
theorem abdoRackwitz_computeLineSearch_isSome (sqrt : K → K) (fuel : Nat) (s : AbdoRackwitz K)
    (h0 : 0 < s.tau_) (h1 : s.tau_ < 1) (hf : 10 ≤ fuel) :
    ∃ alpha s1, AbdoRackwitz.computeLineSearch sqrt fuel s = some (alpha, s1) := by
  obtain ⟨r, j, hr, -⟩ := abdoRackwitz_lineSearchLoop_terminates s s.problem.levelValue
    (max (s.currentSigma_ + 1)
      (s.smooth_ * NumericalPoint.norm sqrt s.currentPoint_
        / NumericalPoint.norm sqrt s.currentGradient_))
    ((1 / 2) * NumericalPoint.normSquare s.currentPoint_
      + (max (s.currentSigma_ + 1)
        (s.smooth_ * NumericalPoint.norm sqrt s.currentPoint_
          / NumericalPoint.norm sqrt s.currentGradient_))
        * |s.currentLevelValue_ - s.problem.levelValue|)
    (s.omega_ * dot
      (NumericalPoint.add s.currentPoint_
        (NumericalPoint.smul
          ((max (s.currentSigma_ + 1)
            (s.smooth_ * NumericalPoint.norm sqrt s.currentPoint_
              / NumericalPoint.norm sqrt s.currentGradient_))
            * (if s.currentLevelValue_ > s.problem.levelValue then 1 else -1))
          s.currentGradient_))
      s.currentDirection_) h0 h1 9 0 fuel (by omega) (by omega)
  rw [pow_zero] at hr
  unfold AbdoRackwitz.computeLineSearch
  simp only [hr]
  exact ⟨_, _, rfl⟩

theorem abdoRackwitz_iteration_of_gradient_zero (sqrt : K → K) (fuel : Nat)
    (r : AbdoRackwitz.RunState K)
    (hg : NumericalPoint.normSquare
      (r.solver.problem.levelFunction.gradient r.solver.currentPoint_) = 0) :
    AbdoRackwitz.iteration sqrt fuel r = some
      { r with
        solver :=
          { AbdoRackwitz.evalGradient r.solver with
            result := r.solver.result.update r.solver.currentPoint_ (r.iterationNumber + 1) }
        iterationNumber := r.iterationNumber + 1
        thrown := some Exception.InternalException } := by
  unfold AbdoRackwitz.iteration
  simp only [AbdoRackwitz.evalGradient, hg, if_true]

theorem abdoRackwitz_iteration_of_lineSearch (sqrt : K → K) (fuel : Nat)
    (r : AbdoRackwitz.RunState K) (alpha : K) (s1 : AbdoRackwitz K)
    (hg : NumericalPoint.normSquare
      (r.solver.problem.levelFunction.gradient r.solver.currentPoint_) ≠ 0)
    (hls : AbdoRackwitz.computeLineSearch sqrt fuel
      (AbdoRackwitz.computeDirection (AbdoRackwitz.evalGradient r.solver)) = some (alpha, s1)) :
    AbdoRackwitz.iteration sqrt fuel r
      = some (AbdoRackwitz.updateErrors sqrt alpha s1 (r.iterationNumber + 1)) := by
  unfold AbdoRackwitz.iteration
  have hg1 : NumericalPoint.normSquare (AbdoRackwitz.evalGradient r.solver).currentGradient_ ≠ 0 := hg
  simp only [hg1, if_false, hls]

/-- Every execution of the loop body that returns either raised the degenerate-gradient
exception or went through the line search and the update of the errors. -/
theorem abdoRackwitz_iteration_cases (sqrt : K → K) (fuel : Nat)
    (r r1 : AbdoRackwitz.RunState K) (h : AbdoRackwitz.iteration sqrt fuel r = some r1) :
    (NumericalPoint.normSquare
        (r.solver.problem.levelFunction.gradient r.solver.currentPoint_) = 0
      ∧ r1 = { r with
        solver :=
          { AbdoRackwitz.evalGradient r.solver with
            result := r.solver.result.update r.solver.currentPoint_ (r.iterationNumber + 1) }
        iterationNumber := r.iterationNumber + 1
        thrown := some Exception.InternalException })
    ∨ (NumericalPoint.normSquare
        (r.solver.problem.levelFunction.gradient r.solver.currentPoint_) ≠ 0
      ∧ ∃ alpha s1, AbdoRackwitz.computeLineSearch sqrt fuel
          (AbdoRackwitz.computeDirection (AbdoRackwitz.evalGradient r.solver)) = some (alpha, s1)
        ∧ r1 = AbdoRackwitz.updateErrors sqrt alpha s1 (r.iterationNumber + 1)) := by
  by_cases hg : NumericalPoint.normSquare
        (r.solver.problem.levelFunction.gradient r.solver.currentPoint_) = 0
  · left
    rw [abdoRackwitz_iteration_of_gradient_zero sqrt fuel r hg] at h
    exact ⟨hg, (Option.some.inj h).symm⟩
  · right
    refine ⟨hg, ?_⟩
    cases hls : AbdoRackwitz.computeLineSearch sqrt fuel
          (AbdoRackwitz.computeDirection (AbdoRackwitz.evalGradient r.solver)) with
    | none =>
      unfold AbdoRackwitz.iteration at h
      have hg1 :
          NumericalPoint.normSquare (AbdoRackwitz.evalGradient r.solver).currentGradient_ ≠ 0 := hg
      simp only [hg1, if_false, hls] at h
      exact absurd h (by simp)
    | some p =>
      obtain ⟨alpha, s1⟩ := p
      rw [abdoRackwitz_iteration_of_lineSearch sqrt fuel r alpha s1 hg hls] at h
      exact ⟨alpha, s1, rfl, (Option.some.inj h).symm⟩

/-- When the loop is entered with a state whose gradient has zero squared norm, the loop body
raises the internal exception and the loop is left at once. -/
theorem abdoRackwitz_runLoop_gradient_zero (sqrt : K → K) (fuel : Nat)
    (r : AbdoRackwitz.RunState K)
    (hc : r.thrown = none ∧ r.convergence = false
      ∧ r.iterationNumber ≤ r.solver.maximumIterationsNumber)
    (hg : NumericalPoint.normSquare
      (r.solver.problem.levelFunction.gradient r.solver.currentPoint_) = 0) :
    AbdoRackwitz.runLoop sqrt fuel r = some
      { r with
        solver :=
          { AbdoRackwitz.evalGradient r.solver with
            result := r.solver.result.update r.solver.currentPoint_ (r.iterationNumber + 1) }
        iterationNumber := r.iterationNumber + 1
        thrown := some Exception.InternalException } := by
  have hc1 : r.thrown = none ∧ (!r.convergence) = true
      ∧ r.iterationNumber ≤ r.solver.maximumIterationsNumber :=
    ⟨hc.1, by rw [hc.2.1]; rfl, hc.2.2⟩
  rw [abdoRackwitz_runLoop_unfold, if_pos hc1, abdoRackwitz_iteration_of_gradient_zero sqrt fuel r hg]
  show AbdoRackwitz.runLoop sqrt fuel _ = _
  rw [abdoRackwitz_runLoop_unfold, if_neg]
  intro h
  exact absurd h.1 (by simp)

/-- The level value kept by the backtracking loop is the level function at the trial point
it keeps. -/
theorem abdoRackwitz_lineSearchLoop_levelValue (s : AbdoRackwitz K)
    (levelValue currentSigma currentTheta minStep levelIncrement : K) :
    ∀ (fuel : Nat) (step : K) (r : LineSearchStep K),
      AbdoRackwitz.lineSearchLoop s levelValue currentSigma currentTheta minStep levelIncrement
        fuel step = some r →
      r.currentStepLevelValue = s.problem.levelFunction.eval r.currentStepPoint := by
  intro fuel
  induction fuel with
  | zero =>
    intro step r h
    rw [AbdoRackwitz.lineSearchLoop] at h
    exact absurd h (by simp)
  | succ f ih =>
    intro step r h
    rw [AbdoRackwitz.lineSearchLoop] at h
    split at h
    · exact ih _ r h
    · simp only [Option.some.injEq] at h
      subst h
      rfl

/-- After `computeLineSearch`, with or without the correction of circuitous iterations, the
stored level value is the level function at the stored point. -/
theorem abdoRackwitz_computeLineSearch_levelValue (sqrt : K → K) (fuel : Nat) (s s1 : AbdoRackwitz K)
    (alpha : K) (h : AbdoRackwitz.computeLineSearch sqrt fuel s = some (alpha, s1)) :
    s1.currentLevelValue_ = s1.problem.levelFunction.eval s1.currentPoint_ := by
  unfold AbdoRackwitz.computeLineSearch at h
  simp only [] at h
  split at h
  · exact absurd h (by simp)
  · rename_i r hr
    have hlv := abdoRackwitz_lineSearchLoop_levelValue s _ _ _ _ _ _ _ r hr
    simp only [Option.some.injEq, Prod.mk.injEq] at h
    obtain ⟨-, hs⟩ := h
    subst hs
    show (ite _ _ _ : List K × K).2 = s.problem.levelFunction.eval (ite _ _ _ : List K × K).1
    split
    · split
      · rfl
      · exact hlv
    · exact hlv

/-- What an execution of the loop body leaves unchanged, and how it moves the counters. -/
theorem abdoRackwitz_iteration_frame (sqrt : K → K) (fuel : Nat)
    (r r1 : AbdoRackwitz.RunState K) (h : AbdoRackwitz.iteration sqrt fuel r = some r1) :
    r1.iterationNumber = r.iterationNumber + 1
      ∧ r1.solver.result.iterationNumber = r.iterationNumber + 1
      ∧ r1.solver.result.optimalPoint = r1.solver.currentPoint_
      ∧ r1.solver.maximumIterationsNumber = r.solver.maximumIterationsNumber
      ∧ r1.solver.problem = r.solver.problem
      ∧ r1.solver.maximumAbsoluteError = r.solver.maximumAbsoluteError
      ∧ r1.solver.maximumRelativeError = r.solver.maximumRelativeError
      ∧ r1.solver.maximumResidualError = r.solver.maximumResidualError
      ∧ r1.solver.maximumConstraintError = r.solver.maximumConstraintError
      ∧ r1.solver.tau_ = r.solver.tau_ ∧ r1.solver.omega_ = r.solver.omega_
      ∧ r1.solver.smooth_ = r.solver.smooth_ := by
  rcases abdoRackwitz_iteration_cases sqrt fuel r r1 h with ⟨-, rfl⟩ | ⟨-, alpha, s1, hls, rfl⟩
  · exact ⟨rfl, rfl, rfl, rfl, rfl, rfl, rfl, rfl, rfl, rfl, rfl, rfl⟩
  · obtain ⟨hb, ht, ho, hsm, -⟩ := abdoRackwitz_computeLineSearch_frame sqrt fuel _ s1 alpha hls
    have hb1 : s1.toOptimizationSolverImplementation
        = r.solver.toOptimizationSolverImplementation := hb
    refine ⟨rfl, rfl, rfl, ?_, ?_, ?_, ?_, ?_, ?_, ht, ho, hsm⟩
    · show s1.toOptimizationSolverImplementation.maximumIterationsNumber = _
      rw [hb1]
    · show s1.toOptimizationSolverImplementation.problem = _
      rw [hb1]
    · show s1.toOptimizationSolverImplementation.maximumAbsoluteError = _
      rw [hb1]
    · show s1.toOptimizationSolverImplementation.maximumRelativeError = _
      rw [hb1]
    · show s1.toOptimizationSolverImplementation.maximumResidualError = _
      rw [hb1]
    · show s1.toOptimizationSolverImplementation.maximumConstraintError = _
      rw [hb1]

/-- For `0 < tau < 1` and a fuel of at least `10` the loop body always returns. -/
theorem abdoRackwitz_iteration_isSome (sqrt : K → K) (fuel : Nat)
    (r : AbdoRackwitz.RunState K) (h0 : 0 < r.solver.tau_) (h1 : r.solver.tau_ < 1)
    (hf : 10 ≤ fuel) : ∃ r1, AbdoRackwitz.iteration sqrt fuel r = some r1 := by
  by_cases hg : NumericalPoint.normSquare
      (r.solver.problem.levelFunction.gradient r.solver.currentPoint_) = 0
  · exact ⟨_, abdoRackwitz_iteration_of_gradient_zero sqrt fuel r hg⟩
  · obtain ⟨alpha, s1, hls⟩ := abdoRackwitz_computeLineSearch_isSome sqrt fuel
      (AbdoRackwitz.computeDirection (AbdoRackwitz.evalGradient r.solver)) h0 h1 hf
    exact ⟨_, abdoRackwitz_iteration_of_lineSearch sqrt fuel r alpha s1 hg hls⟩

/-- The counters and the tunables after `k` executions of the loop body. -/
theorem abdoRackwitz_iterateBody_frame (sqrt : K → K) (fuel : Nat)
    (r : AbdoRackwitz.RunState K) :
    ∀ (k : Nat) (rk : AbdoRackwitz.RunState K),
      iterateBody (AbdoRackwitz.iteration sqrt fuel) r k = some rk →
      rk.iterationNumber = r.iterationNumber + k
        ∧ rk.solver.maximumIterationsNumber = r.solver.maximumIterationsNumber
        ∧ rk.solver.tau_ = r.solver.tau_ := by
  intro k
  induction k with
  | zero =>
    intro rk h
    have h1 : some r = some rk := h
    simp only [Option.some.injEq] at h1
    subst h1
    exact ⟨rfl, rfl, rfl⟩
  | succ k ih =>
    intro rk h
    have h1 : (iterateBody (AbdoRackwitz.iteration sqrt fuel) r k).bind
        (AbdoRackwitz.iteration sqrt fuel) = some rk := h
    cases hk : iterateBody (AbdoRackwitz.iteration sqrt fuel) r k with
    | none => rw [hk] at h1; exact absurd h1 (by simp)
    | some rj =>
      rw [hk] at h1
      obtain ⟨hn, hm, ht⟩ := ih rj hk
      obtain ⟨hn1, -, -, hm1, -, -, -, -, -, ht1, -⟩ :=
        abdoRackwitz_iteration_frame sqrt fuel rj rk h1
      exact ⟨by rw [hn1, hn]; omega, by rw [hm1, hm], by rw [ht1, ht]⟩

/-- The loop of `run` returns the first iterate of the loop body at which the loop condition
fails, provided the line search returns (`0 < tau < 1`, fuel at least `10`). -/
theorem abdoRackwitz_run_first_exit (sqrt : K → K) (fuel : Nat) (s : AbdoRackwitz K)
    (h0 : 0 < s.tau_) (h1 : s.tau_ < 1) (hf : 10 ≤ fuel) :
    ∃ n r, AbdoRackwitz.run sqrt fuel s = some r
      ∧ iterateBody (AbdoRackwitz.iteration sqrt fuel) (AbdoRackwitz.runInit s) n = some r
      ∧ ¬ (r.thrown = none ∧ (!r.convergence) = true
          ∧ r.iterationNumber ≤ r.solver.maximumIterationsNumber)
      ∧ ∀ j, j < n → ∃ rj,
          iterateBody (AbdoRackwitz.iteration sqrt fuel) (AbdoRackwitz.runInit s) j = some rj
          ∧ rj.thrown = none ∧ rj.convergence = false
          ∧ rj.iterationNumber ≤ rj.solver.maximumIterationsNumber := by
  obtain ⟨n, r, hl, hi, hnc, -, hall⟩ := while_first_exit
    (AbdoRackwitz.runLoop sqrt fuel) (AbdoRackwitz.iteration sqrt fuel)
    (fun r => r.thrown = none ∧ (!r.convergence) = true
      ∧ r.iterationNumber ≤ r.solver.maximumIterationsNumber)
    (fun r => 0 < r.solver.tau_ ∧ r.solver.tau_ < 1)
    (fun r => r.solver.maximumIterationsNumber + 1 - r.iterationNumber)
    (fun r => abdoRackwitz_runLoop_unfold sqrt fuel r)
    (by
      intro r hInv hc
      obtain ⟨r1, hr1⟩ := abdoRackwitz_iteration_isSome sqrt fuel r hInv.1 hInv.2 hf
      obtain ⟨hn, -, -, hm, -, -, -, -, -, ht, -⟩ := abdoRackwitz_iteration_frame sqrt fuel r r1 hr1
      refine ⟨r1, hr1, ⟨by rw [ht]; exact hInv.1, by rw [ht]; exact hInv.2⟩, ?_⟩
      have hle := hc.2.2
      show r1.solver.maximumIterationsNumber + 1 - r1.iterationNumber
        < r.solver.maximumIterationsNumber + 1 - r.iterationNumber
      rw [hn, hm]
      omega)
    (AbdoRackwitz.runInit s) ⟨h0, h1⟩
  refine ⟨n, r, hl, hi, hnc, ?_⟩
  intro j hj
  obtain ⟨rj, hij, hcj, -⟩ := hall j hj
  refine ⟨rj, hij, hcj.1, ?_, hcj.2.2⟩
  have := hcj.2.1
  simpa using this

/-- Loop control of `run`: the number of iterations performed, and which iterations are
performed. -/
theorem abdoRackwitz_loop_control (sqrt : K → K) (fuel : Nat) (s : AbdoRackwitz K)
    (h0 : 0 < s.tau_) (h1 : s.tau_ < 1) (hf : 10 ≤ fuel) :
    ∃ r, AbdoRackwitz.run sqrt fuel s = some r
      ∧ iterateBody (AbdoRackwitz.iteration sqrt fuel) (AbdoRackwitz.runInit s) r.iterationNumber
          = some r
      ∧ (∀ k, 1 ≤ k → (k ≤ r.iterationNumber ↔
          (k - 1 ≤ s.maximumIterationsNumber ∧ ∀ j, j < k → ∃ rj,
            iterateBody (AbdoRackwitz.iteration sqrt fuel) (AbdoRackwitz.runInit s) j = some rj
            ∧ rj.convergence = false ∧ rj.thrown = none)))
      ∧ r.iterationNumber ≤ s.maximumIterationsNumber + 1
      ∧ ((∀ j, 1 ≤ j → j ≤ s.maximumIterationsNumber + 1 → ∃ rj,
            iterateBody (AbdoRackwitz.iteration sqrt fuel) (AbdoRackwitz.runInit s) j = some rj
            ∧ rj.convergence = false ∧ rj.thrown = none) →
          r.iterationNumber = s.maximumIterationsNumber + 1
            ∧ r.thrown = none ∧ r.convergence = false) := by
  obtain ⟨n, r, hrun, hit, hnc, hall⟩ := abdoRackwitz_run_first_exit sqrt fuel s h0 h1 hf
  obtain ⟨hrn, hrm, -⟩ := abdoRackwitz_iterateBody_frame sqrt fuel (AbdoRackwitz.runInit s) n r hit
  have hrn1 : r.iterationNumber = n := by
    rw [hrn]; show 0 + n = n; omega
  have hrm1 : r.solver.maximumIterationsNumber = s.maximumIterationsNumber := hrm
  have hbound : n ≤ s.maximumIterationsNumber + 1 := by
    cases n with
    | zero => omega
    | succ m =>
      obtain ⟨rj, hij, -, -, hle⟩ := hall m (by omega)
      obtain ⟨hjn, hjm, -⟩ := abdoRackwitz_iterateBody_frame sqrt fuel (AbdoRackwitz.runInit s) m rj hij
      have hjn1 : rj.iterationNumber = m := by
        rw [hjn]; show 0 + m = m; omega
      have hjm1 : rj.solver.maximumIterationsNumber = s.maximumIterationsNumber := hjm
      rw [hjn1, hjm1] at hle
      omega
  have hexit : r.thrown = none → r.convergence = false → s.maximumIterationsNumber < n := by
    intro ht hc
    by_contra hlt
    apply hnc
    refine ⟨ht, by rw [hc]; rfl, ?_⟩
    rw [hrn1, hrm1]
    omega
  refine ⟨r, hrun, by rw [hrn1]; exact hit, ?_, by rw [hrn1]; exact hbound, ?_⟩
  · intro k hk
    rw [hrn1]
    constructor
    · intro hkn
      refine ⟨by omega, ?_⟩
      intro j hj
      obtain ⟨rj, hij, ht, hc, -⟩ := hall j (by omega)
      exact ⟨rj, hij, hc, ht⟩
    · rintro ⟨hk1, hprev⟩
      by_contra hkn
      obtain ⟨rj, hij, hc, ht⟩ := hprev n (by omega)
      rw [hit] at hij
      simp only [Option.some.injEq] at hij
      subst hij
      have := hexit ht hc
      omega
  · intro hnever
    by_cases hn0 : n = 0
    · subst hn0
      have hr0 : r = AbdoRackwitz.runInit s := by
        have h2 : some (AbdoRackwitz.runInit s) = some r := hit
        simp only [Option.some.injEq] at h2
        exact h2.symm
      have := hexit (by rw [hr0]; rfl) (by rw [hr0]; rfl)
      omega
    · obtain ⟨rj, hij, hc, ht⟩ := hnever n (by omega) hbound
      rw [hit] at hij
      simp only [Option.some.injEq] at hij
      subst hij
      have := hexit ht hc
      exact ⟨by rw [hrn1]; omega, ht, hc⟩

/-- With `maxIterationsNumber = 0` the loop of `run` executes its body exactly once. -/
theorem abdoRackwitz_run_of_zero_budget (sqrt : K → K) (fuel : Nat) (s : AbdoRackwitz K)
    (hm : s.maximumIterationsNumber = 0) :
    AbdoRackwitz.run sqrt fuel s = AbdoRackwitz.iteration sqrt fuel (AbdoRackwitz.runInit s) := by
  have hc : (AbdoRackwitz.runInit s).thrown = none ∧ (!(AbdoRackwitz.runInit s).convergence) = true
      ∧ (AbdoRackwitz.runInit s).iterationNumber
        ≤ (AbdoRackwitz.runInit s).solver.maximumIterationsNumber := ⟨rfl, rfl, Nat.zero_le _⟩
  unfold AbdoRackwitz.run
  rw [abdoRackwitz_runLoop_unfold, if_pos hc]
  cases h : AbdoRackwitz.iteration sqrt fuel (AbdoRackwitz.runInit s) with
  | none => rfl
  | some r1 =>
    obtain ⟨hn, -, -, hmax, -⟩ := abdoRackwitz_iteration_frame sqrt fuel _ r1 h
    show AbdoRackwitz.runLoop sqrt fuel r1 = some r1
    rw [abdoRackwitz_runLoop_unfold, if_neg]
    intro hc1
    have hle := hc1.2.2
    rw [hn, hmax] at hle
    have hm1 : (AbdoRackwitz.runInit s).solver.maximumIterationsNumber = 0 := hm
    rw [hm1] at hle
    omega

/-- The convergence flag of an iteration that went through the line search, the entry it
stores, and the exit of the loop when the flag is set. -/
theorem abdoRackwitz_convergence_flag (sqrt : K → K) (fuel : Nat)
    (r r1 : AbdoRackwitz.RunState K) (h : AbdoRackwitz.iteration sqrt fuel r = some r1)
    (ht : r1.thrown = none) :
    (r1.convergence = true ↔
        (r1.absoluteError < r.solver.maximumAbsoluteError
          ∧ r1.relativeError < r.solver.maximumRelativeError)
        ∨ (r1.residualError < r.solver.maximumResidualError
          ∧ r1.constraintError < r.solver.maximumConstraintError))
      ∧ r1.solver.result.history = r.solver.result.history ++
          [⟨r1.solver.currentPoint_, r1.solver.currentLevelValue_, r1.absoluteError,
            r1.relativeError, r1.residualError, r1.constraintError⟩]
      ∧ r1.solver.result.absoluteError = r1.absoluteError
      ∧ r1.solver.result.relativeError = r1.relativeError
      ∧ r1.solver.result.residualError = r1.residualError
      ∧ r1.solver.result.constraintError = r1.constraintError
      ∧ (r1.convergence = true → AbdoRackwitz.runLoop sqrt fuel r1 = some r1) := by
  rcases abdoRackwitz_iteration_cases sqrt fuel r r1 h with ⟨-, rfl⟩ | ⟨-, alpha, s1, hls, rfl⟩
  · exact absurd ht (by simp)
  · obtain ⟨hb, -⟩ := abdoRackwitz_computeLineSearch_frame sqrt fuel _ s1 alpha hls
    have hb1 : s1.toOptimizationSolverImplementation
        = r.solver.toOptimizationSolverImplementation := hb
    have e1 : s1.maximumAbsoluteError = r.solver.maximumAbsoluteError := by
      show s1.toOptimizationSolverImplementation.maximumAbsoluteError = _
      rw [hb1]
    have e2 : s1.maximumRelativeError = r.solver.maximumRelativeError := by
      show s1.toOptimizationSolverImplementation.maximumRelativeError = _
      rw [hb1]
    have e3 : s1.maximumResidualError = r.solver.maximumResidualError := by
      show s1.toOptimizationSolverImplementation.maximumResidualError = _
      rw [hb1]
    have e4 : s1.maximumConstraintError = r.solver.maximumConstraintError := by
      show s1.toOptimizationSolverImplementation.maximumConstraintError = _
      rw [hb1]
    refine ⟨?_, ?_, rfl, rfl, rfl, rfl, ?_⟩
    · rw [← e1, ← e2, ← e3, ← e4]
      simp only [AbdoRackwitz.updateErrors, Bool.or_eq_true, Bool.and_eq_true, decide_eq_true_eq]
    · have hres : s1.result = r.solver.result := by
        show s1.toOptimizationSolverImplementation.result = _
        rw [hb1]
      show s1.result.history ++ [_] = r.solver.result.history ++ [_]
      rw [hres]
      rfl
    · intro hc
      rw [abdoRackwitz_runLoop_unfold, if_neg]
      intro hcond
      have h2 := hcond.2.1
      rw [hc] at h2
      exact absurd h2 (by simp)

/-- The four errors of an iteration that went through the line search. -/
theorem abdoRackwitz_error_metrics (sqrt : K → K) (fuel : Nat)
    (r r1 : AbdoRackwitz.RunState K) (h : AbdoRackwitz.iteration sqrt fuel r = some r1)
    (ht : r1.thrown = none) :
    ∃ alpha s1,
      AbdoRackwitz.computeLineSearch sqrt fuel
          (AbdoRackwitz.computeDirection (AbdoRackwitz.evalGradient r.solver)) = some (alpha, s1)
      ∧ r1.solver.currentPoint_ = s1.currentPoint_
      ∧ r1.solver.currentLevelValue_ = s1.currentLevelValue_
      ∧ r1.solver.currentLevelValue_
          = r.solver.problem.levelFunction.eval r1.solver.currentPoint_
      ∧ r1.solver.currentGradient_
          = r.solver.problem.levelFunction.gradient r.solver.currentPoint_
      ∧ r1.solver.currentLambda_
          = (AbdoRackwitz.computeDirection (AbdoRackwitz.evalGradient r.solver)).currentLambda_
      ∧ r1.solver.currentDirection_
          = (AbdoRackwitz.computeDirection (AbdoRackwitz.evalGradient r.solver)).currentDirection_
      ∧ r1.absoluteError = |alpha| * NumericalPoint.norm sqrt r1.solver.currentDirection_
      ∧ r1.constraintError
          = |r.solver.problem.levelFunction.eval r1.solver.currentPoint_
              - r.solver.problem.levelValue|
      ∧ r1.residualError = NumericalPoint.norm sqrt
          (NumericalPoint.add r1.solver.currentPoint_
            (NumericalPoint.smul r1.solver.currentLambda_ r1.solver.currentGradient_))
      ∧ (0 < NumericalPoint.norm sqrt r1.solver.currentPoint_ →
          r1.relativeError
            = r1.absoluteError / NumericalPoint.norm sqrt r1.solver.currentPoint_)
      ∧ (NumericalPoint.norm sqrt r1.solver.currentPoint_ = 0 → r1.relativeError = -1)
      ∧ ((∀ x, 0 ≤ sqrt x) →
          0 ≤ r1.absoluteError ∧ 0 ≤ r1.constraintError ∧ 0 ≤ r1.residualError
            ∧ (r1.relativeError = -1 ∨ 0 ≤ r1.relativeError)) := by
  rcases abdoRackwitz_iteration_cases sqrt fuel r r1 h with ⟨-, rfl⟩ | ⟨-, alpha, s1, hls, rfl⟩
  · exact absurd ht (by simp)
  · obtain ⟨hb, -, -, -, hgr, hdir, hlam, -⟩ :=
      abdoRackwitz_computeLineSearch_frame sqrt fuel _ s1 alpha hls
    have hlv := abdoRackwitz_computeLineSearch_levelValue sqrt fuel _ s1 alpha hls
    have hb1 : s1.toOptimizationSolverImplementation
        = r.solver.toOptimizationSolverImplementation := hb
    have hp : s1.problem = r.solver.problem := by
      show s1.toOptimizationSolverImplementation.problem = _
      rw [hb1]
    rw [hp] at hlv
    refine ⟨alpha, s1, hls, rfl, rfl, hlv, hgr, hlam, hdir, rfl, ?_, rfl, ?_, ?_, ?_⟩
    · show |s1.currentLevelValue_ - s1.problem.levelValue|
        = |r.solver.problem.levelFunction.eval s1.currentPoint_ - r.solver.problem.levelValue|
      rw [← hlv, hp]
    · intro hpos
      have hpos1 : NumericalPoint.norm sqrt s1.currentPoint_ > 0 := hpos
      show (if NumericalPoint.norm sqrt s1.currentPoint_ > 0 then _ else _) = _
      rw [if_pos hpos1]
      rfl
    · intro hz
      have hz1 : NumericalPoint.norm sqrt s1.currentPoint_ = 0 := hz
      show (if NumericalPoint.norm sqrt s1.currentPoint_ > 0 then _ else _) = _
      rw [if_neg (by rw [hz1]; exact lt_irrefl _)]
    · intro hsqrt
      have habs : 0 ≤ |alpha| * NumericalPoint.norm sqrt s1.currentDirection_ :=
        mul_nonneg (abs_nonneg _) (hsqrt _)
      refine ⟨habs, abs_nonneg _, hsqrt _, ?_⟩
      show (if NumericalPoint.norm sqrt s1.currentPoint_ > 0 then _ else _) = _
        ∨ 0 ≤ (if NumericalPoint.norm sqrt s1.currentPoint_ > 0 then _ else _)
      split
      · rename_i hpos
        exact Or.inr (div_nonneg habs (le_of_lt hpos))
      · exact Or.inl rfl

/-- The penalty weight across one line search, one iteration and several iterations. -/
theorem abdoRackwitz_sigma_monotone (sqrt : K → K) (fuel : Nat) :
    (∀ (s s1 : AbdoRackwitz K) (alpha : K),
        AbdoRackwitz.computeLineSearch sqrt fuel s = some (alpha, s1) →
        s1.currentSigma_ = max (s.currentSigma_ + 1)
            (s.smooth_ * NumericalPoint.norm sqrt s.currentPoint_
              / NumericalPoint.norm sqrt s.currentGradient_)
          ∧ s.currentSigma_ + 1 ≤ s1.currentSigma_)
    ∧ (∀ (r r1 : AbdoRackwitz.RunState K), AbdoRackwitz.iteration sqrt fuel r = some r1 →
        r.solver.currentSigma_ ≤ r1.solver.currentSigma_
          ∧ (r1.thrown = none → r.solver.currentSigma_ + 1 ≤ r1.solver.currentSigma_))
    ∧ (∀ (r : AbdoRackwitz.RunState K) (j k : Nat) (rj rk : AbdoRackwitz.RunState K), j ≤ k →
        iterateBody (AbdoRackwitz.iteration sqrt fuel) r j = some rj →
        iterateBody (AbdoRackwitz.iteration sqrt fuel) r k = some rk →
        rj.solver.currentSigma_ ≤ rk.solver.currentSigma_)
    ∧ (∀ (r : AbdoRackwitz.RunState K) (k : Nat) (rk : AbdoRackwitz.RunState K),
        iterateBody (AbdoRackwitz.iteration sqrt fuel) r k = some rk →
        (∀ (j : Nat) (rj : AbdoRackwitz.RunState K), 1 ≤ j → j ≤ k →
          iterateBody (AbdoRackwitz.iteration sqrt fuel) r j = some rj → rj.thrown = none) →
        r.solver.currentSigma_ + (k : K) ≤ rk.solver.currentSigma_) := by
  have hls : ∀ (s s1 : AbdoRackwitz K) (alpha : K),
      AbdoRackwitz.computeLineSearch sqrt fuel s = some (alpha, s1) →
      s1.currentSigma_ = max (s.currentSigma_ + 1)
          (s.smooth_ * NumericalPoint.norm sqrt s.currentPoint_
            / NumericalPoint.norm sqrt s.currentGradient_)
        ∧ s.currentSigma_ + 1 ≤ s1.currentSigma_ := by
    intro s s1 alpha h
    obtain ⟨-, -, -, -, -, -, -, -, -, hsig⟩ := abdoRackwitz_computeLineSearch_frame sqrt fuel s s1 alpha h
    exact ⟨hsig, by rw [hsig]; exact le_max_left _ _⟩
  have hit : ∀ (r r1 : AbdoRackwitz.RunState K), AbdoRackwitz.iteration sqrt fuel r = some r1 →
      r.solver.currentSigma_ ≤ r1.solver.currentSigma_
        ∧ (r1.thrown = none → r.solver.currentSigma_ + 1 ≤ r1.solver.currentSigma_) := by
    intro r r1 h
    rcases abdoRackwitz_iteration_cases sqrt fuel r r1 h with ⟨-, rfl⟩ | ⟨-, alpha, s1, hl, rfl⟩
    · exact ⟨le_refl _, fun ht => absurd ht (by simp)⟩
    · have h1 : r.solver.currentSigma_ + 1 ≤ s1.currentSigma_ := (hls _ s1 alpha hl).2
      have h2 : r.solver.currentSigma_ ≤ r.solver.currentSigma_ + 1 :=
        le_add_of_nonneg_right zero_le_one
      exact ⟨le_trans h2 h1, fun _ => h1⟩
  have hmono : ∀ (r : AbdoRackwitz.RunState K) (j d : Nat) (rj rk : AbdoRackwitz.RunState K),
      iterateBody (AbdoRackwitz.iteration sqrt fuel) r j = some rj →
      iterateBody (AbdoRackwitz.iteration sqrt fuel) r (j + d) = some rk →
      rj.solver.currentSigma_ ≤ rk.solver.currentSigma_ := by
    intro r j d
    induction d with
    | zero =>
      intro rj rk hj hk
      rw [Nat.add_zero, hj] at hk
      simp only [Option.some.injEq] at hk
      subst hk
      exact le_refl _
    | succ d ih =>
      intro rj rk hj hk
      have hk1 : (iterateBody (AbdoRackwitz.iteration sqrt fuel) r (j + d)).bind
          (AbdoRackwitz.iteration sqrt fuel) = some rk := hk
      cases hm : iterateBody (AbdoRackwitz.iteration sqrt fuel) r (j + d) with
      | none => rw [hm] at hk1; exact absurd hk1 (by simp)
      | some rm =>
        rw [hm] at hk1
        exact le_trans (ih rj rm hj hm) (hit rm rk hk1).1
  refine ⟨hls, hit, ?_, ?_⟩
  · intro r j k rj rk hjk hj hk
    obtain ⟨d, rfl⟩ : ∃ d, k = j + d := ⟨k - j, by omega⟩
    exact hmono r j d rj rk hj hk
  · intro r k
    induction k with
    | zero =>
      intro rk hk _
      have h1 : some r = some rk := hk
      simp only [Option.some.injEq] at h1
      subst h1
      simp
    | succ k ih =>
      intro rk hk hall
      have hk1 : (iterateBody (AbdoRackwitz.iteration sqrt fuel) r k).bind
          (AbdoRackwitz.iteration sqrt fuel) = some rk := hk
      cases hm : iterateBody (AbdoRackwitz.iteration sqrt fuel) r k with
      | none => rw [hm] at hk1; exact absurd hk1 (by simp)
      | some rm =>
        rw [hm] at hk1
        have h1 := ih rm hm (fun j rj hj1 hjk hj => hall j rj hj1 (by omega) hj)
        have h2 := (hit rm rk hk1).2 (hall (k + 1) rk (by omega) (le_refl _) hk)
        push_cast
        linarith

/-- With a square root that is never negative, non-positive bounds on the absolute and the
residual errors and a gradient that never vanishes, no iteration converges or fails. -/
theorem abdoRackwitz_never_converges (sqrt : K → K) (fuel : Nat)
    (hsqrt : ∀ x, 0 ≤ sqrt x) (hf : 10 ≤ fuel) (r : AbdoRackwitz.RunState K)
    (h0 : 0 < r.solver.tau_) (h1 : r.solver.tau_ < 1)
    (hgrad : ∀ u, NumericalPoint.normSquare (r.solver.problem.levelFunction.gradient u) ≠ 0)
    (habs : r.solver.maximumAbsoluteError ≤ 0) (hres : r.solver.maximumResidualError ≤ 0)
    (hc : r.convergence = false) (ht : r.thrown = none) :
    ∀ j, ∃ rj, iterateBody (AbdoRackwitz.iteration sqrt fuel) r j = some rj
      ∧ rj.convergence = false ∧ rj.thrown = none
      ∧ rj.solver.problem = r.solver.problem
      ∧ rj.solver.maximumAbsoluteError = r.solver.maximumAbsoluteError
      ∧ rj.solver.maximumResidualError = r.solver.maximumResidualError
      ∧ rj.solver.tau_ = r.solver.tau_ := by
  intro j
  induction j with
  | zero => exact ⟨r, rfl, hc, ht, rfl, rfl, rfl, rfl⟩
  | succ j ih =>
    obtain ⟨rj, hj, -, -, hp, ha, hr, htau⟩ := ih
    obtain ⟨r1, hr1⟩ := abdoRackwitz_iteration_isSome sqrt fuel rj
      (by rw [htau]; exact h0) (by rw [htau]; exact h1) hf
    obtain ⟨-, -, -, -, hp1, ha1, -, hr1', -, htau1, -⟩ :=
      abdoRackwitz_iteration_frame sqrt fuel rj r1 hr1
    have hthrown : r1.thrown = none := by
      rcases abdoRackwitz_iteration_cases sqrt fuel rj r1 hr1 with ⟨hg, -⟩ | ⟨-, alpha, s1, -, rfl⟩
      · rw [hp] at hg
        exact absurd hg (hgrad _)
      · rfl
    obtain ⟨hiff, -⟩ := abdoRackwitz_convergence_flag sqrt fuel rj r1 hr1 hthrown
    obtain ⟨alpha, s1, -, -, -, -, -, -, -, -, -, -, -, -, hnn⟩ :=
      abdoRackwitz_error_metrics sqrt fuel rj r1 hr1 hthrown
    obtain ⟨hn1, -, hn3, -⟩ := hnn hsqrt
    refine ⟨r1, ?_, ?_, hthrown, by rw [hp1, hp], by rw [ha1, ha], by rw [hr1', hr],
      by rw [htau1, htau]⟩
    · show (iterateBody (AbdoRackwitz.iteration sqrt fuel) r j).bind _ = some r1
      rw [hj]
      exact hr1
    · cases hcv : r1.convergence with
      | false => rfl
      | true =>
        rcases hiff.mp hcv with ⟨hlt, -⟩ | ⟨hlt, -⟩
        · rw [ha] at hlt
          exact absurd (lt_of_lt_of_le hlt habs) (not_lt.mpr hn1)
        · rw [hr] at hlt
          exact absurd (lt_of_lt_of_le hlt hres) (not_lt.mpr hn3)

end AbdoRackwitzFacts

/-! ## Auxiliary facts about `SQP` -/

section SQPFacts

variable {K : Type} [LinearOrderedField K]

theorem sqp_runLoop_unfold (sqrt : K → K)
    (solveLinearSystem : SymmetricMatrix K → List K → List K) (fuel : Nat) (r : SQP.RunState K) :
    SQP.runLoop sqrt solveLinearSystem fuel r =
      if r.thrown = none ∧ (!r.convergence) = true
          ∧ r.iterationNumber ≤ r.solver.maximumIterationsNumber then
        (SQP.iteration sqrt solveLinearSystem fuel r).bind (SQP.runLoop sqrt solveLinearSystem fuel)
      else some r := by
  rw [SQP.runLoop]
  split
  · split <;> simp_all
  · rfl

/-- For `0 < tau < 1` the backtracking loop entered at `tau ^ k`, `k ≤ 9`, stops after at most
`10 - k` trial points. -/
theorem sqp_lineSearchLoop_terminates (s : SQP K)
    (levelValue currentSigma currentTheta levelIncrement : K)
    (h0 : 0 < s.tau_) (h1 : s.tau_ < 1) :
    ∀ (n k fuel : Nat), k + n = 9 → n + 1 ≤ fuel →
      ∃ r j, SQP.lineSearchLoop s levelValue currentSigma currentTheta (s.tau_ ^ 9)
          levelIncrement fuel (s.tau_ ^ k) = some r
        ∧ k ≤ j ∧ j ≤ 9 ∧ r.step = s.tau_ ^ (j + 1)
        ∧ r.currentStepPoint = NumericalPoint.add s.currentPoint_
            (NumericalPoint.smul (s.tau_ ^ j) s.currentDirection_)
        ∧ r.currentStepLevelValue = s.problem.levelFunction.eval r.currentStepPoint
        ∧ r.currentStepTheta = (1 / 2) * NumericalPoint.normSquare r.currentStepPoint
            + currentSigma * |r.currentStepLevelValue - levelValue|
        ∧ (j < 9 → ¬ (r.currentStepTheta > currentTheta + r.step * levelIncrement)) := by
  intro n
  induction n with
  | zero =>
    intro k fuel hk hf
    obtain ⟨f, rfl⟩ : ∃ f, fuel = f + 1 := ⟨fuel - 1, by omega⟩
    have hk9 : k = 9 := by omega
    subst hk9
    have hlt : ¬ (s.tau_ ^ 9 * s.tau_ ≥ s.tau_ ^ 9) := by
      have hp : 0 < s.tau_ ^ 9 := pow_pos h0 9
      nlinarith
    rw [SQP.lineSearchLoop]
    simp only [hlt, false_and, if_false]
    refine ⟨_, 9, rfl, le_refl _, le_refl _, ?_, rfl, rfl, rfl, ?_⟩
    · simp [pow_succ]
    · intro h; exact absurd h (by omega)
  | succ n ih =>
    intro k fuel hk hf
    obtain ⟨f, rfl⟩ : ∃ f, fuel = f + 1 := ⟨fuel - 1, by omega⟩
    rw [SQP.lineSearchLoop]
    split
    · obtain ⟨r, j, hr, hkj, hj9, rest⟩ := ih (k + 1) f (by omega) (by omega)
      refine ⟨r, j, ?_, by omega, hj9, rest⟩
      rw [← pow_succ]; exact hr
    · rename_i hc
      refine ⟨_, k, rfl, le_refl _, by omega, ?_, rfl, rfl, rfl, ?_⟩
      · simp [pow_succ]
      · intro _ hgt
        apply hc
        refine ⟨?_, hgt⟩
        have hk8 : k + 1 ≤ 9 := by omega
        have hp : s.tau_ ^ 9 ≤ s.tau_ ^ (k + 1) :=
          pow_le_pow_of_le_one (le_of_lt h0) (le_of_lt h1) hk8
        have he : s.tau_ ^ (k + 1) = s.tau_ ^ k * s.tau_ := pow_succ _ _
        rw [he] at hp
        exact hp

/-- What `computeLineSearch` leaves unchanged, and what it stores in `oldPoint_`,
`oldLevelValue_` and `currentSigma_`. -/
theorem sqp_computeLineSearch_frame (sqrt : K → K) (fuel : Nat) (s s1 : SQP K)
    (alpha : K) (h : SQP.computeLineSearch sqrt fuel s = some (alpha, s1)) :
    s1.toOptimizationSolverImplementation = s.toOptimizationSolverImplementation
      ∧ s1.tau_ = s.tau_ ∧ s1.omega_ = s.omega_ ∧ s1.smooth_ = s.smooth_
      ∧ s1.currentGradient_ = s.currentGradient_ ∧ s1.currentDirection_ = s.currentDirection_
      ∧ s1.currentLambda_ = s.currentLambda_
      ∧ s1.oldPoint_ = s.currentPoint_ ∧ s1.oldLevelValue_ = s.currentLevelValue_
      ∧ s1.currentSigma_ = max (s.currentSigma_ + 1)
          (s.smooth_ * NumericalPoint.norm sqrt s.currentPoint_
            / NumericalPoint.norm sqrt s.currentGradient_) := by
  unfold SQP.computeLineSearch at h
  simp only [] at h
  split at h
  · exact absurd h (by simp)
  · simp only [Option.some.injEq, Prod.mk.injEq] at h
    obtain ⟨-, hs⟩ := h
    subst hs
    exact ⟨rfl, rfl, rfl, rfl, rfl, rfl, rfl, rfl, rfl, rfl⟩

/-- For `0 < tau < 1` a fuel of `10` is enough for `computeLineSearch` to return. -/
theorem sqp_computeLineSearch_isSome (sqrt : K → K) (fuel : Nat) (s : SQP K)
    (h0 : 0 < s.tau_) (h1 : s.tau_ < 1) (hf : 10 ≤ fuel) :
    ∃ alpha s1, SQP.computeLineSearch sqrt fuel s = some (alpha, s1) := by
  obtain ⟨r, j, hr, -⟩ := sqp_lineSearchLoop_terminates s s.problem.levelValue
    (max (s.currentSigma_ + 1)
      (s.smooth_ * NumericalPoint.norm sqrt s.currentPoint_
        / NumericalPoint.norm sqrt s.currentGradient_))
    ((1 / 2) * NumericalPoint.normSquare s.currentPoint_
      + (max (s.currentSigma_ + 1)
        (s.smooth_ * NumericalPoint.norm sqrt s.currentPoint_
          / NumericalPoint.norm sqrt s.currentGradient_))
        * |s.currentLevelValue_ - s.problem.levelValue|)
    (s.omega_ * dot
      (NumericalPoint.add s.currentPoint_
        (NumericalPoint.smul
          ((max (s.currentSigma_ + 1)
            (s.smooth_ * NumericalPoint.norm sqrt s.currentPoint_
              / NumericalPoint.norm sqrt s.currentGradient_))
            * (if s.currentLevelValue_ > s.problem.levelValue then 1 else -1))
          s.currentGradient_))
      s.currentDirection_) h0 h1 9 0 fuel (by omega) (by omega)
  rw [pow_zero] at hr
  unfold SQP.computeLineSearch
  simp only [hr]
  exact ⟨_, _, rfl⟩

theorem sqp_iteration_of_gradient_zero (sqrt : K → K)
    (solveLinearSystem : SymmetricMatrix K → List K → List K) (fuel : Nat)
    (r : SQP.RunState K)
    (hg : NumericalPoint.normSquare
      (r.solver.problem.levelFunction.gradient r.solver.currentPoint_) = 0) :
    SQP.iteration sqrt solveLinearSystem fuel r = some
      { r with
        solver :=
          { SQP.evalGradient r.solver with
            result := r.solver.result.update r.solver.currentPoint_ (r.iterationNumber + 1) }
        iterationNumber := r.iterationNumber + 1
        thrown := some Exception.InternalException } := by
  unfold SQP.iteration
  simp only [SQP.evalGradient, hg, if_true]

theorem sqp_iteration_of_lineSearch (sqrt : K → K)
    (solveLinearSystem : SymmetricMatrix K → List K → List K) (fuel : Nat)
    (r : SQP.RunState K) (alpha : K) (s1 : SQP K)
    (hg : NumericalPoint.normSquare
      (r.solver.problem.levelFunction.gradient r.solver.currentPoint_) ≠ 0)
    (hls : SQP.computeLineSearch sqrt fuel
      (SQP.computeDirection solveLinearSystem (SQP.evalGradient r.solver)) = some (alpha, s1)) :
    SQP.iteration sqrt solveLinearSystem fuel r
      = some (SQP.updateErrors sqrt alpha s1 (r.iterationNumber + 1)) := by
  unfold SQP.iteration
  have hg1 : NumericalPoint.normSquare (SQP.evalGradient r.solver).currentGradient_ ≠ 0 := hg
  simp only [hg1, if_false, hls]

/-- Every execution of the loop body that returns either raised the degenerate-gradient
exception or went through the line search and the update of the errors. -/
theorem sqp_iteration_cases (sqrt : K → K)
    (solveLinearSystem : SymmetricMatrix K → List K → List K) (fuel : Nat)
    (r r1 : SQP.RunState K) (h : SQP.iteration sqrt solveLinearSystem fuel r = some r1) :
    (NumericalPoint.normSquare
        (r.solver.problem.levelFunction.gradient r.solver.currentPoint_) = 0
      ∧ r1 = { r with
        solver :=
          { SQP.evalGradient r.solver with
            result := r.solver.result.update r.solver.currentPoint_ (r.iterationNumber + 1) }
        iterationNumber := r.iterationNumber + 1
        thrown := some Exception.InternalException })
    ∨ (NumericalPoint.normSquare
        (r.solver.problem.levelFunction.gradient r.solver.currentPoint_) ≠ 0
      ∧ ∃ alpha s1, SQP.computeLineSearch sqrt fuel
          (SQP.computeDirection solveLinearSystem (SQP.evalGradient r.solver)) = some (alpha, s1)
        ∧ r1 = SQP.updateErrors sqrt alpha s1 (r.iterationNumber + 1)) := by
  by_cases hg : NumericalPoint.normSquare
        (r.solver.problem.levelFunction.gradient r.solver.currentPoint_) = 0
  · left
    rw [sqp_iteration_of_gradient_zero sqrt solveLinearSystem fuel r hg] at h
    exact ⟨hg, (Option.some.inj h).symm⟩
  · right
    refine ⟨hg, ?_⟩
    cases hls : SQP.computeLineSearch sqrt fuel
          (SQP.computeDirection solveLinearSystem (SQP.evalGradient r.solver)) with
    | none =>
      unfold SQP.iteration at h
      have hg1 :
          NumericalPoint.normSquare (SQP.evalGradient r.solver).currentGradient_ ≠ 0 := hg
      simp only [hg1, if_false, hls] at h
      exact absurd h (by simp)
    | some p =>
      obtain ⟨alpha, s1⟩ := p
      rw [sqp_iteration_of_lineSearch sqrt solveLinearSystem fuel r alpha s1 hg hls] at h
      exact ⟨alpha, s1, rfl, (Option.some.inj h).symm⟩

/-- When the loop is entered with a state whose gradient has zero squared norm, the loop body
raises the internal exception and the loop is left at once. -/
theorem sqp_runLoop_gradient_zero (sqrt : K → K)
    (solveLinearSystem : SymmetricMatrix K → List K → List K) (fuel : Nat)
    (r : SQP.RunState K)
    (hc : r.thrown = none ∧ r.convergence = false
      ∧ r.iterationNumber ≤ r.solver.maximumIterationsNumber)
    (hg : NumericalPoint.normSquare
      (r.solver.problem.levelFunction.gradient r.solver.currentPoint_) = 0) :
    SQP.runLoop sqrt solveLinearSystem fuel r = some
      { r with
        solver :=
          { SQP.evalGradient r.solver with
            result := r.solver.result.update r.solver.currentPoint_ (r.iterationNumber + 1) }
        iterationNumber := r.iterationNumber + 1
        thrown := some Exception.InternalException } := by
  have hc1 : r.thrown = none ∧ (!r.convergence) = true
      ∧ r.iterationNumber ≤ r.solver.maximumIterationsNumber :=
    ⟨hc.1, by rw [hc.2.1]; rfl, hc.2.2⟩
  rw [sqp_runLoop_unfold, if_pos hc1, sqp_iteration_of_gradient_zero sqrt solveLinearSystem fuel r hg]
  show SQP.runLoop sqrt solveLinearSystem fuel _ = _
  rw [sqp_runLoop_unfold, if_neg]
  intro h
  exact absurd h.1 (by simp)

/-- The level value kept by the backtracking loop is the level function at the trial point
it keeps. -/
theorem sqp_lineSearchLoop_levelValue (s : SQP K)
    (levelValue currentSigma currentTheta minStep levelIncrement : K) :
    ∀ (fuel : Nat) (step : K) (r : LineSearchStep K),
      SQP.lineSearchLoop s levelValue currentSigma currentTheta minStep levelIncrement
        fuel step = some r →
      r.currentStepLevelValue = s.problem.levelFunction.eval r.currentStepPoint := by
  intro fuel
  induction fuel with
  | zero =>
    intro step r h
    rw [SQP.lineSearchLoop] at h
    exact absurd h (by simp)
  | succ f ih =>
    intro step r h
    rw [SQP.lineSearchLoop] at h
    split at h
    · exact ih _ r h
    · simp only [Option.some.injEq] at h
      subst h
      rfl

/-- After `computeLineSearch`, with or without the correction of circuitous iterations, the
stored level value is the level function at the stored point. -/
theorem sqp_computeLineSearch_levelValue (sqrt : K → K) (fuel : Nat) (s s1 : SQP K)
    (alpha : K) (h : SQP.computeLineSearch sqrt fuel s = some (alpha, s1)) :
    s1.currentLevelValue_ = s1.problem.levelFunction.eval s1.currentPoint_ := by
  unfold SQP.computeLineSearch at h
  simp only [] at h
  split at h
  · exact absurd h (by simp)
  · rename_i r hr
    have hlv := sqp_lineSearchLoop_levelValue s _ _ _ _ _ _ _ r hr
    simp only [Option.some.injEq, Prod.mk.injEq] at h
    obtain ⟨-, hs⟩ := h
    subst hs
    show (ite _ _ _ : List K × K).2 = s.problem.levelFunction.eval (ite _ _ _ : List K × K).1
    split
    · split
      · rfl
      · exact hlv
    · exact hlv

/-- What an execution of the loop body leaves unchanged, and how it moves the counters. -/
theorem sqp_iteration_frame (sqrt : K → K)
    (solveLinearSystem : SymmetricMatrix K → List K → List K) (fuel : Nat)
    (r r1 : SQP.RunState K) (h : SQP.iteration sqrt solveLinearSystem fuel r = some r1) :
    r1.iterationNumber = r.iterationNumber + 1
      ∧ r1.solver.result.iterationNumber = r.iterationNumber + 1
      ∧ r1.solver.result.optimalPoint = r1.solver.currentPoint_
      ∧ r1.solver.maximumIterationsNumber = r.solver.maximumIterationsNumber
      ∧ r1.solver.problem = r.solver.problem
      ∧ r1.solver.maximumAbsoluteError = r.solver.maximumAbsoluteError
      ∧ r1.solver.maximumRelativeError = r.solver.maximumRelativeError
      ∧ r1.solver.maximumResidualError = r.solver.maximumResidualError
      ∧ r1.solver.maximumConstraintError = r.solver.maximumConstraintError
      ∧ r1.solver.tau_ = r.solver.tau_ ∧ r1.solver.omega_ = r.solver.omega_
      ∧ r1.solver.smooth_ = r.solver.smooth_ := by
  rcases sqp_iteration_cases sqrt solveLinearSystem fuel r r1 h with ⟨-, rfl⟩ | ⟨-, alpha, s1, hls, rfl⟩
  · exact ⟨rfl, rfl, rfl, rfl, rfl, rfl, rfl, rfl, rfl, rfl, rfl, rfl⟩
  · obtain ⟨hb, ht, ho, hsm, -⟩ := sqp_computeLineSearch_frame sqrt fuel _ s1 alpha hls
    have hb1 : s1.toOptimizationSolverImplementation
        = r.solver.toOptimizationSolverImplementation := hb
    refine ⟨rfl, rfl, rfl, ?_, ?_, ?_, ?_, ?_, ?_, ht, ho, hsm⟩
    · show s1.toOptimizationSolverImplementation.maximumIterationsNumber = _
      rw [hb1]
    · show s1.toOptimizationSolverImplementation.problem = _
      rw [hb1]
    · show s1.toOptimizationSolverImplementation.maximumAbsoluteError = _
      rw [hb1]
    · show s1.toOptimizationSolverImplementation.maximumRelativeError = _
      rw [hb1]
    · show s1.toOptimizationSolverImplementation.maximumResidualError = _
      rw [hb1]
    · show s1.toOptimizationSolverImplementation.maximumConstraintError = _
      rw [hb1]

/-- For `0 < tau < 1` and a fuel of at least `10` the loop body always returns. -/
theorem sqp_iteration_isSome (sqrt : K → K)
    (solveLinearSystem : SymmetricMatrix K → List K → List K) (fuel : Nat)
    (r : SQP.RunState K) (h0 : 0 < r.solver.tau_) (h1 : r.solver.tau_ < 1)
    (hf : 10 ≤ fuel) : ∃ r1, SQP.iteration sqrt solveLinearSystem fuel r = some r1 := by
  by_cases hg : NumericalPoint.normSquare
      (r.solver.problem.levelFunction.gradient r.solver.currentPoint_) = 0
  · exact ⟨_, sqp_iteration_of_gradient_zero sqrt solveLinearSystem fuel r hg⟩
  · obtain ⟨alpha, s1, hls⟩ := sqp_computeLineSearch_isSome sqrt fuel
      (SQP.computeDirection solveLinearSystem (SQP.evalGradient r.solver)) h0 h1 hf
    exact ⟨_, sqp_iteration_of_lineSearch sqrt solveLinearSystem fuel r alpha s1 hg hls⟩

/-- The counters and the tunables after `k` executions of the loop body. -/
theorem sqp_iterateBody_frame (sqrt : K → K)
    (solveLinearSystem : SymmetricMatrix K → List K → List K) (fuel : Nat)
    (r : SQP.RunState K) :
    ∀ (k : Nat) (rk : SQP.RunState K),
      iterateBody (SQP.iteration sqrt solveLinearSystem fuel) r k = some rk →
      rk.iterationNumber = r.iterationNumber + k
        ∧ rk.solver.maximumIterationsNumber = r.solver.maximumIterationsNumber
        ∧ rk.solver.tau_ = r.solver.tau_ := by
  intro k
  induction k with
  | zero =>
    intro rk h
    have h1 : some r = some rk := h
    simp only [Option.some.injEq] at h1
    subst h1
    exact ⟨rfl, rfl, rfl⟩
  | succ k ih =>
    intro rk h
    have h1 : (iterateBody (SQP.iteration sqrt solveLinearSystem fuel) r k).bind
        (SQP.iteration sqrt solveLinearSystem fuel) = some rk := h
    cases hk : iterateBody (SQP.iteration sqrt solveLinearSystem fuel) r k with
    | none => rw [hk] at h1; exact absurd h1 (by simp)
    | some rj =>
      rw [hk] at h1
      obtain ⟨hn, hm, ht⟩ := ih rj hk
      obtain ⟨hn1, -, -, hm1, -, -, -, -, -, ht1, -⟩ :=
        sqp_iteration_frame sqrt solveLinearSystem fuel rj rk h1
      exact ⟨by rw [hn1, hn]; omega, by rw [hm1, hm], by rw [ht1, ht]⟩

/-- The loop of `run` returns the first iterate of the loop body at which the loop condition
fails, provided the line search returns (`0 < tau < 1`, fuel at least `10`). -/
theorem sqp_run_first_exit (sqrt : K → K)
    (solveLinearSystem : SymmetricMatrix K → List K → List K) (fuel : Nat) (s : SQP K)
    (h0 : 0 < s.tau_) (h1 : s.tau_ < 1) (hf : 10 ≤ fuel) :
    ∃ n r, SQP.run sqrt solveLinearSystem fuel s = some r
      ∧ iterateBody (SQP.iteration sqrt solveLinearSystem fuel) (SQP.runInit s) n = some r
      ∧ ¬ (r.thrown = none ∧ (!r.convergence) = true
          ∧ r.iterationNumber ≤ r.solver.maximumIterationsNumber)
      ∧ ∀ j, j < n → ∃ rj,
          iterateBody (SQP.iteration sqrt solveLinearSystem fuel) (SQP.runInit s) j = some rj
          ∧ rj.thrown = none ∧ rj.convergence = false
          ∧ rj.iterationNumber ≤ rj.solver.maximumIterationsNumber := by
  obtain ⟨n, r, hl, hi, hnc, -, hall⟩ := while_first_exit
    (SQP.runLoop sqrt solveLinearSystem fuel) (SQP.iteration sqrt solveLinearSystem fuel)
    (fun r => r.thrown = none ∧ (!r.convergence) = true
      ∧ r.iterationNumber ≤ r.solver.maximumIterationsNumber)
    (fun r => 0 < r.solver.tau_ ∧ r.solver.tau_ < 1)
    (fun r => r.solver.maximumIterationsNumber + 1 - r.iterationNumber)
    (fun r => sqp_runLoop_unfold sqrt solveLinearSystem fuel r)
    (by
      intro r hInv hc
      obtain ⟨r1, hr1⟩ := sqp_iteration_isSome sqrt solveLinearSystem fuel r hInv.1 hInv.2 hf
      obtain ⟨hn, -, -, hm, -, -, -, -, -, ht, -⟩ := sqp_iteration_frame sqrt solveLinearSystem fuel r r1 hr1
      refine ⟨r1, hr1, ⟨by rw [ht]; exact hInv.1, by rw [ht]; exact hInv.2⟩, ?_⟩
      have hle := hc.2.2
      show r1.solver.maximumIterationsNumber + 1 - r1.iterationNumber
        < r.solver.maximumIterationsNumber + 1 - r.iterationNumber
      rw [hn, hm]
      omega)
    (SQP.runInit s) ⟨h0, h1⟩
  refine ⟨n, r, hl, hi, hnc, ?_⟩
  intro j hj
  obtain ⟨rj, hij, hcj, -⟩ := hall j hj
  refine ⟨rj, hij, hcj.1, ?_, hcj.2.2⟩
  have := hcj.2.1
  simpa using this

/-- Loop control of `run`: the number of iterations performed, and which iterations are
performed. -/
theorem sqp_loop_control (sqrt : K → K)
    (solveLinearSystem : SymmetricMatrix K → List K → List K) (fuel : Nat) (s : SQP K)
    (h0 : 0 < s.tau_) (h1 : s.tau_ < 1) (hf : 10 ≤ fuel) :
    ∃ r, SQP.run sqrt solveLinearSystem fuel s = some r
      ∧ iterateBody (SQP.iteration sqrt solveLinearSystem fuel) (SQP.runInit s) r.iterationNumber
          = some r
      ∧ (∀ k, 1 ≤ k → (k ≤ r.iterationNumber ↔
          (k - 1 ≤ s.maximumIterationsNumber ∧ ∀ j, j < k → ∃ rj,
            iterateBody (SQP.iteration sqrt solveLinearSystem fuel) (SQP.runInit s) j = some rj
            ∧ rj.convergence = false ∧ rj.thrown = none)))
      ∧ r.iterationNumber ≤ s.maximumIterationsNumber + 1
      ∧ ((∀ j, 1 ≤ j → j ≤ s.maximumIterationsNumber + 1 → ∃ rj,
            iterateBody (SQP.iteration sqrt solveLinearSystem fuel) (SQP.runInit s) j = some rj
            ∧ rj.convergence = false ∧ rj.thrown = none) →
          r.iterationNumber = s.maximumIterationsNumber + 1
            ∧ r.thrown = none ∧ r.convergence = false) := by
  obtain ⟨n, r, hrun, hit, hnc, hall⟩ := sqp_run_first_exit sqrt solveLinearSystem fuel s h0 h1 hf
  obtain ⟨hrn, hrm, -⟩ := sqp_iterateBody_frame sqrt solveLinearSystem fuel (SQP.runInit s) n r hit
  have hrn1 : r.iterationNumber = n := by
    rw [hrn]; show 0 + n = n; omega
  have hrm1 : r.solver.maximumIterationsNumber = s.maximumIterationsNumber := hrm
  have hbound : n ≤ s.maximumIterationsNumber + 1 := by
    cases n with
    | zero => omega
    | succ m =>
      obtain ⟨rj, hij, -, -, hle⟩ := hall m (by omega)
      obtain ⟨hjn, hjm, -⟩ := sqp_iterateBody_frame sqrt solveLinearSystem fuel (SQP.runInit s) m rj hij
      have hjn1 : rj.iterationNumber = m := by
        rw [hjn]; show 0 + m = m; omega
      have hjm1 : rj.solver.maximumIterationsNumber = s.maximumIterationsNumber := hjm
      rw [hjn1, hjm1] at hle
      omega
  have hexit : r.thrown = none → r.convergence = false → s.maximumIterationsNumber < n := by
    intro ht hc
    by_contra hlt
    apply hnc
    refine ⟨ht, by rw [hc]; rfl, ?_⟩
    rw [hrn1, hrm1]
    omega
  refine ⟨r, hrun, by rw [hrn1]; exact hit, ?_, by rw [hrn1]; exact hbound, ?_⟩
  · intro k hk
    rw [hrn1]
    constructor
    · intro hkn
      refine ⟨by omega, ?_⟩
      intro j hj
      obtain ⟨rj, hij, ht, hc, -⟩ := hall j (by omega)
      exact ⟨rj, hij, hc, ht⟩
    · rintro ⟨hk1, hprev⟩
      by_contra hkn
      obtain ⟨rj, hij, hc, ht⟩ := hprev n (by omega)
      rw [hit] at hij
      simp only [Option.some.injEq] at hij
      subst hij
      have := hexit ht hc
      omega
  · intro hnever
    by_cases hn0 : n = 0
    · subst hn0
      have hr0 : r = SQP.runInit s := by
        have h2 : some (SQP.runInit s) = some r := hit
        simp only [Option.some.injEq] at h2
        exact h2.symm
      have := hexit (by rw [hr0]; rfl) (by rw [hr0]; rfl)
      omega
    · obtain ⟨rj, hij, hc, ht⟩ := hnever n (by omega) hbound
      rw [hit] at hij
      simp only [Option.some.injEq] at hij
      subst hij
      have := hexit ht hc
      exact ⟨by rw [hrn1]; omega, ht, hc⟩

/-- The convergence flag of an iteration that went through the line search, the entry it
stores, and the exit of the loop when the flag is set. -/
theorem sqp_convergence_flag (sqrt : K → K)
    (solveLinearSystem : SymmetricMatrix K → List K → List K) (fuel : Nat)
    (r r1 : SQP.RunState K) (h : SQP.iteration sqrt solveLinearSystem fuel r = some r1)
    (ht : r1.thrown = none) :
    (r1.convergence = true ↔
        (r1.absoluteError < r.solver.maximumAbsoluteError
          ∧ r1.relativeError < r.solver.maximumRelativeError)
        ∨ (r1.residualError < r.solver.maximumResidualError
          ∧ r1.constraintError < r.solver.maximumConstraintError))
      ∧ r1.solver.result.history = r.solver.result.history ++
          [⟨r1.solver.currentPoint_, r1.solver.currentLevelValue_, r1.absoluteError,
            r1.relativeError, r1.residualError, r1.constraintError⟩]
      ∧ r1.solver.result.absoluteError = r1.absoluteError
      ∧ r1.solver.result.relativeError = r1.relativeError
      ∧ r1.solver.result.residualError = r1.residualError
      ∧ r1.solver.result.constraintError = r1.constraintError
      ∧ (r1.convergence = true → SQP.runLoop sqrt solveLinearSystem fuel r1 = some r1) := by
  rcases sqp_iteration_cases sqrt solveLinearSystem fuel r r1 h with ⟨-, rfl⟩ | ⟨-, alpha, s1, hls, rfl⟩
  · exact absurd ht (by simp)
  · obtain ⟨hb, -⟩ := sqp_computeLineSearch_frame sqrt fuel _ s1 alpha hls
    have hb1 : s1.toOptimizationSolverImplementation
        = r.solver.toOptimizationSolverImplementation := hb
    have e1 : s1.maximumAbsoluteError = r.solver.maximumAbsoluteError := by
      show s1.toOptimizationSolverImplementation.maximumAbsoluteError = _
      rw [hb1]
    have e2 : s1.maximumRelativeError = r.solver.maximumRelativeError := by
      show s1.toOptimizationSolverImplementation.maximumRelativeError = _
      rw [hb1]
    have e3 : s1.maximumResidualError = r.solver.maximumResidualError := by
      show s1.toOptimizationSolverImplementation.maximumResidualError = _
      rw [hb1]
    have e4 : s1.maximumConstraintError = r.solver.maximumConstraintError := by
      show s1.toOptimizationSolverImplementation.maximumConstraintError = _
      rw [hb1]
    refine ⟨?_, ?_, rfl, rfl, rfl, rfl, ?_⟩
    · rw [← e1, ← e2, ← e3, ← e4]
      simp only [SQP.updateErrors, Bool.or_eq_true, Bool.and_eq_true, decide_eq_true_eq]
    · have hres : s1.result = r.solver.result := by
        show s1.toOptimizationSolverImplementation.result = _
        rw [hb1]
      show s1.result.history ++ [_] = r.solver.result.history ++ [_]
      rw [hres]
      rfl
    · intro hc
      rw [sqp_runLoop_unfold, if_neg]
      intro hcond
      have h2 := hcond.2.1
      rw [hc] at h2
      exact absurd h2 (by simp)

/-- The four errors of an iteration that went through the line search. -/
theorem sqp_error_metrics (sqrt : K → K)
    (solveLinearSystem : SymmetricMatrix K → List K → List K) (fuel : Nat)
    (r r1 : SQP.RunState K) (h : SQP.iteration sqrt solveLinearSystem fuel r = some r1)
    (ht : r1.thrown = none) :
    ∃ alpha s1,
      SQP.computeLineSearch sqrt fuel
          (SQP.computeDirection solveLinearSystem (SQP.evalGradient r.solver)) = some (alpha, s1)
      ∧ r1.solver.currentPoint_ = s1.currentPoint_
      ∧ r1.solver.currentLevelValue_ = s1.currentLevelValue_
      ∧ r1.solver.currentLevelValue_
          = r.solver.problem.levelFunction.eval r1.solver.currentPoint_
      ∧ r1.solver.currentGradient_
          = r.solver.problem.levelFunction.gradient r.solver.currentPoint_
      ∧ r1.solver.currentLambda_
          = (SQP.computeDirection solveLinearSystem (SQP.evalGradient r.solver)).currentLambda_
      ∧ r1.solver.currentDirection_
          = (SQP.computeDirection solveLinearSystem (SQP.evalGradient r.solver)).currentDirection_
      ∧ r1.absoluteError = |alpha| * NumericalPoint.norm sqrt r1.solver.currentDirection_
      ∧ r1.constraintError
          = |r.solver.problem.levelFunction.eval r1.solver.currentPoint_
              - r.solver.problem.levelValue|
      ∧ r1.residualError = NumericalPoint.norm sqrt
          (NumericalPoint.add r1.solver.currentPoint_
            (NumericalPoint.smul r1.solver.currentLambda_ r1.solver.currentGradient_))
      ∧ (0 < NumericalPoint.norm sqrt r1.solver.currentPoint_ →
          r1.relativeError
            = r1.absoluteError / NumericalPoint.norm sqrt r1.solver.currentPoint_)
      ∧ (NumericalPoint.norm sqrt r1.solver.currentPoint_ = 0 → r1.relativeError = -1)
      ∧ ((∀ x, 0 ≤ sqrt x) →
          0 ≤ r1.absoluteError ∧ 0 ≤ r1.constraintError ∧ 0 ≤ r1.residualError
            ∧ (r1.relativeError = -1 ∨ 0 ≤ r1.relativeError)) := by
  rcases sqp_iteration_cases sqrt solveLinearSystem fuel r r1 h with ⟨-, rfl⟩ | ⟨-, alpha, s1, hls, rfl⟩
  · exact absurd ht (by simp)
  · obtain ⟨hb, -, -, -, hgr, hdir, hlam, -⟩ :=
      sqp_computeLineSearch_frame sqrt fuel _ s1 alpha hls
    have hlv := sqp_computeLineSearch_levelValue sqrt fuel _ s1 alpha hls
    have hb1 : s1.toOptimizationSolverImplementation
        = r.solver.toOptimizationSolverImplementation := hb
    have hp : s1.problem = r.solver.problem := by
      show s1.toOptimizationSolverImplementation.problem = _
      rw [hb1]
    rw [hp] at hlv
    refine ⟨alpha, s1, hls, rfl, rfl, hlv, hgr, hlam, hdir, rfl, ?_, rfl, ?_, ?_, ?_⟩
    · show |s1.currentLevelValue_ - s1.problem.levelValue|
        = |r.solver.problem.levelFunction.eval s1.currentPoint_ - r.solver.problem.levelValue|
      rw [← hlv, hp]
    · intro hpos
      have hpos1 : NumericalPoint.norm sqrt s1.currentPoint_ > 0 := hpos
      show (if NumericalPoint.norm sqrt s1.currentPoint_ > 0 then _ else _) = _
      rw [if_pos hpos1]
      rfl
    · intro hz
      have hz1 : NumericalPoint.norm sqrt s1.currentPoint_ = 0 := hz
      show (if NumericalPoint.norm sqrt s1.currentPoint_ > 0 then _ else _) = _
      rw [if_neg (by rw [hz1]; exact lt_irrefl _)]
    · intro hsqrt
      have habs : 0 ≤ |alpha| * NumericalPoint.norm sqrt s1.currentDirection_ :=
        mul_nonneg (abs_nonneg _) (hsqrt _)
      refine ⟨habs, abs_nonneg _, hsqrt _, ?_⟩
      show (if NumericalPoint.norm sqrt s1.currentPoint_ > 0 then _ else _) = _
        ∨ 0 ≤ (if NumericalPoint.norm sqrt s1.currentPoint_ > 0 then _ else _)
      split
      · rename_i hpos
        exact Or.inr (div_nonneg habs (le_of_lt hpos))
      · exact Or.inl rfl

/-- The penalty weight across one line search, one iteration and several iterations. -/
theorem sqp_sigma_monotone (sqrt : K → K)
    (solveLinearSystem : SymmetricMatrix K → List K → List K) (fuel : Nat) :
    (∀ (s s1 : SQP K) (alpha : K),
        SQP.computeLineSearch sqrt fuel s = some (alpha, s1) →
        s1.currentSigma_ = max (s.currentSigma_ + 1)
            (s.smooth_ * NumericalPoint.norm sqrt s.currentPoint_
              / NumericalPoint.norm sqrt s.currentGradient_)
          ∧ s.currentSigma_ + 1 ≤ s1.currentSigma_)
    ∧ (∀ (r r1 : SQP.RunState K), SQP.iteration sqrt solveLinearSystem fuel r = some r1 →
        r.solver.currentSigma_ ≤ r1.solver.currentSigma_
          ∧ (r1.thrown = none → r.solver.currentSigma_ + 1 ≤ r1.solver.currentSigma_))
    ∧ (∀ (r : SQP.RunState K) (j k : Nat) (rj rk : SQP.RunState K), j ≤ k →
        iterateBody (SQP.iteration sqrt solveLinearSystem fuel) r j = some rj →
        iterateBody (SQP.iteration sqrt solveLinearSystem fuel) r k = some rk →
        rj.solver.currentSigma_ ≤ rk.solver.currentSigma_)
    ∧ (∀ (r : SQP.RunState K) (k : Nat) (rk : SQP.RunState K),
        iterateBody (SQP.iteration sqrt solveLinearSystem fuel) r k = some rk →
        (∀ (j : Nat) (rj : SQP.RunState K), 1 ≤ j → j ≤ k →
          iterateBody (SQP.iteration sqrt solveLinearSystem fuel) r j = some rj → rj.thrown = none) →
        r.solver.currentSigma_ + (k : K) ≤ rk.solver.currentSigma_) := by
  have hls : ∀ (s s1 : SQP K) (alpha : K),
      SQP.computeLineSearch sqrt fuel s = some (alpha, s1) →
      s1.currentSigma_ = max (s.currentSigma_ + 1)
          (s.smooth_ * NumericalPoint.norm sqrt s.currentPoint_
            / NumericalPoint.norm sqrt s.currentGradient_)
        ∧ s.currentSigma_ + 1 ≤ s1.currentSigma_ := by
    intro s s1 alpha h
    obtain ⟨-, -, -, -, -, -, -, -, -, hsig⟩ := sqp_computeLineSearch_frame sqrt fuel s s1 alpha h
    exact ⟨hsig, by rw [hsig]; exact le_max_left _ _⟩
  have hit : ∀ (r r1 : SQP.RunState K), SQP.iteration sqrt solveLinearSystem fuel r = some r1 →
      r.solver.currentSigma_ ≤ r1.solver.currentSigma_
        ∧ (r1.thrown = none → r.solver.currentSigma_ + 1 ≤ r1.solver.currentSigma_) := by
    intro r r1 h
    rcases sqp_iteration_cases sqrt solveLinearSystem fuel r r1 h with ⟨-, rfl⟩ | ⟨-, alpha, s1, hl, rfl⟩
    · exact ⟨le_refl _, fun ht => absurd ht (by simp)⟩
    · have h1 : r.solver.currentSigma_ + 1 ≤ s1.currentSigma_ := (hls _ s1 alpha hl).2
      have h2 : r.solver.currentSigma_ ≤ r.solver.currentSigma_ + 1 :=
        le_add_of_nonneg_right zero_le_one
      exact ⟨le_trans h2 h1, fun _ => h1⟩
  have hmono : ∀ (r : SQP.RunState K) (j d : Nat) (rj rk : SQP.RunState K),
      iterateBody (SQP.iteration sqrt solveLinearSystem fuel) r j = some rj →
      iterateBody (SQP.iteration sqrt solveLinearSystem fuel) r (j + d) = some rk →
      rj.solver.currentSigma_ ≤ rk.solver.currentSigma_ := by
    intro r j d
    induction d with
    | zero =>
      intro rj rk hj hk
      rw [Nat.add_zero, hj] at hk
      simp only [Option.some.injEq] at hk
      subst hk
      exact le_refl _
    | succ d ih =>
      intro rj rk hj hk
      have hk1 : (iterateBody (SQP.iteration sqrt solveLinearSystem fuel) r (j + d)).bind
          (SQP.iteration sqrt solveLinearSystem fuel) = some rk := hk
      cases hm : iterateBody (SQP.iteration sqrt solveLinearSystem fuel) r (j + d) with
      | none => rw [hm] at hk1; exact absurd hk1 (by simp)
      | some rm =>
        rw [hm] at hk1
        exact le_trans (ih rj rm hj hm) (hit rm rk hk1).1
  refine ⟨hls, hit, ?_, ?_⟩
  · intro r j k rj rk hjk hj hk
    obtain ⟨d, rfl⟩ : ∃ d, k = j + d := ⟨k - j, by omega⟩
    exact hmono r j d rj rk hj hk
  · intro r k
    induction k with
    | zero =>
      intro rk hk _
      have h1 : some r = some rk := hk
      simp only [Option.some.injEq] at h1
      subst h1
      simp
    | succ k ih =>
      intro rk hk hall
      have hk1 : (iterateBody (SQP.iteration sqrt solveLinearSystem fuel) r k).bind
          (SQP.iteration sqrt solveLinearSystem fuel) = some rk := hk
      cases hm : iterateBody (SQP.iteration sqrt solveLinearSystem fuel) r k with
      | none => rw [hm] at hk1; exact absurd hk1 (by simp)
      | some rm =>
        rw [hm] at hk1
        have h1 := ih rm hm (fun j rj hj1 hjk hj => hall j rj hj1 (by omega) hj)
        have h2 := (hit rm rk hk1).2 (hall (k + 1) rk (by omega) (le_refl _) hk)
        push_cast
        linarith

/-- With a square root that is never negative, non-positive bounds on the absolute and the
residual errors and a gradient that never vanishes, no iteration converges or fails. -/
theorem sqp_never_converges (sqrt : K → K)
    (solveLinearSystem : SymmetricMatrix K → List K → List K) (fuel : Nat)
    (hsqrt : ∀ x, 0 ≤ sqrt x) (hf : 10 ≤ fuel) (r : SQP.RunState K)
    (h0 : 0 < r.solver.tau_) (h1 : r.solver.tau_ < 1)
    (hgrad : ∀ u, NumericalPoint.normSquare (r.solver.problem.levelFunction.gradient u) ≠ 0)
    (habs : r.solver.maximumAbsoluteError ≤ 0) (hres : r.solver.maximumResidualError ≤ 0)
    (hc : r.convergence = false) (ht : r.thrown = none) :
    ∀ j, ∃ rj, iterateBody (SQP.iteration sqrt solveLinearSystem fuel) r j = some rj
      ∧ rj.convergence = false ∧ rj.thrown = none
      ∧ rj.solver.problem = r.solver.problem
      ∧ rj.solver.maximumAbsoluteError = r.solver.maximumAbsoluteError
      ∧ rj.solver.maximumResidualError = r.solver.maximumResidualError
      ∧ rj.solver.tau_ = r.solver.tau_ := by
  intro j
  induction j with
  | zero => exact ⟨r, rfl, hc, ht, rfl, rfl, rfl, rfl⟩
  | succ j ih =>
    obtain ⟨rj, hj, -, -, hp, ha, hr, htau⟩ := ih
    obtain ⟨r1, hr1⟩ := sqp_iteration_isSome sqrt solveLinearSystem fuel rj
      (by rw [htau]; exact h0) (by rw [htau]; exact h1) hf
    obtain ⟨-, -, -, -, hp1, ha1, -, hr1', -, htau1, -⟩ :=
      sqp_iteration_frame sqrt solveLinearSystem fuel rj r1 hr1
    have hthrown : r1.thrown = none := by
      rcases sqp_iteration_cases sqrt solveLinearSystem fuel rj r1 hr1 with ⟨hg, -⟩ | ⟨-, alpha, s1, -, rfl⟩
      · rw [hp] at hg
        exact absurd hg (hgrad _)
      · rfl
    obtain ⟨hiff, -⟩ := sqp_convergence_flag sqrt solveLinearSystem fuel rj r1 hr1 hthrown
    obtain ⟨alpha, s1, -, -, -, -, -, -, -, -, -, -, -, -, hnn⟩ :=
      sqp_error_metrics sqrt solveLinearSystem fuel rj r1 hr1 hthrown
    obtain ⟨hn1, -, hn3, -⟩ := hnn hsqrt
    refine ⟨r1, ?_, ?_, hthrown, by rw [hp1, hp], by rw [ha1, ha], by rw [hr1', hr],
      by rw [htau1, htau]⟩
    · show (iterateBody (SQP.iteration sqrt solveLinearSystem fuel) r j).bind _ = some r1
      rw [hj]
      exact hr1
    · cases hcv : r1.convergence with
      | false => rfl
      | true =>
        rcases hiff.mp hcv with ⟨hlt, -⟩ | ⟨hlt, -⟩
        · rw [ha] at hlt
          exact absurd (lt_of_lt_of_le hlt habs) (not_lt.mpr hn1)
        · rw [hr] at hlt
          exact absurd (lt_of_lt_of_le hlt hres) (not_lt.mpr hn3)

end SQPFacts

/-! ## Scenario A, step by step -/

section ScenarioFacts

theorem abdoRackwitz_scenarioA_lineSearch (maxIter : Nat) (maxAbs maxRel maxRes maxCon : ℝ)
    (res : OptimizationResult ℝ) (tau omega smooth uninit : ℝ) (fuel : Nat)
    (ht0 : 0 < tau) (hto : tau * omega ≤ 29 / 30) (hf : 1 ≤ fuel) :
    AbdoRackwitz.computeLineSearch Real.sqrt fuel
      (AbdoRackwitz.computeDirection (AbdoRackwitz.evalGradient
        (AbdoRackwitz.runInit (AbdoRackwitz.new
          (scenarioA.base maxIter maxAbs maxRel maxRes maxCon res) tau omega smooth
          uninit)).solver))
      = some (1,
        { AbdoRackwitz.computeDirection (AbdoRackwitz.evalGradient
            (AbdoRackwitz.runInit (AbdoRackwitz.new
              (scenarioA.base maxIter maxAbs maxRel maxRes maxCon res)
              tau omega smooth uninit)).solver) with
          currentSigma_ := 1
          oldPoint_ := [0, 0, 0, 0]
          oldLevelValue_ := 0
          currentPoint_ := [1 / 15, 2 / 15, -(1 / 5), 4 / 15]
          currentLevelValue_ := 2 }) := by
  obtain ⟨f, rfl⟩ : ∃ f, fuel = f + 1 := ⟨fuel - 1, by omega⟩
  have hc : ¬ (2 < 1 / 15 + tau * (omega * 2)) := by linarith
  have htt : tau / tau = 1 := div_self (ne_of_gt ht0)
  simp only [AbdoRackwitz.computeLineSearch, AbdoRackwitz.computeDirection,
    AbdoRackwitz.evalGradient, AbdoRackwitz.runInit, AbdoRackwitz.new, AbdoRackwitz.initialise,
    scenarioA.base, scenarioA.problem, scenarioA.levelFunction, AbdoRackwitz.lineSearchLoop,
    NumericalPoint.norm, NumericalPoint.normSquare, dot, NumericalPoint.add, NumericalPoint.smul,
    NumericalPoint.sub, NumericalPoint.get, List.zipWith_cons_cons, List.zipWith_nil_right,
    List.zipWith_nil_left, List.map_cons, List.map_nil, List.sum_cons, List.sum_nil,
    List.getD_cons_zero, List.getD_cons_succ]
  norm_num [hc, htt]

theorem abdoRackwitz_scenarioA_run (maxIter : Nat) (maxAbs maxRel maxRes maxCon : ℝ)
    (res : OptimizationResult ℝ) (tau omega smooth uninit : ℝ) (fuel : Nat)
    (ht0 : 0 < tau) (hto : tau * omega ≤ 29 / 30) (hf : 1 ≤ fuel)
    (hres : 0 < maxRes) (hcon : 0 < maxCon) :
    ∃ r, AbdoRackwitz.run Real.sqrt fuel (AbdoRackwitz.new
          (scenarioA.base maxIter maxAbs maxRel maxRes maxCon res) tau omega smooth uninit)
        = some r
      ∧ r.convergence = true ∧ r.iterationNumber = 1 ∧ r.thrown = none
      ∧ r.solver.currentPoint_ = [1 / 15, 2 / 15, -(1 / 5), 4 / 15]
      ∧ r.solver.result.optimalPoint = [1 / 15, 2 / 15, -(1 / 5), 4 / 15]
      ∧ r.solver.result.iterationNumber = 1
      ∧ r.solver.result.history.length = 1 ∧ r.solver.currentSigma_ = 1
      ∧ r.solver.startingPoint = [0, 0, 0, 0]
      ∧ r.solver.maximumIterationsNumber = maxIter := by
  have hls := abdoRackwitz_scenarioA_lineSearch maxIter maxAbs maxRel maxRes maxCon res tau omega
    smooth uninit fuel ht0 hto hf
  have hg : NumericalPoint.normSquare
      ((AbdoRackwitz.runInit (AbdoRackwitz.new
          (scenarioA.base maxIter maxAbs maxRel maxRes maxCon res) tau omega smooth
          uninit)).solver.problem.levelFunction.gradient
        (AbdoRackwitz.runInit (AbdoRackwitz.new
          (scenarioA.base maxIter maxAbs maxRel maxRes maxCon res) tau omega smooth
          uninit)).solver.currentPoint_) ≠ 0 := by
    simp [AbdoRackwitz.runInit, AbdoRackwitz.new, AbdoRackwitz.initialise, scenarioA.base,
      scenarioA.problem, scenarioA.levelFunction, NumericalPoint.normSquare, dot]
    norm_num
  have hit := abdoRackwitz_iteration_of_lineSearch Real.sqrt fuel _ _ _ hg hls
  have hcond : (AbdoRackwitz.runInit (AbdoRackwitz.new
          (scenarioA.base maxIter maxAbs maxRel maxRes maxCon res) tau omega smooth
          uninit)).thrown = none
      ∧ (!(AbdoRackwitz.runInit (AbdoRackwitz.new
          (scenarioA.base maxIter maxAbs maxRel maxRes maxCon res) tau omega smooth
          uninit)).convergence) = true
      ∧ (AbdoRackwitz.runInit (AbdoRackwitz.new
          (scenarioA.base maxIter maxAbs maxRel maxRes maxCon res) tau omega smooth
          uninit)).iterationNumber
        ≤ (AbdoRackwitz.runInit (AbdoRackwitz.new
          (scenarioA.base maxIter maxAbs maxRel maxRes maxCon res) tau omega smooth
          uninit)).solver.maximumIterationsNumber :=
    ⟨rfl, rfl, Nat.zero_le _⟩
  have hconv : (AbdoRackwitz.updateErrors Real.sqrt 1
      { AbdoRackwitz.computeDirection (AbdoRackwitz.evalGradient
            (AbdoRackwitz.runInit (AbdoRackwitz.new
              (scenarioA.base maxIter maxAbs maxRel maxRes maxCon res)
              tau omega smooth uninit)).solver) with
          currentSigma_ := 1
          oldPoint_ := [0, 0, 0, 0]
          oldLevelValue_ := 0
          currentPoint_ := [1 / 15, 2 / 15, -(1 / 5), 4 / 15]
          currentLevelValue_ := 2 } (0 + 1)).convergence = true := by
    simp only [AbdoRackwitz.updateErrors, AbdoRackwitz.computeDirection,
      AbdoRackwitz.evalGradient, AbdoRackwitz.runInit, AbdoRackwitz.new, AbdoRackwitz.initialise,
      scenarioA.base, scenarioA.problem, scenarioA.levelFunction, NumericalPoint.norm,
      NumericalPoint.normSquare, dot, NumericalPoint.add, NumericalPoint.smul, NumericalPoint.sub,
      NumericalPoint.get, List.zipWith_cons_cons, List.zipWith_nil_right, List.zipWith_nil_left,
      List.map_cons, List.map_nil, List.sum_cons, List.sum_nil, List.getD_cons_zero,
      List.getD_cons_succ]
    norm_num [hres, hcon]
  refine ⟨_, ?_, hconv, rfl, rfl, rfl, rfl, rfl, rfl, rfl, rfl, rfl⟩
  unfold AbdoRackwitz.run
  rw [abdoRackwitz_runLoop_unfold, if_pos hcond, hit]
  show AbdoRackwitz.runLoop Real.sqrt fuel _ = _
  rw [abdoRackwitz_runLoop_unfold, if_neg]
  · rfl
  · intro h
    have h2 := h.2.1
    change (!(AbdoRackwitz.updateErrors Real.sqrt 1 _ (0 + 1)).convergence) = true at h2
    rw [hconv] at h2
    exact absurd h2 (by simp)

/-- The product of the assembled system matrix of Scenario A with a point of dimension 5. -/
theorem sqp_scenarioA_mulVec (s : SQP ℝ) (hl : s.currentPoint_.length = 4)
    (hH : s.currentHessian_ = SymmetricMatrix.zero 4)
    (hg : s.currentGradient_ = [1, 2, -3, 4])
    (hdim : s.currentSystemMatrix_.dim = 5) (h44 : s.currentSystemMatrix_.data 4 4 = 0)
    (y0 y1 y2 y3 y4 : ℝ) :
    (SQP.assembleSystemMatrix s).dim = 5 ∧ (SQP.assembleSystemMatrix s).data 4 4 = 0
    ∧ (SQP.assembleSystemMatrix s).mulVec [y0, y1, y2, y3, y4]
      = [2 * y0 + y4, 2 * y1 + 2 * y4, 2 * y2 - 3 * y4, 2 * y3 + 4 * y4,
          y0 + 2 * y1 - 3 * y2 + 4 * y3] := by
  have r1 : List.range 1 = [0] := rfl
  have r2 : List.range 2 = [0, 1] := rfl
  have r3 : List.range 3 = [0, 1, 2] := rfl
  have r4 : List.range 4 = [0, 1, 2, 3] := rfl
  have r5 : List.range 5 = [0, 1, 2, 3, 4] := rfl
  simp only [SQP.assembleSystemMatrix, hl, hH, hg, r4, List.foldl_cons, List.foldl_nil, zero_add,
    Nat.reduceAdd, r1, r2, r3, SymmetricMatrix.set, SymmetricMatrix.get, SymmetricMatrix.zero,
    SymmetricMatrix.mulVec, NumericalPoint.get]
  simp +decide only [gt_iff_lt, lt_self_iff_false, if_false, if_true, hdim, r5, h44,
    List.map_cons, List.map_nil, List.sum_cons, List.sum_nil, List.getD_cons_zero,
    List.getD_cons_succ, and_self, and_true, true_and, and_false, false_and, mul_zero, zero_add,
    add_zero, List.cons.injEq]
  refine ⟨by ring, by ring, by ring, by ring, by ring⟩

theorem sqp_scenarioA_solve (M : SymmetricMatrix ℝ) (hdim : M.dim = 5)
    (hM : ∀ y0 y1 y2 y3 y4 : ℝ, M.mulVec [y0, y1, y2, y3, y4]
      = [2 * y0 + y4, 2 * y1 + 2 * y4, 2 * y2 - 3 * y4, 2 * y3 + 4 * y4,
          y0 + 2 * y1 - 3 * y2 + 4 * y3])
    (solveLinearSystem : SymmetricMatrix ℝ → List ℝ → List ℝ)
    (hs : ExactSolver solveLinearSystem) (x0 x1 x2 x3 x4 : ℝ) :
    solveLinearSystem M [2 * x0 + x4, 2 * x1 + 2 * x4, 2 * x2 - 3 * x4, 2 * x3 + 4 * x4,
          x0 + 2 * x1 - 3 * x2 + 4 * x3] = [x0, x1, x2, x3, x4] := by
  apply hs
  · exact ⟨by simp [hdim], hM _ _ _ _ _⟩
  · rintro y ⟨hyl, hy⟩
    rw [hdim] at hyl
    match y, hyl with
    | [y0, y1, y2, y3, y4], _ =>
      rw [hM] at hy
      simp only [List.cons.injEq, and_true] at hy
      obtain ⟨e0, e1, e2, e3, e4⟩ := hy
      have h4 : y4 = x4 := by linarith
      have h0 : y0 = x0 := by linarith
      have h1 : y1 = x1 := by linarith
      have h2 : y2 = x2 := by linarith
      have h3 : y3 = x3 := by linarith
      rw [h0, h1, h2, h3, h4]


theorem sqp_scenarioA_computeDirection (solveLinearSystem : SymmetricMatrix ℝ → List ℝ → List ℝ)
    (hs : ExactSolver solveLinearSystem) (s : SQP ℝ)
    (u0 u1 u2 u3 c0 c1 c2 c3 c4 e0 e1 e2 e3 x0 x1 x2 x3 x4 : ℝ)
    (hp : s.currentPoint_ = [u0, u1, u2, u3])
    (hH : s.currentHessian_ = SymmetricMatrix.zero 4)
    (hg : s.currentGradient_ = [1, 2, -3, 4])
    (hdim : s.currentSystemMatrix_.dim = 5) (h44 : s.currentSystemMatrix_.data 4 4 = 0)
    (hb : s.currentSecondMember_ = [c0, c1, c2, c3, c4])
    (hd : s.currentDirection_ = [e0, e1, e2, e3])
    (hx0 : 2 * x0 + x4 = -u0) (hx1 : 2 * x1 + 2 * x4 = -u1) (hx2 : 2 * x2 - 3 * x4 = -u2)
    (hx3 : 2 * x3 + 4 * x4 = -u3)
    (hx4 : x0 + 2 * x1 - 3 * x2 + 4 * x3 = -s.currentLevelValue_ + s.problem.levelValue) :
    SQP.computeDirection solveLinearSystem s =
      { s with
        currentSystemMatrix_ := SQP.assembleSystemMatrix s
        currentSecondMember_ :=
          [-u0, -u1, -u2, -u3, -s.currentLevelValue_ + s.problem.levelValue]
        currentDirection_ := [x0, x1, x2, x3]
        currentLambda_ := x4 } := by
  have hl : s.currentPoint_.length = 4 := by rw [hp]; rfl
  have r4 : List.range 4 = [0, 1, 2, 3] := rfl
  have hM := sqp_scenarioA_mulVec s hl hH hg hdim h44
  have hsol := sqp_scenarioA_solve (SQP.assembleSystemMatrix s) (hM 0 0 0 0 0).1
    (fun y0 y1 y2 y3 y4 => (hM y0 y1 y2 y3 y4).2.2) solveLinearSystem hs x0 x1 x2 x3 x4
  rw [hx0, hx1, hx2, hx3, hx4] at hsol
  have hbv : SQP.assembleSecondMember { s with currentSystemMatrix_ := SQP.assembleSystemMatrix s }
      s.problem.levelValue
      = [-u0, -u1, -u2, -u3, -s.currentLevelValue_ + s.problem.levelValue] := by
    simp [SQP.assembleSecondMember, hp, hb, r4, NumericalPoint.get]
  unfold SQP.computeDirection
  simp only [hbv, hsol]
  simp [SQP.copyDirection, hp, hd, r4, NumericalPoint.get]

theorem sqp_scenarioA_first (solveLinearSystem : SymmetricMatrix ℝ → List ℝ → List ℝ)
    (hs : ExactSolver solveLinearSystem)
    (maxIter : Nat) (maxAbs maxRel maxRes maxCon : ℝ)
    (res : OptimizationResult ℝ) (tau omega smooth uninit : ℝ) (fuel : Nat)
    (ht0 : 0 < tau) (hto : tau * omega ≤ 29 / 30) (hf : 1 ≤ fuel) :
    ∃ M : SymmetricMatrix ℝ, M.dim = 5 ∧ M.data 4 4 = 0 ∧
    SQP.computeLineSearch Real.sqrt fuel
      (SQP.computeDirection solveLinearSystem (SQP.evalGradient
        (SQP.runInit (SQP.new
          (scenarioA.base maxIter maxAbs maxRel maxRes maxCon res) tau omega smooth
          uninit)).solver))
      = some (1,
        { SQP.evalGradient
            (SQP.runInit (SQP.new
              (scenarioA.base maxIter maxAbs maxRel maxRes maxCon res)
              tau omega smooth uninit)).solver with
          currentSystemMatrix_ := M
          currentSecondMember_ := [0, 0, 0, 0, 2]
          currentDirection_ := [1 / 15, 2 / 15, -(1 / 5), 4 / 15]
          currentLambda_ := -(2 / 15)
          currentSigma_ := 1
          oldPoint_ := [0, 0, 0, 0]
          oldLevelValue_ := 0
          currentPoint_ := [1 / 15, 2 / 15, -(1 / 5), 4 / 15]
          currentLevelValue_ := 2 }) := by
  obtain ⟨f, rfl⟩ : ∃ f, fuel = f + 1 := ⟨fuel - 1, by omega⟩
  have hc : ¬ (2 < 1 / 15 + tau * (omega * 2)) := by linarith
  have htt : tau / tau = 1 := div_self (ne_of_gt ht0)
  have hD := sqp_scenarioA_computeDirection solveLinearSystem hs
    (SQP.evalGradient (SQP.runInit (SQP.new
      (scenarioA.base maxIter maxAbs maxRel maxRes maxCon res) tau omega smooth uninit)).solver)
    0 0 0 0 0 0 0 0 0 0 0 0 0 (1 / 15) (2 / 15) (-(1 / 5)) (4 / 15) (-(2 / 15))
    rfl rfl rfl rfl rfl rfl rfl (by norm_num) (by norm_num) (by norm_num) (by norm_num)
    (by norm_num [SQP.evalGradient, SQP.runInit, SQP.new, SQP.initialise, scenarioA.base,
      scenarioA.problem, scenarioA.levelFunction, NumericalPoint.get])
  have hM := sqp_scenarioA_mulVec (SQP.evalGradient (SQP.runInit (SQP.new
      (scenarioA.base maxIter maxAbs maxRel maxRes maxCon res) tau omega smooth uninit)).solver)
    rfl rfl rfl rfl rfl 0 0 0 0 0
  refine ⟨_, hM.1, hM.2.1, ?_⟩
  rw [hD]
  simp only [SQP.computeLineSearch, SQP.evalGradient, SQP.runInit, SQP.new, SQP.initialise,
    scenarioA.base, scenarioA.problem, scenarioA.levelFunction, SQP.lineSearchLoop,
    NumericalPoint.norm, NumericalPoint.normSquare, dot, NumericalPoint.add, NumericalPoint.smul,
    NumericalPoint.sub, NumericalPoint.get, List.zipWith_cons_cons, List.zipWith_nil_right,
    List.zipWith_nil_left, List.map_cons, List.map_nil, List.sum_cons, List.sum_nil,
    List.getD_cons_zero, List.getD_cons_succ]
  norm_num [hc, htt]

theorem sqp_scenarioA_second (solveLinearSystem : SymmetricMatrix ℝ → List ℝ → List ℝ)
    (hs : ExactSolver solveLinearSystem) (s : SQP ℝ) (fuel : Nat)
    (c0 c1 c2 c3 c4 e0 e1 e2 e3 : ℝ)
    (hprob : s.problem = scenarioA.problem)
    (hp : s.currentPoint_ = [1 / 15, 2 / 15, -(1 / 5), 4 / 15])
    (hlv : s.currentLevelValue_ = 2)
    (hH : s.currentHessian_ = SymmetricMatrix.zero 4)
    (hdim : s.currentSystemMatrix_.dim = 5) (h44 : s.currentSystemMatrix_.data 4 4 = 0)
    (hb : s.currentSecondMember_ = [c0, c1, c2, c3, c4])
    (hd : s.currentDirection_ = [e0, e1, e2, e3])
    (hold : s.oldPoint_ = [0, 0, 0, 0])
    (ht0 : 0 < s.tau_) (hf : 1 ≤ fuel) :
    ∃ s1, SQP.computeLineSearch Real.sqrt fuel
        (SQP.computeDirection solveLinearSystem (SQP.evalGradient s)) = some (1, s1)
      ∧ s1.currentPoint_ = [1 / 15, 2 / 15, -(1 / 5), 4 / 15]
      ∧ s1.currentDirection_ = [0, 0, 0, 0]
      ∧ s1.toOptimizationSolverImplementation = s.toOptimizationSolverImplementation := by
  obtain ⟨f, rfl⟩ : ∃ f, fuel = f + 1 := ⟨fuel - 1, by omega⟩
  have htt : s.tau_ / s.tau_ = 1 := div_self (ne_of_gt ht0)
  have hg : (SQP.evalGradient s).currentGradient_ = [1, 2, -3, 4] := by
    simp [SQP.evalGradient, hprob, scenarioA.problem, scenarioA.levelFunction]
  have hD := sqp_scenarioA_computeDirection solveLinearSystem hs (SQP.evalGradient s)
    (1 / 15) (2 / 15) (-(1 / 5)) (4 / 15) c0 c1 c2 c3 c4 e0 e1 e2 e3 0 0 0 0 (-(1 / 15))
    hp hH hg hdim h44 hb hd (by norm_num) (by norm_num) (by norm_num) (by norm_num)
    (by
      show _ = -s.currentLevelValue_ + s.problem.levelValue
      rw [hlv, hprob]; norm_num [scenarioA.problem])
  rw [hD]
  simp only [SQP.computeLineSearch, SQP.evalGradient, hprob, hp, hlv, hold, scenarioA.problem,
    scenarioA.levelFunction, SQP.lineSearchLoop, NumericalPoint.norm, NumericalPoint.normSquare,
    dot, NumericalPoint.add, NumericalPoint.smul, NumericalPoint.sub, NumericalPoint.get,
    List.zipWith_cons_cons, List.zipWith_nil_right, List.zipWith_nil_left, List.map_cons,
    List.map_nil, List.sum_cons, List.sum_nil, List.getD_cons_zero, List.getD_cons_succ]
  norm_num [htt]

theorem sqp_scenarioA_converged (s : SQP ℝ) (n : Nat)
    (hd : s.currentDirection_ = [0, 0, 0, 0])
    (habs : 0 < s.maximumAbsoluteError) (hrel : 0 < s.maximumRelativeError) :
    (SQP.updateErrors Real.sqrt 1 s n).convergence = true := by
  have hrel1 : (-1 : ℝ) < s.maximumRelativeError := by linarith
  simp only [SQP.updateErrors, hd, NumericalPoint.norm, NumericalPoint.normSquare, dot,
    List.zipWith_cons_cons, List.zipWith_nil_right, List.sum_cons, List.sum_nil]
  norm_num
  left
  refine ⟨habs, ?_⟩
  split
  · exact hrel
  · exact hrel1

theorem sqp_scenarioA_run (solveLinearSystem : SymmetricMatrix ℝ → List ℝ → List ℝ)
    (hs : ExactSolver solveLinearSystem)
    (maxIter : Nat) (maxAbs maxRel maxRes maxCon : ℝ)
    (res : OptimizationResult ℝ) (tau omega smooth uninit : ℝ) (fuel : Nat)
    (ht0 : 0 < tau) (hto : tau * omega ≤ 29 / 30) (hf : 1 ≤ fuel)
    (habs : 0 < maxAbs) (hrel : 0 < maxRel) (hmax : 1 ≤ maxIter) :
    ∃ r, SQP.run Real.sqrt solveLinearSystem fuel (SQP.new
          (scenarioA.base maxIter maxAbs maxRel maxRes maxCon res) tau omega smooth uninit)
        = some r
      ∧ r.convergence = true ∧ r.thrown = none
      ∧ (r.iterationNumber = 1 ∨ r.iterationNumber = 2)
      ∧ r.solver.currentPoint_ = [1 / 15, 2 / 15, -(1 / 5), 4 / 15]
      ∧ r.solver.result.optimalPoint = [1 / 15, 2 / 15, -(1 / 5), 4 / 15] := by
  obtain ⟨M, hdim, h44, hls⟩ := sqp_scenarioA_first solveLinearSystem hs maxIter maxAbs maxRel
    maxRes maxCon res tau omega smooth uninit fuel ht0 hto hf
  have hg : NumericalPoint.normSquare
      ((SQP.runInit (SQP.new
          (scenarioA.base maxIter maxAbs maxRel maxRes maxCon res) tau omega smooth
          uninit)).solver.problem.levelFunction.gradient
        (SQP.runInit (SQP.new
          (scenarioA.base maxIter maxAbs maxRel maxRes maxCon res) tau omega smooth
          uninit)).solver.currentPoint_) ≠ 0 := by
    simp [SQP.runInit, SQP.new, SQP.initialise, scenarioA.base, scenarioA.problem,
      scenarioA.levelFunction, NumericalPoint.normSquare, dot]
    norm_num
  have hit := sqp_iteration_of_lineSearch Real.sqrt solveLinearSystem fuel _ _ _ hg hls
  have hcond : (SQP.runInit (SQP.new
          (scenarioA.base maxIter maxAbs maxRel maxRes maxCon res) tau omega smooth
          uninit)).thrown = none
      ∧ (!(SQP.runInit (SQP.new
          (scenarioA.base maxIter maxAbs maxRel maxRes maxCon res) tau omega smooth
          uninit)).convergence) = true
      ∧ (SQP.runInit (SQP.new
          (scenarioA.base maxIter maxAbs maxRel maxRes maxCon res) tau omega smooth
          uninit)).iterationNumber
        ≤ (SQP.runInit (SQP.new
          (scenarioA.base maxIter maxAbs maxRel maxRes maxCon res) tau omega smooth
          uninit)).solver.maximumIterationsNumber :=
    ⟨rfl, rfl, Nat.zero_le _⟩
  unfold SQP.run
  rw [sqp_runLoop_unfold, if_pos hcond, hit]
  show ∃ r, SQP.runLoop Real.sqrt solveLinearSystem fuel _ = some r ∧ _
  generalize hR1 : SQP.updateErrors Real.sqrt 1 _ _ = R1
  have hR1s : R1.solver.currentPoint_ = [1 / 15, 2 / 15, -(1 / 5), 4 / 15] := by
    rw [← hR1]; rfl
  have hR1t : R1.thrown = none := by rw [← hR1]; rfl
  have hR1n : R1.iterationNumber = 1 := by rw [← hR1]; rfl
  have hR1o : R1.solver.result.optimalPoint = [1 / 15, 2 / 15, -(1 / 5), 4 / 15] := by
    rw [← hR1]; rfl
  by_cases hc : R1.convergence = true
  · refine ⟨R1, ?_, hc, hR1t, Or.inl hR1n, hR1s, hR1o⟩
    rw [sqp_runLoop_unfold, if_neg]
    intro h
    have h2 := h.2.1
    rw [hc] at h2
    exact absurd h2 (by simp)
  · have hcond1 : R1.thrown = none ∧ (!R1.convergence) = true
        ∧ R1.iterationNumber ≤ R1.solver.maximumIterationsNumber := by
      refine ⟨hR1t, by simpa using hc, ?_⟩
      rw [hR1n, ← hR1]
      exact hmax
    obtain ⟨s2, hls2, hs2p, hs2d, hs2b⟩ := sqp_scenarioA_second solveLinearSystem hs R1.solver fuel
      0 0 0 0 2 (1 / 15) (2 / 15) (-(1 / 5)) (4 / 15)
      (by rw [← hR1]; rfl) hR1s (by rw [← hR1]; rfl) (by rw [← hR1]; rfl)
      (by rw [← hR1]; exact hdim) (by rw [← hR1]; exact h44) (by rw [← hR1]; rfl)
      (by rw [← hR1]; rfl) (by rw [← hR1]; rfl) (by rw [← hR1]; exact ht0) hf
    have hg2 : NumericalPoint.normSquare
        (R1.solver.problem.levelFunction.gradient R1.solver.currentPoint_) ≠ 0 := by
      rw [← hR1]
      simp [SQP.updateErrors, SQP.evalGradient, SQP.runInit, SQP.new, SQP.initialise,
        scenarioA.base, scenarioA.problem, scenarioA.levelFunction, NumericalPoint.normSquare,
        dot]
      norm_num
    have hit2 := sqp_iteration_of_lineSearch Real.sqrt solveLinearSystem fuel R1 1 s2 hg2 hls2
    have hconv2 : (SQP.updateErrors Real.sqrt 1 s2 (R1.iterationNumber + 1)).convergence = true := by
      apply sqp_scenarioA_converged _ _ hs2d
      · have : s2.maximumAbsoluteError = R1.solver.maximumAbsoluteError := by
          show s2.toOptimizationSolverImplementation.maximumAbsoluteError = _
          rw [hs2b]
        rw [this, ← hR1]; exact habs
      · have : s2.maximumRelativeError = R1.solver.maximumRelativeError := by
          show s2.toOptimizationSolverImplementation.maximumRelativeError = _
          rw [hs2b]
        rw [this, ← hR1]; exact hrel
    refine ⟨SQP.updateErrors Real.sqrt 1 s2 (R1.iterationNumber + 1), ?_, hconv2, rfl,
      Or.inr (by show R1.iterationNumber + 1 = 2; rw [hR1n]), hs2p, hs2p⟩
    rw [sqp_runLoop_unfold, if_pos hcond1, hit2]
    show SQP.runLoop Real.sqrt solveLinearSystem fuel _ = _
    rw [sqp_runLoop_unfold, if_neg]
    intro h
    have h2 := h.2.1
    rw [hconv2] at h2
    exact absurd h2 (by simp)

theorem abdoRackwitz_scenarioOrigin_iteration :
    ∃ r1, AbdoRackwitz.iteration Real.sqrt 10
        (AbdoRackwitz.runInit (scenarioOrigin.abdoRackwitz))
        = some r1
      ∧ r1.thrown = none ∧ r1.solver.currentPoint_ = [0]
      ∧ r1.absoluteError = 1 ∧ r1.relativeError = -1
      ∧ r1.residualError = 0 ∧ r1.constraintError = 0
      ∧ r1.convergence = true
      ∧ r1.solver.maximumAbsoluteError = 2 ∧ r1.solver.maximumRelativeError = 1 / 2
      ∧ r1.solver.maximumResidualError = 0 ∧ r1.solver.maximumConstraintError = 0 := by
  have hg : NumericalPoint.normSquare
      ((AbdoRackwitz.runInit (scenarioOrigin.abdoRackwitz (K := ℝ))).solver.problem.levelFunction.gradient
        (AbdoRackwitz.runInit (scenarioOrigin.abdoRackwitz)).solver.currentPoint_) ≠ 0 := by
    simp [AbdoRackwitz.runInit, AbdoRackwitz.new, AbdoRackwitz.initialise, scenarioOrigin.base,
      scenarioOrigin.abdoRackwitz, scenarioOrigin.sqp, scenarioOrigin.problem,
      scenarioOrigin.levelFunction, NumericalPoint.normSquare, dot]
  have hmax : max (1 : ℝ) (6 / 5) = 6 / 5 := max_eq_right (by norm_num)
  have hls : AbdoRackwitz.computeLineSearch Real.sqrt 10
      (AbdoRackwitz.computeDirection (AbdoRackwitz.evalGradient
        (AbdoRackwitz.runInit (scenarioOrigin.abdoRackwitz (K := ℝ))).solver))
      = some (1,
        { AbdoRackwitz.computeDirection (AbdoRackwitz.evalGradient
            (AbdoRackwitz.runInit (scenarioOrigin.abdoRackwitz (K := ℝ))).solver) with
          currentSigma_ := 6 / 5
          oldPoint_ := [1]
          oldLevelValue_ := 1
          currentPoint_ := [0]
          currentLevelValue_ := 0 }) := by
    simp only [AbdoRackwitz.computeLineSearch, AbdoRackwitz.computeDirection,
      AbdoRackwitz.evalGradient, AbdoRackwitz.runInit, AbdoRackwitz.new, AbdoRackwitz.initialise,
      scenarioOrigin.base, scenarioOrigin.abdoRackwitz, scenarioOrigin.sqp,
      scenarioOrigin.problem, scenarioOrigin.levelFunction, AbdoRackwitz.lineSearchLoop,
      NumericalPoint.norm, NumericalPoint.normSquare, dot, NumericalPoint.add,
      NumericalPoint.smul, NumericalPoint.sub, NumericalPoint.get, List.zipWith_cons_cons,
      List.zipWith_nil_right, List.zipWith_nil_left, List.map_cons, List.map_nil, List.sum_cons,
      List.sum_nil, List.getD_cons_zero, List.getD_cons_succ]
    norm_num [hmax]
  refine ⟨_, abdoRackwitz_iteration_of_lineSearch Real.sqrt 10 _ _ _ hg hls, rfl, rfl,
    ?_, ?_, ?_, ?_, ?_, rfl, rfl, rfl, rfl⟩
  all_goals
    simp only [AbdoRackwitz.updateErrors, AbdoRackwitz.computeDirection,
      AbdoRackwitz.evalGradient, AbdoRackwitz.runInit, AbdoRackwitz.new, AbdoRackwitz.initialise,
      scenarioOrigin.base, scenarioOrigin.abdoRackwitz, scenarioOrigin.sqp,
      scenarioOrigin.problem, scenarioOrigin.levelFunction, NumericalPoint.norm,
      NumericalPoint.normSquare, dot, NumericalPoint.add, NumericalPoint.smul, NumericalPoint.sub,
      NumericalPoint.get, List.zipWith_cons_cons, List.zipWith_nil_right, List.zipWith_nil_left,
      List.map_cons, List.map_nil, List.sum_cons, List.sum_nil, List.getD_cons_zero,
      List.getD_cons_succ]
    norm_num

theorem sqp_scenarioOrigin_iteration
    (solveLinearSystem : SymmetricMatrix ℝ → List ℝ → List ℝ)
    (hs : ExactSolver solveLinearSystem) :
    ∃ r1, SQP.iteration Real.sqrt solveLinearSystem 10
        (SQP.runInit (scenarioOrigin.sqp))
        = some r1
      ∧ r1.thrown = none ∧ r1.solver.currentPoint_ = [0]
      ∧ r1.absoluteError = 1 ∧ r1.relativeError = -1
      ∧ r1.residualError = 1 ∧ r1.constraintError = 0
      ∧ r1.convergence = true
      ∧ r1.solver.maximumAbsoluteError = 2 ∧ r1.solver.maximumRelativeError = 1 / 2
      ∧ r1.solver.maximumResidualError = 0 ∧ r1.solver.maximumConstraintError = 0 := by
  have hg : NumericalPoint.normSquare
      ((SQP.runInit (scenarioOrigin.sqp (K := ℝ))).solver.problem.levelFunction.gradient
        (SQP.runInit (scenarioOrigin.sqp)).solver.currentPoint_) ≠ 0 := by
    simp [SQP.runInit, SQP.new, SQP.initialise, scenarioOrigin.base, scenarioOrigin.abdoRackwitz,
      scenarioOrigin.sqp, scenarioOrigin.problem, scenarioOrigin.levelFunction,
      NumericalPoint.normSquare, dot]
  have hmax : max (1 : ℝ) (6 / 5) = 6 / 5 := max_eq_right (by norm_num)
  have r1 : List.range 1 = [0] := rfl
  have r2 : List.range 2 = [0, 1] := rfl
  have hM : ∀ y0 y1 : ℝ, (SQP.assembleSystemMatrix (SQP.evalGradient
      (SQP.runInit (scenarioOrigin.sqp (K := ℝ))).solver)).mulVec
        [y0, y1] = [2 * y0 + y1, y0] := by
    intro y0 y1
    simp only [SQP.assembleSystemMatrix, SQP.evalGradient, SQP.runInit, SQP.new, SQP.initialise,
      scenarioOrigin.base, scenarioOrigin.abdoRackwitz, scenarioOrigin.sqp,
      scenarioOrigin.problem, scenarioOrigin.levelFunction, List.length_cons, List.length_nil, r1,
      r2, List.foldl_cons, List.foldl_nil, zero_add, Nat.reduceAdd, SymmetricMatrix.set,
      SymmetricMatrix.get, SymmetricMatrix.zero, SymmetricMatrix.mulVec, NumericalPoint.get]
    simp +decide only [gt_iff_lt, lt_self_iff_false, if_false, if_true, r2, List.map_cons,
      List.map_nil, List.sum_cons, List.sum_nil, List.getD_cons_zero, List.getD_cons_succ,
      and_self, and_true, true_and, and_false, false_and, mul_zero, zero_add, add_zero,
      List.cons.injEq]
    refine ⟨by ring, by ring⟩
  have hsol : solveLinearSystem (SQP.assembleSystemMatrix (SQP.evalGradient
      (SQP.runInit (scenarioOrigin.sqp (K := ℝ))).solver))
      [-1, -1] = [-1, 1] := by
    apply hs
    · refine ⟨rfl, ?_⟩
      rw [hM]; norm_num
    · rintro y ⟨hyl, hy⟩
      have hyl2 : y.length = 2 := hyl
      match y, hyl2 with
      | [y0, y1], _ =>
        rw [hM] at hy
        simp only [List.cons.injEq, and_true] at hy
        obtain ⟨e0, e1⟩ := hy
        have h0 : y0 = -1 := e1
        have h1 : y1 = 1 := by linarith
        rw [h0, h1]
  have hb : SQP.assembleSecondMember
      { SQP.evalGradient (SQP.runInit (scenarioOrigin.sqp (K := ℝ))).solver with
        currentSystemMatrix_ := SQP.assembleSystemMatrix (SQP.evalGradient
          (SQP.runInit (scenarioOrigin.sqp (K := ℝ))).solver) }
      (0 : ℝ) = [-1, -1] := by
    simp [SQP.assembleSecondMember, SQP.evalGradient, SQP.runInit, SQP.new, SQP.initialise,
      scenarioOrigin.base, scenarioOrigin.abdoRackwitz, scenarioOrigin.sqp,
      scenarioOrigin.problem, scenarioOrigin.levelFunction, r1, NumericalPoint.get,
      NumericalPoint.zero, List.replicate]
  have hD : SQP.computeDirection solveLinearSystem (SQP.evalGradient
      (SQP.runInit (scenarioOrigin.sqp (K := ℝ))).solver)
      = { SQP.evalGradient (SQP.runInit (scenarioOrigin.sqp (K := ℝ))).solver with
          currentSystemMatrix_ := SQP.assembleSystemMatrix (SQP.evalGradient
            (SQP.runInit (scenarioOrigin.sqp (K := ℝ))).solver)
          currentSecondMember_ := [-1, -1]
          currentDirection_ := [-1]
          currentLambda_ := 1 } := by
    unfold SQP.computeDirection
    have hlv : (SQP.evalGradient
        (SQP.runInit (scenarioOrigin.sqp (K := ℝ))).solver).problem.levelValue = 0 := rfl
    simp only [hlv, hb, hsol]
    simp [SQP.copyDirection, SQP.evalGradient, SQP.runInit, SQP.new, SQP.initialise,
      scenarioOrigin.base, scenarioOrigin.abdoRackwitz, scenarioOrigin.sqp, r1,
      NumericalPoint.get, NumericalPoint.zero, List.replicate]
  have hls : SQP.computeLineSearch Real.sqrt 10
      (SQP.computeDirection solveLinearSystem (SQP.evalGradient
        (SQP.runInit (scenarioOrigin.sqp (K := ℝ))).solver))
      = some (1,
        { SQP.evalGradient (SQP.runInit (scenarioOrigin.sqp (K := ℝ))).solver with
          currentSystemMatrix_ := SQP.assembleSystemMatrix (SQP.evalGradient
            (SQP.runInit (scenarioOrigin.sqp (K := ℝ))).solver)
          currentSecondMember_ := [-1, -1]
          currentDirection_ := [-1]
          currentLambda_ := 1
          currentSigma_ := 6 / 5
          oldPoint_ := [1]
          oldLevelValue_ := 1
          currentPoint_ := [0]
          currentLevelValue_ := 0 }) := by
    rw [hD]
    simp only [SQP.computeLineSearch, SQP.evalGradient, SQP.runInit, SQP.new, SQP.initialise,
      scenarioOrigin.base, scenarioOrigin.abdoRackwitz, scenarioOrigin.sqp,
      scenarioOrigin.problem, scenarioOrigin.levelFunction, SQP.lineSearchLoop,
      NumericalPoint.norm, NumericalPoint.normSquare, dot, NumericalPoint.add,
      NumericalPoint.smul, NumericalPoint.sub, NumericalPoint.get, List.zipWith_cons_cons,
      List.zipWith_nil_right, List.zipWith_nil_left, List.map_cons, List.map_nil, List.sum_cons,
      List.sum_nil, List.getD_cons_zero, List.getD_cons_succ]
    norm_num [hmax]
  refine ⟨_, sqp_iteration_of_lineSearch Real.sqrt solveLinearSystem 10 _ _ _ hg hls, rfl, rfl,
    ?_, ?_, ?_, ?_, ?_, rfl, rfl, rfl, rfl⟩
  all_goals
    simp only [SQP.updateErrors, SQP.evalGradient, SQP.runInit, SQP.new, SQP.initialise,
      scenarioOrigin.base, scenarioOrigin.abdoRackwitz, scenarioOrigin.sqp,
      scenarioOrigin.problem, scenarioOrigin.levelFunction, NumericalPoint.norm,
      NumericalPoint.normSquare, dot, NumericalPoint.add, NumericalPoint.smul, NumericalPoint.sub,
      NumericalPoint.get, List.zipWith_cons_cons, List.zipWith_nil_right, List.zipWith_nil_left,
      List.map_cons, List.map_nil, List.sum_cons, List.sum_nil, List.getD_cons_zero,
      List.getD_cons_succ]
    norm_num

theorem abdoRackwitz_scenarioA_iteration :
    ∃ r1, AbdoRackwitz.iteration Real.sqrt 10 (AbdoRackwitz.runInit scenarioA.abdoRackwitz)
        = some r1 ∧ r1.thrown = none := by
  have hg : NumericalPoint.normSquare
      ((AbdoRackwitz.runInit (scenarioA.abdoRackwitz (K := ℝ))).solver.problem.levelFunction.gradient
        (AbdoRackwitz.runInit scenarioA.abdoRackwitz).solver.currentPoint_) ≠ 0 := by
    simp [AbdoRackwitz.runInit, scenarioA.abdoRackwitz, AbdoRackwitz.new, AbdoRackwitz.initialise,
      scenarioA.base, scenarioA.problem, scenarioA.levelFunction, NumericalPoint.normSquare, dot]
    norm_num
  have hls := abdoRackwitz_scenarioA_lineSearch 100 (1 / 100000) (1 / 100000) (1 / 100000)
    (1 / 100000) (OptimizationResult.new [] 0 0 0 0 0 0) (1 / 2) (1 / 10000) (6 / 5) 0 10
    (by norm_num) (by norm_num) (by norm_num)
  exact ⟨_, abdoRackwitz_iteration_of_lineSearch Real.sqrt 10 _ _ _ hg hls, rfl⟩

theorem sqp_scenarioA_iteration (solveLinearSystem : SymmetricMatrix ℝ → List ℝ → List ℝ)
    (hs : ExactSolver solveLinearSystem) :
    ∃ r1, SQP.iteration Real.sqrt solveLinearSystem 10 (SQP.runInit scenarioA.sqp)
        = some r1 ∧ r1.thrown = none := by
  have hg : NumericalPoint.normSquare
      ((SQP.runInit (scenarioA.sqp (K := ℝ))).solver.problem.levelFunction.gradient
        (SQP.runInit scenarioA.sqp).solver.currentPoint_) ≠ 0 := by
    simp [SQP.runInit, scenarioA.sqp, SQP.new, SQP.initialise, scenarioA.base, scenarioA.problem,
      scenarioA.levelFunction, NumericalPoint.normSquare, dot]
    norm_num
  obtain ⟨M, -, -, hls⟩ := sqp_scenarioA_first solveLinearSystem hs 100 (1 / 100000)
    (1 / 100000) (1 / 100000) (1 / 100000) (OptimizationResult.new [] 0 0 0 0 0 0) (1 / 2)
    (1 / 10000) (6 / 5) 0 10 (by norm_num) (by norm_num) (by norm_num)
  exact ⟨_, sqp_iteration_of_lineSearch Real.sqrt solveLinearSystem 10 _ _ _ hg hls, rfl⟩

end ScenarioFacts

section Solver

variable {K : Type} [LinearOrderedField K]

open Classical in
/-- Exact solvers exist: pick the solution whenever there is exactly one. -/
theorem exactSolver_exists :
    ∃ solveLinearSystem : SymmetricMatrix K → List K → List K, ExactSolver solveLinearSystem := by
  refine ⟨fun M b =>
    if h : ∃ x, IsSolution M b x ∧ ∀ y, IsSolution M b y → y = x then h.choose else [], ?_⟩
  intro M b x hx huniq
  have h : ∃ x, IsSolution M b x ∧ ∀ y, IsSolution M b y → y = x := ⟨x, hx, huniq⟩
  simp only [dif_pos h]
  exact huniq _ h.choose_spec.1

end Solver


/-! ### The line search of `AbdoRackwitz` at its exit -/

section AbdoRackwitzLineSearch

variable {K : Type} [LinearOrderedField K]

/-- What the backtracking loop of `AbdoRackwitz::computeLineSearch` returns, whatever the fuel and
the entry step: the trial point was evaluated at a step `a`, the variable `step` holds
`a * tau_`, and the loop condition, evaluated with that `step`, is false. -/
theorem abdoRackwitz_lineSearchLoop_exit (s : AbdoRackwitz K) (levelValue currentSigma
    currentTheta minStep levelIncrement : K) (fuel : Nat) :
    ∀ (step : K) (r : LineSearchStep K),
      AbdoRackwitz.lineSearchLoop s levelValue currentSigma currentTheta minStep levelIncrement
        fuel step = some r →
      ∃ a : K, r.step = a * s.tau_
        ∧ r.currentStepPoint
          = NumericalPoint.add s.currentPoint_ (NumericalPoint.smul a s.currentDirection_)
        ∧ r.currentStepLevelValue = s.problem.levelFunction.eval r.currentStepPoint
        ∧ r.currentStepTheta = (1 / 2) * NumericalPoint.normSquare r.currentStepPoint
            + currentSigma * |r.currentStepLevelValue - levelValue|
        ∧ ¬ (r.step ≥ minStep ∧ r.currentStepTheta > currentTheta + r.step * levelIncrement) := by
  induction fuel with
  | zero => intro step r h; simp [AbdoRackwitz.lineSearchLoop] at h
  | succ n ih =>
    intro step r h
    rw [AbdoRackwitz.lineSearchLoop] at h
    split at h
    · exact ih _ r h
    · rename_i hc
      simp only [Option.some.injEq] at h
      subst h
      exact ⟨step, rfl, rfl, rfl, rfl, hc⟩

/-- What `AbdoRackwitz::computeLineSearch` returns, in terms of its local quantities: the returned
value is `step / tau_` for the last trial step `a`, the loop condition fails at `a`, and the
new current point is the trial point or the interpolated point. -/
theorem abdoRackwitz_computeLineSearch_exit (sqrt : K → K) (fuel : Nat) (s s1 : AbdoRackwitz K)
    (alpha : K) (h : AbdoRackwitz.computeLineSearch sqrt fuel s = some (alpha, s1)) :
    ∃ a : K, alpha = a * s.tau_ / s.tau_
      ∧ ¬ (a * s.tau_ ≥ s.tau_ ^ 9
          ∧ AbdoRackwitz.theta s (AbdoRackwitz.sigmaUpdate sqrt s)
              (NumericalPoint.add s.currentPoint_ (NumericalPoint.smul a s.currentDirection_))
            > AbdoRackwitz.currentTheta sqrt s
              + a * s.tau_ * AbdoRackwitz.levelIncrement sqrt s)
      ∧ s1.currentPoint_
        = (if AbdoRackwitz.interpolates sqrt s
              (NumericalPoint.add s.currentPoint_ (NumericalPoint.smul a s.currentDirection_))
            then AbdoRackwitz.interpolatedPoint sqrt s
            else NumericalPoint.add s.currentPoint_
              (NumericalPoint.smul a s.currentDirection_))
      ∧ s1.currentLevelValue_ = s.problem.levelFunction.eval s1.currentPoint_ := by
  unfold AbdoRackwitz.computeLineSearch at h
  simp only [] at h
  split at h
  · exact absurd h (by simp)
  · rename_i r hr
    obtain ⟨a, hstep, hpt, hlv, hth, hex⟩ :=
      abdoRackwitz_lineSearchLoop_exit s _ _ _ _ _ fuel 1 r hr
    simp only [Option.some.injEq, Prod.mk.injEq] at h
    obtain ⟨ha, hs⟩ := h
    subst hs
    refine ⟨a, by rw [← ha, hstep], ?_, ?_, ?_⟩
    · rw [hstep, hth, hlv, hpt] at hex
      exact hex
    · simp only [AbdoRackwitz.interpolates, AbdoRackwitz.compareA, AbdoRackwitz.compareB,
        AbdoRackwitz.interpolatedPoint, AbdoRackwitz.StepBeta, ← hpt]
      by_cases hb : NumericalPoint.norm sqrt s.oldPoint_ = 0
      · simp [hb]
      · simp only [ne_eq, hb, not_false_eq_true, if_true, true_and]
        split <;> rfl
    · simp only [ne_eq]
      by_cases hb : NumericalPoint.norm sqrt s.oldPoint_ = 0
      · simp [hb, hlv]
      · simp only [hb, not_false_eq_true, if_true]
        split
        · rfl
        · exact hlv

/-- The decrease enforced by the backtracking loop of `AbdoRackwitz::computeLineSearch`: when the
call returns `alpha` while the shrunk step `tau_ * alpha` is still at least `minStep`, and no
interpolation is applied, the penalised objective at the new point is at most `currentTheta`
plus `tau_ * alpha * levelIncrement`. -/
theorem abdoRackwitz_merit_decrease (sqrt : K → K) (fuel : Nat) (s s1 : AbdoRackwitz K) (alpha : K)
    (ht : s.tau_ ≠ 0) (h : AbdoRackwitz.computeLineSearch sqrt fuel s = some (alpha, s1))
    (hfloor : s.tau_ * alpha ≥ s.tau_ ^ 9)
    (hno : ¬ AbdoRackwitz.interpolates sqrt s
      (NumericalPoint.add s.currentPoint_ (NumericalPoint.smul alpha s.currentDirection_))) :
    s1.currentPoint_
        = NumericalPoint.add s.currentPoint_ (NumericalPoint.smul alpha s.currentDirection_)
      ∧ s1.currentSigma_ = AbdoRackwitz.sigmaUpdate sqrt s
      ∧ AbdoRackwitz.theta s s1.currentSigma_ s1.currentPoint_
          ≤ AbdoRackwitz.currentTheta sqrt s + s.tau_ * alpha * AbdoRackwitz.levelIncrement sqrt s
      ∧ (s.currentLevelValue_ = s.problem.levelFunction.eval s.currentPoint_ →
          AbdoRackwitz.theta s s1.currentSigma_ s1.currentPoint_
            ≤ AbdoRackwitz.theta s s1.currentSigma_ s.currentPoint_
              + s.tau_ * alpha * AbdoRackwitz.levelIncrement sqrt s) := by
  obtain ⟨a, ha, hex, hp, -⟩ := abdoRackwitz_computeLineSearch_exit sqrt fuel s s1 alpha h
  have haa : alpha = a := by rw [ha]; field_simp
  subst haa
  rw [if_neg hno] at hp
  have hsig : s1.currentSigma_ = AbdoRackwitz.sigmaUpdate sqrt s :=
    (abdoRackwitz_computeLineSearch_frame sqrt fuel s s1 alpha h).2.2.2.2.2.2.2.2.2
  have hfl : alpha * s.tau_ ≥ s.tau_ ^ 9 := by rw [mul_comm]; exact hfloor
  have hle : AbdoRackwitz.theta s s1.currentSigma_ s1.currentPoint_
      ≤ AbdoRackwitz.currentTheta sqrt s + s.tau_ * alpha * AbdoRackwitz.levelIncrement sqrt s := by
    rw [hsig, hp, mul_comm s.tau_ alpha]
    exact not_lt.mp (fun hgt => hex ⟨hfl, hgt⟩)
  refine ⟨hp, hsig, hle, ?_⟩
  intro hlv
  have hct : AbdoRackwitz.currentTheta sqrt s
      = AbdoRackwitz.theta s s1.currentSigma_ s.currentPoint_ := by
    rw [hsig]
    unfold AbdoRackwitz.currentTheta AbdoRackwitz.theta
    rw [hlv]
  rw [← hct]
  exact hle

end AbdoRackwitzLineSearch

/-! ### The line search of `SQP` at its exit -/

section SQPLineSearch

variable {K : Type} [LinearOrderedField K]

/-- What the backtracking loop of `SQP::computeLineSearch` returns, whatever the fuel and
the entry step: the trial point was evaluated at a step `a`, the variable `step` holds
`a * tau_`, and the loop condition, evaluated with that `step`, is false. -/
theorem sqp_lineSearchLoop_exit (s : SQP K) (levelValue currentSigma
    currentTheta minStep levelIncrement : K) (fuel : Nat) :
    ∀ (step : K) (r : LineSearchStep K),
      SQP.lineSearchLoop s levelValue currentSigma currentTheta minStep levelIncrement
        fuel step = some r →
      ∃ a : K, r.step = a * s.tau_
        ∧ r.currentStepPoint
          = NumericalPoint.add s.currentPoint_ (NumericalPoint.smul a s.currentDirection_)
        ∧ r.currentStepLevelValue = s.problem.levelFunction.eval r.currentStepPoint
        ∧ r.currentStepTheta = (1 / 2) * NumericalPoint.normSquare r.currentStepPoint
            + currentSigma * |r.currentStepLevelValue - levelValue|
        ∧ ¬ (r.step ≥ minStep ∧ r.currentStepTheta > currentTheta + r.step * levelIncrement) := by
  induction fuel with
  | zero => intro step r h; simp [SQP.lineSearchLoop] at h
  | succ n ih =>
    intro step r h
    rw [SQP.lineSearchLoop] at h
    split at h
    · exact ih _ r h
    · rename_i hc
      simp only [Option.some.injEq] at h
      subst h
      exact ⟨step, rfl, rfl, rfl, rfl, hc⟩

/-- What `SQP::computeLineSearch` returns, in terms of its local quantities: the returned
value is `step / tau_` for the last trial step `a`, the loop condition fails at `a`, and the
new current point is the trial point or the interpolated point. -/
theorem sqp_computeLineSearch_exit (sqrt : K → K) (fuel : Nat) (s s1 : SQP K)
    (alpha : K) (h : SQP.computeLineSearch sqrt fuel s = some (alpha, s1)) :
    ∃ a : K, alpha = a * s.tau_ / s.tau_
      ∧ ¬ (a * s.tau_ ≥ s.tau_ ^ 9
          ∧ SQP.theta s (SQP.sigmaUpdate sqrt s)
              (NumericalPoint.add s.currentPoint_ (NumericalPoint.smul a s.currentDirection_))
            > SQP.currentTheta sqrt s
              + a * s.tau_ * SQP.levelIncrement sqrt s)
      ∧ s1.currentPoint_
        = (if SQP.interpolates sqrt s
              (NumericalPoint.add s.currentPoint_ (NumericalPoint.smul a s.currentDirection_))
            then SQP.interpolatedPoint sqrt s
            else NumericalPoint.add s.currentPoint_
              (NumericalPoint.smul a s.currentDirection_))
      ∧ s1.currentLevelValue_ = s.problem.levelFunction.eval s1.currentPoint_ := by
  unfold SQP.computeLineSearch at h
  simp only [] at h
  split at h
  · exact absurd h (by simp)
  · rename_i r hr
    obtain ⟨a, hstep, hpt, hlv, hth, hex⟩ :=
      sqp_lineSearchLoop_exit s _ _ _ _ _ fuel 1 r hr
    simp only [Option.some.injEq, Prod.mk.injEq] at h
    obtain ⟨ha, hs⟩ := h
    subst hs
    refine ⟨a, by rw [← ha, hstep], ?_, ?_, ?_⟩
    · rw [hstep, hth, hlv, hpt] at hex
      exact hex
    · simp only [SQP.interpolates, SQP.compareA, SQP.compareB,
        SQP.interpolatedPoint, SQP.StepBeta, ← hpt]
      by_cases hb : NumericalPoint.norm sqrt s.oldPoint_ = 0
      · simp [hb]
      · simp only [ne_eq, hb, not_false_eq_true, if_true, true_and]
        split <;> rfl
    · simp only [ne_eq]
      by_cases hb : NumericalPoint.norm sqrt s.oldPoint_ = 0
      · simp [hb, hlv]
      · simp only [hb, not_false_eq_true, if_true]
        split
        · rfl
        · exact hlv

/-- The decrease enforced by the backtracking loop of `SQP::computeLineSearch`: when the
call returns `alpha` while the shrunk step `tau_ * alpha` is still at least `minStep`, and no
interpolation is applied, the penalised objective at the new point is at most `currentTheta`
plus `tau_ * alpha * levelIncrement`. -/
theorem sqp_merit_decrease (sqrt : K → K) (fuel : Nat) (s s1 : SQP K) (alpha : K)
    (ht : s.tau_ ≠ 0) (h : SQP.computeLineSearch sqrt fuel s = some (alpha, s1))
    (hfloor : s.tau_ * alpha ≥ s.tau_ ^ 9)
    (hno : ¬ SQP.interpolates sqrt s
      (NumericalPoint.add s.currentPoint_ (NumericalPoint.smul alpha s.currentDirection_))) :
    s1.currentPoint_
        = NumericalPoint.add s.currentPoint_ (NumericalPoint.smul alpha s.currentDirection_)
      ∧ s1.currentSigma_ = SQP.sigmaUpdate sqrt s
      ∧ SQP.theta s s1.currentSigma_ s1.currentPoint_
          ≤ SQP.currentTheta sqrt s + s.tau_ * alpha * SQP.levelIncrement sqrt s
      ∧ (s.currentLevelValue_ = s.problem.levelFunction.eval s.currentPoint_ →
          SQP.theta s s1.currentSigma_ s1.currentPoint_
            ≤ SQP.theta s s1.currentSigma_ s.currentPoint_
              + s.tau_ * alpha * SQP.levelIncrement sqrt s) := by
  obtain ⟨a, ha, hex, hp, -⟩ := sqp_computeLineSearch_exit sqrt fuel s s1 alpha h
  have haa : alpha = a := by rw [ha]; field_simp
  subst haa
  rw [if_neg hno] at hp
  have hsig : s1.currentSigma_ = SQP.sigmaUpdate sqrt s :=
    (sqp_computeLineSearch_frame sqrt fuel s s1 alpha h).2.2.2.2.2.2.2.2.2
  have hfl : alpha * s.tau_ ≥ s.tau_ ^ 9 := by rw [mul_comm]; exact hfloor
  have hle : SQP.theta s s1.currentSigma_ s1.currentPoint_
      ≤ SQP.currentTheta sqrt s + s.tau_ * alpha * SQP.levelIncrement sqrt s := by
    rw [hsig, hp, mul_comm s.tau_ alpha]
    exact not_lt.mp (fun hgt => hex ⟨hfl, hgt⟩)
  refine ⟨hp, hsig, hle, ?_⟩
  intro hlv
  have hct : SQP.currentTheta sqrt s
      = SQP.theta s s1.currentSigma_ s.currentPoint_ := by
    rw [hsig]
    unfold SQP.currentTheta SQP.theta
    rw [hlv]
  rw [← hct]
  exact hle

end SQPLineSearch

/-! ### A run that starts with a stale snapshot -/

section ScenarioStaleFacts

theorem real_sqrt_four : Real.sqrt 4 = 2 := by
  rw [show (4 : ℝ) = 2 ^ 2 by norm_num]
  exact Real.sqrt_sq (by norm_num)

theorem real_sqrt_nine : Real.sqrt 9 = 3 := by
  rw [show (9 : ℝ) = 3 ^ 2 by norm_num]
  exact Real.sqrt_sq (by norm_num)

/-- The first line search of a run of the solver `scenarioStale.stale m v`: the trial point
`(2)` is accepted at the step `1` and replaced by the interpolated point. -/
theorem abdoRackwitz_scenarioStale_lineSearch (m : Nat) (v : ℝ) :
    AbdoRackwitz.computeLineSearch Real.sqrt 10
      (AbdoRackwitz.computeDirection (AbdoRackwitz.evalGradient
        (AbdoRackwitz.runInit (scenarioStale.stale m v)).solver))
      = some (1,
        { AbdoRackwitz.computeDirection (AbdoRackwitz.evalGradient
            (AbdoRackwitz.runInit (scenarioStale.stale m v)).solver) with
          currentSigma_ := 6 / 5
          oldPoint_ := [-1]
          oldLevelValue_ := -1
          currentPoint_ := [((1 * (v - 2) - 3 * (-1 - 2)) / (v - -1)) * 2 / 2]
          currentLevelValue_ := ((1 * (v - 2) - 3 * (-1 - 2)) / (v - -1)) * 2 / 2 }) := by
  have hmax : max (1 : ℝ) (6 / 5) = 6 / 5 := max_eq_right (by norm_num)
  simp only [AbdoRackwitz.computeLineSearch, AbdoRackwitz.computeDirection,
    AbdoRackwitz.evalGradient, AbdoRackwitz.runInit, AbdoRackwitz.new, AbdoRackwitz.initialise,
    scenarioStale.base, scenarioStale.fresh, scenarioStale.stale,
    scenarioStale.problem, scenarioOrigin.levelFunction, AbdoRackwitz.lineSearchLoop,
    NumericalPoint.norm, NumericalPoint.normSquare, dot, NumericalPoint.add,
    NumericalPoint.smul, NumericalPoint.sub, NumericalPoint.sdiv, NumericalPoint.get,
    List.zipWith_cons_cons,
    List.zipWith_nil_right, List.zipWith_nil_left, List.map_cons, List.map_nil, List.sum_cons,
    List.sum_nil, List.getD_cons_zero, List.getD_cons_succ]
  norm_num [hmax, real_sqrt_four, real_sqrt_nine]

/-- The first line search of a run of the fresh solver `scenarioStale.fresh m`: the trial
point `(2)` is accepted at the step `1` and kept. -/
theorem abdoRackwitz_scenarioStale_fresh_lineSearch (m : Nat) :
    AbdoRackwitz.computeLineSearch Real.sqrt 10
      (AbdoRackwitz.computeDirection (AbdoRackwitz.evalGradient
        (AbdoRackwitz.runInit (scenarioStale.fresh (K := ℝ) m)).solver))
      = some (1,
        { AbdoRackwitz.computeDirection (AbdoRackwitz.evalGradient
            (AbdoRackwitz.runInit (scenarioStale.fresh (K := ℝ) m)).solver) with
          currentSigma_ := 6 / 5
          oldPoint_ := [-1]
          oldLevelValue_ := -1
          currentPoint_ := [2]
          currentLevelValue_ := 2 }) := by
  have hmax : max (1 : ℝ) (6 / 5) = 6 / 5 := max_eq_right (by norm_num)
  simp only [AbdoRackwitz.computeLineSearch, AbdoRackwitz.computeDirection,
    AbdoRackwitz.evalGradient, AbdoRackwitz.runInit, AbdoRackwitz.new, AbdoRackwitz.initialise,
    scenarioStale.base, scenarioStale.fresh, scenarioStale.stale,
    scenarioStale.problem, scenarioOrigin.levelFunction, AbdoRackwitz.lineSearchLoop,
    NumericalPoint.norm, NumericalPoint.normSquare, dot, NumericalPoint.add,
    NumericalPoint.smul, NumericalPoint.sub, NumericalPoint.sdiv, NumericalPoint.get,
    List.zipWith_cons_cons,
    List.zipWith_nil_right, List.zipWith_nil_left, List.map_cons, List.map_nil, List.sum_cons,
    List.sum_nil, List.getD_cons_zero, List.getD_cons_succ]
  norm_num [hmax, real_sqrt_four, real_sqrt_nine]

/-- The first iteration of a run of the fresh solver: it reaches `(2)` and converges. -/
theorem abdoRackwitz_scenarioStale_fresh_iteration (m : Nat) :
    ∃ r1, AbdoRackwitz.iteration Real.sqrt 10
        (AbdoRackwitz.runInit (scenarioStale.fresh (K := ℝ) m)) = some r1
      ∧ r1.thrown = none ∧ r1.solver.currentPoint_ = [2] ∧ r1.solver.currentLevelValue_ = 2
      ∧ r1.convergence = true := by
  have hg : NumericalPoint.normSquare
      ((AbdoRackwitz.runInit
          (scenarioStale.fresh (K := ℝ) m)).solver.problem.levelFunction.gradient
        (AbdoRackwitz.runInit (scenarioStale.fresh m)).solver.currentPoint_) ≠ 0 := by
    simp [AbdoRackwitz.runInit, AbdoRackwitz.new, AbdoRackwitz.initialise, scenarioStale.base,
      scenarioStale.fresh, scenarioStale.problem,
      scenarioOrigin.levelFunction, NumericalPoint.normSquare, dot]
  refine ⟨_, abdoRackwitz_iteration_of_lineSearch Real.sqrt 10 _ _ _ hg
    (abdoRackwitz_scenarioStale_fresh_lineSearch m), rfl, rfl, rfl, ?_⟩
  simp only [AbdoRackwitz.updateErrors, AbdoRackwitz.computeDirection,
    AbdoRackwitz.evalGradient, AbdoRackwitz.runInit, AbdoRackwitz.new, AbdoRackwitz.initialise,
    scenarioStale.base, scenarioStale.fresh, scenarioStale.stale,
    scenarioStale.problem, scenarioOrigin.levelFunction, NumericalPoint.norm,
    NumericalPoint.normSquare, dot, NumericalPoint.add, NumericalPoint.smul, NumericalPoint.sub,
    NumericalPoint.get, List.zipWith_cons_cons, List.zipWith_nil_right, List.zipWith_nil_left,
    List.map_cons, List.map_nil, List.sum_cons, List.sum_nil, List.getD_cons_zero,
    List.getD_cons_succ]
  norm_num

/-- The first iteration of a run of the solver `scenarioStale.stale m 3`: it reaches
`(5/2)` and does not converge. -/
theorem abdoRackwitz_scenarioStale_iteration (m : Nat) :
    ∃ r1, AbdoRackwitz.iteration Real.sqrt 10
        (AbdoRackwitz.runInit (scenarioStale.stale (K := ℝ) m 3)) = some r1
      ∧ r1.thrown = none ∧ r1.solver.currentPoint_ = [5 / 2]
      ∧ r1.solver.currentLevelValue_ = 5 / 2
      ∧ r1.convergence = false := by
  have hg : NumericalPoint.normSquare
      ((AbdoRackwitz.runInit
          (scenarioStale.stale (K := ℝ) m 3)).solver.problem.levelFunction.gradient
        (AbdoRackwitz.runInit (scenarioStale.stale m 3)).solver.currentPoint_) ≠ 0 := by
    simp [AbdoRackwitz.runInit, AbdoRackwitz.new, AbdoRackwitz.initialise, scenarioStale.base,
      scenarioStale.fresh, scenarioStale.stale, scenarioStale.problem,
      scenarioOrigin.levelFunction, NumericalPoint.normSquare, dot]
  refine ⟨_, abdoRackwitz_iteration_of_lineSearch Real.sqrt 10 _ _ _ hg
    (abdoRackwitz_scenarioStale_lineSearch m 3), rfl, ?_, ?_, ?_⟩
  · show [((1 * ((3 : ℝ) - 2) - 3 * (-1 - 2)) / (3 - -1)) * 2 / 2] = [5 / 2]
    norm_num
  · show ((1 * ((3 : ℝ) - 2) - 3 * (-1 - 2)) / (3 - -1)) * 2 / 2 = 5 / 2
    norm_num
  simp only [AbdoRackwitz.updateErrors, AbdoRackwitz.computeDirection,
    AbdoRackwitz.evalGradient, AbdoRackwitz.runInit, AbdoRackwitz.new, AbdoRackwitz.initialise,
    scenarioStale.base, scenarioStale.fresh, scenarioStale.stale,
    scenarioStale.problem, scenarioOrigin.levelFunction, NumericalPoint.norm,
    NumericalPoint.normSquare, dot, NumericalPoint.add, NumericalPoint.smul, NumericalPoint.sub,
    NumericalPoint.get, List.zipWith_cons_cons, List.zipWith_nil_right, List.zipWith_nil_left,
    List.map_cons, List.map_nil, List.sum_cons, List.sum_nil, List.getD_cons_zero,
    List.getD_cons_succ]
  norm_num [real_sqrt_four, real_sqrt_nine]

end ScenarioStaleFacts

section ScenarioOriginFacts

/-- The line search of `scenarioOrigin.atLineSearch (9/10)`: the first trial
point `(0)` is accepted, at the step `1`. -/
theorem abdoRackwitz_scenarioOrigin_atLineSearch :
    AbdoRackwitz.computeLineSearch Real.sqrt 10 (scenarioOrigin.atLineSearch (9 / 10 : ℝ))
      = some (1,
        { scenarioOrigin.atLineSearch (9 / 10 : ℝ) with
          currentSigma_ := 6 / 5
          oldPoint_ := [1]
          oldLevelValue_ := 1
          currentPoint_ := [0]
          currentLevelValue_ := 0 }) := by
  have hmax : max (1 : ℝ) (6 / 5) = 6 / 5 := max_eq_right (by norm_num)
  simp only [scenarioOrigin.atLineSearch,
    AbdoRackwitz.computeLineSearch, AbdoRackwitz.computeDirection,
    AbdoRackwitz.evalGradient, AbdoRackwitz.runInit, AbdoRackwitz.new, AbdoRackwitz.initialise,
    scenarioOrigin.base, scenarioOrigin.problem, scenarioOrigin.levelFunction,
    AbdoRackwitz.lineSearchLoop,
    NumericalPoint.norm, NumericalPoint.normSquare, dot, NumericalPoint.add,
    NumericalPoint.smul, NumericalPoint.sub, NumericalPoint.sdiv, NumericalPoint.get,
    List.zipWith_cons_cons,
    List.zipWith_nil_right, List.zipWith_nil_left, List.map_cons, List.map_nil, List.sum_cons,
    List.sum_nil, List.getD_cons_zero, List.getD_cons_succ]
  norm_num [hmax]

/-- The line search of `scenarioOrigin.sqpAtLineSearch (9/10)`: the first
trial point `(0)` is accepted, at the step `1`. -/
theorem sqp_scenarioOrigin_atLineSearch :
    SQP.computeLineSearch Real.sqrt 10 (scenarioOrigin.sqpAtLineSearch (9 / 10 : ℝ))
      = some (1,
        { scenarioOrigin.sqpAtLineSearch (9 / 10 : ℝ) with
          currentSigma_ := 6 / 5
          oldPoint_ := [1]
          oldLevelValue_ := 1
          currentPoint_ := [0]
          currentLevelValue_ := 0 }) := by
  have hmax : max (1 : ℝ) (6 / 5) = 6 / 5 := max_eq_right (by norm_num)
  simp only [scenarioOrigin.sqpAtLineSearch,
    SQP.computeLineSearch, SQP.runInit, SQP.new, SQP.initialise,
    scenarioOrigin.base, scenarioOrigin.problem, scenarioOrigin.levelFunction,
    SQP.lineSearchLoop,
    NumericalPoint.norm, NumericalPoint.normSquare, dot, NumericalPoint.add,
    NumericalPoint.smul, NumericalPoint.sub, NumericalPoint.sdiv, NumericalPoint.get,
    List.zipWith_cons_cons,
    List.zipWith_nil_right, List.zipWith_nil_left, List.map_cons, List.map_nil, List.sum_cons,
    List.sum_nil, List.getD_cons_zero, List.getD_cons_succ]
  norm_num [hmax]

end ScenarioOriginFacts

section ScenarioOriginSystem

/-- The system assembled by the first iteration of `SQP` on `G(u) = u1`, `G0 = 0`, from the
point `(1)`: the matrix acts as `(y0, y1) ↦ (2 y0 + y1, y0)`, the second member is
`(-1, -1)`, and `(-1, 1)` is its only solution. -/
theorem sqp_scenarioOrigin_system :
    (∀ y0 y1 : ℝ, (SQP.assembleSystemMatrix (SQP.evalGradient
        (SQP.runInit (scenarioOrigin.sqp (K := ℝ))).solver)).mulVec [y0, y1]
        = [2 * y0 + y1, y0])
      ∧ SQP.assembleSecondMember
          { SQP.evalGradient (SQP.runInit (scenarioOrigin.sqp (K := ℝ))).solver with
            currentSystemMatrix_ := SQP.assembleSystemMatrix (SQP.evalGradient
              (SQP.runInit (scenarioOrigin.sqp (K := ℝ))).solver) }
          (0 : ℝ) = [-1, -1]
      ∧ IsSolution
          (SQP.assembleSystemMatrix (SQP.evalGradient
            (SQP.runInit (scenarioOrigin.sqp (K := ℝ))).solver)) [-1, -1] [-1, 1]
      ∧ ∀ y, IsSolution
          (SQP.assembleSystemMatrix (SQP.evalGradient
            (SQP.runInit (scenarioOrigin.sqp (K := ℝ))).solver)) [-1, -1] y → y = [-1, 1] := by
  have r1 : List.range 1 = [0] := rfl
  have r2 : List.range 2 = [0, 1] := rfl
  have hM : ∀ y0 y1 : ℝ, (SQP.assembleSystemMatrix (SQP.evalGradient
      (SQP.runInit (scenarioOrigin.sqp (K := ℝ))).solver)).mulVec
        [y0, y1] = [2 * y0 + y1, y0] := by
    intro y0 y1
    simp only [SQP.assembleSystemMatrix, SQP.evalGradient, SQP.runInit, SQP.new, SQP.initialise,
      scenarioOrigin.base, scenarioOrigin.abdoRackwitz, scenarioOrigin.sqp,
      scenarioOrigin.problem, scenarioOrigin.levelFunction, List.length_cons, List.length_nil, r1,
      r2, List.foldl_cons, List.foldl_nil, zero_add, Nat.reduceAdd, SymmetricMatrix.set,
      SymmetricMatrix.get, SymmetricMatrix.zero, SymmetricMatrix.mulVec, NumericalPoint.get]
    simp +decide only [gt_iff_lt, lt_self_iff_false, if_false, if_true, r2, List.map_cons,
      List.map_nil, List.sum_cons, List.sum_nil, List.getD_cons_zero, List.getD_cons_succ,
      and_self, and_true, true_and, and_false, false_and, mul_zero, zero_add, add_zero,
      List.cons.injEq]
    refine ⟨by ring, by ring⟩
  refine ⟨hM, ?_, ⟨rfl, ?_⟩, ?_⟩
  · simp [SQP.assembleSecondMember, SQP.evalGradient, SQP.runInit, SQP.new, SQP.initialise,
      scenarioOrigin.base, scenarioOrigin.abdoRackwitz, scenarioOrigin.sqp,
      scenarioOrigin.problem, scenarioOrigin.levelFunction, r1, NumericalPoint.get,
      NumericalPoint.zero, List.replicate]
  · rw [hM]
    norm_num
  · rintro y ⟨hyl, hy⟩
    have hyl2 : y.length = 2 := hyl
    match y, hyl2 with
    | [y0, y1], _ =>
      rw [hM] at hy
      simp only [List.cons.injEq, and_true] at hy
      obtain ⟨e0, e1⟩ := hy
      have h0 : y0 = -1 := e1
      have h1 : y1 = 1 := by linarith
      rw [h0, h1]

end ScenarioOriginSystem

section ScenarioCubicFacts

/-- The first iteration of `SQP` on `G(u) = u1 ^ 3`, `G0 = 4`, from the point `(1)`, with an
exact solver: the system `2 d + 3 mu = -1`, `3 d = 3` gives `d = 1`, `mu = -1`; the trial
point `(2)` is rejected and `(3/2)` accepted. -/
theorem sqp_scenarioCubic_iteration
    (solveLinearSystem : SymmetricMatrix ℝ → List ℝ → List ℝ)
    (hs : ExactSolver solveLinearSystem) :
    ∃ r1, SQP.iteration Real.sqrt solveLinearSystem 10
        (SQP.runInit (scenarioCubic.sqp)) = some r1
      ∧ r1.thrown = none ∧ r1.solver.currentPoint_ = [3 / 2]
      ∧ r1.solver.currentLambda_ = -1
      ∧ r1.convergence = false := by
  have hg : NumericalPoint.normSquare
      ((SQP.runInit
          (scenarioCubic.sqp (K := ℝ))).solver.problem.levelFunction.gradient
        (SQP.runInit (scenarioCubic.sqp)).solver.currentPoint_) ≠ 0 := by
    simp [SQP.runInit, SQP.new, SQP.initialise, scenarioCubic.base,
      scenarioCubic.sqp, scenarioCubic.problem, scenarioCubic.levelFunction,
      NumericalPoint.normSquare, dot, NumericalPoint.get]
  have hmax : max (1 : ℝ) (2 / 5) = 1 := max_eq_left (by norm_num)
  have r1 : List.range 1 = [0] := rfl
  have r2 : List.range 2 = [0, 1] := rfl
  have hM : ∀ y0 y1 : ℝ, (SQP.assembleSystemMatrix (SQP.evalGradient
      (SQP.runInit (scenarioCubic.sqp (K := ℝ))).solver)).mulVec
        [y0, y1] = [2 * y0 + 3 * y1, 3 * y0] := by
    intro y0 y1
    simp only [SQP.assembleSystemMatrix, SQP.evalGradient, SQP.runInit, SQP.new, SQP.initialise,
      scenarioCubic.base, scenarioCubic.sqp,
      scenarioCubic.problem, scenarioCubic.levelFunction, List.length_cons, List.length_nil, r1,
      r2, List.foldl_cons, List.foldl_nil, zero_add, Nat.reduceAdd, SymmetricMatrix.set,
      SymmetricMatrix.get, SymmetricMatrix.zero, SymmetricMatrix.mulVec, NumericalPoint.get]
    simp +decide only [gt_iff_lt, lt_self_iff_false, if_false, if_true, r2, List.map_cons,
      List.map_nil, List.sum_cons, List.sum_nil, List.getD_cons_zero, List.getD_cons_succ,
      and_self, and_true, true_and, and_false, false_and, mul_zero, zero_add, add_zero,
      List.cons.injEq]
    refine ⟨by ring, by ring⟩
  have hsol : solveLinearSystem (SQP.assembleSystemMatrix (SQP.evalGradient
      (SQP.runInit (scenarioCubic.sqp (K := ℝ))).solver))
      [-1, 3] = [1, -1] := by
    apply hs
    · refine ⟨rfl, ?_⟩
      rw [hM]; norm_num
    · rintro y ⟨hyl, hy⟩
      have hyl2 : y.length = 2 := hyl
      match y, hyl2 with
      | [y0, y1], _ =>
        rw [hM] at hy
        simp only [List.cons.injEq, and_true] at hy
        obtain ⟨e0, e1⟩ := hy
        have h0 : y0 = 1 := by linarith
        have h1 : y1 = -1 := by linarith
        rw [h0, h1]
  have hb : SQP.assembleSecondMember
      { SQP.evalGradient (SQP.runInit (scenarioCubic.sqp (K := ℝ))).solver with
        currentSystemMatrix_ := SQP.assembleSystemMatrix (SQP.evalGradient
          (SQP.runInit (scenarioCubic.sqp (K := ℝ))).solver) }
      (4 : ℝ) = [-1, 3] := by
    simp [SQP.assembleSecondMember, SQP.evalGradient, SQP.runInit, SQP.new, SQP.initialise,
      scenarioCubic.base, scenarioCubic.sqp,
      scenarioCubic.problem, scenarioCubic.levelFunction, r1, NumericalPoint.get,
      NumericalPoint.zero, List.replicate]
    norm_num
  have hD : SQP.computeDirection solveLinearSystem (SQP.evalGradient
      (SQP.runInit (scenarioCubic.sqp (K := ℝ))).solver)
      = { SQP.evalGradient (SQP.runInit (scenarioCubic.sqp (K := ℝ))).solver with
          currentSystemMatrix_ := SQP.assembleSystemMatrix (SQP.evalGradient
            (SQP.runInit (scenarioCubic.sqp (K := ℝ))).solver)
          currentSecondMember_ := [-1, 3]
          currentDirection_ := [1]
          currentLambda_ := -1 } := by
    unfold SQP.computeDirection
    have hlv : (SQP.evalGradient
        (SQP.runInit (scenarioCubic.sqp (K := ℝ))).solver).problem.levelValue = 4 := rfl
    simp only [hlv, hb, hsol]
    simp [SQP.copyDirection, SQP.evalGradient, SQP.runInit, SQP.new, SQP.initialise,
      scenarioCubic.base, scenarioCubic.sqp, r1,
      NumericalPoint.get, NumericalPoint.zero, List.replicate]
  have hls : SQP.computeLineSearch Real.sqrt 10
      (SQP.computeDirection solveLinearSystem (SQP.evalGradient
        (SQP.runInit (scenarioCubic.sqp (K := ℝ))).solver))
      = some (1 / 2,
        { SQP.evalGradient (SQP.runInit (scenarioCubic.sqp (K := ℝ))).solver with
          currentSystemMatrix_ := SQP.assembleSystemMatrix (SQP.evalGradient
            (SQP.runInit (scenarioCubic.sqp (K := ℝ))).solver)
          currentSecondMember_ := [-1, 3]
          currentDirection_ := [1]
          currentLambda_ := -1
          currentSigma_ := 1
          oldPoint_ := [1]
          oldLevelValue_ := 1
          currentPoint_ := [3 / 2]
          currentLevelValue_ := 27 / 8 }) := by
    rw [hD]
    simp only [SQP.computeLineSearch, SQP.evalGradient, SQP.runInit, SQP.new, SQP.initialise,
      scenarioCubic.base, scenarioCubic.sqp,
      scenarioCubic.problem, scenarioCubic.levelFunction, SQP.lineSearchLoop,
      NumericalPoint.norm, NumericalPoint.normSquare, dot, NumericalPoint.add,
      NumericalPoint.smul, NumericalPoint.sub, NumericalPoint.get, List.zipWith_cons_cons,
      List.zipWith_nil_right, List.zipWith_nil_left, List.map_cons, List.map_nil, List.sum_cons,
      List.sum_nil, List.getD_cons_zero, List.getD_cons_succ]
    have ha : |(5 / 8 : ℝ)| = 5 / 8 := abs_of_pos (by norm_num)
    norm_num [hmax, ha, real_sqrt_nine]
  refine ⟨_, sqp_iteration_of_lineSearch Real.sqrt solveLinearSystem 10 _ _ _ hg hls, rfl, rfl,
    rfl, ?_⟩
  simp only [SQP.updateErrors, SQP.evalGradient, SQP.runInit, SQP.new, SQP.initialise,
    scenarioCubic.base, scenarioCubic.sqp,
    scenarioCubic.problem, scenarioCubic.levelFunction, NumericalPoint.norm,
    NumericalPoint.normSquare, dot, NumericalPoint.add, NumericalPoint.smul, NumericalPoint.sub,
    NumericalPoint.get, List.zipWith_cons_cons, List.zipWith_nil_right, List.zipWith_nil_left,
    List.map_cons, List.map_nil, List.sum_cons, List.sum_nil, List.getD_cons_zero,
    List.getD_cons_succ]
  have ha : |(5 / 8 : ℝ)| = 5 / 8 := abs_of_pos (by norm_num)
  have h2 : |(1 / 2 : ℝ)| = 1 / 2 := abs_of_pos (by norm_num)
  norm_num [real_sqrt_nine, real_sqrt_four, ha, h2]

end ScenarioCubicFacts

/-! ### Persistence round trips -/

section PersistenceFacts

variable {K : Type}

/-- Reading a scalar after one `saveAttribute`. -/
theorem loadScalar_saveAttribute (adv : Advocate K) (m n : String) (w : StoredValue K)
    (v : K) :
    (adv.saveAttribute m w).loadScalar n v
      = if n = m then (match w with
          | StoredValue.scalar x => x
          | _ => v)
        else adv.loadScalar n v := by
  unfold Advocate.loadScalar Advocate.saveAttribute
  by_cases h : n = m
  · simp only [h, if_true]
    cases w <;> rfl
  · simp only [h, if_false]

/-- Reading a point after one `saveAttribute`. -/
theorem loadPoint_saveAttribute (adv : Advocate K) (m n : String) (w : StoredValue K)
    (v : List K) :
    (adv.saveAttribute m w).loadPoint n v
      = if n = m then (match w with
          | StoredValue.point x => x
          | _ => v)
        else adv.loadPoint n v := by
  unfold Advocate.loadPoint Advocate.saveAttribute
  by_cases h : n = m
  · simp only [h, if_true]
    cases w <;> rfl
  · simp only [h, if_false]

/-- Reading a symmetric matrix after one `saveAttribute`. -/
theorem loadMatrix_saveAttribute (adv : Advocate K) (m n : String) (w : StoredValue K)
    (v : SymmetricMatrix K) :
    (adv.saveAttribute m w).loadMatrix n v
      = if n = m then (match w with
          | StoredValue.matrix x => x
          | _ => v)
        else adv.loadMatrix n v := by
  unfold Advocate.loadMatrix Advocate.saveAttribute
  by_cases h : n = m
  · simp only [h, if_true]
    cases w <;> rfl
  · simp only [h, if_false]


/-- What `AbdoRackwitz::load` makes of the storage written by `AbdoRackwitz::save`: eight of
the nine attributes are restored, `currentGradient_` keeps the value the loading solver
held. -/
theorem abdoRackwitz_load_save
    (baseSave : Advocate K → OptimizationSolverImplementation K → Advocate K)
    (baseLoad : Advocate K → OptimizationSolverImplementation K →
      OptimizationSolverImplementation K)
    (adv : Advocate K) (s t : AbdoRackwitz K) :
    (AbdoRackwitz.load baseLoad (AbdoRackwitz.save baseSave adv s) t).tau_ = s.tau_
      ∧ (AbdoRackwitz.load baseLoad (AbdoRackwitz.save baseSave adv s) t).omega_ = s.omega_
      ∧ (AbdoRackwitz.load baseLoad (AbdoRackwitz.save baseSave adv s) t).smooth_ = s.smooth_
      ∧ (AbdoRackwitz.load baseLoad (AbdoRackwitz.save baseSave adv s) t).currentSigma_
        = s.currentSigma_
      ∧ (AbdoRackwitz.load baseLoad (AbdoRackwitz.save baseSave adv s) t).currentPoint_
        = s.currentPoint_
      ∧ (AbdoRackwitz.load baseLoad (AbdoRackwitz.save baseSave adv s) t).currentDirection_
        = s.currentDirection_
      ∧ (AbdoRackwitz.load baseLoad (AbdoRackwitz.save baseSave adv s) t).currentLevelValue_
        = s.currentLevelValue_
      ∧ (AbdoRackwitz.load baseLoad (AbdoRackwitz.save baseSave adv s) t).currentLambda_
        = s.currentLambda_
      ∧ (AbdoRackwitz.load baseLoad (AbdoRackwitz.save baseSave adv s) t).currentGradient_
        = t.currentGradient_ := by
  refine ⟨?_, ?_, ?_, ?_, ?_, ?_, ?_, ?_, rfl⟩ <;>
    simp +decide only [AbdoRackwitz.load, AbdoRackwitz.save, loadScalar_saveAttribute,
      loadPoint_saveAttribute, if_true, if_false]

/-- The sibling `SQP::load` restores every attribute that `SQP::save` writes, the gradient
included. -/
theorem sqp_load_save
    (baseSave : Advocate K → OptimizationSolverImplementation K → Advocate K)
    (baseLoad : Advocate K → OptimizationSolverImplementation K →
      OptimizationSolverImplementation K)
    (adv : Advocate K) (s t : SQP K) :
    (SQP.load baseLoad (SQP.save baseSave adv s) t).tau_ = s.tau_
      ∧ (SQP.load baseLoad (SQP.save baseSave adv s) t).omega_ = s.omega_
      ∧ (SQP.load baseLoad (SQP.save baseSave adv s) t).smooth_ = s.smooth_
      ∧ (SQP.load baseLoad (SQP.save baseSave adv s) t).currentSigma_ = s.currentSigma_
      ∧ (SQP.load baseLoad (SQP.save baseSave adv s) t).currentPoint_ = s.currentPoint_
      ∧ (SQP.load baseLoad (SQP.save baseSave adv s) t).currentDirection_
        = s.currentDirection_
      ∧ (SQP.load baseLoad (SQP.save baseSave adv s) t).currentLevelValue_
        = s.currentLevelValue_
      ∧ (SQP.load baseLoad (SQP.save baseSave adv s) t).currentGradient_
        = s.currentGradient_
      ∧ (SQP.load baseLoad (SQP.save baseSave adv s) t).currentHessian_ = s.currentHessian_
      ∧ (SQP.load baseLoad (SQP.save baseSave adv s) t).currentSystemMatrix_
        = s.currentSystemMatrix_
      ∧ (SQP.load baseLoad (SQP.save baseSave adv s) t).currentSecondMember_
        = s.currentSecondMember_
      ∧ (SQP.load baseLoad (SQP.save baseSave adv s) t).currentLambda_ = s.currentLambda_ := by
  refine ⟨?_, ?_, ?_, ?_, ?_, ?_, ?_, ?_, ?_, ?_, ?_, ?_⟩ <;>
    simp +decide only [SQP.load, SQP.save, loadScalar_saveAttribute, loadPoint_saveAttribute,
      loadMatrix_saveAttribute, if_true, if_false]

end PersistenceFacts

/-! ### Algebra of points, and the direction of `AbdoRackwitz` -/

section PointAlgebra

variable {K : Type} [LinearOrderedField K]

/-- `normSquare` is a sum of squares. -/
theorem normSquare_nonneg (v : List K) : 0 ≤ NumericalPoint.normSquare v := by
  induction v with
  | nil => simp [NumericalPoint.normSquare, dot]
  | cons x v ih =>
    have h : NumericalPoint.normSquare (x :: v) = x * x + NumericalPoint.normSquare v := by
      simp [NumericalPoint.normSquare, dot]
    rw [h]
    nlinarith [mul_self_nonneg x]

/-- `normSquare` of a multiple. -/
theorem normSquare_smul (c : K) (g : List K) :
    NumericalPoint.normSquare (NumericalPoint.smul c g) = c ^ 2 * NumericalPoint.normSquare g := by
  induction g with
  | nil => simp [NumericalPoint.normSquare, NumericalPoint.smul, dot]
  | cons x g ih =>
    simp only [NumericalPoint.normSquare, NumericalPoint.smul, dot, List.map_cons,
      List.zipWith_cons_cons, List.sum_cons] at ih ⊢
    rw [ih]
    ring

/-- The full step of the direction `c * g - u` from `u` is `c * g`. -/
theorem add_sub_smul (c : K) :
    ∀ g u : List K, g.length = u.length →
      NumericalPoint.add u (NumericalPoint.sub (NumericalPoint.smul c g) u)
        = NumericalPoint.smul c g := by
  intro g
  induction g with
  | nil =>
    intro u hu
    cases u with
    | nil => rfl
    | cons y u => simp at hu
  | cons x g ih =>
    intro u hu
    cases u with
    | nil => simp at hu
    | cons y u =>
      simp only [List.length_cons, add_left_inj] at hu
      have h := ih u hu
      simp only [NumericalPoint.add, NumericalPoint.sub, NumericalPoint.smul, List.map_cons,
        List.zipWith_cons_cons] at h ⊢
      rw [h]
      simp

/-- The product of `g` with the direction `c * g - u`. -/
theorem dot_sub_smul (c : K) :
    ∀ g u : List K, g.length = u.length →
      dot g (NumericalPoint.sub (NumericalPoint.smul c g) u)
        = c * NumericalPoint.normSquare g - dot g u := by
  intro g
  induction g with
  | nil =>
    intro u _
    simp [dot, NumericalPoint.sub, NumericalPoint.smul, NumericalPoint.normSquare]
  | cons x g ih =>
    intro u hu
    cases u with
    | nil => simp at hu
    | cons y u =>
      simp only [List.length_cons, add_left_inj] at hu
      have h := ih u hu
      simp only [dot, NumericalPoint.sub, NumericalPoint.smul, NumericalPoint.normSquare,
        List.map_cons, List.zipWith_cons_cons, List.sum_cons] at h ⊢
      rw [h]
      ring

/-- `dot` is additive in its second argument, on points of one dimension. -/
theorem dot_sub :
    ∀ g v u : List K, g.length = u.length → v.length = u.length →
      dot g (NumericalPoint.sub v u) = dot g v - dot g u := by
  intro g
  induction g with
  | nil =>
    intro v u _ _
    simp [dot, NumericalPoint.sub]
  | cons x g ih =>
    intro v u hu hv
    cases u with
    | nil => simp at hu
    | cons y u =>
      cases v with
      | nil => simp at hv
      | cons z v =>
        simp only [List.length_cons, add_left_inj] at hu hv
        have h := ih v u hu hv
        simp only [dot, NumericalPoint.sub, List.zipWith_cons_cons, List.sum_cons] at h ⊢
        rw [h]
        ring

/-- The expansion of `normSquare v` around the point `c * g`. -/
theorem normSquare_expand (c : K) :
    ∀ g v : List K, g.length = v.length →
      NumericalPoint.normSquare v
        = c ^ 2 * NumericalPoint.normSquare g
          + 2 * c * (dot g v - c * NumericalPoint.normSquare g)
          + NumericalPoint.normSquare (NumericalPoint.sub v (NumericalPoint.smul c g)) := by
  intro g
  induction g with
  | nil =>
    intro v hv
    cases v with
    | nil => simp [dot, NumericalPoint.sub, NumericalPoint.smul, NumericalPoint.normSquare]
    | cons z v => simp at hv
  | cons x g ih =>
    intro v hv
    cases v with
    | nil => simp at hv
    | cons z v =>
      simp only [List.length_cons, add_left_inj] at hv
      have h := ih v hv
      simp only [dot, NumericalPoint.sub, NumericalPoint.smul, NumericalPoint.normSquare,
        List.map_cons, List.zipWith_cons_cons, List.sum_cons] at h ⊢
      rw [h]
      ring

end PointAlgebra

section Direction

variable {K : Type} [LinearOrderedField K]

/-- The direction of `AbdoRackwitz::run`: its full step from the current point is
`-lambda * gradient`, which satisfies the linearised constraint and has the least
`normSquare` among the points that do. -/
theorem abdoRackwitz_direction (s : AbdoRackwitz K)
    (hlen : s.currentGradient_.length = s.currentPoint_.length)
    (hg : NumericalPoint.normSquare s.currentGradient_ ≠ 0) :
    NumericalPoint.add s.currentPoint_ (AbdoRackwitz.computeDirection s).currentDirection_
        = NumericalPoint.smul (-(AbdoRackwitz.computeDirection s).currentLambda_)
          s.currentGradient_
      ∧ s.currentLevelValue_
          + dot s.currentGradient_ (AbdoRackwitz.computeDirection s).currentDirection_
        = s.problem.levelValue
      ∧ ∀ v : List K, v.length = s.currentPoint_.length →
          s.currentLevelValue_ + dot s.currentGradient_ (NumericalPoint.sub v s.currentPoint_)
            = s.problem.levelValue →
          NumericalPoint.normSquare (NumericalPoint.add s.currentPoint_
              (AbdoRackwitz.computeDirection s).currentDirection_)
            ≤ NumericalPoint.normSquare v := by
  have hlam : (AbdoRackwitz.computeDirection s).currentLambda_
      * NumericalPoint.normSquare s.currentGradient_
      = s.currentLevelValue_ - s.problem.levelValue
        - dot s.currentGradient_ s.currentPoint_ := by
    show (s.currentLevelValue_ - s.problem.levelValue
        - dot s.currentGradient_ s.currentPoint_) / NumericalPoint.normSquare s.currentGradient_
      * NumericalPoint.normSquare s.currentGradient_ = _
    field_simp
  have hadd := add_sub_smul (-(AbdoRackwitz.computeDirection s).currentLambda_)
    s.currentGradient_ s.currentPoint_ hlen
  have hd : (AbdoRackwitz.computeDirection s).currentDirection_
      = NumericalPoint.sub (NumericalPoint.smul
          (-(AbdoRackwitz.computeDirection s).currentLambda_) s.currentGradient_)
        s.currentPoint_ := rfl
  refine ⟨by rw [hd]; exact hadd, ?_, ?_⟩
  · rw [hd, dot_sub_smul _ _ _ hlen]
    linarith
  · intro v hv hc
    rw [hd, hadd, normSquare_smul]
    rw [dot_sub _ _ _ hlen hv] at hc
    have hexp := normSquare_expand (-(AbdoRackwitz.computeDirection s).currentLambda_)
      s.currentGradient_ v (by rw [hlen, hv])
    have hz : dot s.currentGradient_ v
        - -(AbdoRackwitz.computeDirection s).currentLambda_
          * NumericalPoint.normSquare s.currentGradient_ = 0 := by
      linarith
    rw [hz] at hexp
    have hnn := normSquare_nonneg (NumericalPoint.sub v
      (NumericalPoint.smul (-(AbdoRackwitz.computeDirection s).currentLambda_)
        s.currentGradient_))
    linarith

end Direction

/-! ### The assembly of the system of `SQP` -/

section MatrixAccess

variable {K : Type}

/-- Writing through the accessor at `(i, j)` with `j ≤ i` writes the stored entry
`(i, j)`. -/
theorem symmetricMatrix_set_lower (M : SymmetricMatrix K) (i j : Nat) (v : K) (h : j ≤ i) :
    (M.set i j v).dim = M.dim
      ∧ ∀ a b, (M.set i j v).data a b = if a = i ∧ b = j then v else M.data a b := by
  unfold SymmetricMatrix.set
  by_cases hij : i > j
  · rw [if_pos hij]
    exact ⟨rfl, fun a b => rfl⟩
  · have he : i = j := by omega
    subst he
    rw [if_neg hij]
    exact ⟨rfl, fun a b => rfl⟩

/-- Writing through the accessor at `(i, j)` with `i < j` writes the stored entry
`(j, i)`. -/
theorem symmetricMatrix_set_upper (M : SymmetricMatrix K) (i j : Nat) (v : K) (h : i < j) :
    (M.set i j v).dim = M.dim
      ∧ ∀ a b, (M.set i j v).data a b = if a = j ∧ b = i then v else M.data a b := by
  unfold SymmetricMatrix.set
  have hij : ¬ i > j := by omega
  rw [if_neg hij]
  exact ⟨rfl, fun a b => rfl⟩

/-- The accessor is symmetric. -/
theorem symmetricMatrix_get_comm (M : SymmetricMatrix K) (i j : Nat) :
    M.get i j = M.get j i := by
  unfold SymmetricMatrix.get
  by_cases h1 : i > j
  · have h2 : ¬ j > i := by omega
    simp only [h1, h2, if_true, if_false]
  · by_cases h2 : j > i
    · simp only [h1, h2, if_true, if_false]
    · have he : i = j := by omega
      subst he
      rfl

/-- The inner loop `for (j = 0; j < m; ++j) M(i, j) = f(j)` for `m ≤ i + 1`. -/
theorem sqp_inner_loop (f : Nat → K) (i : Nat) :
    ∀ (m : Nat) (M : SymmetricMatrix K), m ≤ i + 1 →
      ((List.range m).foldl (fun M j => M.set i j (f j)) M).dim = M.dim
      ∧ ∀ a b, ((List.range m).foldl (fun M j => M.set i j (f j)) M).data a b
          = if a = i ∧ b < m then f b else M.data a b := by
  intro m
  induction m with
  | zero =>
    intro M _
    simp
  | succ m ih =>
    intro M hm
    obtain ⟨hd, hdata⟩ := ih M (by omega)
    rw [List.range_succ, List.foldl_append]
    simp only [List.foldl_cons, List.foldl_nil]
    obtain ⟨hd1, hdata1⟩ := symmetricMatrix_set_lower
      ((List.range m).foldl (fun M j => M.set i j (f j)) M) i m (f m) (by omega)
    refine ⟨by rw [hd1, hd], ?_⟩
    intro a b
    rw [hdata1, hdata]
    by_cases h1 : a = i ∧ b = m
    · obtain ⟨ha, hb⟩ := h1
      subst ha hb
      simp
    · by_cases h2 : a = i ∧ b < m
      · have h3 : a = i ∧ b < m + 1 := ⟨h2.1, by omega⟩
        rw [if_neg h1, if_pos h2, if_pos h3]
      · have h3 : ¬ (a = i ∧ b < m + 1) := by
          rintro ⟨ha, hb⟩
          by_cases hbm : b = m
          · exact h1 ⟨ha, hbm⟩
          · exact h2 ⟨ha, by omega⟩
        rw [if_neg h1, if_neg h2, if_neg h3]

end MatrixAccess

section Assembly

variable {K : Type} [LinearOrderedField K]

/-- A loop `for (i = 0; i < k; ++i) b[i] = f(i)` on a point of dimension at least `k`. -/
theorem foldl_set_get (f : Nat → K) :
    ∀ (k : Nat) (b : List K), k ≤ b.length →
      ((List.range k).foldl (fun b i => b.set i (f i)) b).length = b.length
      ∧ ∀ j, NumericalPoint.get ((List.range k).foldl (fun b i => b.set i (f i)) b) j
          = if j < k then f j else NumericalPoint.get b j := by
  intro k
  induction k with
  | zero =>
    intro b _
    simp
  | succ k ih =>
    intro b hk
    obtain ⟨hl, hg⟩ := ih b (by omega)
    rw [List.range_succ, List.foldl_append]
    simp only [List.foldl_cons, List.foldl_nil, List.length_set]
    refine ⟨hl, ?_⟩
    intro j
    have hg' := hg j
    simp only [NumericalPoint.get, List.getD_eq_getElem?_getD, List.getElem?_set] at hg' ⊢
    by_cases hjk : k = j
    · subst hjk
      have hlt : k < ((List.range k).foldl (fun b i => b.set i (f i)) b).length := by
        rw [hl]
        omega
      simp [hlt]
    · simp only [hjk, if_false]
      rw [hg']
      by_cases h1 : j < k
      · simp [h1, Nat.lt_succ_of_lt h1]
      · have h2 : ¬ j < k + 1 := by omega
        simp [h1, h2]

/-- The outer loop of the assembly of the system matrix after `k` rows: the stored lower
triangle of these rows holds `lambda * H` plus `2` on the diagonal, the stored border row
holds the gradient, every other stored entry is untouched. -/
theorem sqp_assemble_rows (s : SQP K) :
    ∀ k, k ≤ s.currentPoint_.length →
      ((List.range k).foldl
        (fun M i =>
          let M1 := (List.range (i + 1)).foldl
            (fun M j => M.set i j (s.currentLambda_ * s.currentHessian_.get i j)) M
          let M2 := M1.set i i (M1.get i i + 2)
          M2.set i s.currentPoint_.length (NumericalPoint.get s.currentGradient_ i))
        s.currentSystemMatrix_).dim = s.currentSystemMatrix_.dim
      ∧ ∀ a b, ((List.range k).foldl
        (fun M i =>
          let M1 := (List.range (i + 1)).foldl
            (fun M j => M.set i j (s.currentLambda_ * s.currentHessian_.get i j)) M
          let M2 := M1.set i i (M1.get i i + 2)
          M2.set i s.currentPoint_.length (NumericalPoint.get s.currentGradient_ i))
        s.currentSystemMatrix_).data a b
        = if b ≤ a ∧ a < k then
            s.currentLambda_ * s.currentHessian_.get a b + (if a = b then 2 else 0)
          else if a = s.currentPoint_.length ∧ b < k then NumericalPoint.get s.currentGradient_ b
          else s.currentSystemMatrix_.data a b := by
  intro k
  induction k with
  | zero =>
    intro _
    simp
  | succ k ih =>
    intro hk
    obtain ⟨hd, hdata⟩ := ih (by omega)
    rw [List.range_succ, List.foldl_append]
    simp only [List.foldl_cons, List.foldl_nil]
    generalize hM : (List.range k).foldl
        (fun M i =>
          let M1 := (List.range (i + 1)).foldl
            (fun M j => M.set i j (s.currentLambda_ * s.currentHessian_.get i j)) M
          let M2 := M1.set i i (M1.get i i + 2)
          M2.set i s.currentPoint_.length (NumericalPoint.get s.currentGradient_ i))
        s.currentSystemMatrix_ = M at hd hdata ⊢
    obtain ⟨hd1, hdata1⟩ := sqp_inner_loop
      (fun j => s.currentLambda_ * s.currentHessian_.get k j) k (k + 1) M (le_refl _)
    generalize hM1 : (List.range (k + 1)).foldl
      (fun M j => M.set k j (s.currentLambda_ * s.currentHessian_.get k j)) M = M1
      at hd1 hdata1 ⊢
    have hget : M1.get k k = s.currentLambda_ * s.currentHessian_.get k k := by
      have h0 : M1.get k k = M1.data k k := by
        unfold SymmetricMatrix.get
        rw [if_neg (lt_irrefl k)]
      rw [h0, hdata1, if_pos ⟨rfl, Nat.lt_succ_self k⟩]
    obtain ⟨hd2, hdata2⟩ := symmetricMatrix_set_lower M1 k k (M1.get k k + 2) (le_refl _)
    obtain ⟨hd3, hdata3⟩ := symmetricMatrix_set_upper (M1.set k k (M1.get k k + 2)) k
      s.currentPoint_.length (NumericalPoint.get s.currentGradient_ k) (by omega)
    refine ⟨by rw [hd3, hd2, hd1, hd], ?_⟩
    intro a b
    rw [hdata3, hdata2, hdata1, hget, hdata]
    by_cases c1 : a = s.currentPoint_.length ∧ b = k
    · have n1 : ¬ (b ≤ a ∧ a < k + 1) := by omega
      have p1 : a = s.currentPoint_.length ∧ b < k + 1 := ⟨c1.1, by omega⟩
      rw [if_pos c1, if_neg n1, if_pos p1, c1.2]
    · rw [if_neg c1]
      by_cases c2 : a = k ∧ b = k
      · have p2 : b ≤ a ∧ a < k + 1 := by omega
        have e2 : a = b := by omega
        rw [if_pos c2, if_pos p2, if_pos e2, c2.1, c2.2]
      · rw [if_neg c2]
        by_cases c3 : a = k ∧ b < k + 1
        · have p3 : b ≤ a ∧ a < k + 1 := by omega
          have e3 : ¬ a = b := by omega
          rw [if_pos c3, if_pos p3, if_neg e3, c3.1, add_zero]
        · rw [if_neg c3]
          by_cases c4 : b ≤ a ∧ a < k
          · have p4 : b ≤ a ∧ a < k + 1 := by omega
            rw [if_pos c4, if_pos p4]
          · have n4 : ¬ (b ≤ a ∧ a < k + 1) := by omega
            rw [if_neg c4, if_neg n4]
            by_cases c5 : a = s.currentPoint_.length ∧ b < k
            · have p5 : a = s.currentPoint_.length ∧ b < k + 1 := by omega
              rw [if_pos c5, if_pos p5]
            · have n5 : ¬ (a = s.currentPoint_.length ∧ b < k + 1) := by omega
              rw [if_neg c5, if_neg n5]

/-- The entries of the system matrix assembled by `SQP::run`, read through the accessor. -/
theorem sqp_assembled_matrix (s : SQP K) :
    (SQP.assembleSystemMatrix s).dim = s.currentSystemMatrix_.dim
      ∧ (∀ i j, i < s.currentPoint_.length → j < s.currentPoint_.length → i ≠ j →
          (SQP.assembleSystemMatrix s).get i j
            = s.currentLambda_ * s.currentHessian_.get i j)
      ∧ (∀ i, i < s.currentPoint_.length →
          (SQP.assembleSystemMatrix s).get i i
            = s.currentLambda_ * s.currentHessian_.get i i + 2)
      ∧ (∀ i, i < s.currentPoint_.length →
          (SQP.assembleSystemMatrix s).get i s.currentPoint_.length
              = NumericalPoint.get s.currentGradient_ i
            ∧ (SQP.assembleSystemMatrix s).get s.currentPoint_.length i
              = NumericalPoint.get s.currentGradient_ i)
      ∧ (SQP.assembleSystemMatrix s).get s.currentPoint_.length s.currentPoint_.length
        = s.currentSystemMatrix_.get s.currentPoint_.length s.currentPoint_.length := by
  obtain ⟨hd, hdata⟩ := sqp_assemble_rows s s.currentPoint_.length (le_refl _)
  have hdata' : ∀ a b, (SQP.assembleSystemMatrix s).data a b
      = if b ≤ a ∧ a < s.currentPoint_.length then
          s.currentLambda_ * s.currentHessian_.get a b + (if a = b then 2 else 0)
        else if a = s.currentPoint_.length ∧ b < s.currentPoint_.length then
          NumericalPoint.get s.currentGradient_ b
        else s.currentSystemMatrix_.data a b := hdata
  refine ⟨hd, ?_, ?_, ?_, ?_⟩
  · intro i j hi hj hij
    by_cases h : i > j
    · have hgt : (SQP.assembleSystemMatrix s).get i j = (SQP.assembleSystemMatrix s).data i j := by
        unfold SymmetricMatrix.get
        rw [if_pos h]
      have p : j ≤ i ∧ i < s.currentPoint_.length := by omega
      rw [hgt, hdata', if_pos p, if_neg hij, add_zero]
    · have hgt : (SQP.assembleSystemMatrix s).get i j = (SQP.assembleSystemMatrix s).data j i := by
        unfold SymmetricMatrix.get
        rw [if_neg h]
      have p : i ≤ j ∧ j < s.currentPoint_.length := by omega
      have hji : ¬ j = i := fun e => hij e.symm
      rw [hgt, hdata', if_pos p, if_neg hji, add_zero, symmetricMatrix_get_comm]
  · intro i hi
    have hgt : (SQP.assembleSystemMatrix s).get i i = (SQP.assembleSystemMatrix s).data i i := by
      unfold SymmetricMatrix.get
      rw [if_neg (lt_irrefl i)]
    have p : i ≤ i ∧ i < s.currentPoint_.length := by omega
    rw [hgt, hdata', if_pos p, if_pos rfl]
  · intro i hi
    have n1 : ¬ (i ≤ s.currentPoint_.length ∧ s.currentPoint_.length < s.currentPoint_.length) := by
      omega
    have p1 : s.currentPoint_.length = s.currentPoint_.length ∧ i < s.currentPoint_.length :=
      ⟨rfl, hi⟩
    have hdat : (SQP.assembleSystemMatrix s).data s.currentPoint_.length i
        = NumericalPoint.get s.currentGradient_ i := by
      rw [hdata', if_neg n1, if_pos p1]
    have h1 : (SQP.assembleSystemMatrix s).get s.currentPoint_.length i
        = NumericalPoint.get s.currentGradient_ i := by
      rw [← hdat]
      unfold SymmetricMatrix.get
      rw [if_pos hi]
    exact ⟨by rw [symmetricMatrix_get_comm]; exact h1, h1⟩
  · have hgt : ∀ M : SymmetricMatrix K,
        M.get s.currentPoint_.length s.currentPoint_.length
          = M.data s.currentPoint_.length s.currentPoint_.length := by
      intro M
      unfold SymmetricMatrix.get
      rw [if_neg (lt_irrefl _)]
    have n1 : ¬ (s.currentPoint_.length ≤ s.currentPoint_.length
        ∧ s.currentPoint_.length < s.currentPoint_.length) := by omega
    have n2 : ¬ (s.currentPoint_.length = s.currentPoint_.length
        ∧ s.currentPoint_.length < s.currentPoint_.length) := by omega
    rw [hgt, hgt, hdata', if_neg n1, if_neg n2]

/-- The second member assembled by `SQP::run`. -/
theorem sqp_assembled_secondMember (s : SQP K) (levelValue : K)
    (h : s.currentSecondMember_.length = s.currentPoint_.length + 1) :
    (SQP.assembleSecondMember s levelValue).length = s.currentPoint_.length + 1
      ∧ (∀ i, i < s.currentPoint_.length →
          NumericalPoint.get (SQP.assembleSecondMember s levelValue) i
            = -(NumericalPoint.get s.currentPoint_ i))
      ∧ NumericalPoint.get (SQP.assembleSecondMember s levelValue) s.currentPoint_.length
        = -(s.currentLevelValue_ - levelValue) := by
  obtain ⟨hl, hg⟩ := foldl_set_get (fun i => -(NumericalPoint.get s.currentPoint_ i))
    s.currentPoint_.length s.currentSecondMember_ (by omega)
  unfold SQP.assembleSecondMember
  refine ⟨by rw [List.length_set, hl, h], ?_, ?_⟩
  · intro i hi
    have hne : ¬ s.currentPoint_.length = i := by omega
    have := hg i
    simp only [NumericalPoint.get, List.getD_eq_getElem?_getD, List.getElem?_set] at this ⊢
    rw [if_neg hne, this, if_pos hi]
  · simp only [NumericalPoint.get, List.getD_eq_getElem?_getD, List.getElem?_set]
    have hlt : s.currentPoint_.length
        < ((List.range s.currentPoint_.length).foldl
          (fun b i => b.set i (-(NumericalPoint.get s.currentPoint_ i)))
          s.currentSecondMember_).length := by
      rw [hl, h]
      omega
    simp only [NumericalPoint.get, List.getD_eq_getElem?_getD] at hlt
    simp [hlt]
    ring

/-- The direction copied from the solution by `SQP::run`. -/
theorem sqp_copied_direction (s : SQP K) (Solution : List K)
    (h : s.currentDirection_.length = s.currentPoint_.length) :
    (SQP.copyDirection s Solution).length = s.currentPoint_.length
      ∧ ∀ i, i < s.currentPoint_.length →
          NumericalPoint.get (SQP.copyDirection s Solution) i = NumericalPoint.get Solution i := by
  obtain ⟨hl, hg⟩ := foldl_set_get (fun i => NumericalPoint.get Solution i)
    s.currentPoint_.length s.currentDirection_ (by omega)
  unfold SQP.copyDirection
  refine ⟨by rw [hl, h], ?_⟩
  intro i hi
  rw [hg i, if_pos hi]

end Assembly

/-! ### What the loop of `SQP::run` keeps -/

section Invariants

variable {K : Type} [LinearOrderedField K]

/-- The fields of `SQP` that hold the system are left unchanged by `computeLineSearch`. -/
theorem sqp_computeLineSearch_frame_system (sqrt : K → K) (fuel : Nat) (s s1 : SQP K)
    (alpha : K) (h : SQP.computeLineSearch sqrt fuel s = some (alpha, s1)) :
    s1.currentHessian_ = s.currentHessian_
      ∧ s1.currentSystemMatrix_ = s.currentSystemMatrix_
      ∧ s1.currentSecondMember_ = s.currentSecondMember_ := by
  unfold SQP.computeLineSearch at h
  simp only [] at h
  split at h
  · exact absurd h (by simp)
  · simp only [Option.some.injEq, Prod.mk.injEq] at h
    obtain ⟨-, hs⟩ := h
    subst hs
    exact ⟨rfl, rfl, rfl⟩

/-- No statement of the loop body of `SQP::run` assigns `currentHessian_`. -/
theorem sqp_iteration_hessian (sqrt : K → K)
    (solveLinearSystem : SymmetricMatrix K → List K → List K) (fuel : Nat)
    (r r1 : SQP.RunState K) (h : SQP.iteration sqrt solveLinearSystem fuel r = some r1) :
    r1.solver.currentHessian_ = r.solver.currentHessian_ := by
  rcases sqp_iteration_cases sqrt solveLinearSystem fuel r r1 h with
    ⟨-, rfl⟩ | ⟨-, alpha, s1, hls, rfl⟩
  · rfl
  · exact (sqp_computeLineSearch_frame_system sqrt fuel _ s1 alpha hls).1

/-- The Hessian held after any number of iterations of `SQP::run` is the one evaluated
before the loop, at the starting point. -/
theorem sqp_iterateBody_hessian (sqrt : K → K)
    (solveLinearSystem : SymmetricMatrix K → List K → List K) (fuel : Nat) (s : SQP K) :
    ∀ (k : Nat) (rk : SQP.RunState K),
      iterateBody (SQP.iteration sqrt solveLinearSystem fuel) (SQP.runInit s) k = some rk →
      rk.solver.currentHessian_ = s.problem.levelFunction.hessian s.startingPoint := by
  intro k
  induction k with
  | zero =>
    intro rk h
    have h1 : some (SQP.runInit s) = some rk := h
    simp only [Option.some.injEq] at h1
    subst h1
    rfl
  | succ k ih =>
    intro rk h
    have h1 : (iterateBody (SQP.iteration sqrt solveLinearSystem fuel) (SQP.runInit s) k).bind
        (SQP.iteration sqrt solveLinearSystem fuel) = some rk := h
    cases hk : iterateBody (SQP.iteration sqrt solveLinearSystem fuel) (SQP.runInit s) k with
    | none => rw [hk] at h1; exact absurd h1 (by simp)
    | some rj =>
      rw [hk] at h1
      rw [sqp_iteration_hessian sqrt solveLinearSystem fuel rj rk h1]
      exact ih rj hk

/-- The state set up by `SQP::run` before its loop has consistent dimensions. -/
theorem sqp_runInit_dimensioned (sqrt : K → K) (s : SQP K)
    (hold : s.oldPoint_.length = s.startingPoint.length
      ∨ NumericalPoint.norm sqrt s.oldPoint_ = 0) :
    SQP.Dimensioned sqrt s.startingPoint.length (SQP.runInit s).solver := by
  refine ⟨rfl, rfl, ?_, ?_, ?_, hold⟩
  · show (SymmetricMatrix.zero (K := K) (s.startingPoint.length + 1)).get _ _ = 0
    unfold SymmetricMatrix.get SymmetricMatrix.zero
    simp
  · show (NumericalPoint.zero (s.startingPoint.length + 1) : List K).length = _
    simp [NumericalPoint.zero]
  · show (NumericalPoint.zero s.startingPoint.length : List K).length = _
    simp [NumericalPoint.zero]

/-- The statements that compute the direction keep the dimensions consistent. -/
theorem sqp_computeDirection_dimensioned (sqrt : K → K)
    (solveLinearSystem : SymmetricMatrix K → List K → List K) (n : Nat) (s : SQP K)
    (h : SQP.Dimensioned sqrt n s) :
    SQP.Dimensioned sqrt n (SQP.computeDirection solveLinearSystem s) := by
  obtain ⟨hp, hd, hnn, hb, hdir, hold⟩ := h
  obtain ⟨hdim, -, -, -, hcorner⟩ := sqp_assembled_matrix s
  obtain ⟨hbl, -, -⟩ := sqp_assembled_secondMember
    { s with currentSystemMatrix_ := SQP.assembleSystemMatrix s } s.problem.levelValue
    (by show s.currentSecondMember_.length = s.currentPoint_.length + 1; rw [hb, hp])
  obtain ⟨hcl, -⟩ := sqp_copied_direction
    { s with
      currentSystemMatrix_ := SQP.assembleSystemMatrix s
      currentSecondMember_ := SQP.assembleSecondMember
        { s with currentSystemMatrix_ := SQP.assembleSystemMatrix s } s.problem.levelValue }
    (solveLinearSystem (SQP.assembleSystemMatrix s)
      (SQP.assembleSecondMember
        { s with currentSystemMatrix_ := SQP.assembleSystemMatrix s } s.problem.levelValue))
    (by show s.currentDirection_.length = s.currentPoint_.length; rw [hdir, hp])
  refine ⟨hp, ?_, ?_, ?_, ?_, hold⟩
  · show (SQP.assembleSystemMatrix s).dim = n + 1
    rw [hdim, hd]
  · show (SQP.assembleSystemMatrix s).get n n = 0
    rw [← hp, hcorner, hp, hnn]
  · rw [← hp]
    exact hbl
  · rw [← hp]
    exact hcl

/-- The line search keeps the dimensions consistent. -/
theorem sqp_computeLineSearch_dimensioned (sqrt : K → K) (fuel : Nat) (n : Nat)
    (s s1 : SQP K) (alpha : K) (h : SQP.Dimensioned sqrt n s)
    (hls : SQP.computeLineSearch sqrt fuel s = some (alpha, s1)) :
    SQP.Dimensioned sqrt n s1 := by
  obtain ⟨hp, hd, hnn, hb, hdir, hold⟩ := h
  obtain ⟨-, -, -, -, -, hdir1, -, hold1, -, -⟩ := sqp_computeLineSearch_frame sqrt fuel s s1
    alpha hls
  obtain ⟨-, hm1, hb1⟩ := sqp_computeLineSearch_frame_system sqrt fuel s s1 alpha hls
  obtain ⟨a, -, -, hpt, -⟩ := sqp_computeLineSearch_exit sqrt fuel s s1 alpha hls
  refine ⟨?_, by rw [hm1]; exact hd, by rw [hm1]; exact hnn, by rw [hb1]; exact hb,
    by rw [hdir1]; exact hdir, Or.inl (by rw [hold1]; exact hp)⟩
  rw [hpt]
  split
  · rename_i hi
    have hlen : s.oldPoint_.length = n := by
      rcases hold with h1 | h0
      · exact h1
      · exact absurd h0 hi.1
    simp [SQP.interpolatedPoint, NumericalPoint.sdiv, NumericalPoint.smul, NumericalPoint.add,
      hlen, hp]
  · simp [NumericalPoint.smul, NumericalPoint.add, hdir, hp]

/-- The loop body of `SQP::run` keeps the dimensions consistent. -/
theorem sqp_iteration_dimensioned (sqrt : K → K)
    (solveLinearSystem : SymmetricMatrix K → List K → List K) (fuel : Nat) (n : Nat)
    (r r1 : SQP.RunState K) (hd : SQP.Dimensioned sqrt n r.solver)
    (h : SQP.iteration sqrt solveLinearSystem fuel r = some r1) :
    SQP.Dimensioned sqrt n r1.solver := by
  rcases sqp_iteration_cases sqrt solveLinearSystem fuel r r1 h with
    ⟨-, rfl⟩ | ⟨-, alpha, s1, hls, rfl⟩
  · exact hd
  · exact sqp_computeLineSearch_dimensioned sqrt fuel n _ s1 alpha
      (sqp_computeDirection_dimensioned sqrt solveLinearSystem n (SQP.evalGradient r.solver) hd)
      hls

/-- The dimensions are consistent after any number of iterations of `SQP::run`. -/
theorem sqp_iterateBody_dimensioned (sqrt : K → K)
    (solveLinearSystem : SymmetricMatrix K → List K → List K) (fuel : Nat) (s : SQP K)
    (hold : s.oldPoint_.length = s.startingPoint.length
      ∨ NumericalPoint.norm sqrt s.oldPoint_ = 0) :
    ∀ (k : Nat) (rk : SQP.RunState K),
      iterateBody (SQP.iteration sqrt solveLinearSystem fuel) (SQP.runInit s) k = some rk →
      SQP.Dimensioned sqrt s.startingPoint.length rk.solver := by
  intro k
  induction k with
  | zero =>
    intro rk h
    have h1 : some (SQP.runInit s) = some rk := h
    simp only [Option.some.injEq] at h1
    subst h1
    exact sqp_runInit_dimensioned sqrt s hold
  | succ k ih =>
    intro rk h
    have h1 : (iterateBody (SQP.iteration sqrt solveLinearSystem fuel) (SQP.runInit s) k).bind
        (SQP.iteration sqrt solveLinearSystem fuel) = some rk := h
    cases hk : iterateBody (SQP.iteration sqrt solveLinearSystem fuel) (SQP.runInit s) k with
    | none => rw [hk] at h1; exact absurd h1 (by simp)
    | some rj =>
      rw [hk] at h1
      exact sqp_iteration_dimensioned sqrt solveLinearSystem fuel _ rj rk (ih rj hk) h1

/-- The problem is the same after any number of iterations of `SQP::run`. -/
theorem sqp_iterateBody_problem (sqrt : K → K)
    (solveLinearSystem : SymmetricMatrix K → List K → List K) (fuel : Nat)
    (r : SQP.RunState K) :
    ∀ (k : Nat) (rk : SQP.RunState K),
      iterateBody (SQP.iteration sqrt solveLinearSystem fuel) r k = some rk →
      rk.solver.problem = r.solver.problem := by
  intro k
  induction k with
  | zero =>
    intro rk h
    have h1 : some r = some rk := h
    simp only [Option.some.injEq] at h1
    subst h1
    rfl
  | succ k ih =>
    intro rk h
    have h1 : (iterateBody (SQP.iteration sqrt solveLinearSystem fuel) r k).bind
        (SQP.iteration sqrt solveLinearSystem fuel) = some rk := h
    cases hk : iterateBody (SQP.iteration sqrt solveLinearSystem fuel) r k with
    | none => rw [hk] at h1; exact absurd h1 (by simp)
    | some rj =>
      rw [hk] at h1
      rw [(sqp_iteration_frame sqrt solveLinearSystem fuel rj rk h1).2.2.2.2.1]
      exact ih rj hk

end Invariants

/-! ### Sums over the components, and the rows of the system of `SQP` -/

section Sums

variable {K : Type} [LinearOrderedField K]

/-- A sum over `range (n + 1)` splits off its last term. -/
theorem sum_range_succ_map (f : Nat → K) (n : Nat) :
    ((List.range (n + 1)).map f).sum = ((List.range n).map f).sum + f n := by
  rw [List.range_succ, List.map_append, List.sum_append]
  simp

/-- Two sums over `range n` with equal terms are equal. -/
theorem sum_range_congr (f g : Nat → K) (n : Nat) (h : ∀ j, j < n → f j = g j) :
    ((List.range n).map f).sum = ((List.range n).map g).sum := by
  induction n with
  | zero => rfl
  | succ n ih =>
    rw [sum_range_succ_map, sum_range_succ_map, ih (fun j hj => h j (by omega)),
      h n (Nat.lt_succ_self n)]

/-- The sum of `(a j + [i = j] c) * x j` over `range n`, for `i < n`. -/
theorem sum_range_diagonal (a x : Nat → K) (c : K) (i : Nat) :
    ∀ n, ((List.range n).map (fun j => (a j + (if i = j then c else 0)) * x j)).sum
      = ((List.range n).map (fun j => a j * x j)).sum + (if i < n then c * x i else 0) := by
  intro n
  induction n with
  | zero => simp
  | succ n ih =>
    rw [sum_range_succ_map, sum_range_succ_map, ih]
    by_cases h1 : i = n
    · subst h1
      simp
      ring
    · by_cases h2 : i < n
      · have h3 : i < n + 1 := by omega
        simp only [h1, h2, h3, if_true, if_false]
        ring
      · have h3 : ¬ i < n + 1 := by omega
        simp only [h1, h2, h3, if_false]
        ring

/-- A constant factor comes out of a sum over `range n`. -/
theorem sum_range_mul_left (c : K) (f : Nat → K) (n : Nat) :
    ((List.range n).map (fun j => c * f j)).sum = c * ((List.range n).map f).sum := by
  induction n with
  | zero => simp
  | succ n ih =>
    rw [sum_range_succ_map, sum_range_succ_map, ih]
    ring

/-- The component `i` of a point built over `range m`. -/
theorem get_map_range (f : Nat → K) (m i : Nat) (h : i < m) :
    NumericalPoint.get ((List.range m).map f) i = f i := by
  simp [NumericalPoint.get, List.getD_eq_getElem?_getD, h]

/-- `dot` of two points of dimension `n` as a sum over `range n`. -/
theorem dot_eq_sum_range :
    ∀ (n : Nat) (a b : List K), a.length = n → b.length = n →
      dot a b = ((List.range n).map
        (fun j => NumericalPoint.get a j * NumericalPoint.get b j)).sum := by
  intro n
  induction n with
  | zero =>
    intro a b ha hb
    have ha0 : a = [] := List.length_eq_zero.mp ha
    subst ha0
    simp [dot]
  | succ n ih =>
    intro a b ha hb
    cases a with
    | nil => simp at ha
    | cons x a =>
      cases b with
      | nil => simp at hb
      | cons y b =>
        simp only [List.length_cons, add_left_inj] at ha hb
        have h := ih a b ha hb
        rw [List.range_succ_eq_map, List.map_cons, List.sum_cons, List.map_map]
        simp only [dot, List.zipWith_cons_cons, List.sum_cons] at h ⊢
        rw [h]
        simp only [NumericalPoint.get, List.getD_cons_zero, add_right_inj]
        apply sum_range_congr
        intro j _
        simp only [Function.comp, List.getD_cons_succ]

/-- The rows of the system assembled by `SQP::run`, for a solution `x` of it: the first `n`
rows read `2 x[i] + lambda * (H x)[i] + x[n] * g[i] = -u[i]`, the last one
`dot(g, x) = -(G(u) - G0)`. -/
theorem sqp_system_rows (s : SQP K) (levelValue : K) (x : List K)
    (hdim : s.currentSystemMatrix_.dim = s.currentPoint_.length + 1)
    (hcorner : s.currentSystemMatrix_.get s.currentPoint_.length s.currentPoint_.length = 0)
    (hb : s.currentSecondMember_.length = s.currentPoint_.length + 1)
    (hx : IsSolution (SQP.assembleSystemMatrix s)
      (SQP.assembleSecondMember
        { s with currentSystemMatrix_ := SQP.assembleSystemMatrix s } levelValue) x) :
    (∀ i, i < s.currentPoint_.length →
      2 * NumericalPoint.get x i
        + s.currentLambda_ * ((List.range s.currentPoint_.length).map
            (fun j => s.currentHessian_.get i j * NumericalPoint.get x j)).sum
        + NumericalPoint.get x s.currentPoint_.length * NumericalPoint.get s.currentGradient_ i
      = -(NumericalPoint.get s.currentPoint_ i))
    ∧ ((List.range s.currentPoint_.length).map
        (fun j => NumericalPoint.get s.currentGradient_ j * NumericalPoint.get x j)).sum
      = -(s.currentLevelValue_ - levelValue) := by
  obtain ⟨hdimA, hoff, hdiag, hborder, hcornerA⟩ := sqp_assembled_matrix s
  obtain ⟨-, hbi, hbn⟩ := sqp_assembled_secondMember
    { s with currentSystemMatrix_ := SQP.assembleSystemMatrix s } levelValue hb
  have hrow : ∀ i, i < s.currentPoint_.length + 1 →
      ((List.range s.currentPoint_.length).map
          (fun j => (SQP.assembleSystemMatrix s).get i j * NumericalPoint.get x j)).sum
        + (SQP.assembleSystemMatrix s).get i s.currentPoint_.length
          * NumericalPoint.get x s.currentPoint_.length
      = NumericalPoint.get (SQP.assembleSecondMember
        { s with currentSystemMatrix_ := SQP.assembleSystemMatrix s } levelValue) i := by
    intro i hi
    rw [← hx.2]
    unfold SymmetricMatrix.mulVec
    rw [hdimA, hdim, get_map_range _ _ _ hi, sum_range_succ_map]
  constructor
  · intro i hi
    have h := hrow i (by omega)
    rw [hbi i hi, (hborder i hi).1] at h
    have hc : ((List.range s.currentPoint_.length).map
          (fun j => (SQP.assembleSystemMatrix s).get i j * NumericalPoint.get x j)).sum
        = ((List.range s.currentPoint_.length).map
          (fun j => (s.currentLambda_ * s.currentHessian_.get i j + (if i = j then 2 else 0))
            * NumericalPoint.get x j)).sum := by
      apply sum_range_congr
      intro j hj
      by_cases hij : i = j
      · subst hij
        rw [hdiag i hi, if_pos rfl]
      · rw [hoff i j hi hj hij, if_neg hij, add_zero]
    rw [hc, sum_range_diagonal, if_pos hi] at h
    have hm : ((List.range s.currentPoint_.length).map
          (fun j => s.currentLambda_ * s.currentHessian_.get i j * NumericalPoint.get x j)).sum
        = s.currentLambda_ * ((List.range s.currentPoint_.length).map
          (fun j => s.currentHessian_.get i j * NumericalPoint.get x j)).sum := by
      rw [← sum_range_mul_left]
      apply sum_range_congr
      intro j _
      ring
    rw [hm] at h
    linarith
  · have h := hrow s.currentPoint_.length (by omega)
    rw [hbn, hcornerA, hcorner, zero_mul, add_zero] at h
    rw [← h]
    apply sum_range_congr
    intro j hj
    rw [(hborder j hj).2]

end Sums

/-! ### The parameters of `GeneralizedExtremeValue` -/

section GeneralizedExtremeValueFacts

variable {K : Type} [LinearOrderedField K]

/-- `setMuSigmaXi` with a `sigma` that is not positive throws and leaves the object as it
was. -/
theorem setMuSigmaXi_of_not_pos (xiEpsilon : K) (g : GeneralizedExtremeValue K)
    (mu sigma xi : K) (h : ¬ (sigma > 0)) :
    GeneralizedExtremeValue.setMuSigmaXi xiEpsilon g mu sigma xi
      = (g, some Exception.InvalidArgumentException) := by
  unfold GeneralizedExtremeValue.setMuSigmaXi
  rw [if_pos h]

/-- `setMuSigmaXi` with a positive `sigma` and a non-negative threshold succeeds: the three
parameters are stored and the actual distribution is built from them. -/
theorem setMuSigmaXi_of_pos (xiEpsilon : K) (hx : 0 ≤ xiEpsilon)
    (g : GeneralizedExtremeValue K) (mu sigma xi : K) (h : sigma > 0) :
    GeneralizedExtremeValue.setMuSigmaXi xiEpsilon g mu sigma xi
      = ({ g with
          mu_ := mu
          sigma_ := sigma
          xi_ := xi
          actualDistribution_ :=
            if xi < -xiEpsilon then
              (⟨-sigma / xi, -1 / xi, sigma / xi - mu⟩ : Weibull K).times (-1)
            else if xi > xiEpsilon then
              Distribution.frechet ⟨1 / xi, sigma / xi, mu - sigma / xi⟩
            else Distribution.gumbel ⟨1 / sigma, mu⟩
          isAlreadyComputedMean_ := false
          isAlreadyComputedCovariance_ := false }, none) := by
  unfold GeneralizedExtremeValue.setMuSigmaXi
  have hn : ¬ ¬ (sigma > 0) := not_not.mpr h
  rw [if_neg hn]
  by_cases h1 : xi < -xiEpsilon
  · have hxi : xi < 0 := by linarith
    have ha : -sigma / xi > 0 := div_pos_of_neg_of_neg (by linarith) hxi
    have hb : -1 / xi > 0 := div_pos_of_neg_of_neg (by norm_num) hxi
    simp only [h1, if_true, Weibull.new, ha, hb, not_true_eq_false, if_false, Except.map]
  · by_cases h2 : xi > xiEpsilon
    · have hxi : xi > 0 := by linarith
      have ha : 1 / xi > 0 := div_pos one_pos hxi
      have hb : sigma / xi > 0 := div_pos h hxi
      simp only [h1, h2, if_true, if_false, Frechet.new, ha, hb, not_true_eq_false, Except.map]
    · have ha : 1 / sigma > 0 := div_pos one_pos h
      simp only [h1, h2, if_false, Gumbel.new, ha, not_true_eq_false, Except.map]

/-- The outcome of `setMuSigmaXi` for a non-negative threshold: it throws
`InvalidArgumentException` exactly when `sigma > 0` fails, leaving the object as it was, and
otherwise stores the three parameters. -/
theorem setMuSigmaXi_outcome (xiEpsilon : K) (hx : 0 ≤ xiEpsilon)
    (g : GeneralizedExtremeValue K) (mu sigma xi : K) :
    ((GeneralizedExtremeValue.setMuSigmaXi xiEpsilon g mu sigma xi).2
        = some Exception.InvalidArgumentException ↔ ¬ (sigma > 0))
      ∧ ((GeneralizedExtremeValue.setMuSigmaXi xiEpsilon g mu sigma xi).2 = none ↔ sigma > 0)
      ∧ (¬ (sigma > 0) → (GeneralizedExtremeValue.setMuSigmaXi xiEpsilon g mu sigma xi).1 = g)
      ∧ (sigma > 0 →
          (GeneralizedExtremeValue.setMuSigmaXi xiEpsilon g mu sigma xi).1.getMu = mu
          ∧ (GeneralizedExtremeValue.setMuSigmaXi xiEpsilon g mu sigma xi).1.getSigma = sigma
          ∧ (GeneralizedExtremeValue.setMuSigmaXi xiEpsilon g mu sigma xi).1.getXi = xi
          ∧ (GeneralizedExtremeValue.setMuSigmaXi xiEpsilon g mu sigma xi).1.getParameter
            = [mu, sigma, xi]) := by
  by_cases h : sigma > 0
  · rw [setMuSigmaXi_of_pos xiEpsilon hx g mu sigma xi h]
    refine ⟨⟨fun h1 => absurd h1 (by simp), fun h1 => absurd h h1⟩,
      ⟨fun _ => h, fun _ => rfl⟩, fun h1 => absurd h h1, fun _ => ⟨rfl, rfl, rfl, rfl⟩⟩
  · rw [setMuSigmaXi_of_not_pos xiEpsilon g mu sigma xi h]
    refine ⟨⟨fun _ => h, fun _ => rfl⟩, ⟨fun h1 => absurd h1 (by simp), fun h1 => absurd h1 h⟩,
      fun _ => rfl, fun h1 => absurd h1 h⟩

end GeneralizedExtremeValueFacts

/-! ### The trial points and the frame of the line search of `AbdoRackwitz` -/

section AbdoRackwitzCount

variable {K : Type} [LinearOrderedField K]

/-- For `0 < tau < 1` the number of trial points of the backtracking loop entered at
`tau ^ m`, `m ≤ 9`: the loop body is executed `j + 1` times, `j ≤ 9 - m`; a fuel of `j` is
not enough, every larger fuel gives the same result; the loop condition holds at every trial
point but the last, and fails at the last one. -/
theorem abdoRackwitz_lineSearchLoop_count (s : AbdoRackwitz K)
    (levelValue currentSigma currentTheta levelIncrement : K)
    (h0 : 0 < s.tau_) (h1 : s.tau_ < 1) :
    ∀ (n m : Nat), m + n = 9 →
      ∃ j, j ≤ n
        ∧ (∀ fuel, fuel ≤ j →
          AbdoRackwitz.lineSearchLoop s levelValue currentSigma currentTheta (s.tau_ ^ 9)
            levelIncrement fuel (s.tau_ ^ m) = none)
        ∧ (∀ fuel, j < fuel →
          AbdoRackwitz.lineSearchLoop s levelValue currentSigma currentTheta (s.tau_ ^ 9)
            levelIncrement fuel (s.tau_ ^ m)
          = some ⟨s.tau_ ^ (m + j + 1),
              NumericalPoint.add s.currentPoint_
                (NumericalPoint.smul (s.tau_ ^ (m + j)) s.currentDirection_),
              s.problem.levelFunction.eval (NumericalPoint.add s.currentPoint_
                (NumericalPoint.smul (s.tau_ ^ (m + j)) s.currentDirection_)),
              (1 / 2) * NumericalPoint.normSquare (NumericalPoint.add s.currentPoint_
                  (NumericalPoint.smul (s.tau_ ^ (m + j)) s.currentDirection_))
                + currentSigma * |s.problem.levelFunction.eval (NumericalPoint.add
                    s.currentPoint_
                    (NumericalPoint.smul (s.tau_ ^ (m + j)) s.currentDirection_))
                  - levelValue|⟩)
        ∧ (∀ i, i < j →
          (1 / 2) * NumericalPoint.normSquare (NumericalPoint.add s.currentPoint_
                (NumericalPoint.smul (s.tau_ ^ (m + i)) s.currentDirection_))
              + currentSigma * |s.problem.levelFunction.eval (NumericalPoint.add
                  s.currentPoint_
                  (NumericalPoint.smul (s.tau_ ^ (m + i)) s.currentDirection_))
                - levelValue|
            > currentTheta + s.tau_ ^ (m + i + 1) * levelIncrement)
        ∧ (m + j < 9 →
          (1 / 2) * NumericalPoint.normSquare (NumericalPoint.add s.currentPoint_
                (NumericalPoint.smul (s.tau_ ^ (m + j)) s.currentDirection_))
              + currentSigma * |s.problem.levelFunction.eval (NumericalPoint.add
                  s.currentPoint_
                  (NumericalPoint.smul (s.tau_ ^ (m + j)) s.currentDirection_))
                - levelValue|
            ≤ currentTheta + s.tau_ ^ (m + j + 1) * levelIncrement) := by
  intro n
  induction n with
  | zero =>
    intro m hm
    have hm9 : m = 9 := by omega
    subst hm9
    have hlt : ¬ (s.tau_ ^ 9 * s.tau_ ≥ s.tau_ ^ 9) := by
      have hp : 0 < s.tau_ ^ 9 := pow_pos h0 9
      nlinarith
    refine ⟨0, le_refl _, ?_, ?_, ?_, ?_⟩
    · intro fuel hf
      have : fuel = 0 := by omega
      subst this
      rfl
    · intro fuel hf
      obtain ⟨f, rfl⟩ : ∃ f, fuel = f + 1 := ⟨fuel - 1, by omega⟩
      rw [AbdoRackwitz.lineSearchLoop]
      simp only [hlt, false_and, if_false]
      have e : s.tau_ ^ (9 + 0 + 1) = s.tau_ ^ 9 * s.tau_ := pow_succ _ _
      rw [e]
    · intro i hi
      exact absurd hi (by omega)
    · intro h
      exact absurd h (by omega)
  | succ n ih =>
    intro m hm
    by_cases hc : s.tau_ ^ m * s.tau_ ≥ s.tau_ ^ 9
        ∧ (1 / 2) * NumericalPoint.normSquare (NumericalPoint.add s.currentPoint_
              (NumericalPoint.smul (s.tau_ ^ m) s.currentDirection_))
            + currentSigma * |s.problem.levelFunction.eval (NumericalPoint.add
                s.currentPoint_ (NumericalPoint.smul (s.tau_ ^ m) s.currentDirection_))
              - levelValue|
          > currentTheta + s.tau_ ^ m * s.tau_ * levelIncrement
    · obtain ⟨j, hj, hnone, hsome, hcont, hexit⟩ := ih (m + 1) (by omega)
      have e1 : ∀ k, m + 1 + k = m + (k + 1) := fun k => by omega
      simp only [e1] at hsome hcont hexit
      refine ⟨j + 1, by omega, ?_, ?_, ?_, ?_⟩
      · intro fuel hf
        cases fuel with
        | zero => rfl
        | succ f =>
          rw [AbdoRackwitz.lineSearchLoop]
          rw [if_pos hc, ← pow_succ]
          exact hnone f (by omega)
      · intro fuel hf
        obtain ⟨f, rfl⟩ : ∃ f, fuel = f + 1 := ⟨fuel - 1, by omega⟩
        rw [AbdoRackwitz.lineSearchLoop]
        rw [if_pos hc, ← pow_succ]
        exact hsome f (by omega)
      · intro i hi
        cases i with
        | zero =>
          have := hc.2
          rw [← pow_succ] at this
          exact this
        | succ i => exact hcont i (by omega)
      · intro h
        exact hexit (by omega)
    · refine ⟨0, by omega, ?_, ?_, ?_, ?_⟩
      · intro fuel hf
        have : fuel = 0 := by omega
        subst this
        rfl
      · intro fuel hf
        obtain ⟨f, rfl⟩ : ∃ f, fuel = f + 1 := ⟨fuel - 1, by omega⟩
        rw [AbdoRackwitz.lineSearchLoop]
        rw [if_neg hc]
        have e : s.tau_ ^ (m + 0 + 1) = s.tau_ ^ m * s.tau_ := pow_succ _ _
        rw [e]
        rfl
      · intro i hi
        exact absurd hi (by omega)
      · intro h
        have hp : s.tau_ ^ 9 ≤ s.tau_ ^ (m + 1) :=
          pow_le_pow_of_le_one (le_of_lt h0) (le_of_lt h1) (by omega)
        rw [pow_succ s.tau_ m] at hp
        apply not_lt.mp
        intro hgt
        apply hc
        refine ⟨hp, ?_⟩
        rw [← pow_succ]
        exact hgt



/-- For `0 < tau < 1`, the number of trial points of `AbdoRackwitz::computeLineSearch`: the loop
body is executed `j + 1` times with `j ≤ 9`; a fuel of `j` is not enough and every larger
fuel returns the step `tau ^ j`; the loop condition holds at the trial points `0, ..., j - 1`
and, when `j < 9`, the acceptance test is met at the trial point `j`. -/
theorem abdoRackwitz_computeLineSearch_count (sqrt : K → K) (s : AbdoRackwitz K)
    (h0 : 0 < s.tau_) (h1 : s.tau_ < 1) :
    ∃ j, j ≤ 9
      ∧ (∀ fuel, fuel ≤ j → AbdoRackwitz.computeLineSearch sqrt fuel s = none)
      ∧ (∀ fuel, j < fuel →
          ∃ s1, AbdoRackwitz.computeLineSearch sqrt fuel s = some (s.tau_ ^ j, s1))
      ∧ (∀ i, i < j →
          AbdoRackwitz.theta s (AbdoRackwitz.sigmaUpdate sqrt s)
              (NumericalPoint.add s.currentPoint_
                (NumericalPoint.smul (s.tau_ ^ i) s.currentDirection_))
            > AbdoRackwitz.currentTheta sqrt s
              + s.tau_ ^ (i + 1) * AbdoRackwitz.levelIncrement sqrt s)
      ∧ (j < 9 →
          AbdoRackwitz.theta s (AbdoRackwitz.sigmaUpdate sqrt s)
              (NumericalPoint.add s.currentPoint_
                (NumericalPoint.smul (s.tau_ ^ j) s.currentDirection_))
            ≤ AbdoRackwitz.currentTheta sqrt s
              + s.tau_ ^ (j + 1) * AbdoRackwitz.levelIncrement sqrt s) := by
  obtain ⟨j, hj, hnone, hsome, hcont, hexit⟩ := abdoRackwitz_lineSearchLoop_count s
    s.problem.levelValue (AbdoRackwitz.sigmaUpdate sqrt s) (AbdoRackwitz.currentTheta sqrt s)
    (AbdoRackwitz.levelIncrement sqrt s) h0 h1 9 0 (by omega)
  simp only [Nat.zero_add, pow_zero] at hnone hsome hcont hexit
  refine ⟨j, hj, ?_, ?_, hcont, hexit⟩
  · intro fuel hf
    have h := hnone fuel hf
    unfold AbdoRackwitz.computeLineSearch
    unfold AbdoRackwitz.sigmaUpdate AbdoRackwitz.currentTheta AbdoRackwitz.levelIncrement
      AbdoRackwitz.sigmaUpdate at h
    simp only [h]
  · intro fuel hf
    have h := hsome fuel hf
    unfold AbdoRackwitz.computeLineSearch
    unfold AbdoRackwitz.sigmaUpdate AbdoRackwitz.currentTheta AbdoRackwitz.levelIncrement
      AbdoRackwitz.sigmaUpdate at h
    have e : s.tau_ ^ (j + 1) / s.tau_ = s.tau_ ^ j := by
      rw [pow_succ]
      field_simp
    simp only [h, e]
    exact ⟨_, rfl⟩

/-- The body of `AbdoRackwitz::computeLineSearch` in terms of its local quantities: the
backtracking loop is run with the updated `sigma`, with `currentTheta`, `minStep = tau ^ 9`
and `levelIncrement`; its last trial point is kept or replaced by the interpolated point. -/
theorem abdoRackwitz_computeLineSearch_eq (sqrt : K → K) (fuel : Nat) (s : AbdoRackwitz K) :
    AbdoRackwitz.computeLineSearch sqrt fuel s
      = (AbdoRackwitz.lineSearchLoop s s.problem.levelValue (AbdoRackwitz.sigmaUpdate sqrt s)
          (AbdoRackwitz.currentTheta sqrt s) (s.tau_ ^ 9) (AbdoRackwitz.levelIncrement sqrt s)
          fuel 1).map
        (fun r => (r.step / s.tau_,
          { s with
            currentSigma_ := AbdoRackwitz.sigmaUpdate sqrt s
            oldPoint_ := s.currentPoint_
            oldLevelValue_ := s.currentLevelValue_
            currentPoint_ :=
              if AbdoRackwitz.interpolates sqrt s r.currentStepPoint then
                AbdoRackwitz.interpolatedPoint sqrt s
              else r.currentStepPoint
            currentLevelValue_ :=
              if AbdoRackwitz.interpolates sqrt s r.currentStepPoint then
                s.problem.levelFunction.eval (AbdoRackwitz.interpolatedPoint sqrt s)
              else r.currentStepLevelValue })) := by
  unfold AbdoRackwitz.computeLineSearch
  simp only []
  cases hl : AbdoRackwitz.lineSearchLoop s s.problem.levelValue
      (AbdoRackwitz.sigmaUpdate sqrt s)
      (AbdoRackwitz.currentTheta sqrt s) (s.tau_ ^ 9) (AbdoRackwitz.levelIncrement sqrt s)
      fuel 1 with
  | none =>
    unfold AbdoRackwitz.sigmaUpdate AbdoRackwitz.currentTheta AbdoRackwitz.levelIncrement
      AbdoRackwitz.sigmaUpdate at hl
    simp only [hl]
    rfl
  | some r =>
    unfold AbdoRackwitz.sigmaUpdate AbdoRackwitz.currentTheta AbdoRackwitz.levelIncrement
      AbdoRackwitz.sigmaUpdate at hl
    simp only [hl, Option.map_some']
    by_cases hi : AbdoRackwitz.interpolates sqrt s r.currentStepPoint
    · rw [if_pos hi, if_pos hi]
      have hb : NumericalPoint.norm sqrt s.oldPoint_ ≠ 0 := hi.1
      have hc : (NumericalPoint.norm sqrt s.oldPoint_
              * NumericalPoint.norm sqrt r.currentStepPoint ≠ 0
            ∧ NumericalPoint.norm sqrt s.currentPoint_
              * NumericalPoint.norm sqrt r.currentStepPoint ≠ 0)
          ∧ dot s.oldPoint_ r.currentStepPoint
            / (NumericalPoint.norm sqrt s.oldPoint_
              * NumericalPoint.norm sqrt r.currentStepPoint)
          > dot s.currentPoint_ r.currentStepPoint
            / (NumericalPoint.norm sqrt s.currentPoint_
              * NumericalPoint.norm sqrt r.currentStepPoint) := hi.2
      rw [if_pos hb, if_pos hc]
      rfl
    · rw [if_neg hi, if_neg hi]
      by_cases hb : NumericalPoint.norm sqrt s.oldPoint_ ≠ 0
      · have hc : ¬ ((NumericalPoint.norm sqrt s.oldPoint_
                * NumericalPoint.norm sqrt r.currentStepPoint ≠ 0
              ∧ NumericalPoint.norm sqrt s.currentPoint_
                * NumericalPoint.norm sqrt r.currentStepPoint ≠ 0)
            ∧ dot s.oldPoint_ r.currentStepPoint
              / (NumericalPoint.norm sqrt s.oldPoint_
                * NumericalPoint.norm sqrt r.currentStepPoint)
            > dot s.currentPoint_ r.currentStepPoint
              / (NumericalPoint.norm sqrt s.currentPoint_
                * NumericalPoint.norm sqrt r.currentStepPoint)) := fun hc => hi ⟨hb, hc⟩
        rw [if_pos hb, if_neg hc]
        rfl
      · rw [if_neg hb]
        rfl

/-- The frame of `AbdoRackwitz::computeLineSearch` as one equation: the call modifies
`currentSigma_`, `currentPoint_`, `currentLevelValue_`, `oldPoint_` and `oldLevelValue_`
and nothing else. -/
theorem abdoRackwitz_computeLineSearch_only (sqrt : K → K) (fuel : Nat) (s s1 : AbdoRackwitz K)
    (alpha : K) (h : AbdoRackwitz.computeLineSearch sqrt fuel s = some (alpha, s1)) :
    s1 = { s with
      currentSigma_ := s1.currentSigma_
      currentPoint_ := s1.currentPoint_
      currentLevelValue_ := s1.currentLevelValue_
      oldPoint_ := s.currentPoint_
      oldLevelValue_ := s.currentLevelValue_ } := by
  unfold AbdoRackwitz.computeLineSearch at h
  simp only [] at h
  split at h
  · exact absurd h (by simp)
  · simp only [Option.some.injEq, Prod.mk.injEq] at h
    obtain ⟨-, hs⟩ := h
    subst hs
    rfl

/-- The dimension of the point left by `AbdoRackwitz::computeLineSearch`, when the direction
has the dimension of the current point and the previous point has that dimension or a null
norm. -/
theorem abdoRackwitz_lineSearch_length (sqrt : K → K) (fuel : Nat) (s s1 : AbdoRackwitz K)
    (alpha : K) (h : AbdoRackwitz.computeLineSearch sqrt fuel s = some (alpha, s1))
    (hd : s.currentDirection_.length = s.currentPoint_.length)
    (hold : s.oldPoint_.length = s.currentPoint_.length
      ∨ NumericalPoint.norm sqrt s.oldPoint_ = 0) :
    s1.currentPoint_.length = s.currentPoint_.length
      ∧ s1.currentPoint_.length = s1.currentDirection_.length := by
  obtain ⟨a, -, -, hp, -⟩ := abdoRackwitz_computeLineSearch_exit sqrt fuel s s1 alpha h
  have hdir : s1.currentDirection_ = s.currentDirection_ :=
    (abdoRackwitz_computeLineSearch_frame sqrt fuel s s1 alpha h).2.2.2.2.2.1
  have hl : s1.currentPoint_.length = s.currentPoint_.length := by
    rw [hp]
    split
    · rename_i hi
      rcases hold with ho | ho
      · simp [AbdoRackwitz.interpolatedPoint, NumericalPoint.sdiv, NumericalPoint.smul,
          NumericalPoint.add, ho]
      · exact absurd ho hi.1
    · simp [NumericalPoint.add, NumericalPoint.smul, hd]
  exact ⟨hl, by rw [hl, hdir, hd]⟩

/-- Invariant of the loop of `AbdoRackwitz::run`: after any number of executions of the loop
body the problem is the one of the solver, the stored level value is the level function at
the current point, and every stored entry holds the level function at its point and the
constraint error `|G(point) - G0|`. -/
theorem abdoRackwitz_level_consistency (sqrt : K → K) (fuel : Nat) (s : AbdoRackwitz K) :
    ∀ (k : Nat) (rk : AbdoRackwitz.RunState K),
      iterateBody (AbdoRackwitz.iteration sqrt fuel) (AbdoRackwitz.runInit s) k = some rk →
      rk.solver.problem = s.problem
        ∧ rk.solver.currentLevelValue_
          = s.problem.levelFunction.eval rk.solver.currentPoint_
        ∧ ∀ e ∈ rk.solver.result.history,
            e.value = s.problem.levelFunction.eval e.point
              ∧ e.constraintError
                = |s.problem.levelFunction.eval e.point - s.problem.levelValue| := by
  intro k
  induction k with
  | zero =>
    intro rk h
    simp only [iterateBody, Option.some.injEq] at h
    subst h
    refine ⟨rfl, rfl, ?_⟩
    intro e he
    simp [AbdoRackwitz.runInit, OptimizationResult.new] at he
  | succ k ih =>
    intro r1 h
    rw [iterateBody] at h
    cases hk : iterateBody (AbdoRackwitz.iteration sqrt fuel) (AbdoRackwitz.runInit s) k with
    | none => rw [hk] at h; exact absurd h (by simp)
    | some rk =>
      rw [hk] at h
      have hit : AbdoRackwitz.iteration sqrt fuel rk = some r1 := h
      obtain ⟨hp, hlv, hhist⟩ := ih rk hk
      have hp1 : r1.solver.problem = rk.solver.problem :=
        (abdoRackwitz_iteration_frame sqrt fuel rk r1 hit).2.2.2.2.1
      by_cases ht : r1.thrown = none
      · obtain ⟨_, _, -, -, -, hl1, -, -, -, -, hce, -⟩ :=
          abdoRackwitz_error_metrics sqrt fuel rk r1 hit ht
        obtain ⟨-, hh, -⟩ := abdoRackwitz_convergence_flag sqrt fuel rk r1 hit ht
        rw [hp] at hl1 hce
        refine ⟨by rw [hp1, hp], hl1, ?_⟩
        intro e he
        rw [hh] at he
        rcases List.mem_append.mp he with he | he
        · exact hhist e he
        · simp only [List.mem_singleton] at he
          subst he
          exact ⟨hl1, hce⟩
      · rcases abdoRackwitz_iteration_cases sqrt fuel rk r1 hit with
          ⟨-, rfl⟩ | ⟨-, alpha, s1, hls, rfl⟩
        · exact ⟨hp, hlv, hhist⟩
        · exact absurd rfl ht

end AbdoRackwitzCount

/-! ### The trial points and the frame of the line search of `SQP` -/

section SQPCount

variable {K : Type} [LinearOrderedField K]

/-- For `0 < tau < 1` the number of trial points of the backtracking loop entered at
`tau ^ m`, `m ≤ 9`: the loop body is executed `j + 1` times, `j ≤ 9 - m`; a fuel of `j` is
not enough, every larger fuel gives the same result; the loop condition holds at every trial
point but the last, and fails at the last one. -/
theorem sqp_lineSearchLoop_count (s : SQP K)
    (levelValue currentSigma currentTheta levelIncrement : K)
    (h0 : 0 < s.tau_) (h1 : s.tau_ < 1) :
    ∀ (n m : Nat), m + n = 9 →
      ∃ j, j ≤ n
        ∧ (∀ fuel, fuel ≤ j →
          SQP.lineSearchLoop s levelValue currentSigma currentTheta (s.tau_ ^ 9)
            levelIncrement fuel (s.tau_ ^ m) = none)
        ∧ (∀ fuel, j < fuel →
          SQP.lineSearchLoop s levelValue currentSigma currentTheta (s.tau_ ^ 9)
            levelIncrement fuel (s.tau_ ^ m)
          = some ⟨s.tau_ ^ (m + j + 1),
              NumericalPoint.add s.currentPoint_
                (NumericalPoint.smul (s.tau_ ^ (m + j)) s.currentDirection_),
              s.problem.levelFunction.eval (NumericalPoint.add s.currentPoint_
                (NumericalPoint.smul (s.tau_ ^ (m + j)) s.currentDirection_)),
              (1 / 2) * NumericalPoint.normSquare (NumericalPoint.add s.currentPoint_
                  (NumericalPoint.smul (s.tau_ ^ (m + j)) s.currentDirection_))
                + currentSigma * |s.problem.levelFunction.eval (NumericalPoint.add
                    s.currentPoint_
                    (NumericalPoint.smul (s.tau_ ^ (m + j)) s.currentDirection_))
                  - levelValue|⟩)
        ∧ (∀ i, i < j →
          (1 / 2) * NumericalPoint.normSquare (NumericalPoint.add s.currentPoint_
                (NumericalPoint.smul (s.tau_ ^ (m + i)) s.currentDirection_))
              + currentSigma * |s.problem.levelFunction.eval (NumericalPoint.add
                  s.currentPoint_
                  (NumericalPoint.smul (s.tau_ ^ (m + i)) s.currentDirection_))
                - levelValue|
            > currentTheta + s.tau_ ^ (m + i + 1) * levelIncrement)
        ∧ (m + j < 9 →
          (1 / 2) * NumericalPoint.normSquare (NumericalPoint.add s.currentPoint_
                (NumericalPoint.smul (s.tau_ ^ (m + j)) s.currentDirection_))
              + currentSigma * |s.problem.levelFunction.eval (NumericalPoint.add
                  s.currentPoint_
                  (NumericalPoint.smul (s.tau_ ^ (m + j)) s.currentDirection_))
                - levelValue|
            ≤ currentTheta + s.tau_ ^ (m + j + 1) * levelIncrement) := by
  intro n
  induction n with
  | zero =>
    intro m hm
    have hm9 : m = 9 := by omega
    subst hm9
    have hlt : ¬ (s.tau_ ^ 9 * s.tau_ ≥ s.tau_ ^ 9) := by
      have hp : 0 < s.tau_ ^ 9 := pow_pos h0 9
      nlinarith
    refine ⟨0, le_refl _, ?_, ?_, ?_, ?_⟩
    · intro fuel hf
      have : fuel = 0 := by omega
      subst this
      rfl
    · intro fuel hf
      obtain ⟨f, rfl⟩ : ∃ f, fuel = f + 1 := ⟨fuel - 1, by omega⟩
      rw [SQP.lineSearchLoop]
      simp only [hlt, false_and, if_false]
      have e : s.tau_ ^ (9 + 0 + 1) = s.tau_ ^ 9 * s.tau_ := pow_succ _ _
      rw [e]
    · intro i hi
      exact absurd hi (by omega)
    · intro h
      exact absurd h (by omega)
  | succ n ih =>
    intro m hm
    by_cases hc : s.tau_ ^ m * s.tau_ ≥ s.tau_ ^ 9
        ∧ (1 / 2) * NumericalPoint.normSquare (NumericalPoint.add s.currentPoint_
              (NumericalPoint.smul (s.tau_ ^ m) s.currentDirection_))
            + currentSigma * |s.problem.levelFunction.eval (NumericalPoint.add
                s.currentPoint_ (NumericalPoint.smul (s.tau_ ^ m) s.currentDirection_))
              - levelValue|
          > currentTheta + s.tau_ ^ m * s.tau_ * levelIncrement
    · obtain ⟨j, hj, hnone, hsome, hcont, hexit⟩ := ih (m + 1) (by omega)
      have e1 : ∀ k, m + 1 + k = m + (k + 1) := fun k => by omega
      simp only [e1] at hsome hcont hexit
      refine ⟨j + 1, by omega, ?_, ?_, ?_, ?_⟩
      · intro fuel hf
        cases fuel with
        | zero => rfl
        | succ f =>
          rw [SQP.lineSearchLoop]
          rw [if_pos hc, ← pow_succ]
          exact hnone f (by omega)
      · intro fuel hf
        obtain ⟨f, rfl⟩ : ∃ f, fuel = f + 1 := ⟨fuel - 1, by omega⟩
        rw [SQP.lineSearchLoop]
        rw [if_pos hc, ← pow_succ]
        exact hsome f (by omega)
      · intro i hi
        cases i with
        | zero =>
          have := hc.2
          rw [← pow_succ] at this
          exact this
        | succ i => exact hcont i (by omega)
      · intro h
        exact hexit (by omega)
    · refine ⟨0, by omega, ?_, ?_, ?_, ?_⟩
      · intro fuel hf
        have : fuel = 0 := by omega
        subst this
        rfl
      · intro fuel hf
        obtain ⟨f, rfl⟩ : ∃ f, fuel = f + 1 := ⟨fuel - 1, by omega⟩
        rw [SQP.lineSearchLoop]
        rw [if_neg hc]
        have e : s.tau_ ^ (m + 0 + 1) = s.tau_ ^ m * s.tau_ := pow_succ _ _
        rw [e]
        rfl
      · intro i hi
        exact absurd hi (by omega)
      · intro h
        have hp : s.tau_ ^ 9 ≤ s.tau_ ^ (m + 1) :=
          pow_le_pow_of_le_one (le_of_lt h0) (le_of_lt h1) (by omega)
        rw [pow_succ s.tau_ m] at hp
        apply not_lt.mp
        intro hgt
        apply hc
        refine ⟨hp, ?_⟩
        rw [← pow_succ]
        exact hgt



/-- For `0 < tau < 1`, the number of trial points of `SQP::computeLineSearch`: the loop
body is executed `j + 1` times with `j ≤ 9`; a fuel of `j` is not enough and every larger
fuel returns the step `tau ^ j`; the loop condition holds at the trial points `0, ..., j - 1`
and, when `j < 9`, the acceptance test is met at the trial point `j`. -/
theorem sqp_computeLineSearch_count (sqrt : K → K) (s : SQP K)
    (h0 : 0 < s.tau_) (h1 : s.tau_ < 1) :
    ∃ j, j ≤ 9
      ∧ (∀ fuel, fuel ≤ j → SQP.computeLineSearch sqrt fuel s = none)
      ∧ (∀ fuel, j < fuel →
          ∃ s1, SQP.computeLineSearch sqrt fuel s = some (s.tau_ ^ j, s1))
      ∧ (∀ i, i < j →
          SQP.theta s (SQP.sigmaUpdate sqrt s)
              (NumericalPoint.add s.currentPoint_
                (NumericalPoint.smul (s.tau_ ^ i) s.currentDirection_))
            > SQP.currentTheta sqrt s
              + s.tau_ ^ (i + 1) * SQP.levelIncrement sqrt s)
      ∧ (j < 9 →
          SQP.theta s (SQP.sigmaUpdate sqrt s)
              (NumericalPoint.add s.currentPoint_
                (NumericalPoint.smul (s.tau_ ^ j) s.currentDirection_))
            ≤ SQP.currentTheta sqrt s
              + s.tau_ ^ (j + 1) * SQP.levelIncrement sqrt s) := by
  obtain ⟨j, hj, hnone, hsome, hcont, hexit⟩ := sqp_lineSearchLoop_count s
    s.problem.levelValue (SQP.sigmaUpdate sqrt s) (SQP.currentTheta sqrt s)
    (SQP.levelIncrement sqrt s) h0 h1 9 0 (by omega)
  simp only [Nat.zero_add, pow_zero] at hnone hsome hcont hexit
  refine ⟨j, hj, ?_, ?_, hcont, hexit⟩
  · intro fuel hf
    have h := hnone fuel hf
    unfold SQP.computeLineSearch
    unfold SQP.sigmaUpdate SQP.currentTheta SQP.levelIncrement
      SQP.sigmaUpdate at h
    simp only [h]
  · intro fuel hf
    have h := hsome fuel hf
    unfold SQP.computeLineSearch
    unfold SQP.sigmaUpdate SQP.currentTheta SQP.levelIncrement
      SQP.sigmaUpdate at h
    have e : s.tau_ ^ (j + 1) / s.tau_ = s.tau_ ^ j := by
      rw [pow_succ]
      field_simp
    simp only [h, e]
    exact ⟨_, rfl⟩

/-- The body of `SQP::computeLineSearch` in terms of its local quantities: the
backtracking loop is run with the updated `sigma`, with `currentTheta`, `minStep = tau ^ 9`
and `levelIncrement`; its last trial point is kept or replaced by the interpolated point. -/
theorem sqp_computeLineSearch_eq (sqrt : K → K) (fuel : Nat) (s : SQP K) :
    SQP.computeLineSearch sqrt fuel s
      = (SQP.lineSearchLoop s s.problem.levelValue (SQP.sigmaUpdate sqrt s)
          (SQP.currentTheta sqrt s) (s.tau_ ^ 9) (SQP.levelIncrement sqrt s)
          fuel 1).map
        (fun r => (r.step / s.tau_,
          { s with
            currentSigma_ := SQP.sigmaUpdate sqrt s
            oldPoint_ := s.currentPoint_
            oldLevelValue_ := s.currentLevelValue_
            currentPoint_ :=
              if SQP.interpolates sqrt s r.currentStepPoint then
                SQP.interpolatedPoint sqrt s
              else r.currentStepPoint
            currentLevelValue_ :=
              if SQP.interpolates sqrt s r.currentStepPoint then
                s.problem.levelFunction.eval (SQP.interpolatedPoint sqrt s)
              else r.currentStepLevelValue })) := by
  unfold SQP.computeLineSearch
  simp only []
  cases hl : SQP.lineSearchLoop s s.problem.levelValue
      (SQP.sigmaUpdate sqrt s)
      (SQP.currentTheta sqrt s) (s.tau_ ^ 9) (SQP.levelIncrement sqrt s)
      fuel 1 with
  | none =>
    unfold SQP.sigmaUpdate SQP.currentTheta SQP.levelIncrement
      SQP.sigmaUpdate at hl
    simp only [hl]
    rfl
  | some r =>
    unfold SQP.sigmaUpdate SQP.currentTheta SQP.levelIncrement
      SQP.sigmaUpdate at hl
    simp only [hl, Option.map_some']
    by_cases hi : SQP.interpolates sqrt s r.currentStepPoint
    · rw [if_pos hi, if_pos hi]
      have hb : NumericalPoint.norm sqrt s.oldPoint_ ≠ 0 := hi.1
      have hc : (NumericalPoint.norm sqrt s.oldPoint_
              * NumericalPoint.norm sqrt r.currentStepPoint ≠ 0
            ∧ NumericalPoint.norm sqrt s.currentPoint_
              * NumericalPoint.norm sqrt r.currentStepPoint ≠ 0)
          ∧ dot s.oldPoint_ r.currentStepPoint
            / (NumericalPoint.norm sqrt s.oldPoint_
              * NumericalPoint.norm sqrt r.currentStepPoint)
          > dot s.currentPoint_ r.currentStepPoint
            / (NumericalPoint.norm sqrt s.currentPoint_
              * NumericalPoint.norm sqrt r.currentStepPoint) := hi.2
      rw [if_pos hb, if_pos hc]
      rfl
    · rw [if_neg hi, if_neg hi]
      by_cases hb : NumericalPoint.norm sqrt s.oldPoint_ ≠ 0
      · have hc : ¬ ((NumericalPoint.norm sqrt s.oldPoint_
                * NumericalPoint.norm sqrt r.currentStepPoint ≠ 0
              ∧ NumericalPoint.norm sqrt s.currentPoint_
                * NumericalPoint.norm sqrt r.currentStepPoint ≠ 0)
            ∧ dot s.oldPoint_ r.currentStepPoint
              / (NumericalPoint.norm sqrt s.oldPoint_
                * NumericalPoint.norm sqrt r.currentStepPoint)
            > dot s.currentPoint_ r.currentStepPoint
              / (NumericalPoint.norm sqrt s.currentPoint_
                * NumericalPoint.norm sqrt r.currentStepPoint)) := fun hc => hi ⟨hb, hc⟩
        rw [if_pos hb, if_neg hc]
        rfl
      · rw [if_neg hb]
        rfl

/-- The frame of `SQP::computeLineSearch` as one equation: the call modifies
`currentSigma_`, `currentPoint_`, `currentLevelValue_`, `oldPoint_` and `oldLevelValue_`
and nothing else. -/
theorem sqp_computeLineSearch_only (sqrt : K → K) (fuel : Nat) (s s1 : SQP K)
    (alpha : K) (h : SQP.computeLineSearch sqrt fuel s = some (alpha, s1)) :
    s1 = { s with
      currentSigma_ := s1.currentSigma_
      currentPoint_ := s1.currentPoint_
      currentLevelValue_ := s1.currentLevelValue_
      oldPoint_ := s.currentPoint_
      oldLevelValue_ := s.currentLevelValue_ } := by
  unfold SQP.computeLineSearch at h
  simp only [] at h
  split at h
  · exact absurd h (by simp)
  · simp only [Option.some.injEq, Prod.mk.injEq] at h
    obtain ⟨-, hs⟩ := h
    subst hs
    rfl

/-- The dimension of the point left by `SQP::computeLineSearch`, when the direction
has the dimension of the current point and the previous point has that dimension or a null
norm. -/
theorem sqp_lineSearch_length (sqrt : K → K) (fuel : Nat) (s s1 : SQP K)
    (alpha : K) (h : SQP.computeLineSearch sqrt fuel s = some (alpha, s1))
    (hd : s.currentDirection_.length = s.currentPoint_.length)
    (hold : s.oldPoint_.length = s.currentPoint_.length
      ∨ NumericalPoint.norm sqrt s.oldPoint_ = 0) :
    s1.currentPoint_.length = s.currentPoint_.length
      ∧ s1.currentPoint_.length = s1.currentDirection_.length := by
  obtain ⟨a, -, -, hp, -⟩ := sqp_computeLineSearch_exit sqrt fuel s s1 alpha h
  have hdir : s1.currentDirection_ = s.currentDirection_ :=
    (sqp_computeLineSearch_frame sqrt fuel s s1 alpha h).2.2.2.2.2.1
  have hl : s1.currentPoint_.length = s.currentPoint_.length := by
    rw [hp]
    split
    · rename_i hi
      rcases hold with ho | ho
      · simp [SQP.interpolatedPoint, NumericalPoint.sdiv, NumericalPoint.smul,
          NumericalPoint.add, ho]
      · exact absurd ho hi.1
    · simp [NumericalPoint.add, NumericalPoint.smul, hd]
  exact ⟨hl, by rw [hl, hdir, hd]⟩

/-- Invariant of the loop of `SQP::run`: after any number of executions of the loop
body the problem is the one of the solver, the stored level value is the level function at
the current point, and every stored entry holds the level function at its point and the
constraint error `|G(point) - G0|`. -/
theorem sqp_level_consistency (sqrt : K → K)
    (solveLinearSystem : SymmetricMatrix K → List K → List K) (fuel : Nat) (s : SQP K) :
    ∀ (k : Nat) (rk : SQP.RunState K),
      iterateBody (SQP.iteration sqrt solveLinearSystem fuel) (SQP.runInit s) k = some rk →
      rk.solver.problem = s.problem
        ∧ rk.solver.currentLevelValue_
          = s.problem.levelFunction.eval rk.solver.currentPoint_
        ∧ ∀ e ∈ rk.solver.result.history,
            e.value = s.problem.levelFunction.eval e.point
              ∧ e.constraintError
                = |s.problem.levelFunction.eval e.point - s.problem.levelValue| := by
  intro k
  induction k with
  | zero =>
    intro rk h
    simp only [iterateBody, Option.some.injEq] at h
    subst h
    refine ⟨rfl, rfl, ?_⟩
    intro e he
    simp [SQP.runInit, OptimizationResult.new] at he
  | succ k ih =>
    intro r1 h
    rw [iterateBody] at h
    cases hk : iterateBody (SQP.iteration sqrt solveLinearSystem fuel) (SQP.runInit s) k with
    | none => rw [hk] at h; exact absurd h (by simp)
    | some rk =>
      rw [hk] at h
      have hit : SQP.iteration sqrt solveLinearSystem fuel rk = some r1 := h
      obtain ⟨hp, hlv, hhist⟩ := ih rk hk
      have hp1 : r1.solver.problem = rk.solver.problem :=
        (sqp_iteration_frame sqrt solveLinearSystem fuel rk r1 hit).2.2.2.2.1
      by_cases ht : r1.thrown = none
      · obtain ⟨_, _, -, -, -, hl1, -, -, -, -, hce, -⟩ :=
          sqp_error_metrics sqrt solveLinearSystem fuel rk r1 hit ht
        obtain ⟨-, hh, -⟩ := sqp_convergence_flag sqrt solveLinearSystem fuel rk r1 hit ht
        rw [hp] at hl1 hce
        refine ⟨by rw [hp1, hp], hl1, ?_⟩
        intro e he
        rw [hh] at he
        rcases List.mem_append.mp he with he | he
        · exact hhist e he
        · simp only [List.mem_singleton] at he
          subst he
          exact ⟨hl1, hce⟩
      · rcases sqp_iteration_cases sqrt solveLinearSystem fuel rk r1 hit with
          ⟨-, rfl⟩ | ⟨-, alpha, s1, hls, rfl⟩
        · exact ⟨hp, hlv, hhist⟩
        · exact absurd rfl ht

end SQPCount

/-! ### More algebra of points -/

section PointsMore

variable {K : Type} [LinearOrderedField K]

/-- `normSquare` of the null point. -/
theorem normSquare_zero (n : Nat) :
    NumericalPoint.normSquare (NumericalPoint.zero n : List K) = 0 := by
  induction n with
  | zero => simp [NumericalPoint.normSquare, NumericalPoint.zero, dot]
  | succ n ih =>
    simp only [NumericalPoint.normSquare, NumericalPoint.zero, dot, List.replicate_succ,
      List.zipWith_cons_cons, List.sum_cons] at ih ⊢
    rw [ih]
    simp

/-- The dot product with the null point. -/
theorem dot_zero_right : ∀ (v : List K) (n : Nat), dot v (NumericalPoint.zero n) = 0 := by
  intro v
  induction v with
  | nil => intro n; simp [dot]
  | cons x v ih =>
    intro n
    cases n with
    | zero => simp [dot, NumericalPoint.zero]
    | succ n =>
      have h := ih n
      simp only [NumericalPoint.zero, dot, List.replicate_succ, List.zipWith_cons_cons,
        List.sum_cons] at h ⊢
      rw [h]
      simp

/-- A step along the null direction does not move the point. -/
theorem add_smul_zero (a : K) :
    ∀ u : List K, NumericalPoint.add u (NumericalPoint.smul a (NumericalPoint.zero u.length))
      = u := by
  intro u
  induction u with
  | nil => rfl
  | cons x u ih =>
    simp only [NumericalPoint.add, NumericalPoint.smul, NumericalPoint.zero, List.length_cons,
      List.replicate_succ, List.map_cons, List.zipWith_cons_cons] at ih ⊢
    rw [ih]
    simp

/-- The displacement of the step `a` along `d` is `a * d`. -/
theorem sub_add_smul (a : K) :
    ∀ d u : List K, d.length = u.length →
      NumericalPoint.sub (NumericalPoint.add u (NumericalPoint.smul a d)) u
        = NumericalPoint.smul a d := by
  intro d
  induction d with
  | nil =>
    intro u hu
    cases u with
    | nil => rfl
    | cons y u => simp at hu
  | cons x d ih =>
    intro u hu
    cases u with
    | nil => simp at hu
    | cons y u =>
      have h := ih u (by simpa using hu)
      simp only [NumericalPoint.sub, NumericalPoint.add, NumericalPoint.smul, List.map_cons,
        List.zipWith_cons_cons] at h ⊢
      rw [h]
      simp

/-- `normSquare` of a quotient. -/
theorem normSquare_sdiv (c : K) (v : List K) :
    NumericalPoint.normSquare (NumericalPoint.sdiv v c) = NumericalPoint.normSquare v / c ^ 2 := by
  induction v with
  | nil => simp [NumericalPoint.normSquare, NumericalPoint.sdiv, dot]
  | cons x v ih =>
    simp only [NumericalPoint.normSquare, NumericalPoint.sdiv, dot, List.map_cons,
      List.zipWith_cons_cons, List.sum_cons] at ih ⊢
    rw [ih]
    by_cases hc : c = 0
    · simp [hc]
    · field_simp
      ring

/-- A point with a nonzero component has a positive `normSquare`. -/
theorem normSquare_pos_of_exists_ne (v : List K) (h : ∃ x ∈ v, x ≠ 0) :
    0 < NumericalPoint.normSquare v := by
  induction v with
  | nil => obtain ⟨x, hx, -⟩ := h; simp at hx
  | cons y v ih =>
    have e : NumericalPoint.normSquare (y :: v) = y * y + NumericalPoint.normSquare v := by
      simp [NumericalPoint.normSquare, dot]
    rw [e]
    have hv := normSquare_nonneg v
    obtain ⟨x, hx, hne⟩ := h
    rcases List.mem_cons.mp hx with rfl | hxv
    · have : 0 < x * x := mul_self_pos.mpr hne
      linarith
    · have := ih ⟨x, hxv, hne⟩
      nlinarith [mul_self_nonneg y]

/-- The inequality of Cauchy and Schwarz for `dot`, which truncates to the shorter point. -/
theorem dot_sq_le : ∀ a b : List K,
    dot a b ^ 2 ≤ NumericalPoint.normSquare a * NumericalPoint.normSquare b := by
  intro a
  induction a with
  | nil =>
    intro b
    simp [dot, NumericalPoint.normSquare]
  | cons x a ih =>
    intro b
    cases b with
    | nil => simp [dot, NumericalPoint.normSquare]
    | cons y b =>
      have h := ih b
      have hA := normSquare_nonneg a
      have hB := normSquare_nonneg b
      have e1 : dot (x :: a) (y :: b) = x * y + dot a b := by simp [dot]
      have e2 : NumericalPoint.normSquare (x :: a) = x * x + NumericalPoint.normSquare a := by
        simp [NumericalPoint.normSquare, dot]
      have e3 : NumericalPoint.normSquare (y :: b) = y * y + NumericalPoint.normSquare b := by
        simp [NumericalPoint.normSquare, dot]
      rw [e1, e2, e3]
      generalize dot a b = D at h ⊢
      generalize NumericalPoint.normSquare a = A at h hA ⊢
      generalize NumericalPoint.normSquare b = B at h hB ⊢
      have h1 : (2 * (x * y) * D) ^ 2 ≤ (x * x * B + y * y * A) ^ 2 := by
        have hxy : 0 ≤ (x * y) ^ 2 := sq_nonneg _
        have h2 : (x * y) ^ 2 * D ^ 2 ≤ (x * y) ^ 2 * (A * B) :=
          mul_le_mul_of_nonneg_left h hxy
        nlinarith [sq_nonneg (x * x * B - y * y * A)]
      have h3 : 0 ≤ x * x * B + y * y * A := by
        have := mul_nonneg (mul_self_nonneg x) hB
        have := mul_nonneg (mul_self_nonneg y) hA
        linarith
      have h4 : 2 * (x * y) * D ≤ x * x * B + y * y * A := by
        have := abs_le_of_sq_le_sq' h1 h3
        exact this.2
      nlinarith

end PointsMore

section PointsReal

/-- Over the reals the norm of a multiple is the multiple of the norm. -/
theorem norm_smul_real (a : ℝ) (v : List ℝ) :
    NumericalPoint.norm Real.sqrt (NumericalPoint.smul a v)
      = |a| * NumericalPoint.norm Real.sqrt v := by
  unfold NumericalPoint.norm
  rw [normSquare_smul, Real.sqrt_mul (sq_nonneg a), Real.sqrt_sq_eq_abs]

/-- Over the reals the norm is not negative. -/
theorem norm_real_nonneg (v : List ℝ) : 0 ≤ NumericalPoint.norm Real.sqrt v :=
  Real.sqrt_nonneg _

/-- Over the reals the norm vanishes only with `normSquare`. -/
theorem norm_real_eq_zero (v : List ℝ) :
    NumericalPoint.norm Real.sqrt v = 0 ↔ NumericalPoint.normSquare v = 0 := by
  unfold NumericalPoint.norm
  exact Real.sqrt_eq_zero (normSquare_nonneg v)

/-- Over the reals the norm of the null point is `0`. -/
theorem norm_real_zero (n : Nat) :
    NumericalPoint.norm Real.sqrt (NumericalPoint.zero n : List ℝ) = 0 := by
  rw [norm_real_eq_zero, normSquare_zero]

/-- Over the reals the square of the norm is `normSquare`. -/
theorem norm_real_mul_self (v : List ℝ) :
    NumericalPoint.norm Real.sqrt v * NumericalPoint.norm Real.sqrt v
      = NumericalPoint.normSquare v :=
  Real.mul_self_sqrt (normSquare_nonneg v)

/-- The inequality of Cauchy and Schwarz over the reals. -/
theorem dot_le_norm_mul_norm (a b : List ℝ) :
    dot a b ≤ NumericalPoint.norm Real.sqrt a * NumericalPoint.norm Real.sqrt b := by
  have h := dot_sq_le a b
  have hn : 0 ≤ NumericalPoint.norm Real.sqrt a * NumericalPoint.norm Real.sqrt b :=
    mul_nonneg (norm_real_nonneg a) (norm_real_nonneg b)
  have e : (NumericalPoint.norm Real.sqrt a * NumericalPoint.norm Real.sqrt b) ^ 2
      = NumericalPoint.normSquare a * NumericalPoint.normSquare b := by
    rw [mul_pow, sq, sq, norm_real_mul_self, norm_real_mul_self]
  rw [← e] at h
  exact (abs_le_of_sq_le_sq' h hn).2

end PointsReal

section PointsDot

variable {K : Type} [LinearOrderedField K]

/-- The dot product is linear in its first argument, on points of the same dimension. -/
theorem dot_add_smul (c : K) :
    ∀ u g d : List K, g.length = u.length → d.length = u.length →
      dot (NumericalPoint.add u (NumericalPoint.smul c g)) d = dot u d + c * dot g d := by
  intro u
  induction u with
  | nil =>
    intro g d hg _
    have hg0 : g = [] := List.length_eq_zero.mp (by simpa using hg)
    subst hg0
    simp [dot, NumericalPoint.add]
  | cons x u ih =>
    intro g d hg hd
    cases g with
    | nil => simp at hg
    | cons y g =>
      cases d with
      | nil => simp at hd
      | cons z d =>
        have h := ih g d (by simpa using hg) (by simpa using hd)
        simp only [dot, NumericalPoint.add, NumericalPoint.smul, List.map_cons,
          List.zipWith_cons_cons, List.sum_cons] at h ⊢
        rw [h]
        ring

end PointsDot

section PointsNull

variable {K : Type} [LinearOrderedField K]

/-- Adding the null point of the same dimension does not change a point. -/
theorem add_zero_point :
    ∀ u : List K, NumericalPoint.add u (NumericalPoint.zero u.length) = u := by
  intro u
  induction u with
  | nil => rfl
  | cons x u ih =>
    simp only [NumericalPoint.add, NumericalPoint.zero, List.length_cons,
      List.replicate_succ, List.zipWith_cons_cons] at ih ⊢
    rw [ih]
    simp

/-- A component of the null point. -/
theorem get_zero_point (n i : Nat) : NumericalPoint.get (NumericalPoint.zero n : List K) i = 0 := by
  unfold NumericalPoint.get NumericalPoint.zero
  rw [List.getD_eq_getElem?_getD]
  by_cases h : i < n
  · simp [h]
  · simp [h]

/-- A point `u + c * g` all of whose components vanish is the null point. -/
theorem add_smul_eq_zero (c : K) :
    ∀ u g : List K, g.length = u.length →
      (∀ i, i < u.length → NumericalPoint.get u i + c * NumericalPoint.get g i = 0) →
      NumericalPoint.add u (NumericalPoint.smul c g) = NumericalPoint.zero u.length := by
  intro u
  induction u with
  | nil =>
    intro g _ _
    rfl
  | cons x u ih =>
    intro g hg h
    cases g with
    | nil => simp at hg
    | cons y g =>
      have h0 := h 0 (by simp)
      have ht := ih g (by simpa using hg) (fun i hi => by
        have := h (i + 1) (by simpa using hi)
        simpa [NumericalPoint.get] using this)
      simp only [NumericalPoint.get, List.getD_cons_zero] at h0
      simp only [NumericalPoint.add, NumericalPoint.smul, NumericalPoint.zero, List.map_cons,
        List.zipWith_cons_cons, List.length_cons, List.replicate_succ] at ht ⊢
      rw [ht, h0]

/-- The point `(-c) * g + c * g` is the null point. -/
theorem add_smul_neg_smul (c : K) (g : List K) :
    NumericalPoint.add (NumericalPoint.smul (-c) g) (NumericalPoint.smul c g)
      = NumericalPoint.zero g.length := by
  induction g with
  | nil => rfl
  | cons y g ih =>
    simp only [NumericalPoint.add, NumericalPoint.smul, NumericalPoint.zero, List.map_cons,
      List.zipWith_cons_cons, List.length_cons, List.replicate_succ] at ih ⊢
    rw [ih]
    simp

/-- A point with a nonzero `normSquare` has a nonzero component, and conversely. -/
theorem normSquare_ne_zero_iff (v : List K) :
    NumericalPoint.normSquare v ≠ 0 ↔ ∃ x ∈ v, x ≠ 0 := by
  constructor
  · intro h
    by_contra hno
    apply h
    have hall : ∀ x ∈ v, x = 0 := by
      intro x hx
      by_contra hx0
      exact hno ⟨x, hx, hx0⟩
    clear h hno
    induction v with
    | nil => simp [NumericalPoint.normSquare, dot]
    | cons y v ih =>
      have e : NumericalPoint.normSquare (y :: v) = y * y + NumericalPoint.normSquare v := by
        simp [NumericalPoint.normSquare, dot]
      rw [e, ih (fun x hx => hall x (List.mem_cons_of_mem _ hx)),
        hall y (List.mem_cons_self _ _)]
      simp
  · intro h
    exact ne_of_gt (normSquare_pos_of_exists_ne v h)

end PointsNull

/-! ### The line search of `AbdoRackwitz` along the null direction -/

section AbdoRackwitzNull

/-- The line search of `AbdoRackwitz` along the null direction from a point with a nonzero
`normSquare` whose stored level value is the level function there (exact real arithmetic):
the first trial point is the current point, it is accepted, no interpolation is applied
whatever the previous point, and the call returns the step `1` with the point and its level
value unchanged. -/
theorem abdoRackwitz_lineSearch_null_direction (fuel : Nat) (s : AbdoRackwitz ℝ)
    (ht : s.tau_ ≠ 0)
    (hd : s.currentDirection_ = NumericalPoint.zero s.currentPoint_.length)
    (hlv : s.currentLevelValue_ = s.problem.levelFunction.eval s.currentPoint_)
    (hu : NumericalPoint.normSquare s.currentPoint_ ≠ 0) (hf : 1 ≤ fuel) :
    AbdoRackwitz.computeLineSearch Real.sqrt fuel s
        = some (1,
          { s with
            currentSigma_ := AbdoRackwitz.sigmaUpdate Real.sqrt s
            oldPoint_ := s.currentPoint_
            oldLevelValue_ := s.currentLevelValue_ })
      ∧ ¬ AbdoRackwitz.interpolates Real.sqrt s
          (NumericalPoint.add s.currentPoint_ (NumericalPoint.smul 1 s.currentDirection_)) := by
  have htrial : NumericalPoint.add s.currentPoint_ (NumericalPoint.smul 1 s.currentDirection_)
      = s.currentPoint_ := by
    rw [hd]
    exact add_smul_zero 1 _
  have hli : AbdoRackwitz.levelIncrement Real.sqrt s = 0 := by
    unfold AbdoRackwitz.levelIncrement
    rw [hd, dot_zero_right, mul_zero]
  have hni : ¬ AbdoRackwitz.interpolates Real.sqrt s s.currentPoint_ := by
    rintro ⟨hb, -, hc⟩
    have hpos : 0 < NumericalPoint.norm Real.sqrt s.currentPoint_ :=
      lt_of_le_of_ne (norm_real_nonneg _)
        (fun h => hu ((norm_real_eq_zero _).mp h.symm))
    have hbpos : 0 < NumericalPoint.norm Real.sqrt s.oldPoint_ :=
      lt_of_le_of_ne (norm_real_nonneg _) (Ne.symm hb)
    have hB : AbdoRackwitz.compareB Real.sqrt s s.currentPoint_ = 1 := by
      unfold AbdoRackwitz.compareB
      rw [norm_real_mul_self]
      exact div_self hu
    have hA : AbdoRackwitz.compareA Real.sqrt s s.currentPoint_ ≤ 1 := by
      unfold AbdoRackwitz.compareA
      rw [div_le_one (mul_pos hbpos hpos)]
      exact dot_le_norm_mul_norm _ _
    rw [hB] at hc
    exact absurd hc (not_lt.mpr hA)
  refine ⟨?_, by rw [htrial]; exact hni⟩
  obtain ⟨f, rfl⟩ : ∃ f, fuel = f + 1 := ⟨fuel - 1, by omega⟩
  rw [abdoRackwitz_computeLineSearch_eq, AbdoRackwitz.lineSearchLoop]
  simp only [htrial, hli, mul_zero, add_zero]
  rw [if_neg]
  · simp only [Option.map_some', if_neg hni, ← hlv]
    have e : (1 : ℝ) * s.tau_ / s.tau_ = 1 := by field_simp
    rw [e]
  · rintro ⟨-, hgt⟩
    unfold AbdoRackwitz.currentTheta at hgt
    rw [hlv] at hgt
    exact absurd hgt (lt_irrefl _)

end AbdoRackwitzNull

/-! ### The line search of `SQP` along the null direction -/

section SQPNull

/-- The line search of `SQP` along the null direction from a point with a nonzero
`normSquare` whose stored level value is the level function there (exact real arithmetic):
the first trial point is the current point, it is accepted, no interpolation is applied
whatever the previous point, and the call returns the step `1` with the point and its level
value unchanged. -/
theorem sqp_lineSearch_null_direction (fuel : Nat) (s : SQP ℝ)
    (ht : s.tau_ ≠ 0)
    (hd : s.currentDirection_ = NumericalPoint.zero s.currentPoint_.length)
    (hlv : s.currentLevelValue_ = s.problem.levelFunction.eval s.currentPoint_)
    (hu : NumericalPoint.normSquare s.currentPoint_ ≠ 0) (hf : 1 ≤ fuel) :
    SQP.computeLineSearch Real.sqrt fuel s
        = some (1,
          { s with
            currentSigma_ := SQP.sigmaUpdate Real.sqrt s
            oldPoint_ := s.currentPoint_
            oldLevelValue_ := s.currentLevelValue_ })
      ∧ ¬ SQP.interpolates Real.sqrt s
          (NumericalPoint.add s.currentPoint_ (NumericalPoint.smul 1 s.currentDirection_)) := by
  have htrial : NumericalPoint.add s.currentPoint_ (NumericalPoint.smul 1 s.currentDirection_)
      = s.currentPoint_ := by
    rw [hd]
    exact add_smul_zero 1 _
  have hli : SQP.levelIncrement Real.sqrt s = 0 := by
    unfold SQP.levelIncrement
    rw [hd, dot_zero_right, mul_zero]
  have hni : ¬ SQP.interpolates Real.sqrt s s.currentPoint_ := by
    rintro ⟨hb, -, hc⟩
    have hpos : 0 < NumericalPoint.norm Real.sqrt s.currentPoint_ :=
      lt_of_le_of_ne (norm_real_nonneg _)
        (fun h => hu ((norm_real_eq_zero _).mp h.symm))
    have hbpos : 0 < NumericalPoint.norm Real.sqrt s.oldPoint_ :=
      lt_of_le_of_ne (norm_real_nonneg _) (Ne.symm hb)
    have hB : SQP.compareB Real.sqrt s s.currentPoint_ = 1 := by
      unfold SQP.compareB
      rw [norm_real_mul_self]
      exact div_self hu
    have hA : SQP.compareA Real.sqrt s s.currentPoint_ ≤ 1 := by
      unfold SQP.compareA
      rw [div_le_one (mul_pos hbpos hpos)]
      exact dot_le_norm_mul_norm _ _
    rw [hB] at hc
    exact absurd hc (not_lt.mpr hA)
  refine ⟨?_, by rw [htrial]; exact hni⟩
  obtain ⟨f, rfl⟩ : ∃ f, fuel = f + 1 := ⟨fuel - 1, by omega⟩
  rw [sqp_computeLineSearch_eq, SQP.lineSearchLoop]
  simp only [htrial, hli, mul_zero, add_zero]
  rw [if_neg]
  · simp only [Option.map_some', if_neg hni, ← hlv]
    have e : (1 : ℝ) * s.tau_ / s.tau_ = 1 := by field_simp
    rw [e]
  · rintro ⟨-, hgt⟩
    unfold SQP.currentTheta at hgt
    rw [hlv] at hgt
    exact absurd hgt (lt_irrefl _)

end SQPNull

/-! ### The interpolated point of `AbdoRackwitz` -/

section AbdoRackwitzInterpolation

variable {K : Type} [LinearOrderedField K]

/-- The local variable `StepBeta` of `AbdoRackwitz::computeLineSearch` is the value at the
level value `G0` of any affine function `x ↦ m * x + b` that takes the norm of the previous
point at `oldLevelValue_` and the norm of the current point at `currentLevelValue_`, when
these two level values differ; and such a function exists. -/
theorem abdoRackwitz_stepBeta_affine (sqrt : K → K) (s : AbdoRackwitz K)
    (hne : s.oldLevelValue_ ≠ s.currentLevelValue_) :
    (∀ m b : K, m * s.oldLevelValue_ + b = NumericalPoint.norm sqrt s.oldPoint_ →
        m * s.currentLevelValue_ + b = NumericalPoint.norm sqrt s.currentPoint_ →
        AbdoRackwitz.StepBeta sqrt s = m * s.problem.levelValue + b)
      ∧ ∃ m b : K, m * s.oldLevelValue_ + b = NumericalPoint.norm sqrt s.oldPoint_
          ∧ m * s.currentLevelValue_ + b = NumericalPoint.norm sqrt s.currentPoint_ := by
  have hd : s.oldLevelValue_ - s.currentLevelValue_ ≠ 0 := sub_ne_zero.mpr hne
  constructor
  · intro m b h1 h2
    unfold AbdoRackwitz.StepBeta
    rw [← h1, ← h2]
    field_simp
    ring
  · refine ⟨(NumericalPoint.norm sqrt s.oldPoint_ - NumericalPoint.norm sqrt s.currentPoint_)
        / (s.oldLevelValue_ - s.currentLevelValue_),
      NumericalPoint.norm sqrt s.oldPoint_
        - (NumericalPoint.norm sqrt s.oldPoint_ - NumericalPoint.norm sqrt s.currentPoint_)
          / (s.oldLevelValue_ - s.currentLevelValue_) * s.oldLevelValue_, ?_, ?_⟩
    · ring
    · field_simp
      ring

/-- The two tests of the anti-cycling block of `AbdoRackwitz::computeLineSearch` pass exactly when
the previous point, the current point and the trial point have norms that are not null and
the quotient `compareA` exceeds the quotient `compareB`. -/
theorem abdoRackwitz_interpolates_iff (sqrt : K → K) (s : AbdoRackwitz K) (t : List K) :
    AbdoRackwitz.interpolates sqrt s t ↔
      (NumericalPoint.norm sqrt s.oldPoint_ ≠ 0
        ∧ NumericalPoint.norm sqrt s.currentPoint_ ≠ 0
        ∧ NumericalPoint.norm sqrt t ≠ 0
        ∧ dot s.oldPoint_ t
            / (NumericalPoint.norm sqrt s.oldPoint_ * NumericalPoint.norm sqrt t)
          > dot s.currentPoint_ t
            / (NumericalPoint.norm sqrt s.currentPoint_ * NumericalPoint.norm sqrt t)) := by
  unfold AbdoRackwitz.interpolates AbdoRackwitz.compareA AbdoRackwitz.compareB
  constructor
  · rintro ⟨h1, ⟨-, h3⟩, h4⟩
    exact ⟨h1, (mul_ne_zero_iff.mp h3).1, (mul_ne_zero_iff.mp h3).2, h4⟩
  · rintro ⟨h1, h2, h3, h4⟩
    exact ⟨h1, ⟨mul_ne_zero h1 h3, mul_ne_zero h2 h3⟩, h4⟩

end AbdoRackwitzInterpolation

section AbdoRackwitzInterpolationReal

/-- Over the reals the interpolated point of `AbdoRackwitz::computeLineSearch` has the norm
`|StepBeta|`, when the sum of the previous and the current point is not the null point. -/
theorem abdoRackwitz_interpolatedPoint_norm (s : AbdoRackwitz ℝ)
    (hne : ∃ x ∈ NumericalPoint.add s.oldPoint_ s.currentPoint_, x ≠ 0) :
    NumericalPoint.norm Real.sqrt (AbdoRackwitz.interpolatedPoint Real.sqrt s)
      = |AbdoRackwitz.StepBeta Real.sqrt s| := by
  have hpos := normSquare_pos_of_exists_ne _ hne
  unfold AbdoRackwitz.interpolatedPoint
  generalize AbdoRackwitz.StepBeta Real.sqrt s = beta
  generalize NumericalPoint.add s.oldPoint_ s.currentPoint_ = v at hpos
  unfold NumericalPoint.norm
  rw [normSquare_sdiv, normSquare_smul, Real.sq_sqrt (le_of_lt hpos),
    mul_div_assoc, div_self (ne_of_gt hpos), mul_one, Real.sqrt_sq_eq_abs]

end AbdoRackwitzInterpolationReal

/-! ### The interpolated point of `SQP` -/

section SQPInterpolation

variable {K : Type} [LinearOrderedField K]

/-- The local variable `StepBeta` of `SQP::computeLineSearch` is the value at the
level value `G0` of any affine function `x ↦ m * x + b` that takes the norm of the previous
point at `oldLevelValue_` and the norm of the current point at `currentLevelValue_`, when
these two level values differ; and such a function exists. -/
theorem sqp_stepBeta_affine (sqrt : K → K) (s : SQP K)
    (hne : s.oldLevelValue_ ≠ s.currentLevelValue_) :
    (∀ m b : K, m * s.oldLevelValue_ + b = NumericalPoint.norm sqrt s.oldPoint_ →
        m * s.currentLevelValue_ + b = NumericalPoint.norm sqrt s.currentPoint_ →
        SQP.StepBeta sqrt s = m * s.problem.levelValue + b)
      ∧ ∃ m b : K, m * s.oldLevelValue_ + b = NumericalPoint.norm sqrt s.oldPoint_
          ∧ m * s.currentLevelValue_ + b = NumericalPoint.norm sqrt s.currentPoint_ := by
  have hd : s.oldLevelValue_ - s.currentLevelValue_ ≠ 0 := sub_ne_zero.mpr hne
  constructor
  · intro m b h1 h2
    unfold SQP.StepBeta
    rw [← h1, ← h2]
    field_simp
    ring
  · refine ⟨(NumericalPoint.norm sqrt s.oldPoint_ - NumericalPoint.norm sqrt s.currentPoint_)
        / (s.oldLevelValue_ - s.currentLevelValue_),
      NumericalPoint.norm sqrt s.oldPoint_
        - (NumericalPoint.norm sqrt s.oldPoint_ - NumericalPoint.norm sqrt s.currentPoint_)
          / (s.oldLevelValue_ - s.currentLevelValue_) * s.oldLevelValue_, ?_, ?_⟩
    · ring
    · field_simp
      ring

/-- The two tests of the anti-cycling block of `SQP::computeLineSearch` pass exactly when
the previous point, the current point and the trial point have norms that are not null and
the quotient `compareA` exceeds the quotient `compareB`. -/
theorem sqp_interpolates_iff (sqrt : K → K) (s : SQP K) (t : List K) :
    SQP.interpolates sqrt s t ↔
      (NumericalPoint.norm sqrt s.oldPoint_ ≠ 0
        ∧ NumericalPoint.norm sqrt s.currentPoint_ ≠ 0
        ∧ NumericalPoint.norm sqrt t ≠ 0
        ∧ dot s.oldPoint_ t
            / (NumericalPoint.norm sqrt s.oldPoint_ * NumericalPoint.norm sqrt t)
          > dot s.currentPoint_ t
            / (NumericalPoint.norm sqrt s.currentPoint_ * NumericalPoint.norm sqrt t)) := by
  unfold SQP.interpolates SQP.compareA SQP.compareB
  constructor
  · rintro ⟨h1, ⟨-, h3⟩, h4⟩
    exact ⟨h1, (mul_ne_zero_iff.mp h3).1, (mul_ne_zero_iff.mp h3).2, h4⟩
  · rintro ⟨h1, h2, h3, h4⟩
    exact ⟨h1, ⟨mul_ne_zero h1 h3, mul_ne_zero h2 h3⟩, h4⟩

end SQPInterpolation

section SQPInterpolationReal

/-- Over the reals the interpolated point of `SQP::computeLineSearch` has the norm
`|StepBeta|`, when the sum of the previous and the current point is not the null point. -/
theorem sqp_interpolatedPoint_norm (s : SQP ℝ)
    (hne : ∃ x ∈ NumericalPoint.add s.oldPoint_ s.currentPoint_, x ≠ 0) :
    NumericalPoint.norm Real.sqrt (SQP.interpolatedPoint Real.sqrt s)
      = |SQP.StepBeta Real.sqrt s| := by
  have hpos := normSquare_pos_of_exists_ne _ hne
  unfold SQP.interpolatedPoint
  generalize SQP.StepBeta Real.sqrt s = beta
  generalize NumericalPoint.add s.oldPoint_ s.currentPoint_ = v at hpos
  unfold NumericalPoint.norm
  rw [normSquare_sdiv, normSquare_smul, Real.sq_sqrt (le_of_lt hpos),
    mul_div_assoc, div_self (ne_of_gt hpos), mul_one, Real.sqrt_sq_eq_abs]

end SQPInterpolationReal

/-! ### The line search shared by the two solvers -/

section Shared

variable {K : Type} [LinearOrderedField K]

/-- The backtracking loops of the two solvers agree on solvers that hold the same current
point, direction, `tau` and level function. -/
theorem lineSearchLoop_shared (a : AbdoRackwitz K) (q : SQP K)
    (hp : a.currentPoint_ = q.currentPoint_) (hd : a.currentDirection_ = q.currentDirection_)
    (ht : a.tau_ = q.tau_) (hf : a.problem.levelFunction = q.problem.levelFunction)
    (levelValue currentSigma currentTheta minStep levelIncrement : K) :
    ∀ (fuel : Nat) (step : K),
      AbdoRackwitz.lineSearchLoop a levelValue currentSigma currentTheta minStep levelIncrement
          fuel step
        = SQP.lineSearchLoop q levelValue currentSigma currentTheta minStep levelIncrement
          fuel step := by
  intro fuel
  induction fuel with
  | zero => intro step; rfl
  | succ f ih =>
    intro step
    rw [AbdoRackwitz.lineSearchLoop, SQP.lineSearchLoop]
    simp only [hp, hd, ht, hf, ih]

/-- The two transcriptions of `computeLineSearch` agree on solvers that hold the same state
of the line search: same returned step, same state of the line search afterwards, and the
one runs out of fuel exactly when the other does. -/
theorem computeLineSearch_shared (sqrt : K → K) (fuel : Nat) (a : AbdoRackwitz K) (q : SQP K)
    (h : a.lineSearchState = q.lineSearchState) :
    (AbdoRackwitz.computeLineSearch sqrt fuel a).map
        (fun p => (p.1, AbdoRackwitz.lineSearchState p.2))
      = (SQP.computeLineSearch sqrt fuel q).map
        (fun p => (p.1, SQP.lineSearchState p.2)) := by
  have h1 : a.problem.levelFunction = q.problem.levelFunction :=
    congrArg LineSearchState.levelFunction h
  have h2 : a.problem.levelValue = q.problem.levelValue :=
    congrArg LineSearchState.levelValue h
  have h3 : a.tau_ = q.tau_ := congrArg LineSearchState.tau_ h
  have h4 : a.omega_ = q.omega_ := congrArg LineSearchState.omega_ h
  have h5 : a.smooth_ = q.smooth_ := congrArg LineSearchState.smooth_ h
  have h6 : a.currentSigma_ = q.currentSigma_ := congrArg LineSearchState.currentSigma_ h
  have h7 : a.currentPoint_ = q.currentPoint_ := congrArg LineSearchState.currentPoint_ h
  have h8 : a.currentDirection_ = q.currentDirection_ :=
    congrArg LineSearchState.currentDirection_ h
  have h9 : a.currentLevelValue_ = q.currentLevelValue_ :=
    congrArg LineSearchState.currentLevelValue_ h
  have h10 : a.currentGradient_ = q.currentGradient_ :=
    congrArg LineSearchState.currentGradient_ h
  have h11 : a.oldPoint_ = q.oldPoint_ := congrArg LineSearchState.oldPoint_ h
  have h12 : a.oldLevelValue_ = q.oldLevelValue_ := congrArg LineSearchState.oldLevelValue_ h
  unfold AbdoRackwitz.computeLineSearch SQP.computeLineSearch
  simp only [lineSearchLoop_shared a q h7 h8 h3 h1]
  simp only [h1, h2, h3, h4, h5, h6, h7, h8, h9, h10, h11, h12]
  cases SQP.lineSearchLoop q q.problem.levelValue
      (max (q.currentSigma_ + 1)
        (q.smooth_ * NumericalPoint.norm sqrt q.currentPoint_
          / NumericalPoint.norm sqrt q.currentGradient_))
      ((1 / 2) * NumericalPoint.normSquare q.currentPoint_
        + (max (q.currentSigma_ + 1)
          (q.smooth_ * NumericalPoint.norm sqrt q.currentPoint_
            / NumericalPoint.norm sqrt q.currentGradient_))
          * |q.currentLevelValue_ - q.problem.levelValue|)
      (q.tau_ ^ 9)
      (q.omega_ * dot
        (NumericalPoint.add q.currentPoint_
          (NumericalPoint.smul
            ((max (q.currentSigma_ + 1)
              (q.smooth_ * NumericalPoint.norm sqrt q.currentPoint_
                / NumericalPoint.norm sqrt q.currentGradient_))
              * (if q.currentLevelValue_ > q.problem.levelValue then 1 else -1))
            q.currentGradient_))
        q.currentDirection_) fuel 1 with
  | none => rfl
  | some r =>
    simp only [Option.map_some', AbdoRackwitz.lineSearchState, SQP.lineSearchState, h1, h2, h3,
      h4, h5]

end Shared

/-! ### The null direction and the stationary points -/

section NullDirectionKKT

variable {K : Type} [LinearOrderedField K]

/-- When the direction computed by `AbdoRackwitz::run` is the null point, for a gradient of
the dimension of the point and of nonzero `normSquare`, the stored level value is the level
value `G0` and `u + lambda * gradient` is the null point. -/
theorem abdoRackwitz_null_direction_kkt (s : AbdoRackwitz K)
    (hlen : s.currentGradient_.length = s.currentPoint_.length)
    (hg : NumericalPoint.normSquare s.currentGradient_ ≠ 0)
    (hd : (AbdoRackwitz.computeDirection s).currentDirection_
      = NumericalPoint.zero s.currentPoint_.length) :
    s.currentLevelValue_ = s.problem.levelValue
      ∧ NumericalPoint.add s.currentPoint_
          (NumericalPoint.smul (AbdoRackwitz.computeDirection s).currentLambda_
            s.currentGradient_)
        = NumericalPoint.zero s.currentPoint_.length := by
  obtain ⟨h1, h2, -⟩ := abdoRackwitz_direction s hlen hg
  rw [hd] at h1 h2
  rw [add_zero_point] at h1
  rw [dot_zero_right, add_zero] at h2
  refine ⟨h2, ?_⟩
  calc NumericalPoint.add s.currentPoint_
          (NumericalPoint.smul (AbdoRackwitz.computeDirection s).currentLambda_
            s.currentGradient_)
      = NumericalPoint.add
          (NumericalPoint.smul (-(AbdoRackwitz.computeDirection s).currentLambda_)
            s.currentGradient_)
          (NumericalPoint.smul (AbdoRackwitz.computeDirection s).currentLambda_
            s.currentGradient_) :=
        congrArg (fun v => NumericalPoint.add v
          (NumericalPoint.smul (AbdoRackwitz.computeDirection s).currentLambda_
            s.currentGradient_)) h1
    _ = NumericalPoint.zero s.currentGradient_.length := add_smul_neg_smul _ _
    _ = NumericalPoint.zero s.currentPoint_.length := by rw [hlen]

/-- When the direction computed by `SQP::run` is the null point, for a solver with consistent
dimensions, a gradient of the dimension of the point, and a linear solver whose output solves
the assembled system, the stored level value is the level value `G0` and
`u + lambda * gradient` is the null point, `lambda` being the new multiplier. -/
theorem sqp_null_direction_kkt (sqrt : K → K)
    (solveLinearSystem : SymmetricMatrix K → List K → List K) (n : Nat) (s : SQP K)
    (hdim : SQP.Dimensioned sqrt n s) (hlen : s.currentGradient_.length = n)
    (hx : IsSolution (SQP.computeDirection solveLinearSystem s).currentSystemMatrix_
      (SQP.computeDirection solveLinearSystem s).currentSecondMember_
      (solveLinearSystem (SQP.computeDirection solveLinearSystem s).currentSystemMatrix_
        (SQP.computeDirection solveLinearSystem s).currentSecondMember_))
    (hd : (SQP.computeDirection solveLinearSystem s).currentDirection_
      = NumericalPoint.zero s.currentPoint_.length) :
    s.currentLevelValue_ = s.problem.levelValue
      ∧ NumericalPoint.add s.currentPoint_
          (NumericalPoint.smul (SQP.computeDirection solveLinearSystem s).currentLambda_
            s.currentGradient_)
        = NumericalPoint.zero s.currentPoint_.length := by
  obtain ⟨hp, hdm, hnn, hb, hdir, -⟩ := hdim
  obtain ⟨hrows, hlast⟩ := sqp_system_rows s s.problem.levelValue
    (solveLinearSystem (SQP.computeDirection solveLinearSystem s).currentSystemMatrix_
      (SQP.computeDirection solveLinearSystem s).currentSecondMember_)
    (by rw [hdm, hp]) (by rw [hp]; exact hnn) (by rw [hb, hp]) hx
  obtain ⟨-, hci⟩ := sqp_copied_direction
    { s with
      currentSystemMatrix_ := SQP.assembleSystemMatrix s
      currentSecondMember_ := SQP.assembleSecondMember
        { s with currentSystemMatrix_ := SQP.assembleSystemMatrix s } s.problem.levelValue }
    (solveLinearSystem (SQP.computeDirection solveLinearSystem s).currentSystemMatrix_
      (SQP.computeDirection solveLinearSystem s).currentSecondMember_)
    (by
      show s.currentDirection_.length = s.currentPoint_.length
      rw [hdir, hp])
  have hx0 : ∀ i, i < s.currentPoint_.length →
      NumericalPoint.get
        (solveLinearSystem (SQP.computeDirection solveLinearSystem s).currentSystemMatrix_
          (SQP.computeDirection solveLinearSystem s).currentSecondMember_) i = 0 := by
    intro i hi
    have h := hci i hi
    have h' : NumericalPoint.get (SQP.computeDirection solveLinearSystem s).currentDirection_ i
        = NumericalPoint.get
          (solveLinearSystem (SQP.computeDirection solveLinearSystem s).currentSystemMatrix_
            (SQP.computeDirection solveLinearSystem s).currentSecondMember_) i := h
    rw [← h', hd, get_zero_point]
  constructor
  · have hsum : ((List.range s.currentPoint_.length).map
        (fun j => NumericalPoint.get s.currentGradient_ j
          * NumericalPoint.get
            (solveLinearSystem (SQP.computeDirection solveLinearSystem s).currentSystemMatrix_
              (SQP.computeDirection solveLinearSystem s).currentSecondMember_) j)).sum
        = ((List.range s.currentPoint_.length).map (fun _ => (0 : K))).sum :=
      sum_range_congr _ _ _ (fun j hj => by rw [hx0 j hj, mul_zero])
    rw [hsum] at hlast
    have hz : ((List.range s.currentPoint_.length).map (fun _ => (0 : K))).sum = 0 := by
      simp
    rw [hz] at hlast
    linarith
  · apply add_smul_eq_zero _ _ _ (by rw [hlen, hp])
    intro i hi
    have hr := hrows i hi
    have hsum : ((List.range s.currentPoint_.length).map
        (fun j => s.currentHessian_.get i j
          * NumericalPoint.get
            (solveLinearSystem (SQP.computeDirection solveLinearSystem s).currentSystemMatrix_
              (SQP.computeDirection solveLinearSystem s).currentSecondMember_) j)).sum
        = ((List.range s.currentPoint_.length).map (fun _ => (0 : K))).sum :=
      sum_range_congr _ _ _ (fun j hj => by rw [hx0 j hj, mul_zero])
    have hz : ((List.range s.currentPoint_.length).map (fun _ => (0 : K))).sum = 0 := by
      simp
    rw [hsum, hz, hx0 i hi] at hr
    have hl : (SQP.computeDirection solveLinearSystem s).currentLambda_
        = NumericalPoint.get
          (solveLinearSystem (SQP.computeDirection solveLinearSystem s).currentSystemMatrix_
            (SQP.computeDirection solveLinearSystem s).currentSecondMember_)
          s.currentPoint_.length := rfl
    rw [hl]
    linarith

end NullDirectionKKT

/-! ### An iteration of `AbdoRackwitz` along the null direction -/

section AbdoRackwitzNullIteration

/-- An iteration of `AbdoRackwitz::run` in which the computed direction is the null point,
at a point `u` with a nonzero `normSquare` that is feasible and stationary
(`G(u) = G0` for the stored level value, which is the level function at `u`, and
`u + lambda * gradient = 0` for the multiplier just computed), in exact real arithmetic: the
loop body returns with a fuel of one trial point, the point is unchanged, the four errors
are `0`, and the run converges there when two bounds of one of the two pairs are positive. -/
theorem abdoRackwitz_iteration_null_direction (fuel : Nat) (r : AbdoRackwitz.RunState ℝ)
    (ht : r.solver.tau_ ≠ 0) (hf : 1 ≤ fuel)
    (hg : NumericalPoint.normSquare
      (r.solver.problem.levelFunction.gradient r.solver.currentPoint_) ≠ 0)
    (hd : (AbdoRackwitz.computeDirection (AbdoRackwitz.evalGradient r.solver)).currentDirection_
      = NumericalPoint.zero r.solver.currentPoint_.length)
    (hlv : r.solver.currentLevelValue_
      = r.solver.problem.levelFunction.eval r.solver.currentPoint_)
    (hG : r.solver.currentLevelValue_ = r.solver.problem.levelValue)
    (hres : NumericalPoint.add r.solver.currentPoint_
        (NumericalPoint.smul
          (AbdoRackwitz.computeDirection (AbdoRackwitz.evalGradient r.solver)).currentLambda_
          (r.solver.problem.levelFunction.gradient r.solver.currentPoint_))
      = NumericalPoint.zero r.solver.currentPoint_.length)
    (hu : NumericalPoint.normSquare r.solver.currentPoint_ ≠ 0) :
    ∃ r1, AbdoRackwitz.iteration Real.sqrt fuel r = some r1
      ∧ r1.thrown = none
      ∧ r1.solver.currentPoint_ = r.solver.currentPoint_
      ∧ r1.solver.currentLevelValue_ = r.solver.currentLevelValue_
      ∧ r1.absoluteError = 0 ∧ r1.relativeError = 0
      ∧ r1.constraintError = 0 ∧ r1.residualError = 0
      ∧ ((0 < r.solver.maximumAbsoluteError ∧ 0 < r.solver.maximumRelativeError)
          ∨ (0 < r.solver.maximumResidualError ∧ 0 < r.solver.maximumConstraintError) →
        r1.convergence = true ∧ AbdoRackwitz.runLoop Real.sqrt fuel r1 = some r1) := by
  obtain ⟨hls, -⟩ := abdoRackwitz_lineSearch_null_direction fuel
    (AbdoRackwitz.computeDirection (AbdoRackwitz.evalGradient r.solver)) ht hd hlv hu hf
  have hit := abdoRackwitz_iteration_of_lineSearch Real.sqrt fuel r 1 _ hg hls
  have hpos : 0 < NumericalPoint.norm Real.sqrt r.solver.currentPoint_ :=
    lt_of_le_of_ne (norm_real_nonneg _) (fun h => hu ((norm_real_eq_zero _).mp h.symm))
  obtain ⟨r1, hr1, hit1⟩ : ∃ r1 : AbdoRackwitz.RunState ℝ,
      r1 = AbdoRackwitz.updateErrors Real.sqrt 1
        { AbdoRackwitz.computeDirection (AbdoRackwitz.evalGradient r.solver) with
          currentSigma_ := AbdoRackwitz.sigmaUpdate Real.sqrt
            (AbdoRackwitz.computeDirection (AbdoRackwitz.evalGradient r.solver))
          oldPoint_ := r.solver.currentPoint_
          oldLevelValue_ := r.solver.currentLevelValue_ }
        (r.iterationNumber + 1)
      ∧ AbdoRackwitz.iteration Real.sqrt fuel r = some r1 := ⟨_, rfl, hit⟩
  have habs : r1.absoluteError = 0 := by
    rw [hr1]
    show |(1 : ℝ)| * NumericalPoint.norm Real.sqrt
      (AbdoRackwitz.computeDirection (AbdoRackwitz.evalGradient r.solver)).currentDirection_ = 0
    rw [hd, norm_real_zero, mul_zero]
  have hrel : r1.relativeError = 0 := by
    rw [hr1]
    show (if NumericalPoint.norm Real.sqrt r.solver.currentPoint_ > 0 then
        |(1 : ℝ)| * NumericalPoint.norm Real.sqrt
          (AbdoRackwitz.computeDirection
            (AbdoRackwitz.evalGradient r.solver)).currentDirection_
          / NumericalPoint.norm Real.sqrt r.solver.currentPoint_
      else -1) = 0
    rw [if_pos hpos, hd, norm_real_zero, mul_zero, zero_div]
  have hcon : r1.constraintError = 0 := by
    rw [hr1]
    show |r.solver.currentLevelValue_ - r.solver.problem.levelValue| = 0
    rw [hG, sub_self, abs_zero]
  have hrs : r1.residualError = 0 := by
    rw [hr1]
    show NumericalPoint.norm Real.sqrt (NumericalPoint.add r.solver.currentPoint_
        (NumericalPoint.smul
          (AbdoRackwitz.computeDirection (AbdoRackwitz.evalGradient r.solver)).currentLambda_
          (r.solver.problem.levelFunction.gradient r.solver.currentPoint_))) = 0
    rw [hres, norm_real_zero]
  have hthrown : r1.thrown = none := by rw [hr1]; rfl
  refine ⟨r1, hit1, hthrown, by rw [hr1]; rfl, by rw [hr1]; rfl, habs, hrel, hcon, hrs, ?_⟩
  intro hb
  obtain ⟨hconv, -, -, -, -, -, hexit⟩ :=
    abdoRackwitz_convergence_flag Real.sqrt fuel r r1 hit1 hthrown
  have hc : r1.convergence = true := by
    rw [hconv, habs, hrel, hcon, hrs]
    exact hb
  exact ⟨hc, hexit hc⟩

end AbdoRackwitzNullIteration

/-! ### An iteration of `SQP` along the null direction -/

section SQPNullIteration

/-- An iteration of `SQP::run` in which the computed direction is the null point,
at a point `u` with a nonzero `normSquare` that is feasible and stationary
(`G(u) = G0` for the stored level value, which is the level function at `u`, and
`u + lambda * gradient = 0` for the multiplier just computed), in exact real arithmetic: the
loop body returns with a fuel of one trial point, the point is unchanged, the four errors
are `0`, and the run converges there when two bounds of one of the two pairs are positive. -/
theorem sqp_iteration_null_direction
    (solveLinearSystem : SymmetricMatrix ℝ → List ℝ → List ℝ) (fuel : Nat) (r : SQP.RunState ℝ)
    (ht : r.solver.tau_ ≠ 0) (hf : 1 ≤ fuel)
    (hg : NumericalPoint.normSquare
      (r.solver.problem.levelFunction.gradient r.solver.currentPoint_) ≠ 0)
    (hd : (SQP.computeDirection solveLinearSystem (SQP.evalGradient r.solver)).currentDirection_
      = NumericalPoint.zero r.solver.currentPoint_.length)
    (hlv : r.solver.currentLevelValue_
      = r.solver.problem.levelFunction.eval r.solver.currentPoint_)
    (hG : r.solver.currentLevelValue_ = r.solver.problem.levelValue)
    (hres : NumericalPoint.add r.solver.currentPoint_
        (NumericalPoint.smul
          (SQP.computeDirection solveLinearSystem (SQP.evalGradient r.solver)).currentLambda_
          (r.solver.problem.levelFunction.gradient r.solver.currentPoint_))
      = NumericalPoint.zero r.solver.currentPoint_.length)
    (hu : NumericalPoint.normSquare r.solver.currentPoint_ ≠ 0) :
    ∃ r1, SQP.iteration Real.sqrt solveLinearSystem fuel r = some r1
      ∧ r1.thrown = none
      ∧ r1.solver.currentPoint_ = r.solver.currentPoint_
      ∧ r1.solver.currentLevelValue_ = r.solver.currentLevelValue_
      ∧ r1.absoluteError = 0 ∧ r1.relativeError = 0
      ∧ r1.constraintError = 0 ∧ r1.residualError = 0
      ∧ ((0 < r.solver.maximumAbsoluteError ∧ 0 < r.solver.maximumRelativeError)
          ∨ (0 < r.solver.maximumResidualError ∧ 0 < r.solver.maximumConstraintError) →
        r1.convergence = true ∧ SQP.runLoop Real.sqrt solveLinearSystem fuel r1 = some r1) := by
  obtain ⟨hls, -⟩ := sqp_lineSearch_null_direction fuel
    (SQP.computeDirection solveLinearSystem (SQP.evalGradient r.solver)) ht hd hlv hu hf
  have hit := sqp_iteration_of_lineSearch Real.sqrt solveLinearSystem fuel r 1 _ hg hls
  have hpos : 0 < NumericalPoint.norm Real.sqrt r.solver.currentPoint_ :=
    lt_of_le_of_ne (norm_real_nonneg _) (fun h => hu ((norm_real_eq_zero _).mp h.symm))
  obtain ⟨r1, hr1, hit1⟩ : ∃ r1 : SQP.RunState ℝ,
      r1 = SQP.updateErrors Real.sqrt 1
        { SQP.computeDirection solveLinearSystem (SQP.evalGradient r.solver) with
          currentSigma_ := SQP.sigmaUpdate Real.sqrt
            (SQP.computeDirection solveLinearSystem (SQP.evalGradient r.solver))
          oldPoint_ := r.solver.currentPoint_
          oldLevelValue_ := r.solver.currentLevelValue_ }
        (r.iterationNumber + 1)
      ∧ SQP.iteration Real.sqrt solveLinearSystem fuel r = some r1 := ⟨_, rfl, hit⟩
  have habs : r1.absoluteError = 0 := by
    rw [hr1]
    show |(1 : ℝ)| * NumericalPoint.norm Real.sqrt
      (SQP.computeDirection solveLinearSystem (SQP.evalGradient r.solver)).currentDirection_ = 0
    rw [hd, norm_real_zero, mul_zero]
  have hrel : r1.relativeError = 0 := by
    rw [hr1]
    show (if NumericalPoint.norm Real.sqrt r.solver.currentPoint_ > 0 then
        |(1 : ℝ)| * NumericalPoint.norm Real.sqrt
          (SQP.computeDirection solveLinearSystem
            (SQP.evalGradient r.solver)).currentDirection_
          / NumericalPoint.norm Real.sqrt r.solver.currentPoint_
      else -1) = 0
    rw [if_pos hpos, hd, norm_real_zero, mul_zero, zero_div]
  have hcon : r1.constraintError = 0 := by
    rw [hr1]
    show |r.solver.currentLevelValue_ - r.solver.problem.levelValue| = 0
    rw [hG, sub_self, abs_zero]
  have hrs : r1.residualError = 0 := by
    rw [hr1]
    show NumericalPoint.norm Real.sqrt (NumericalPoint.add r.solver.currentPoint_
        (NumericalPoint.smul
          (SQP.computeDirection solveLinearSystem (SQP.evalGradient r.solver)).currentLambda_
          (r.solver.problem.levelFunction.gradient r.solver.currentPoint_))) = 0
    rw [hres, norm_real_zero]
  have hthrown : r1.thrown = none := by rw [hr1]; rfl
  refine ⟨r1, hit1, hthrown, by rw [hr1]; rfl, by rw [hr1]; rfl, habs, hrel, hcon, hrs, ?_⟩
  intro hb
  obtain ⟨hconv, -, -, -, -, -, hexit⟩ :=
    sqp_convergence_flag Real.sqrt solveLinearSystem fuel r r1 hit1 hthrown
  have hc : r1.convergence = true := by
    rw [hconv, habs, hrel, hcon, hrs]
    exact hb
  exact ⟨hc, hexit hc⟩

end SQPNullIteration

/-! ### A run started at the solution -/

section ScenarioStationaryFacts

/-- The direction computed by the first iteration of `SQP` on `G(u) = u1`, `G0 = 1`, started
at `(1)`, with an exact linear solver: the system `2 d + mu = -1`, `d = 0` has the solution
`(0, -1)`, which the solver returns, so that the direction is `(0)`. -/
theorem sqp_scenarioStationary_direction
    (solveLinearSystem : SymmetricMatrix ℝ → List ℝ → List ℝ)
    (hs : ExactSolver solveLinearSystem) :
    IsSolution
        (SQP.computeDirection solveLinearSystem (SQP.evalGradient
          (SQP.runInit (scenarioStationary.sqp (K := ℝ))).solver)).currentSystemMatrix_
        (SQP.computeDirection solveLinearSystem (SQP.evalGradient
          (SQP.runInit (scenarioStationary.sqp (K := ℝ))).solver)).currentSecondMember_
        (solveLinearSystem
          (SQP.computeDirection solveLinearSystem (SQP.evalGradient
            (SQP.runInit (scenarioStationary.sqp (K := ℝ))).solver)).currentSystemMatrix_
          (SQP.computeDirection solveLinearSystem (SQP.evalGradient
            (SQP.runInit (scenarioStationary.sqp (K := ℝ))).solver)).currentSecondMember_)
      ∧ (SQP.computeDirection solveLinearSystem (SQP.evalGradient
          (SQP.runInit (scenarioStationary.sqp (K := ℝ))).solver)).currentDirection_ = [0] := by
  have r1 : List.range 1 = [0] := rfl
  have r2 : List.range 2 = [0, 1] := rfl
  have hM : ∀ y0 y1 : ℝ, (SQP.assembleSystemMatrix (SQP.evalGradient
      (SQP.runInit (scenarioStationary.sqp (K := ℝ))).solver)).mulVec
        [y0, y1] = [2 * y0 + y1, y0] := by
    intro y0 y1
    simp only [SQP.assembleSystemMatrix, SQP.evalGradient, SQP.runInit, SQP.new, SQP.initialise,
      scenarioStationary.base, scenarioStationary.sqp,
      scenarioStationary.problem, scenarioOrigin.levelFunction, List.length_cons,
      List.length_nil, r1,
      r2, List.foldl_cons, List.foldl_nil, zero_add, Nat.reduceAdd, SymmetricMatrix.set,
      SymmetricMatrix.get, SymmetricMatrix.zero, SymmetricMatrix.mulVec, NumericalPoint.get]
    simp +decide only [gt_iff_lt, lt_self_iff_false, if_false, if_true, r2, List.map_cons,
      List.map_nil, List.sum_cons, List.sum_nil, List.getD_cons_zero, List.getD_cons_succ,
      and_self, and_true, true_and, and_false, false_and, mul_zero, zero_add, add_zero,
      List.cons.injEq]
    refine ⟨by ring, by ring⟩
  have hsolution : IsSolution (SQP.assembleSystemMatrix (SQP.evalGradient
      (SQP.runInit (scenarioStationary.sqp (K := ℝ))).solver)) [-1, 0] [0, -1] := by
    refine ⟨rfl, ?_⟩
    rw [hM]; norm_num
  have hsol : solveLinearSystem (SQP.assembleSystemMatrix (SQP.evalGradient
      (SQP.runInit (scenarioStationary.sqp (K := ℝ))).solver))
      [-1, 0] = [0, -1] := by
    apply hs _ _ _ hsolution
    rintro y ⟨hyl, hy⟩
    have hyl2 : y.length = 2 := hyl
    match y, hyl2 with
    | [y0, y1], _ =>
      rw [hM] at hy
      simp only [List.cons.injEq, and_true] at hy
      obtain ⟨e0, e1⟩ := hy
      have h0 : y0 = 0 := e1
      have h1 : y1 = -1 := by linarith
      rw [h0, h1]
  have hb : SQP.assembleSecondMember
      { SQP.evalGradient (SQP.runInit (scenarioStationary.sqp (K := ℝ))).solver with
        currentSystemMatrix_ := SQP.assembleSystemMatrix (SQP.evalGradient
          (SQP.runInit (scenarioStationary.sqp (K := ℝ))).solver) }
      (1 : ℝ) = [-1, 0] := by
    simp [SQP.assembleSecondMember, SQP.evalGradient, SQP.runInit, SQP.new, SQP.initialise,
      scenarioStationary.base, scenarioStationary.sqp,
      scenarioStationary.problem, scenarioOrigin.levelFunction, r1, NumericalPoint.get,
      NumericalPoint.zero, List.replicate]
  have hD : SQP.computeDirection solveLinearSystem (SQP.evalGradient
      (SQP.runInit (scenarioStationary.sqp (K := ℝ))).solver)
      = { SQP.evalGradient (SQP.runInit (scenarioStationary.sqp (K := ℝ))).solver with
          currentSystemMatrix_ := SQP.assembleSystemMatrix (SQP.evalGradient
            (SQP.runInit (scenarioStationary.sqp (K := ℝ))).solver)
          currentSecondMember_ := [-1, 0]
          currentDirection_ := [0]
          currentLambda_ := -1 } := by
    unfold SQP.computeDirection
    have hlv : (SQP.evalGradient
        (SQP.runInit (scenarioStationary.sqp (K := ℝ))).solver).problem.levelValue = 1 := rfl
    simp only [hlv, hb, hsol]
    simp [SQP.copyDirection, SQP.evalGradient, SQP.runInit, SQP.new, SQP.initialise,
      scenarioStationary.base, scenarioStationary.sqp, r1,
      NumericalPoint.get, NumericalPoint.zero, List.replicate]
  rw [hD]
  refine ⟨?_, rfl⟩
  show IsSolution (SQP.assembleSystemMatrix (SQP.evalGradient
      (SQP.runInit (scenarioStationary.sqp (K := ℝ))).solver)) [-1, 0]
    (solveLinearSystem (SQP.assembleSystemMatrix (SQP.evalGradient
      (SQP.runInit (scenarioStationary.sqp (K := ℝ))).solver)) [-1, 0])
  rw [hsol]
  exact hsolution

end ScenarioStationaryFacts

/-! ### The actual distribution of `GeneralizedExtremeValue` -/

section ActualDistributionFacts

variable {K : Type} [LinearOrderedField K]

/-- `setActualDistribution` on a Gumbel distribution. -/
theorem setActualDistribution_gumbel (g : GeneralizedExtremeValue K) (d : Gumbel K) :
    GeneralizedExtremeValue.setActualDistribution g (Distribution.gumbel d)
      = ({ g with
          mu_ := d.beta
          sigma_ := 1 / d.alpha
          xi_ := 0
          actualDistribution_ := Distribution.gumbel d
          isAlreadyComputedMean_ := false
          isAlreadyComputedCovariance_ := false }, none) := rfl

/-- `setActualDistribution` on a Frechet distribution. -/
theorem setActualDistribution_frechet (g : GeneralizedExtremeValue K) (d : Frechet K) :
    GeneralizedExtremeValue.setActualDistribution g (Distribution.frechet d)
      = ({ g with
          mu_ := d.gamma + d.beta
          sigma_ := d.beta * (1 / d.alpha)
          xi_ := 1 / d.alpha
          actualDistribution_ := Distribution.frechet d
          isAlreadyComputedMean_ := false
          isAlreadyComputedCovariance_ := false }, none) := rfl

/-- `setActualDistribution` on a one-atom mixture of dimension `1` whose weight is negative
and whose atom is a Weibull distribution. -/
theorem setActualDistribution_weibull (g : GeneralizedExtremeValue K) (d : Weibull K)
    (rest : List (Atom K)) (weights constant : List K)
    (hrest : rest = []) (hw : NumericalPoint.get weights 0 < 0) :
    GeneralizedExtremeValue.setActualDistribution g
        (Distribution.randomMixture ⟨1, Atom.weibull d :: rest, weights, constant⟩)
      = ({ g with
          mu_ := NumericalPoint.get constant 0
            + -(NumericalPoint.get weights 0 * d.alpha) * (-1 / d.beta) / (-1 / d.beta)
            - d.gamma * NumericalPoint.get weights 0
          sigma_ := -(NumericalPoint.get weights 0 * d.alpha) * (-1 / d.beta)
          xi_ := -1 / d.beta
          actualDistribution_ :=
            Distribution.randomMixture ⟨1, Atom.weibull d :: rest, weights, constant⟩
          isAlreadyComputedMean_ := false
          isAlreadyComputedCovariance_ := false }, none) := by
  subst hrest
  unfold GeneralizedExtremeValue.setActualDistribution
  simp only [List.length_singleton, true_and, hw, if_true]

end ActualDistributionFacts

section ScaleFacts

variable {K : Type} [LinearOrderedField K]

/-- A call of `setMuSigmaXi` that raises nothing was given a positive `sigma` and has stored
it. -/
theorem setMuSigmaXi_success (xiEpsilon : K) (g : GeneralizedExtremeValue K)
    (mu sigma xi : K)
    (h : (GeneralizedExtremeValue.setMuSigmaXi xiEpsilon g mu sigma xi).2 = none) :
    sigma > 0
      ∧ (GeneralizedExtremeValue.setMuSigmaXi xiEpsilon g mu sigma xi).1.sigma_ = sigma := by
  unfold GeneralizedExtremeValue.setMuSigmaXi at h ⊢
  by_cases hs : sigma > 0
  · refine ⟨hs, ?_⟩
    have hn : ¬ ¬ (sigma > 0) := not_not.mpr hs
    rw [if_neg hn] at h ⊢
    simp only [] at h ⊢
    split at h
    · exact absurd h (by simp)
    · rfl
  · rw [if_pos hs] at h
    exact absurd h (by simp)

end ScaleFacts

/-! ### `setMuSigmaXi` and the rounding of the quotients -/

section RoundedQuotients

variable {K : Type} [LinearOrderedField K]

/-- With the exact division of the field, `setMuSigmaXiRounded` is `setMuSigmaXi`. -/
theorem setMuSigmaXiRounded_exact (xiEpsilon : K) (g : GeneralizedExtremeValue K)
    (mu sigma xi : K) :
    GeneralizedExtremeValue.setMuSigmaXiRounded (fun x y => x / y) xiEpsilon g mu sigma xi
      = GeneralizedExtremeValue.setMuSigmaXi xiEpsilon g mu sigma xi := rfl

/-- `setMuSigmaXiRounded` with a `sigma` that is not positive throws and leaves the object as
it was, whatever the rounding. -/
theorem setMuSigmaXiRounded_of_not_pos (div : K → K → K) (xiEpsilon : K)
    (g : GeneralizedExtremeValue K) (mu sigma xi : K) (h : ¬ (sigma > 0)) :
    GeneralizedExtremeValue.setMuSigmaXiRounded div xiEpsilon g mu sigma xi
      = (g, some Exception.InvalidArgumentException) := by
  unfold GeneralizedExtremeValue.setMuSigmaXiRounded
  rw [if_pos h]

/-- `setMuSigmaXiRounded` with a positive `sigma`, whatever the rounding: the three
parameters are assigned first; the call throws exactly when the constructor of the actual
distribution is given an `alpha` or a `beta` that is not positive, the exception is
`InvalidArgumentException`, and the object is then the former one with the three parameters
replaced, its actual distribution being the former one. -/
theorem setMuSigmaXiRounded_of_pos (div : K → K → K) (xiEpsilon : K)
    (g : GeneralizedExtremeValue K) (mu sigma xi : K) (h : sigma > 0) :
    (GeneralizedExtremeValue.setMuSigmaXiRounded div xiEpsilon g mu sigma xi).1.mu_ = mu
      ∧ (GeneralizedExtremeValue.setMuSigmaXiRounded div xiEpsilon g mu sigma xi).1.sigma_
        = sigma
      ∧ (GeneralizedExtremeValue.setMuSigmaXiRounded div xiEpsilon g mu sigma xi).1.xi_ = xi
      ∧ ((GeneralizedExtremeValue.setMuSigmaXiRounded div xiEpsilon g mu sigma xi).2 = none
        ∨ (GeneralizedExtremeValue.setMuSigmaXiRounded div xiEpsilon g mu sigma xi).2
          = some Exception.InvalidArgumentException)
      ∧ ((GeneralizedExtremeValue.setMuSigmaXiRounded div xiEpsilon g mu sigma xi).2
          = some Exception.InvalidArgumentException
        ↔ (if xi < -xiEpsilon then ¬ (div (-sigma) xi > 0) ∨ ¬ (div (-1) xi > 0)
          else if xi > xiEpsilon then ¬ (div 1 xi > 0) ∨ ¬ (div sigma xi > 0)
          else ¬ (div 1 sigma > 0)))
      ∧ ((GeneralizedExtremeValue.setMuSigmaXiRounded div xiEpsilon g mu sigma xi).2
          = some Exception.InvalidArgumentException →
        (GeneralizedExtremeValue.setMuSigmaXiRounded div xiEpsilon g mu sigma xi).1
          = { g with mu_ := mu, sigma_ := sigma, xi_ := xi }) := by
  unfold GeneralizedExtremeValue.setMuSigmaXiRounded
  have hn : ¬ ¬ (sigma > 0) := not_not.mpr h
  rw [if_neg hn]
  by_cases h1 : xi < -xiEpsilon
  · by_cases ha : div (-sigma) xi > 0
    · by_cases hb : div (-1) xi > 0
      · simp [h1, ha, hb, Weibull.new, Except.map]
      · simp [h1, ha, hb, Weibull.new, Except.map]
    · simp [h1, ha, Weibull.new, Except.map]
  · by_cases h2 : xi > xiEpsilon
    · by_cases ha : div 1 xi > 0
      · by_cases hb : div sigma xi > 0
        · simp [h1, h2, ha, hb, Frechet.new, Except.map]
        · simp [h1, h2, ha, hb, Frechet.new, Except.map]
      · simp [h1, h2, ha, Frechet.new, Except.map]
    · by_cases ha : div 1 sigma > 0
      · simp [h1, h2, ha, Gumbel.new, Except.map]
      · simp [h1, h2, ha, Gumbel.new, Except.map]

end RoundedQuotients

/-! ### The parameters of `GeneralizedExtremeValue` in exact arithmetic -/

section ExactParameters

/-- In exact arithmetic and for a non-negative threshold, `setMuSigmaXi`, the constructor
with three parameters, `setMu`, `setSigma`, `setXi` and `setParameter` throw exactly when the
`sigma` they pass is not positive (`setParameter` also on a point that does not have `3`
components), leave the object unchanged when they throw, and store the values passed when
they succeed. -/
theorem setMuSigmaXi_exact_family {K : Type} [LinearOrderedField K] (xiEpsilon : K)
    (hx : 0 ≤ xiEpsilon) (g : GeneralizedExtremeValue K) (mu sigma xi : K) :
    (((GeneralizedExtremeValue.setMuSigmaXi xiEpsilon g mu sigma xi).2
        = some Exception.InvalidArgumentException ↔ ¬ (sigma > 0))
      ∧ ((GeneralizedExtremeValue.setMuSigmaXi xiEpsilon g mu sigma xi).2 = none ↔ sigma > 0)
      ∧ (¬ (sigma > 0) → (GeneralizedExtremeValue.setMuSigmaXi xiEpsilon g mu sigma xi).1 = g)
      ∧ (sigma > 0 →
          (GeneralizedExtremeValue.setMuSigmaXi xiEpsilon g mu sigma xi).1.getMu = mu
          ∧ (GeneralizedExtremeValue.setMuSigmaXi xiEpsilon g mu sigma xi).1.getSigma = sigma
          ∧ (GeneralizedExtremeValue.setMuSigmaXi xiEpsilon g mu sigma xi).1.getXi = xi
          ∧ (GeneralizedExtremeValue.setMuSigmaXi xiEpsilon g mu sigma xi).1.getParameter
            = [mu, sigma, xi]))
    ∧ ((GeneralizedExtremeValue.new xiEpsilon g mu sigma xi
          = Except.error Exception.InvalidArgumentException ↔ ¬ (sigma > 0))
      ∧ (sigma > 0 → ∃ g1, GeneralizedExtremeValue.new xiEpsilon g mu sigma xi = Except.ok g1
          ∧ g1.getMu = mu ∧ g1.getSigma = sigma ∧ g1.getXi = xi
          ∧ g1.getParameter = [mu, sigma, xi]))
    ∧ (((GeneralizedExtremeValue.setMu xiEpsilon g mu).2
          = some Exception.InvalidArgumentException ↔ ¬ (g.sigma_ > 0))
      ∧ (¬ (g.sigma_ > 0) → (GeneralizedExtremeValue.setMu xiEpsilon g mu).1 = g)
      ∧ (g.sigma_ > 0 → (GeneralizedExtremeValue.setMu xiEpsilon g mu).2 = none
          ∧ (GeneralizedExtremeValue.setMu xiEpsilon g mu).1.getParameter
            = [mu, g.sigma_, g.xi_]))
    ∧ (((GeneralizedExtremeValue.setSigma xiEpsilon g sigma).2
          = some Exception.InvalidArgumentException ↔ ¬ (sigma > 0))
      ∧ (¬ (sigma > 0) → (GeneralizedExtremeValue.setSigma xiEpsilon g sigma).1 = g)
      ∧ (sigma > 0 → (GeneralizedExtremeValue.setSigma xiEpsilon g sigma).2 = none
          ∧ (GeneralizedExtremeValue.setSigma xiEpsilon g sigma).1.getParameter
            = [g.mu_, sigma, g.xi_]))
    ∧ (((GeneralizedExtremeValue.setXi xiEpsilon g xi).2
          = some Exception.InvalidArgumentException ↔ ¬ (g.sigma_ > 0))
      ∧ (¬ (g.sigma_ > 0) → (GeneralizedExtremeValue.setXi xiEpsilon g xi).1 = g)
      ∧ (g.sigma_ > 0 → (GeneralizedExtremeValue.setXi xiEpsilon g xi).2 = none
          ∧ (GeneralizedExtremeValue.setXi xiEpsilon g xi).1.getParameter
            = [g.mu_, g.sigma_, xi]))
    ∧ (∀ parameter : List K,
        ((GeneralizedExtremeValue.setParameter xiEpsilon g parameter).2
          = some Exception.InvalidArgumentException
          ↔ (parameter.length ≠ 3 ∨ ¬ (NumericalPoint.get parameter 1 > 0)))
        ∧ ((GeneralizedExtremeValue.setParameter xiEpsilon g parameter).2 = none
          ↔ (parameter.length = 3 ∧ NumericalPoint.get parameter 1 > 0))
        ∧ ((GeneralizedExtremeValue.setParameter xiEpsilon g parameter).2 ≠ none →
            (GeneralizedExtremeValue.setParameter xiEpsilon g parameter).1 = g)
        ∧ ((GeneralizedExtremeValue.setParameter xiEpsilon g parameter).2 = none →
            (GeneralizedExtremeValue.setParameter xiEpsilon g parameter).1.getParameter
              = parameter)) := by
  refine ⟨setMuSigmaXi_outcome xiEpsilon hx g mu sigma xi, ?_, ?_, ?_, ?_, ?_⟩
  · by_cases h : sigma > 0
    · have he := setMuSigmaXi_of_pos xiEpsilon hx g mu sigma xi h
      unfold GeneralizedExtremeValue.new
      rw [he]
      exact ⟨⟨fun h1 => absurd h1 (by simp), fun h1 => absurd h h1⟩,
        fun _ => ⟨_, rfl, rfl, rfl, rfl, rfl⟩⟩
    · have he := setMuSigmaXi_of_not_pos xiEpsilon g mu sigma xi h
      unfold GeneralizedExtremeValue.new
      rw [he]
      exact ⟨⟨fun _ => h, fun _ => rfl⟩, fun h1 => absurd h1 h⟩
  · obtain ⟨h1, h2, h3, h4⟩ := setMuSigmaXi_outcome xiEpsilon hx g mu g.sigma_ g.xi_
    exact ⟨h1, h3, fun hp => ⟨h2.mpr hp, (h4 hp).2.2.2⟩⟩
  · obtain ⟨h1, h2, h3, h4⟩ := setMuSigmaXi_outcome xiEpsilon hx g g.mu_ sigma g.xi_
    exact ⟨h1, h3, fun hp => ⟨h2.mpr hp, (h4 hp).2.2.2⟩⟩
  · obtain ⟨h1, h2, h3, h4⟩ := setMuSigmaXi_outcome xiEpsilon hx g g.mu_ g.sigma_ xi
    exact ⟨h1, h3, fun hp => ⟨h2.mpr hp, (h4 hp).2.2.2⟩⟩
  · intro parameter
    by_cases hl : parameter.length ≠ 3
    · have he : GeneralizedExtremeValue.setParameter xiEpsilon g parameter
          = (g, some Exception.InvalidArgumentException) := by
        unfold GeneralizedExtremeValue.setParameter
        rw [if_pos hl]
      rw [he]
      exact ⟨⟨fun _ => Or.inl hl, fun _ => rfl⟩,
        ⟨fun h1 => absurd h1 (by simp), fun h1 => absurd h1.1 hl⟩,
        fun _ => rfl, fun h1 => absurd h1 (by simp)⟩
    · have hl3 : parameter.length = 3 := not_not.mp hl
      have he : GeneralizedExtremeValue.setParameter xiEpsilon g parameter
          = GeneralizedExtremeValue.setMuSigmaXi xiEpsilon g (NumericalPoint.get parameter 0)
            (NumericalPoint.get parameter 1) (NumericalPoint.get parameter 2) := by
        unfold GeneralizedExtremeValue.setParameter
        rw [if_neg hl]
      rw [he]
      obtain ⟨h1, h2, h3, h4⟩ := setMuSigmaXi_outcome xiEpsilon hx g
        (NumericalPoint.get parameter 0) (NumericalPoint.get parameter 1)
        (NumericalPoint.get parameter 2)
      refine ⟨⟨fun hh => Or.inr (h1.mp hh), fun hh => ?_⟩,
        ⟨fun hh => ⟨hl3, h2.mp hh⟩, fun hh => h2.mpr hh.2⟩, ?_, ?_⟩
      · rcases hh with hh | hh
        · exact absurd hl3 hh
        · exact h1.mpr hh
      · intro hne
        apply h3
        intro hp
        exact hne (h2.mpr hp)
      · intro hn
        rw [(h4 (h2.mp hn)).2.2.2]
        match parameter, hl3 with
        | [p0, p1, p2], _ => rfl

end ExactParameters

/-! ### Consistent dimensions along a run of `AbdoRackwitz` -/

section AbdoRackwitzDimensions

variable {K : Type} [LinearOrderedField K]

/-- The direction `-lambda * gradient - currentPoint` computed by `AbdoRackwitz::run` has the
dimension of the current point when the gradient has it; the points are left as they are. -/
theorem abdoRackwitz_computeDirection_length (s : AbdoRackwitz K)
    (hg : s.currentGradient_.length = s.currentPoint_.length) :
    (AbdoRackwitz.computeDirection s).currentDirection_.length = s.currentPoint_.length
      ∧ (AbdoRackwitz.computeDirection s).currentPoint_ = s.currentPoint_
      ∧ (AbdoRackwitz.computeDirection s).oldPoint_ = s.oldPoint_ := by
  refine ⟨?_, rfl, rfl⟩
  show (NumericalPoint.sub (NumericalPoint.smul _ s.currentGradient_) s.currentPoint_).length = _
  simp [NumericalPoint.sub, NumericalPoint.smul, hg]

/-- The loop body of `AbdoRackwitz::run` keeps the dimension `n` of the current point, and
leaves a previous point of that dimension or of null norm, when the gradient of the level
function has the dimension of its argument. -/
theorem abdoRackwitz_iteration_dimensioned (sqrt : K → K) (fuel : Nat) (n : Nat)
    (r r1 : AbdoRackwitz.RunState K)
    (hgrad : ∀ u : List K, u.length = n →
      (r.solver.problem.levelFunction.gradient u).length = n)
    (hp : r.solver.currentPoint_.length = n)
    (hold : r.solver.oldPoint_.length = n
      ∨ NumericalPoint.norm sqrt r.solver.oldPoint_ = 0)
    (h : AbdoRackwitz.iteration sqrt fuel r = some r1) :
    r1.solver.currentPoint_.length = n
      ∧ (r1.solver.oldPoint_.length = n
        ∨ NumericalPoint.norm sqrt r1.solver.oldPoint_ = 0) := by
  rcases abdoRackwitz_iteration_cases sqrt fuel r r1 h with
    ⟨-, rfl⟩ | ⟨-, alpha, s1, hls, rfl⟩
  · exact ⟨hp, hold⟩
  · have hg : (AbdoRackwitz.evalGradient r.solver).currentGradient_.length
        = (AbdoRackwitz.evalGradient r.solver).currentPoint_.length := by
      show (r.solver.problem.levelFunction.gradient r.solver.currentPoint_).length
        = r.solver.currentPoint_.length
      rw [hgrad _ hp, hp]
    obtain ⟨hdl, hcp, hop⟩ :=
      abdoRackwitz_computeDirection_length (AbdoRackwitz.evalGradient r.solver) hg
    have hcp1 : (AbdoRackwitz.computeDirection
        (AbdoRackwitz.evalGradient r.solver)).currentPoint_ = r.solver.currentPoint_ := hcp
    have hop1 : (AbdoRackwitz.computeDirection
        (AbdoRackwitz.evalGradient r.solver)).oldPoint_ = r.solver.oldPoint_ := hop
    have hdl1 : (AbdoRackwitz.computeDirection
        (AbdoRackwitz.evalGradient r.solver)).currentDirection_.length
        = (AbdoRackwitz.computeDirection
          (AbdoRackwitz.evalGradient r.solver)).currentPoint_.length := by
      rw [hcp1]
      exact hdl
    obtain ⟨hl, -⟩ := abdoRackwitz_lineSearch_length sqrt fuel _ s1 alpha hls hdl1
      (by rw [hop1, hcp1, hp]; exact hold)
    have hfo : s1.oldPoint_ = r.solver.currentPoint_ := by
      rw [(abdoRackwitz_computeLineSearch_frame sqrt fuel _ s1 alpha hls).2.2.2.2.2.2.2.1, hcp1]
    refine ⟨?_, Or.inl ?_⟩
    · show s1.currentPoint_.length = n
      rw [hl, hcp1, hp]
    · show s1.oldPoint_.length = n
      rw [hfo, hp]

/-- Along a run of `AbdoRackwitz` on a level function whose gradient has the dimension of its
argument, started with a previous point that has the dimension of the starting point or a
null norm, the current point keeps the dimension of the starting point and the previous
point has that dimension or a null norm: the sums and dot products of the loop body then
receive operands of one dimension. -/
theorem abdoRackwitz_iterateBody_dimensioned (sqrt : K → K) (fuel : Nat) (s : AbdoRackwitz K)
    (hgrad : ∀ u : List K, u.length = s.startingPoint.length →
      (s.problem.levelFunction.gradient u).length = s.startingPoint.length)
    (hold : s.oldPoint_.length = s.startingPoint.length
      ∨ NumericalPoint.norm sqrt s.oldPoint_ = 0) :
    ∀ (k : Nat) (rk : AbdoRackwitz.RunState K),
      iterateBody (AbdoRackwitz.iteration sqrt fuel) (AbdoRackwitz.runInit s) k = some rk →
      rk.solver.currentPoint_.length = s.startingPoint.length
        ∧ (rk.solver.oldPoint_.length = s.startingPoint.length
          ∨ NumericalPoint.norm sqrt rk.solver.oldPoint_ = 0) := by
  intro k
  induction k with
  | zero =>
    intro rk h
    have h1 : some (AbdoRackwitz.runInit s) = some rk := h
    simp only [Option.some.injEq] at h1
    subst h1
    exact ⟨rfl, hold⟩
  | succ k ih =>
    intro rk h
    have h1 : (iterateBody (AbdoRackwitz.iteration sqrt fuel) (AbdoRackwitz.runInit s) k).bind
        (AbdoRackwitz.iteration sqrt fuel) = some rk := h
    cases hk : iterateBody (AbdoRackwitz.iteration sqrt fuel) (AbdoRackwitz.runInit s) k with
    | none => rw [hk] at h1; exact absurd h1 (by simp)
    | some rj =>
      rw [hk] at h1
      obtain ⟨hpj, hoj⟩ := ih rj hk
      have hprob : rj.solver.problem = s.problem :=
        (abdoRackwitz_level_consistency sqrt fuel s k rj hk).1
      exact abdoRackwitz_iteration_dimensioned sqrt fuel _ rj rk
        (by rw [hprob]; exact hgrad) hpj hoj h1

end AbdoRackwitzDimensions
/-! ## The claims -/

/-- C1: for both `AbdoRackwitz::checkProblem` and `SQP::checkProblem` and every problem
descriptor, the call raises the invalid-argument exception if and only if
`hasLevelFunction()` is false or `hasMultipleObjective()` is true or `hasBounds()` is true,
and it returns normally in exactly the other case.  The method is `const` and returns
nothing, so returning normally changes nothing. -/
theorem checkProblem_rejects_iff {K : Type} (problem : OptimizationProblem K) :
    (AbdoRackwitz.checkProblem problem = Except.error Exception.InvalidArgumentException
        ↔ (problem.hasLevelFunction = false ∨ problem.hasMultipleObjective = true
            ∨ problem.hasBounds = true))
    ∧ (AbdoRackwitz.checkProblem problem = Except.ok ()
        ↔ ¬ (problem.hasLevelFunction = false ∨ problem.hasMultipleObjective = true
            ∨ problem.hasBounds = true))
    ∧ (SQP.checkProblem problem = Except.error Exception.InvalidArgumentException
        ↔ (problem.hasLevelFunction = false ∨ problem.hasMultipleObjective = true
            ∨ problem.hasBounds = true))
    ∧ (SQP.checkProblem problem = Except.ok ()
        ↔ ¬ (problem.hasLevelFunction = false ∨ problem.hasMultipleObjective = true
            ∨ problem.hasBounds = true)) := by
  unfold AbdoRackwitz.checkProblem SQP.checkProblem
  cases problem.hasLevelFunction <;> cases problem.hasMultipleObjective <;>
    cases problem.hasBounds <;> simp

/-- C2: Scenario A for `AbdoRackwitz::run` in exact real arithmetic.  With
`G(u) = u1 + 2*u2 - 3*u3 + 4*u4`, level value `2`, starting point the origin, a freshly
constructed solver (whatever its uninitialised member holds), `0 < tau`,
`tau * omega ≤ 29/30`, any `smooth`, any iteration budget and strictly positive
`maxResidualError` and `maxConstraintError`, the run returns (a fuel of one trial point is
enough), no exception is raised, the convergence flag is true after exactly one iteration,
and the final current point is `(1/15, 2/15, -1/5, 4/15) = G0 * w / ‖w‖²` with
`w = (1, 2, -3, 4)`. -/
theorem scenarioA_abdoRackwitz_converges (maxIter : Nat) (maxAbs maxRel maxRes maxCon : ℝ)
    (res : OptimizationResult ℝ) (tau omega smooth uninit : ℝ) (fuel : Nat)
    (ht0 : 0 < tau) (hto : tau * omega ≤ 29 / 30) (hres : 0 < maxRes) (hcon : 0 < maxCon)
    (hf : 1 ≤ fuel) :
    ∃ r, AbdoRackwitz.run Real.sqrt fuel
          (AbdoRackwitz.new (scenarioA.base maxIter maxAbs maxRel maxRes maxCon res)
            tau omega smooth uninit) = some r
      ∧ r.thrown = none ∧ r.convergence = true ∧ r.iterationNumber = 1
      ∧ r.solver.currentPoint_ = [1 / 15, 2 / 15, -(1 / 5), 4 / 15]
      ∧ r.solver.result.optimalPoint = [1 / 15, 2 / 15, -(1 / 5), 4 / 15]
      ∧ r.solver.currentPoint_ = NumericalPoint.sdiv (NumericalPoint.smul 2 [1, 2, -3, 4])
          (NumericalPoint.normSquare [1, 2, -3, 4]) := by
  obtain ⟨r, hr, hc, hn, ht, hp, ho, -⟩ := abdoRackwitz_scenarioA_run maxIter maxAbs maxRel
    maxRes maxCon res tau omega smooth uninit fuel ht0 hto hf hres hcon
  refine ⟨r, hr, ht, hc, hn, hp, ho, ?_⟩
  rw [hp]
  norm_num [NumericalPoint.sdiv, NumericalPoint.smul, NumericalPoint.normSquare, dot]

/-- Witness of C2: the default tunables `tau = 1/2`, `omega = 1/10000`, `smooth = 6/5`. -/
theorem scenarioA_abdoRackwitz_converges_witness :
    ∃ r, AbdoRackwitz.run Real.sqrt 10
          (AbdoRackwitz.new
            (scenarioA.base 100 (1 / 100000) (1 / 100000) (1 / 100000) (1 / 100000)
              (OptimizationResult.new [] 0 0 0 0 0 0))
            (1 / 2) (1 / 10000) (6 / 5) 0) = some r
      ∧ r.thrown = none ∧ r.convergence = true ∧ r.iterationNumber = 1
      ∧ r.solver.currentPoint_ = [1 / 15, 2 / 15, -(1 / 5), 4 / 15]
      ∧ r.solver.result.optimalPoint = [1 / 15, 2 / 15, -(1 / 5), 4 / 15]
      ∧ r.solver.currentPoint_ = NumericalPoint.sdiv (NumericalPoint.smul 2 [1, 2, -3, 4])
          (NumericalPoint.normSquare [1, 2, -3, 4]) :=
  scenarioA_abdoRackwitz_converges 100 (1 / 100000) (1 / 100000) (1 / 100000) (1 / 100000)
    (OptimizationResult.new [] 0 0 0 0 0 0) (1 / 2) (1 / 10000) (6 / 5) 0 10
    (by norm_num) (by norm_num) (by norm_num) (by norm_num) (by norm_num)

/-- C3: Scenario A for `SQP::run` in exact real arithmetic, with a linear solver that returns
the solution of every system that has exactly one.  With the level function, level value and
starting point of Scenario A, a freshly constructed solver, `0 < tau`,
`tau * omega ≤ 29/30`, any `smooth`, strictly positive `maxAbsoluteError` and
`maxRelativeError` and `maxIterationsNumber ≥ 1`, the run returns, no exception is raised,
the convergence flag is true (after one or two iterations) and the final current point is
`(1/15, 2/15, -1/5, 4/15) = G0 * w / ‖w‖²`; when `maxResidualError` and
`maxConstraintError` are strictly positive too, `AbdoRackwitz` with the same settings ends
on the same point. -/
theorem scenarioA_sqp_converges (solveLinearSystem : SymmetricMatrix ℝ → List ℝ → List ℝ)
    (hs : ExactSolver solveLinearSystem)
    (maxIter : Nat) (maxAbs maxRel maxRes maxCon : ℝ)
    (res : OptimizationResult ℝ) (tau omega smooth uninit : ℝ) (fuel : Nat)
    (ht0 : 0 < tau) (hto : tau * omega ≤ 29 / 30) (habs : 0 < maxAbs) (hrel : 0 < maxRel)
    (hmax : 1 ≤ maxIter) (hf : 1 ≤ fuel) :
    ∃ r, SQP.run Real.sqrt solveLinearSystem fuel
          (SQP.new (scenarioA.base maxIter maxAbs maxRel maxRes maxCon res)
            tau omega smooth uninit) = some r
      ∧ r.thrown = none ∧ r.convergence = true
      ∧ (r.iterationNumber = 1 ∨ r.iterationNumber = 2)
      ∧ r.solver.currentPoint_ = [1 / 15, 2 / 15, -(1 / 5), 4 / 15]
      ∧ r.solver.result.optimalPoint = [1 / 15, 2 / 15, -(1 / 5), 4 / 15]
      ∧ r.solver.currentPoint_ = NumericalPoint.sdiv (NumericalPoint.smul 2 [1, 2, -3, 4])
          (NumericalPoint.normSquare [1, 2, -3, 4])
      ∧ (0 < maxRes → 0 < maxCon →
          ∃ ra, AbdoRackwitz.run Real.sqrt fuel
              (AbdoRackwitz.new (scenarioA.base maxIter maxAbs maxRel maxRes maxCon res)
                tau omega smooth uninit) = some ra
            ∧ ra.convergence = true
            ∧ ra.solver.currentPoint_ = r.solver.currentPoint_) := by
  obtain ⟨r, hr, hc, ht, hn, hp, ho⟩ := sqp_scenarioA_run solveLinearSystem hs maxIter maxAbs
    maxRel maxRes maxCon res tau omega smooth uninit fuel ht0 hto hf habs hrel hmax
  refine ⟨r, hr, ht, hc, hn, hp, ho, ?_, ?_⟩
  · rw [hp]
    norm_num [NumericalPoint.sdiv, NumericalPoint.smul, NumericalPoint.normSquare, dot]
  · intro hres hcon
    obtain ⟨ra, hra, hca, -, -, hpa, -⟩ := abdoRackwitz_scenarioA_run maxIter maxAbs maxRel
      maxRes maxCon res tau omega smooth uninit fuel ht0 hto hf hres hcon
    exact ⟨ra, hra, hca, by rw [hpa, hp]⟩

/-- Witness of C3: an exact solver exists, and with the default tunables the run on
Scenario A converges to `(1/15, 2/15, -1/5, 4/15)`. -/
theorem scenarioA_sqp_converges_witness :
    ∃ solveLinearSystem : SymmetricMatrix ℝ → List ℝ → List ℝ,
      ExactSolver solveLinearSystem
      ∧ ∃ r, SQP.run Real.sqrt solveLinearSystem 10
          (SQP.new
            (scenarioA.base 100 (1 / 100000) (1 / 100000) (1 / 100000) (1 / 100000)
              (OptimizationResult.new [] 0 0 0 0 0 0))
            (1 / 2) (1 / 10000) (6 / 5) 0) = some r
        ∧ r.thrown = none ∧ r.convergence = true
        ∧ (r.iterationNumber = 1 ∨ r.iterationNumber = 2)
        ∧ r.solver.currentPoint_ = [1 / 15, 2 / 15, -(1 / 5), 4 / 15]
        ∧ r.solver.result.optimalPoint = [1 / 15, 2 / 15, -(1 / 5), 4 / 15]
        ∧ r.solver.currentPoint_ = NumericalPoint.sdiv (NumericalPoint.smul 2 [1, 2, -3, 4])
            (NumericalPoint.normSquare [1, 2, -3, 4]) := by
  obtain ⟨solveLinearSystem, hs⟩ := exactSolver_exists (K := ℝ)
  obtain ⟨r, hr, ht, hc, hn, hp, ho, hu, -⟩ :=
    scenarioA_sqp_converges solveLinearSystem hs 100 (1 / 100000) (1 / 100000) (1 / 100000)
      (1 / 100000) (OptimizationResult.new [] 0 0 0 0 0 0) (1 / 2) (1 / 10000) (6 / 5) 0 10
      (by norm_num) (by norm_num) (by norm_num) (by norm_num) (by norm_num) (by norm_num)
  exact ⟨solveLinearSystem, hs, r, hr, ht, hc, hn, hp, ho, hu⟩

/-- C4: degenerate gradient, for both `AbdoRackwitz::run` and `SQP::run`.  If the gradient
of the level function at the starting point has zero squared norm, the run raises the
internal exception during iteration `1`: the result has been updated with the unchanged
starting point and the iteration number `1`, nothing is stored in the history, and neither a
direction nor a multiplier nor a line search has been computed (the direction, `lambda`,
`sigma` and the previous point are those left by the initialisation; the fuel of the line
search is irrelevant).  More generally, when the loop is entered with a state whose gradient
is zero, the run aborts with that exception and the current point, its level value and the
history are those reached by the previous iterations.  That a constant `G` has a zero
gradient is a fact about the level-function adapter, which supplies the gradient. -/
theorem degenerate_gradient_aborts {K : Type} [LinearOrderedField K] (sqrt : K → K)
    (solveLinearSystem : SymmetricMatrix K → List K → List K) (fuel : Nat)
    (a : AbdoRackwitz K) (q : SQP K) (ra : AbdoRackwitz.RunState K) (rq : SQP.RunState K)
    (ha : NumericalPoint.normSquare (a.problem.levelFunction.gradient a.startingPoint) = 0)
    (hq : NumericalPoint.normSquare (q.problem.levelFunction.gradient q.startingPoint) = 0)
    (hca : ra.thrown = none ∧ ra.convergence = false
      ∧ ra.iterationNumber ≤ ra.solver.maximumIterationsNumber)
    (hga : NumericalPoint.normSquare
      (ra.solver.problem.levelFunction.gradient ra.solver.currentPoint_) = 0)
    (hcq : rq.thrown = none ∧ rq.convergence = false
      ∧ rq.iterationNumber ≤ rq.solver.maximumIterationsNumber)
    (hgq : NumericalPoint.normSquare
      (rq.solver.problem.levelFunction.gradient rq.solver.currentPoint_) = 0) :
    (∃ r, AbdoRackwitz.run sqrt fuel a = some r
      ∧ r.thrown = some Exception.InternalException ∧ r.iterationNumber = 1
      ∧ r.convergence = false
      ∧ r.solver.currentPoint_ = a.startingPoint
      ∧ r.solver.result.optimalPoint = a.startingPoint
      ∧ r.solver.result.iterationNumber = 1
      ∧ r.solver.result.history = []
      ∧ r.solver.currentDirection_ = a.currentDirection_
      ∧ r.solver.currentLambda_ = 0 ∧ r.solver.currentSigma_ = 0
      ∧ r.solver.oldPoint_ = a.oldPoint_)
    ∧ (∃ r, SQP.run sqrt solveLinearSystem fuel q = some r
      ∧ r.thrown = some Exception.InternalException ∧ r.iterationNumber = 1
      ∧ r.convergence = false
      ∧ r.solver.currentPoint_ = q.startingPoint
      ∧ r.solver.result.optimalPoint = q.startingPoint
      ∧ r.solver.result.iterationNumber = 1
      ∧ r.solver.result.history = []
      ∧ r.solver.currentDirection_ = NumericalPoint.zero q.startingPoint.length
      ∧ r.solver.currentLambda_ = 0 ∧ r.solver.currentSigma_ = 0
      ∧ r.solver.oldPoint_ = q.oldPoint_)
    ∧ (∃ r, AbdoRackwitz.runLoop sqrt fuel ra = some r
      ∧ r.thrown = some Exception.InternalException
      ∧ r.iterationNumber = ra.iterationNumber + 1
      ∧ r.solver.currentPoint_ = ra.solver.currentPoint_
      ∧ r.solver.currentLevelValue_ = ra.solver.currentLevelValue_
      ∧ r.solver.result.optimalPoint = ra.solver.currentPoint_
      ∧ r.solver.result.iterationNumber = ra.iterationNumber + 1
      ∧ r.solver.result.history = ra.solver.result.history
      ∧ r.solver.currentDirection_ = ra.solver.currentDirection_
      ∧ r.solver.currentLambda_ = ra.solver.currentLambda_
      ∧ r.solver.currentSigma_ = ra.solver.currentSigma_
      ∧ r.solver.oldPoint_ = ra.solver.oldPoint_)
    ∧ (∃ r, SQP.runLoop sqrt solveLinearSystem fuel rq = some r
      ∧ r.thrown = some Exception.InternalException
      ∧ r.iterationNumber = rq.iterationNumber + 1
      ∧ r.solver.currentPoint_ = rq.solver.currentPoint_
      ∧ r.solver.currentLevelValue_ = rq.solver.currentLevelValue_
      ∧ r.solver.result.optimalPoint = rq.solver.currentPoint_
      ∧ r.solver.result.iterationNumber = rq.iterationNumber + 1
      ∧ r.solver.result.history = rq.solver.result.history
      ∧ r.solver.currentDirection_ = rq.solver.currentDirection_
      ∧ r.solver.currentLambda_ = rq.solver.currentLambda_
      ∧ r.solver.currentSigma_ = rq.solver.currentSigma_
      ∧ r.solver.oldPoint_ = rq.solver.oldPoint_) := by
  refine ⟨⟨_, abdoRackwitz_runLoop_gradient_zero sqrt fuel (AbdoRackwitz.runInit a)
      ⟨rfl, rfl, Nat.zero_le _⟩ ha, rfl, rfl, rfl, rfl, rfl, rfl, rfl, rfl, rfl, rfl, rfl⟩,
    ⟨_, sqp_runLoop_gradient_zero sqrt solveLinearSystem fuel (SQP.runInit q)
      ⟨rfl, rfl, Nat.zero_le _⟩ hq, rfl, rfl, rfl, rfl, rfl, rfl, rfl, rfl, rfl, rfl, rfl⟩,
    ⟨_, abdoRackwitz_runLoop_gradient_zero sqrt fuel ra hca hga,
      rfl, rfl, rfl, rfl, rfl, rfl, rfl, rfl, rfl, rfl, rfl⟩,
    ⟨_, sqp_runLoop_gradient_zero sqrt solveLinearSystem fuel rq hcq hgq,
      rfl, rfl, rfl, rfl, rfl, rfl, rfl, rfl, rfl, rfl, rfl⟩⟩

/-- Witness of C4: Scenario B, the constant level function started at `(1, 2)`, with no fuel
at all for the line search. -/
theorem degenerate_gradient_aborts_witness :
    (∃ r, AbdoRackwitz.run Real.sqrt 0
        (scenarioB.abdoRackwitz) = some r
      ∧ r.thrown = some Exception.InternalException ∧ r.iterationNumber = 1
      ∧ r.solver.result.optimalPoint = [1, 2] ∧ r.solver.result.history = [])
    ∧ (∃ r, SQP.run Real.sqrt (fun _ b => b) 0
        (scenarioB.sqp) = some r
      ∧ r.thrown = some Exception.InternalException ∧ r.iterationNumber = 1
      ∧ r.solver.result.optimalPoint = [1, 2] ∧ r.solver.result.history = []) := by
  have hz : NumericalPoint.normSquare
      ((scenarioB.problem (K := ℝ)).levelFunction.gradient [1, 2]) = 0 := by
    simp [scenarioB.problem, scenarioB.levelFunction, NumericalPoint.normSquare, dot,
      NumericalPoint.zero, List.replicate]
  obtain ⟨⟨r, hr, ht, hn, -, -, ho, -, hh, -⟩, ⟨q, hq, htq, hnq, -, -, hoq, -, hhq, -⟩, -⟩ :=
    degenerate_gradient_aborts Real.sqrt (fun _ b => b) 0
      (scenarioB.abdoRackwitz)
      (scenarioB.sqp)
      (AbdoRackwitz.runInit (scenarioB.abdoRackwitz))
      (SQP.runInit (scenarioB.sqp))
      hz hz ⟨rfl, rfl, Nat.zero_le _⟩ hz ⟨rfl, rfl, Nat.zero_le _⟩ hz
  exact ⟨⟨r, hr, ht, hn, ho, hh⟩, ⟨q, hq, htq, hnq, hoq, hhq⟩⟩

/-- C6: loop control of `run()` for both solvers, for `0 < tau < 1` (so that every line
search returns; a fuel of `10` trial points is enough), a budget `maxIterationsNumber` with
`maxIterationsNumber + 1 < 2 ^ 32` (`UnsignedInteger` is an unsigned machine integer of 32
bits at least, so the counter `iterationNumber` is incremented without wrapping around), a
level function whose gradient has the dimension of its argument and a solver whose previous
point has the dimension of the starting point or a null norm (the sums and dot products of
the library then receive operands of one dimension and do not throw).  The run returns a
state `r` which is the state after `r.iterationNumber` executions of the loop body;
iteration `k ≥ 1` is performed (`k ≤ r.iterationNumber`) if and only if
`k - 1 ≤ maxIterationsNumber` and none of the states after `0, ..., k - 1` iterations has
its convergence flag set or has raised an exception; hence at most
`maxIterationsNumber + 1` iterations are performed, a number below `2 ^ 32`, so that every
increment of the counter, taken modulo `2 ^ w` for a width `w` of 32 bits at least, is the
increment of the natural number; and exactly `maxIterationsNumber + 1` iterations are
performed when no iteration up to that one converges or fails, in which case the run returns
without exception and with the convergence flag false.  After any number of iterations the
current point has the dimension of the starting point and the previous point has that
dimension or a null norm. -/
theorem run_loop_control {K : Type} [LinearOrderedField K] (sqrt : K → K)
    (solveLinearSystem : SymmetricMatrix K → List K → List K) (fuel : Nat) (hf : 10 ≤ fuel) :
    (∀ s : AbdoRackwitz K, 0 < s.tau_ → s.tau_ < 1 →
      s.maximumIterationsNumber + 1 < 2 ^ 32 →
      (∀ u : List K, u.length = s.startingPoint.length →
        (s.problem.levelFunction.gradient u).length = s.startingPoint.length) →
      (s.oldPoint_.length = s.startingPoint.length
        ∨ NumericalPoint.norm sqrt s.oldPoint_ = 0) →
      ∃ r, AbdoRackwitz.run sqrt fuel s = some r
        ∧ iterateBody (AbdoRackwitz.iteration sqrt fuel) (AbdoRackwitz.runInit s)
            r.iterationNumber = some r
        ∧ (∀ k, 1 ≤ k → (k ≤ r.iterationNumber ↔
            (k - 1 ≤ s.maximumIterationsNumber ∧ ∀ j, j < k → ∃ rj,
              iterateBody (AbdoRackwitz.iteration sqrt fuel) (AbdoRackwitz.runInit s) j
                = some rj
              ∧ rj.convergence = false ∧ rj.thrown = none)))
        ∧ r.iterationNumber ≤ s.maximumIterationsNumber + 1
        ∧ r.iterationNumber < 2 ^ 32
        ∧ (∀ w, 32 ≤ w → ∀ k, k < r.iterationNumber → (k + 1) % 2 ^ w = k + 1)
        ∧ ((∀ j, 1 ≤ j → j ≤ s.maximumIterationsNumber + 1 → ∃ rj,
              iterateBody (AbdoRackwitz.iteration sqrt fuel) (AbdoRackwitz.runInit s) j
                = some rj
              ∧ rj.convergence = false ∧ rj.thrown = none) →
            r.iterationNumber = s.maximumIterationsNumber + 1
              ∧ r.thrown = none ∧ r.convergence = false)
        ∧ (∀ (j : Nat) (rj : AbdoRackwitz.RunState K),
            iterateBody (AbdoRackwitz.iteration sqrt fuel) (AbdoRackwitz.runInit s) j = some rj →
            rj.solver.currentPoint_.length = s.startingPoint.length
              ∧ (rj.solver.oldPoint_.length = s.startingPoint.length
                ∨ NumericalPoint.norm sqrt rj.solver.oldPoint_ = 0)))
    ∧ (∀ s : SQP K, 0 < s.tau_ → s.tau_ < 1 →
      s.maximumIterationsNumber + 1 < 2 ^ 32 →
      (∀ u : List K, u.length = s.startingPoint.length →
        (s.problem.levelFunction.gradient u).length = s.startingPoint.length) →
      (s.oldPoint_.length = s.startingPoint.length
        ∨ NumericalPoint.norm sqrt s.oldPoint_ = 0) →
      ∃ r, SQP.run sqrt solveLinearSystem fuel s = some r
        ∧ iterateBody (SQP.iteration sqrt solveLinearSystem fuel) (SQP.runInit s)
            r.iterationNumber = some r
        ∧ (∀ k, 1 ≤ k → (k ≤ r.iterationNumber ↔
            (k - 1 ≤ s.maximumIterationsNumber ∧ ∀ j, j < k → ∃ rj,
              iterateBody (SQP.iteration sqrt solveLinearSystem fuel) (SQP.runInit s) j
                = some rj
              ∧ rj.convergence = false ∧ rj.thrown = none)))
        ∧ r.iterationNumber ≤ s.maximumIterationsNumber + 1
        ∧ r.iterationNumber < 2 ^ 32
        ∧ (∀ w, 32 ≤ w → ∀ k, k < r.iterationNumber → (k + 1) % 2 ^ w = k + 1)
        ∧ ((∀ j, 1 ≤ j → j ≤ s.maximumIterationsNumber + 1 → ∃ rj,
              iterateBody (SQP.iteration sqrt solveLinearSystem fuel) (SQP.runInit s) j
                = some rj
              ∧ rj.convergence = false ∧ rj.thrown = none) →
            r.iterationNumber = s.maximumIterationsNumber + 1
              ∧ r.thrown = none ∧ r.convergence = false)
        ∧ (∀ (j : Nat) (rj : SQP.RunState K),
            iterateBody (SQP.iteration sqrt solveLinearSystem fuel) (SQP.runInit s) j = some rj →
            rj.solver.currentPoint_.length = s.startingPoint.length
              ∧ (rj.solver.oldPoint_.length = s.startingPoint.length
                ∨ NumericalPoint.norm sqrt rj.solver.oldPoint_ = 0))) := by
  constructor
  · intro s h0 h1 hb hgrad hold
    obtain ⟨r, hr, hit, hiff, hle, hex⟩ := abdoRackwitz_loop_control sqrt fuel s h0 h1 hf
    refine ⟨r, hr, hit, hiff, hle, lt_of_le_of_lt hle hb, ?_, hex,
      abdoRackwitz_iterateBody_dimensioned sqrt fuel s hgrad hold⟩
    intro w hw k hk
    apply Nat.mod_eq_of_lt
    have h32 : 2 ^ 32 ≤ 2 ^ w := Nat.pow_le_pow_right (by norm_num) hw
    omega
  · intro s h0 h1 hb _ hold
    obtain ⟨r, hr, hit, hiff, hle, hex⟩ :=
      sqp_loop_control sqrt solveLinearSystem fuel s h0 h1 hf
    refine ⟨r, hr, hit, hiff, hle, lt_of_le_of_lt hle hb, ?_, hex, ?_⟩
    · intro w hw k hk
      apply Nat.mod_eq_of_lt
      have h32 : 2 ^ 32 ≤ 2 ^ w := Nat.pow_le_pow_right (by norm_num) hw
      omega
    intro j rj hj
    have hd := sqp_iterateBody_dimensioned sqrt solveLinearSystem fuel s hold j rj hj
    exact ⟨hd.1, hd.2.2.2.2.2⟩

/-- Witness of C6: Scenario A, whose gradient is the constant point `(1, 2, -3, 4)`, on new
solvers (empty previous point) with a budget of `100` iterations and negative error bounds,
so that the convergence test never holds: both solvers perform exactly `101` iterations and
return without exception and with the convergence flag false. -/
theorem run_loop_control_witness :
    (∃ r, AbdoRackwitz.run Real.sqrt 10
        (AbdoRackwitz.new
          (scenarioA.base 100 (-1) (-1) (-1) (-1) (OptimizationResult.new [] 0 0 0 0 0 0))
          (1 / 2) (1 / 10000) (6 / 5) 0) = some r
      ∧ r.iterationNumber = 101 ∧ r.thrown = none ∧ r.convergence = false)
    ∧ (∃ r, SQP.run Real.sqrt (fun _ b => b) 10
        (SQP.new
          (scenarioA.base 100 (-1) (-1) (-1) (-1) (OptimizationResult.new [] 0 0 0 0 0 0))
          (1 / 2) (1 / 10000) (6 / 5) 0) = some r
      ∧ r.iterationNumber = 101 ∧ r.thrown = none ∧ r.convergence = false) := by
  have h := run_loop_control Real.sqrt (fun _ b => b) 10 (le_refl 10)
  have hw : NumericalPoint.normSquare ([1, 2, -3, 4] : List ℝ) ≠ 0 := by
    norm_num [NumericalPoint.normSquare, dot]
  have hn : NumericalPoint.norm Real.sqrt ([] : List ℝ) = 0 := by
    simp [NumericalPoint.norm, NumericalPoint.normSquare, dot]
  obtain ⟨r, hr, -, -, -, -, -, hex, -⟩ := h.1
    (AbdoRackwitz.new
      (scenarioA.base 100 (-1) (-1) (-1) (-1) (OptimizationResult.new [] 0 0 0 0 0 0))
      (1 / 2) (1 / 10000) (6 / 5) 0)
    (by show (0 : ℝ) < 1 / 2; norm_num) (by show (1 / 2 : ℝ) < 1; norm_num)
    (by show 100 + 1 < 2 ^ 32; norm_num) (fun _ _ => rfl) (Or.inr hn)
  obtain ⟨q, hq, -, -, -, -, -, hexq, -⟩ := h.2
    (SQP.new
      (scenarioA.base 100 (-1) (-1) (-1) (-1) (OptimizationResult.new [] 0 0 0 0 0 0))
      (1 / 2) (1 / 10000) (6 / 5) 0)
    (by show (0 : ℝ) < 1 / 2; norm_num) (by show (1 / 2 : ℝ) < 1; norm_num)
    (by show 100 + 1 < 2 ^ 32; norm_num) (fun _ _ => rfl) (Or.inr hn)
  refine ⟨⟨r, hr, hex ?_⟩, ⟨q, hq, hexq ?_⟩⟩
  · intro j _ _
    obtain ⟨rj, hj, hc, ht, -⟩ := abdoRackwitz_never_converges Real.sqrt 10 Real.sqrt_nonneg
      (le_refl 10)
      (AbdoRackwitz.runInit (AbdoRackwitz.new
        (scenarioA.base 100 (-1) (-1) (-1) (-1) (OptimizationResult.new [] 0 0 0 0 0 0))
        (1 / 2) (1 / 10000) (6 / 5) 0))
      (by show (0 : ℝ) < 1 / 2; norm_num) (by show (1 / 2 : ℝ) < 1; norm_num)
      (fun _ => hw) (by show (-1 : ℝ) ≤ 0; norm_num) (by show (-1 : ℝ) ≤ 0; norm_num)
      rfl rfl j
    exact ⟨rj, hj, hc, ht⟩
  · intro j _ _
    obtain ⟨rj, hj, hc, ht, -⟩ := sqp_never_converges Real.sqrt (fun _ b => b) 10
      Real.sqrt_nonneg (le_refl 10)
      (SQP.runInit (SQP.new
        (scenarioA.base 100 (-1) (-1) (-1) (-1) (OptimizationResult.new [] 0 0 0 0 0 0))
        (1 / 2) (1 / 10000) (6 / 5) 0))
      (by show (0 : ℝ) < 1 / 2; norm_num) (by show (1 / 2 : ℝ) < 1; norm_num)
      (fun _ => hw) (by show (-1 : ℝ) ≤ 0; norm_num) (by show (-1 : ℝ) ≤ 0; norm_num)
      rfl rfl j
    exact ⟨rj, hj, hc, ht⟩

/-- C7: for both solvers and every iteration that went through the line search, the
convergence flag computed at the end of the iteration is true if and only if
`(absoluteError < maxAbsoluteError ∧ relativeError < maxRelativeError) ∨
(residualError < maxResidualError ∧ constraintError < maxConstraintError)`, with strict
inequalities, where the four errors are those stored for that iteration (the last entry of
the history and the current errors of the result); and when the flag is true the loop stops
at that iteration. -/
theorem convergence_test {K : Type} [LinearOrderedField K] (sqrt : K → K)
    (solveLinearSystem : SymmetricMatrix K → List K → List K) (fuel : Nat) :
    (∀ r r1 : AbdoRackwitz.RunState K, AbdoRackwitz.iteration sqrt fuel r = some r1 →
      r1.thrown = none →
      (r1.convergence = true ↔
          (r1.absoluteError < r.solver.maximumAbsoluteError
            ∧ r1.relativeError < r.solver.maximumRelativeError)
          ∨ (r1.residualError < r.solver.maximumResidualError
            ∧ r1.constraintError < r.solver.maximumConstraintError))
        ∧ r1.solver.result.history = r.solver.result.history ++
            [⟨r1.solver.currentPoint_, r1.solver.currentLevelValue_, r1.absoluteError,
              r1.relativeError, r1.residualError, r1.constraintError⟩]
        ∧ r1.solver.result.absoluteError = r1.absoluteError
        ∧ r1.solver.result.relativeError = r1.relativeError
        ∧ r1.solver.result.residualError = r1.residualError
        ∧ r1.solver.result.constraintError = r1.constraintError
        ∧ (r1.convergence = true → AbdoRackwitz.runLoop sqrt fuel r1 = some r1))
    ∧ (∀ r r1 : SQP.RunState K, SQP.iteration sqrt solveLinearSystem fuel r = some r1 →
      r1.thrown = none →
      (r1.convergence = true ↔
          (r1.absoluteError < r.solver.maximumAbsoluteError
            ∧ r1.relativeError < r.solver.maximumRelativeError)
          ∨ (r1.residualError < r.solver.maximumResidualError
            ∧ r1.constraintError < r.solver.maximumConstraintError))
        ∧ r1.solver.result.history = r.solver.result.history ++
            [⟨r1.solver.currentPoint_, r1.solver.currentLevelValue_, r1.absoluteError,
              r1.relativeError, r1.residualError, r1.constraintError⟩]
        ∧ r1.solver.result.absoluteError = r1.absoluteError
        ∧ r1.solver.result.relativeError = r1.relativeError
        ∧ r1.solver.result.residualError = r1.residualError
        ∧ r1.solver.result.constraintError = r1.constraintError
        ∧ (r1.convergence = true → SQP.runLoop sqrt solveLinearSystem fuel r1 = some r1)) :=
  ⟨fun r r1 h ht => abdoRackwitz_convergence_flag sqrt fuel r r1 h ht,
    fun r r1 h ht => sqp_convergence_flag sqrt solveLinearSystem fuel r r1 h ht⟩

/-- Witness of C7: the first iteration of both solvers on Scenario A. -/
theorem convergence_test_witness :
    ∃ solveLinearSystem : SymmetricMatrix ℝ → List ℝ → List ℝ,
      (∃ r1, AbdoRackwitz.iteration Real.sqrt 10 (AbdoRackwitz.runInit scenarioA.abdoRackwitz)
          = some r1 ∧ r1.thrown = none
        ∧ (r1.convergence = true ↔
            (r1.absoluteError < 1 / 100000 ∧ r1.relativeError < 1 / 100000)
            ∨ (r1.residualError < 1 / 100000 ∧ r1.constraintError < 1 / 100000)))
      ∧ (∃ r1, SQP.iteration Real.sqrt solveLinearSystem 10 (SQP.runInit scenarioA.sqp)
          = some r1 ∧ r1.thrown = none
        ∧ (r1.convergence = true ↔
            (r1.absoluteError < 1 / 100000 ∧ r1.relativeError < 1 / 100000)
            ∨ (r1.residualError < 1 / 100000 ∧ r1.constraintError < 1 / 100000))) := by
  obtain ⟨solveLinearSystem, hs⟩ := exactSolver_exists (K := ℝ)
  obtain ⟨r1, h1, ht1⟩ := abdoRackwitz_scenarioA_iteration
  obtain ⟨q1, hq1, htq1⟩ := sqp_scenarioA_iteration solveLinearSystem hs
  have h := convergence_test Real.sqrt solveLinearSystem 10
  exact ⟨solveLinearSystem, ⟨r1, h1, ht1, (h.1 _ r1 h1 ht1).1⟩,
    ⟨q1, hq1, htq1, (h.2 _ q1 hq1 htq1).1⟩⟩

/-- C8: for both solvers and every iteration that went through the line search, with `alpha`
the value returned by the line search, `u` and `G(u)` the point and level value after the
line search, and `lambda`, the gradient and the direction computed in that iteration:
`absoluteError = |alpha| * ‖direction‖`, `constraintError = |G(u) - G0|`,
`residualError = ‖u + lambda * gradient‖`, `relativeError = absoluteError / ‖u‖` when
`‖u‖ > 0` and `-1` when `‖u‖ = 0`; and, the square root being never negative,
`absoluteError`, `constraintError` and `residualError` are `≥ 0` and `relativeError` is `-1`
or `≥ 0`. -/
theorem error_formulas {K : Type} [LinearOrderedField K] (sqrt : K → K)
    (solveLinearSystem : SymmetricMatrix K → List K → List K) (fuel : Nat) :
    (∀ r r1 : AbdoRackwitz.RunState K, AbdoRackwitz.iteration sqrt fuel r = some r1 →
      r1.thrown = none →
      ∃ alpha s1,
        AbdoRackwitz.computeLineSearch sqrt fuel
            (AbdoRackwitz.computeDirection (AbdoRackwitz.evalGradient r.solver))
          = some (alpha, s1)
        ∧ r1.solver.currentPoint_ = s1.currentPoint_
        ∧ r1.solver.currentLevelValue_ = s1.currentLevelValue_
        ∧ r1.solver.currentLevelValue_
            = r.solver.problem.levelFunction.eval r1.solver.currentPoint_
        ∧ r1.solver.currentGradient_
            = r.solver.problem.levelFunction.gradient r.solver.currentPoint_
        ∧ r1.solver.currentLambda_
            = (AbdoRackwitz.computeDirection (AbdoRackwitz.evalGradient r.solver)).currentLambda_
        ∧ r1.solver.currentDirection_
            = (AbdoRackwitz.computeDirection
                (AbdoRackwitz.evalGradient r.solver)).currentDirection_
        ∧ r1.absoluteError = |alpha| * NumericalPoint.norm sqrt r1.solver.currentDirection_
        ∧ r1.constraintError
            = |r.solver.problem.levelFunction.eval r1.solver.currentPoint_
                - r.solver.problem.levelValue|
        ∧ r1.residualError = NumericalPoint.norm sqrt
            (NumericalPoint.add r1.solver.currentPoint_
              (NumericalPoint.smul r1.solver.currentLambda_ r1.solver.currentGradient_))
        ∧ (0 < NumericalPoint.norm sqrt r1.solver.currentPoint_ →
            r1.relativeError
              = r1.absoluteError / NumericalPoint.norm sqrt r1.solver.currentPoint_)
        ∧ (NumericalPoint.norm sqrt r1.solver.currentPoint_ = 0 → r1.relativeError = -1)
        ∧ ((∀ x, 0 ≤ sqrt x) →
            0 ≤ r1.absoluteError ∧ 0 ≤ r1.constraintError ∧ 0 ≤ r1.residualError
              ∧ (r1.relativeError = -1 ∨ 0 ≤ r1.relativeError)))
    ∧ (∀ r r1 : SQP.RunState K, SQP.iteration sqrt solveLinearSystem fuel r = some r1 →
      r1.thrown = none →
      ∃ alpha s1,
        SQP.computeLineSearch sqrt fuel
            (SQP.computeDirection solveLinearSystem (SQP.evalGradient r.solver))
          = some (alpha, s1)
        ∧ r1.solver.currentPoint_ = s1.currentPoint_
        ∧ r1.solver.currentLevelValue_ = s1.currentLevelValue_
        ∧ r1.solver.currentLevelValue_
            = r.solver.problem.levelFunction.eval r1.solver.currentPoint_
        ∧ r1.solver.currentGradient_
            = r.solver.problem.levelFunction.gradient r.solver.currentPoint_
        ∧ r1.solver.currentLambda_
            = (SQP.computeDirection solveLinearSystem
                (SQP.evalGradient r.solver)).currentLambda_
        ∧ r1.solver.currentDirection_
            = (SQP.computeDirection solveLinearSystem
                (SQP.evalGradient r.solver)).currentDirection_
        ∧ r1.absoluteError = |alpha| * NumericalPoint.norm sqrt r1.solver.currentDirection_
        ∧ r1.constraintError
            = |r.solver.problem.levelFunction.eval r1.solver.currentPoint_
                - r.solver.problem.levelValue|
        ∧ r1.residualError = NumericalPoint.norm sqrt
            (NumericalPoint.add r1.solver.currentPoint_
              (NumericalPoint.smul r1.solver.currentLambda_ r1.solver.currentGradient_))
        ∧ (0 < NumericalPoint.norm sqrt r1.solver.currentPoint_ →
            r1.relativeError
              = r1.absoluteError / NumericalPoint.norm sqrt r1.solver.currentPoint_)
        ∧ (NumericalPoint.norm sqrt r1.solver.currentPoint_ = 0 → r1.relativeError = -1)
        ∧ ((∀ x, 0 ≤ sqrt x) →
            0 ≤ r1.absoluteError ∧ 0 ≤ r1.constraintError ∧ 0 ≤ r1.residualError
              ∧ (r1.relativeError = -1 ∨ 0 ≤ r1.relativeError))) :=
  ⟨fun r r1 h ht => abdoRackwitz_error_metrics sqrt fuel r r1 h ht,
    fun r r1 h ht => sqp_error_metrics sqrt solveLinearSystem fuel r r1 h ht⟩

/-- Witness of C8: the first iteration of both solvers on Scenario A, over the reals. -/
theorem error_formulas_witness :
    ∃ solveLinearSystem : SymmetricMatrix ℝ → List ℝ → List ℝ,
      (∃ r1, AbdoRackwitz.iteration Real.sqrt 10 (AbdoRackwitz.runInit scenarioA.abdoRackwitz)
          = some r1 ∧ r1.thrown = none
        ∧ 0 ≤ r1.absoluteError ∧ 0 ≤ r1.constraintError ∧ 0 ≤ r1.residualError
        ∧ (r1.relativeError = -1 ∨ 0 ≤ r1.relativeError))
      ∧ (∃ r1, SQP.iteration Real.sqrt solveLinearSystem 10 (SQP.runInit scenarioA.sqp)
          = some r1 ∧ r1.thrown = none
        ∧ 0 ≤ r1.absoluteError ∧ 0 ≤ r1.constraintError ∧ 0 ≤ r1.residualError
        ∧ (r1.relativeError = -1 ∨ 0 ≤ r1.relativeError)) := by
  obtain ⟨solveLinearSystem, hs⟩ := exactSolver_exists (K := ℝ)
  obtain ⟨r1, h1, ht1⟩ := abdoRackwitz_scenarioA_iteration
  obtain ⟨q1, hq1, htq1⟩ := sqp_scenarioA_iteration solveLinearSystem hs
  have h := error_formulas Real.sqrt solveLinearSystem 10
  obtain ⟨-, -, -, -, -, -, -, -, -, -, -, -, -, -, hn⟩ := h.1 _ r1 h1 ht1
  obtain ⟨-, -, -, -, -, -, -, -, -, -, -, -, -, -, hnq⟩ := h.2 _ q1 hq1 htq1
  exact ⟨solveLinearSystem, ⟨r1, h1, ht1, hn Real.sqrt_nonneg⟩,
    ⟨q1, hq1, htq1, hnq Real.sqrt_nonneg⟩⟩

/-- Counterexample to C9: `AbdoRackwitz` on `G(u) = u1`, level value `0`, started at `(1)`,
with `maxAbsoluteError = 2`, `maxRelativeError = 1/2` and null `maxResidualError` and
`maxConstraintError`.  The first iteration ends at the origin, whose norm is zero, so
`relativeError` is the sentinel `-1`; the first convergence branch is satisfied
(`1 < 2` and `-1 < 1/2`), the second one is not, and the run stops there, converged. -/
theorem sentinel_counterexample :
    ∃ r1, AbdoRackwitz.run Real.sqrt 10
        (scenarioOrigin.abdoRackwitz) = some r1
      ∧ AbdoRackwitz.iteration Real.sqrt 10
          (AbdoRackwitz.runInit
            (scenarioOrigin.abdoRackwitz)) = some r1
      ∧ r1.thrown = none
      ∧ NumericalPoint.norm Real.sqrt r1.solver.currentPoint_ = 0
      ∧ r1.relativeError = -1
      ∧ (r1.absoluteError < r1.solver.maximumAbsoluteError
        ∧ r1.relativeError < r1.solver.maximumRelativeError)
      ∧ ¬ (r1.residualError < r1.solver.maximumResidualError
        ∧ r1.constraintError < r1.solver.maximumConstraintError)
      ∧ r1.convergence = true := by
  obtain ⟨r1, hit, ht, hp, ha, hrel, hres, hcon, hc, hma, hmr, hms, hmc⟩ :=
    abdoRackwitz_scenarioOrigin_iteration
  have hloop := (abdoRackwitz_convergence_flag Real.sqrt 10 _ r1 hit ht).2.2.2.2.2.2 hc
  refine ⟨r1, ?_, hit, ht, ?_, hrel, ⟨?_, ?_⟩, ?_, hc⟩
  · unfold AbdoRackwitz.run
    rw [abdoRackwitz_runLoop_unfold, if_pos ⟨rfl, rfl, Nat.zero_le _⟩, hit]
    exact hloop
  · rw [hp]
    simp [NumericalPoint.norm, NumericalPoint.normSquare, dot]
  · rw [ha, hma]; norm_num
  · rw [hrel, hmr]; norm_num
  · rw [hres, hms]
    intro h
    exact absurd h.1 (lt_irrefl _)

/-- C9 as amended: for both solvers, in every iteration that went through the line search
and whose resulting point has zero norm, `relativeError` is the sentinel `-1`, and the first
convergence branch holds exactly when `absoluteError < maxAbsoluteError` and
`-1 < maxRelativeError`: the sentinel passes the relative test for every threshold above
`-1` and blocks the branch exactly for the thresholds `maxRelativeError ≤ -1`. -/
theorem sentinel_first_branch {K : Type} [LinearOrderedField K] (sqrt : K → K)
    (solveLinearSystem : SymmetricMatrix K → List K → List K) (fuel : Nat) :
    (∀ r r1 : AbdoRackwitz.RunState K, AbdoRackwitz.iteration sqrt fuel r = some r1 →
      r1.thrown = none → NumericalPoint.norm sqrt r1.solver.currentPoint_ = 0 →
      r1.relativeError = -1
        ∧ ((r1.absoluteError < r.solver.maximumAbsoluteError
              ∧ r1.relativeError < r.solver.maximumRelativeError)
            ↔ (r1.absoluteError < r.solver.maximumAbsoluteError
              ∧ -1 < r.solver.maximumRelativeError))
        ∧ (r.solver.maximumRelativeError ≤ -1 →
            ¬ (r1.absoluteError < r.solver.maximumAbsoluteError
              ∧ r1.relativeError < r.solver.maximumRelativeError))
        ∧ (r1.absoluteError < r.solver.maximumAbsoluteError →
            -1 < r.solver.maximumRelativeError → r1.convergence = true))
    ∧ (∀ r r1 : SQP.RunState K, SQP.iteration sqrt solveLinearSystem fuel r = some r1 →
      r1.thrown = none → NumericalPoint.norm sqrt r1.solver.currentPoint_ = 0 →
      r1.relativeError = -1
        ∧ ((r1.absoluteError < r.solver.maximumAbsoluteError
              ∧ r1.relativeError < r.solver.maximumRelativeError)
            ↔ (r1.absoluteError < r.solver.maximumAbsoluteError
              ∧ -1 < r.solver.maximumRelativeError))
        ∧ (r.solver.maximumRelativeError ≤ -1 →
            ¬ (r1.absoluteError < r.solver.maximumAbsoluteError
              ∧ r1.relativeError < r.solver.maximumRelativeError))
        ∧ (r1.absoluteError < r.solver.maximumAbsoluteError →
            -1 < r.solver.maximumRelativeError → r1.convergence = true)) := by
  constructor
  · intro r r1 h ht hz
    obtain ⟨alpha, s1, -, -, -, -, -, -, -, -, -, -, -, hrel, -⟩ :=
      abdoRackwitz_error_metrics sqrt fuel r r1 h ht
    have hrel1 := hrel hz
    obtain ⟨hiff, -⟩ := abdoRackwitz_convergence_flag sqrt fuel r r1 h ht
    refine ⟨hrel1, by rw [hrel1], ?_, ?_⟩
    · intro hle hb
      rw [hrel1] at hb
      exact absurd (lt_of_lt_of_le hb.2 hle) (lt_irrefl _)
    · intro ha hm
      exact hiff.mpr (Or.inl ⟨ha, by rw [hrel1]; exact hm⟩)
  · intro r r1 h ht hz
    obtain ⟨alpha, s1, -, -, -, -, -, -, -, -, -, -, -, hrel, -⟩ :=
      sqp_error_metrics sqrt solveLinearSystem fuel r r1 h ht
    have hrel1 := hrel hz
    obtain ⟨hiff, -⟩ := sqp_convergence_flag sqrt solveLinearSystem fuel r r1 h ht
    refine ⟨hrel1, by rw [hrel1], ?_, ?_⟩
    · intro hle hb
      rw [hrel1] at hb
      exact absurd (lt_of_lt_of_le hb.2 hle) (lt_irrefl _)
    · intro ha hm
      exact hiff.mpr (Or.inl ⟨ha, by rw [hrel1]; exact hm⟩)

/-- Witness of the amended C9: the first iteration of both solvers on `G(u) = u1`, level
value `0`, started at `(1)`, ends at the origin. -/
theorem sentinel_first_branch_witness :
    ∃ solveLinearSystem : SymmetricMatrix ℝ → List ℝ → List ℝ,
      (∃ r1, AbdoRackwitz.iteration Real.sqrt 10
          (AbdoRackwitz.runInit
            (scenarioOrigin.abdoRackwitz)) = some r1
        ∧ r1.thrown = none ∧ NumericalPoint.norm Real.sqrt r1.solver.currentPoint_ = 0
        ∧ r1.relativeError = -1 ∧ r1.convergence = true)
      ∧ (∃ r1, SQP.iteration Real.sqrt solveLinearSystem 10
          (SQP.runInit (scenarioOrigin.sqp)) = some r1
        ∧ r1.thrown = none ∧ NumericalPoint.norm Real.sqrt r1.solver.currentPoint_ = 0
        ∧ r1.relativeError = -1 ∧ r1.convergence = true) := by
  obtain ⟨solveLinearSystem, hs⟩ := exactSolver_exists (K := ℝ)
  obtain ⟨r1, hit, ht, hp, ha, -⟩ := abdoRackwitz_scenarioOrigin_iteration
  obtain ⟨q1, hitq, htq, hpq, haq, -⟩ := sqp_scenarioOrigin_iteration solveLinearSystem hs
  have h := sentinel_first_branch Real.sqrt solveLinearSystem 10
  have hz : NumericalPoint.norm Real.sqrt r1.solver.currentPoint_ = 0 := by
    rw [hp]
    simp [NumericalPoint.norm, NumericalPoint.normSquare, dot]
  have hzq : NumericalPoint.norm Real.sqrt q1.solver.currentPoint_ = 0 := by
    rw [hpq]
    simp [NumericalPoint.norm, NumericalPoint.normSquare, dot]
  obtain ⟨hr, -, -, hcv⟩ := h.1 _ r1 hit ht hz
  obtain ⟨hrq, -, -, hcvq⟩ := h.2 _ q1 hitq htq hzq
  refine ⟨solveLinearSystem, ⟨r1, hit, ht, hz, hr, hcv ?_ ?_⟩, ⟨q1, hitq, htq, hzq, hrq,
    hcvq ?_ ?_⟩⟩
  · rw [ha]
    show (1 : ℝ) < 2
    norm_num
  · show (-1 : ℝ) < 1 / 2
    norm_num
  · rw [haq]
    show (1 : ℝ) < 2
    norm_num
  · show (-1 : ℝ) < 1 / 2
    norm_num

/-- C10: penalty monotonicity, for both solvers.  Every call of `computeLineSearch` that
returns sets `currentSigma` to `max(sigmaOld + 1, smooth * ‖currentPoint‖ / ‖currentGradient‖)`,
so `sigmaNew ≥ sigmaOld + 1`; `run()` resets `sigma` to `0`; an iteration never decreases
`sigma` and increases it by at least `1` when it goes through the line search; `sigma` is
non-decreasing along the iterates of a run; and after `k` iterations none of which failed,
`sigma ≥ k` (in particular `sigma ≥ 1` after the first update). -/
theorem penalty_monotone {K : Type} [LinearOrderedField K] (sqrt : K → K)
    (solveLinearSystem : SymmetricMatrix K → List K → List K) (fuel : Nat) :
    ((∀ (s s1 : AbdoRackwitz K) (alpha : K),
        AbdoRackwitz.computeLineSearch sqrt fuel s = some (alpha, s1) →
        s1.currentSigma_ = max (s.currentSigma_ + 1)
            (s.smooth_ * NumericalPoint.norm sqrt s.currentPoint_
              / NumericalPoint.norm sqrt s.currentGradient_)
          ∧ s.currentSigma_ + 1 ≤ s1.currentSigma_)
      ∧ (∀ s : AbdoRackwitz K, (AbdoRackwitz.runInit s).solver.currentSigma_ = 0)
      ∧ (∀ r r1 : AbdoRackwitz.RunState K, AbdoRackwitz.iteration sqrt fuel r = some r1 →
        r.solver.currentSigma_ ≤ r1.solver.currentSigma_
          ∧ (r1.thrown = none → r.solver.currentSigma_ + 1 ≤ r1.solver.currentSigma_))
      ∧ (∀ (s : AbdoRackwitz K) (j k : Nat) (rj rk : AbdoRackwitz.RunState K), j ≤ k →
        iterateBody (AbdoRackwitz.iteration sqrt fuel) (AbdoRackwitz.runInit s) j = some rj →
        iterateBody (AbdoRackwitz.iteration sqrt fuel) (AbdoRackwitz.runInit s) k = some rk →
        rj.solver.currentSigma_ ≤ rk.solver.currentSigma_)
      ∧ (∀ (s : AbdoRackwitz K) (k : Nat) (rk : AbdoRackwitz.RunState K),
        iterateBody (AbdoRackwitz.iteration sqrt fuel) (AbdoRackwitz.runInit s) k = some rk →
        (∀ (j : Nat) (rj : AbdoRackwitz.RunState K), 1 ≤ j → j ≤ k →
          iterateBody (AbdoRackwitz.iteration sqrt fuel) (AbdoRackwitz.runInit s) j
            = some rj → rj.thrown = none) →
        (k : K) ≤ rk.solver.currentSigma_))
    ∧ ((∀ (s s1 : SQP K) (alpha : K),
        SQP.computeLineSearch sqrt fuel s = some (alpha, s1) →
        s1.currentSigma_ = max (s.currentSigma_ + 1)
            (s.smooth_ * NumericalPoint.norm sqrt s.currentPoint_
              / NumericalPoint.norm sqrt s.currentGradient_)
          ∧ s.currentSigma_ + 1 ≤ s1.currentSigma_)
      ∧ (∀ s : SQP K, (SQP.runInit s).solver.currentSigma_ = 0)
      ∧ (∀ r r1 : SQP.RunState K, SQP.iteration sqrt solveLinearSystem fuel r = some r1 →
        r.solver.currentSigma_ ≤ r1.solver.currentSigma_
          ∧ (r1.thrown = none → r.solver.currentSigma_ + 1 ≤ r1.solver.currentSigma_))
      ∧ (∀ (s : SQP K) (j k : Nat) (rj rk : SQP.RunState K), j ≤ k →
        iterateBody (SQP.iteration sqrt solveLinearSystem fuel) (SQP.runInit s) j = some rj →
        iterateBody (SQP.iteration sqrt solveLinearSystem fuel) (SQP.runInit s) k = some rk →
        rj.solver.currentSigma_ ≤ rk.solver.currentSigma_)
      ∧ (∀ (s : SQP K) (k : Nat) (rk : SQP.RunState K),
        iterateBody (SQP.iteration sqrt solveLinearSystem fuel) (SQP.runInit s) k = some rk →
        (∀ (j : Nat) (rj : SQP.RunState K), 1 ≤ j → j ≤ k →
          iterateBody (SQP.iteration sqrt solveLinearSystem fuel) (SQP.runInit s) j
            = some rj → rj.thrown = none) →
        (k : K) ≤ rk.solver.currentSigma_)) := by
  obtain ⟨a1, a2, a3, a4⟩ := abdoRackwitz_sigma_monotone sqrt fuel
  obtain ⟨q1, q2, q3, q4⟩ := sqp_sigma_monotone sqrt solveLinearSystem fuel
  refine ⟨⟨a1, fun _ => rfl, a2, fun s => a3 _, ?_⟩, ⟨q1, fun _ => rfl, q2, fun s => q3 _, ?_⟩⟩
  · intro s k rk hk hall
    have h := a4 _ k rk hk hall
    have h0 : (AbdoRackwitz.runInit s).solver.currentSigma_ = 0 := rfl
    rw [h0, zero_add] at h
    exact h
  · intro s k rk hk hall
    have h := q4 _ k rk hk hall
    have h0 : (SQP.runInit s).solver.currentSigma_ = 0 := rfl
    rw [h0, zero_add] at h
    exact h

/-- Witness of C10: after the first iteration of both solvers on Scenario A the penalty
weight is at least `1`. -/
theorem penalty_monotone_witness :
    ∃ solveLinearSystem : SymmetricMatrix ℝ → List ℝ → List ℝ,
      (∃ r1, AbdoRackwitz.iteration Real.sqrt 10 (AbdoRackwitz.runInit scenarioA.abdoRackwitz)
          = some r1 ∧ r1.thrown = none ∧ 1 ≤ r1.solver.currentSigma_)
      ∧ (∃ r1, SQP.iteration Real.sqrt solveLinearSystem 10 (SQP.runInit scenarioA.sqp)
          = some r1 ∧ r1.thrown = none ∧ 1 ≤ r1.solver.currentSigma_) := by
  obtain ⟨solveLinearSystem, hs⟩ := exactSolver_exists (K := ℝ)
  obtain ⟨r1, h1, ht1⟩ := abdoRackwitz_scenarioA_iteration
  obtain ⟨q1, hq1, htq1⟩ := sqp_scenarioA_iteration solveLinearSystem hs
  have h := penalty_monotone Real.sqrt solveLinearSystem 10
  have ha := (h.1.2.2.1 _ r1 h1).2 ht1
  have hq := (h.2.2.2.1 _ q1 hq1).2 htq1
  have ha0 : (AbdoRackwitz.runInit (scenarioA.abdoRackwitz (K := ℝ))).solver.currentSigma_ = 0 :=
    rfl
  have hq0 : (SQP.runInit (scenarioA.sqp (K := ℝ))).solver.currentSigma_ = 0 := rfl
  rw [ha0, zero_add] at ha
  rw [hq0, zero_add] at hq
  exact ⟨solveLinearSystem, ⟨r1, h1, ht1, ha⟩, ⟨q1, hq1, htq1, hq⟩⟩


/-- C11, counterexample: the `AbdoRackwitz` line search on `G(u) = u1`, `G0 = 0`, from the
point `(1)` along the direction `(-1)`, with `tau = 1/2`, `omega = 9/10`, `smooth = 6/5`.
The first trial point `(0)` is accepted at the step `alpha = 1`: the loop does not stop
because of the floor (`tau * alpha ≥ tau ^ 9`), its test
`theta(trial) ≤ theta(current) + tau * alpha * Delta` is met and no interpolation is applied;
yet `theta(newPoint) ≤ theta(currentPoint) + alpha * Delta` fails (`0 ≤ 17/10 - 99/50`). -/
theorem merit_decrease_counterexample :
    ∃ s1, AbdoRackwitz.computeLineSearch Real.sqrt 10 (scenarioOrigin.atLineSearch (9 / 10 : ℝ))
        = some (1, s1)
      ∧ (scenarioOrigin.atLineSearch (9 / 10 : ℝ)).tau_ = 1 / 2
      ∧ (scenarioOrigin.atLineSearch (9 / 10 : ℝ)).tau_ * 1
          ≥ (scenarioOrigin.atLineSearch (9 / 10 : ℝ)).tau_ ^ 9
      ∧ ¬ AbdoRackwitz.interpolates Real.sqrt (scenarioOrigin.atLineSearch (9 / 10 : ℝ))
          (NumericalPoint.add (scenarioOrigin.atLineSearch (9 / 10 : ℝ)).currentPoint_
            (NumericalPoint.smul 1 (scenarioOrigin.atLineSearch (9 / 10 : ℝ)).currentDirection_))
      ∧ s1.currentPoint_
          = NumericalPoint.add (scenarioOrigin.atLineSearch (9 / 10 : ℝ)).currentPoint_
            (NumericalPoint.smul 1 (scenarioOrigin.atLineSearch (9 / 10 : ℝ)).currentDirection_)
      ∧ s1.currentSigma_ = AbdoRackwitz.sigmaUpdate Real.sqrt (scenarioOrigin.atLineSearch (9 / 10))
      ∧ AbdoRackwitz.theta (scenarioOrigin.atLineSearch (9 / 10 : ℝ)) s1.currentSigma_
          s1.currentPoint_ = 0
      ∧ AbdoRackwitz.theta (scenarioOrigin.atLineSearch (9 / 10 : ℝ)) s1.currentSigma_
          (scenarioOrigin.atLineSearch (9 / 10 : ℝ)).currentPoint_ = 17 / 10
      ∧ AbdoRackwitz.levelIncrement Real.sqrt (scenarioOrigin.atLineSearch (9 / 10 : ℝ))
          = -(99 / 50)
      ∧ ¬ (AbdoRackwitz.theta (scenarioOrigin.atLineSearch (9 / 10 : ℝ)) s1.currentSigma_
            s1.currentPoint_
          ≤ AbdoRackwitz.theta (scenarioOrigin.atLineSearch (9 / 10 : ℝ)) s1.currentSigma_
              (scenarioOrigin.atLineSearch (9 / 10 : ℝ)).currentPoint_
            + 1 * AbdoRackwitz.levelIncrement Real.sqrt
                (scenarioOrigin.atLineSearch (9 / 10 : ℝ))) := by
  have hmax : max (1 : ℝ) (6 / 5) = 6 / 5 := max_eq_right (by norm_num)
  have hsig : AbdoRackwitz.sigmaUpdate Real.sqrt (scenarioOrigin.atLineSearch (9 / 10 : ℝ))
      = 6 / 5 := by
    simp only [AbdoRackwitz.sigmaUpdate, scenarioOrigin.atLineSearch,
      AbdoRackwitz.computeDirection,
      AbdoRackwitz.evalGradient, AbdoRackwitz.runInit, AbdoRackwitz.new,
      AbdoRackwitz.initialise, scenarioOrigin.base, scenarioOrigin.problem,
      scenarioOrigin.levelFunction, NumericalPoint.norm, NumericalPoint.normSquare, dot,
      List.zipWith_cons_cons, List.zipWith_nil_right, List.map_cons, List.map_nil,
      List.sum_cons, List.sum_nil]
    norm_num [hmax]
  have hth0 : AbdoRackwitz.theta (scenarioOrigin.atLineSearch (9 / 10 : ℝ)) (6 / 5) [0] = 0 := by
    simp [AbdoRackwitz.theta, scenarioOrigin.atLineSearch, AbdoRackwitz.computeDirection,
      AbdoRackwitz.evalGradient, AbdoRackwitz.runInit, AbdoRackwitz.new,
      AbdoRackwitz.initialise, scenarioOrigin.base, scenarioOrigin.problem,
      scenarioOrigin.levelFunction, NumericalPoint.normSquare, dot, NumericalPoint.get]
  have hth1 : AbdoRackwitz.theta (scenarioOrigin.atLineSearch (9 / 10 : ℝ)) (6 / 5) [1]
      = 17 / 10 := by
    simp [AbdoRackwitz.theta, scenarioOrigin.atLineSearch, AbdoRackwitz.computeDirection,
      AbdoRackwitz.evalGradient, AbdoRackwitz.runInit, AbdoRackwitz.new,
      AbdoRackwitz.initialise, scenarioOrigin.base, scenarioOrigin.problem,
      scenarioOrigin.levelFunction, NumericalPoint.normSquare, dot, NumericalPoint.get]
    norm_num
  have hli : AbdoRackwitz.levelIncrement Real.sqrt (scenarioOrigin.atLineSearch (9 / 10 : ℝ))
      = -(99 / 50) := by
    rw [AbdoRackwitz.levelIncrement, hsig]
    simp [scenarioOrigin.atLineSearch, AbdoRackwitz.computeDirection,
      AbdoRackwitz.evalGradient, AbdoRackwitz.runInit, AbdoRackwitz.new,
      AbdoRackwitz.initialise, scenarioOrigin.base, scenarioOrigin.problem,
      scenarioOrigin.levelFunction, NumericalPoint.normSquare, dot, NumericalPoint.get,
      NumericalPoint.add, NumericalPoint.smul, NumericalPoint.sub]
    norm_num
  refine ⟨_, abdoRackwitz_scenarioOrigin_atLineSearch, rfl, ?_, ?_, ?_, hsig.symm, hth0, hth1,
    hli, ?_⟩
  · show (1 / 2 : ℝ) * 1 ≥ (1 / 2) ^ 9
    norm_num
  · intro h
    exact h.1 (by
      show Real.sqrt (NumericalPoint.normSquare ([] : List ℝ)) = 0
      simp [NumericalPoint.normSquare, dot])
  · show ([0] : List ℝ) = NumericalPoint.add [1] (NumericalPoint.smul 1
      (NumericalPoint.sub
        (NumericalPoint.smul (-((1 - 0 - dot [1] [1]) / NumericalPoint.normSquare [1])) [1])
        [1]))
    simp [NumericalPoint.add, NumericalPoint.smul, NumericalPoint.sub, dot,
      NumericalPoint.normSquare]
  · show ¬ (AbdoRackwitz.theta (scenarioOrigin.atLineSearch (9 / 10 : ℝ)) (6 / 5) [0]
      ≤ AbdoRackwitz.theta (scenarioOrigin.atLineSearch (9 / 10 : ℝ)) (6 / 5) [1]
        + 1 * AbdoRackwitz.levelIncrement Real.sqrt
                (scenarioOrigin.atLineSearch (9 / 10 : ℝ)))
    rw [hth0, hth1, hli]
    norm_num


/-- C11, amended: for both solvers and `0 < tau < 1`, a call of `computeLineSearch` returns
as soon as the fuel allows ten trial points, and every call that returns `alpha` with the
loop not stopped by the floor (`tau * alpha ≥ minStep = tau ^ 9`) and without interpolation
moves to `newPoint = currentPoint + alpha * direction` with
`theta(newPoint) ≤ currentTheta + tau * alpha * Delta`, where `theta` uses the updated
`sigma`, `Delta` is `levelIncrement` and `currentTheta` is the value the call computes from
the stored `currentLevelValue_`; it is `theta(currentPoint)` when the stored level value is
the level function at the current point.  The threshold is scaled by the shrunk step
`tau * alpha`, not by `alpha`. -/
theorem merit_decrease_shrunk_step {K : Type} [LinearOrderedField K] (sqrt : K → K)
    (fuel : Nat) :
    (∀ s : AbdoRackwitz K, 0 < s.tau_ → s.tau_ < 1 →
      (10 ≤ fuel → ∃ alpha s1, AbdoRackwitz.computeLineSearch sqrt fuel s = some (alpha, s1))
      ∧ ∀ (alpha : K) (s1 : AbdoRackwitz K),
        AbdoRackwitz.computeLineSearch sqrt fuel s = some (alpha, s1) →
        s.tau_ * alpha ≥ s.tau_ ^ 9 →
        ¬ AbdoRackwitz.interpolates sqrt s
          (NumericalPoint.add s.currentPoint_
            (NumericalPoint.smul alpha s.currentDirection_)) →
        s1.currentPoint_
            = NumericalPoint.add s.currentPoint_
              (NumericalPoint.smul alpha s.currentDirection_)
          ∧ s1.currentSigma_ = AbdoRackwitz.sigmaUpdate sqrt s
          ∧ AbdoRackwitz.theta s s1.currentSigma_ s1.currentPoint_
              ≤ AbdoRackwitz.currentTheta sqrt s
                + s.tau_ * alpha * AbdoRackwitz.levelIncrement sqrt s
          ∧ (s.currentLevelValue_ = s.problem.levelFunction.eval s.currentPoint_ →
              AbdoRackwitz.theta s s1.currentSigma_ s1.currentPoint_
                ≤ AbdoRackwitz.theta s s1.currentSigma_ s.currentPoint_
                  + s.tau_ * alpha * AbdoRackwitz.levelIncrement sqrt s))
    ∧ (∀ s : SQP K, 0 < s.tau_ → s.tau_ < 1 →
      (10 ≤ fuel → ∃ alpha s1, SQP.computeLineSearch sqrt fuel s = some (alpha, s1))
      ∧ ∀ (alpha : K) (s1 : SQP K),
        SQP.computeLineSearch sqrt fuel s = some (alpha, s1) →
        s.tau_ * alpha ≥ s.tau_ ^ 9 →
        ¬ SQP.interpolates sqrt s
          (NumericalPoint.add s.currentPoint_
            (NumericalPoint.smul alpha s.currentDirection_)) →
        s1.currentPoint_
            = NumericalPoint.add s.currentPoint_
              (NumericalPoint.smul alpha s.currentDirection_)
          ∧ s1.currentSigma_ = SQP.sigmaUpdate sqrt s
          ∧ SQP.theta s s1.currentSigma_ s1.currentPoint_
              ≤ SQP.currentTheta sqrt s + s.tau_ * alpha * SQP.levelIncrement sqrt s
          ∧ (s.currentLevelValue_ = s.problem.levelFunction.eval s.currentPoint_ →
              SQP.theta s s1.currentSigma_ s1.currentPoint_
                ≤ SQP.theta s s1.currentSigma_ s.currentPoint_
                  + s.tau_ * alpha * SQP.levelIncrement sqrt s)) :=
  ⟨fun s h0 h1 =>
      ⟨fun hf => abdoRackwitz_computeLineSearch_isSome sqrt fuel s h0 h1 hf,
        fun alpha s1 h hfl hno =>
          abdoRackwitz_merit_decrease sqrt fuel s s1 alpha (ne_of_gt h0) h hfl hno⟩,
    fun s h0 h1 =>
      ⟨fun hf => sqp_computeLineSearch_isSome sqrt fuel s h0 h1 hf,
        fun alpha s1 h hfl hno =>
          sqp_merit_decrease sqrt fuel s s1 alpha (ne_of_gt h0) h hfl hno⟩⟩

/-- Witness of C11, amended: the line searches of both solvers on `G(u) = u1`, `G0 = 0`, from
`(1)` along `(-1)` with `tau = 1/2` and `omega = 9/10` return `alpha = 1` with the loop not
stopped by the floor and without interpolation, and the stored level value is the level
function at the current point. -/
theorem merit_decrease_shrunk_step_witness :
    (∃ s1, AbdoRackwitz.computeLineSearch Real.sqrt 10 (scenarioOrigin.atLineSearch (9 / 10 : ℝ))
        = some (1, s1)
      ∧ AbdoRackwitz.theta (scenarioOrigin.atLineSearch (9 / 10 : ℝ)) s1.currentSigma_
          s1.currentPoint_
        ≤ AbdoRackwitz.theta (scenarioOrigin.atLineSearch (9 / 10 : ℝ)) s1.currentSigma_
            (scenarioOrigin.atLineSearch (9 / 10 : ℝ)).currentPoint_
          + (scenarioOrigin.atLineSearch (9 / 10 : ℝ)).tau_ * 1
            * AbdoRackwitz.levelIncrement Real.sqrt (scenarioOrigin.atLineSearch (9 / 10 : ℝ)))
    ∧ (∃ s1, SQP.computeLineSearch Real.sqrt 10 (scenarioOrigin.sqpAtLineSearch (9 / 10 : ℝ))
        = some (1, s1)
      ∧ SQP.theta (scenarioOrigin.sqpAtLineSearch (9 / 10 : ℝ)) s1.currentSigma_
          s1.currentPoint_
        ≤ SQP.theta (scenarioOrigin.sqpAtLineSearch (9 / 10 : ℝ)) s1.currentSigma_
            (scenarioOrigin.sqpAtLineSearch (9 / 10 : ℝ)).currentPoint_
          + (scenarioOrigin.sqpAtLineSearch (9 / 10 : ℝ)).tau_ * 1
            * SQP.levelIncrement Real.sqrt (scenarioOrigin.sqpAtLineSearch (9 / 10 : ℝ))) := by
  have hn : Real.sqrt (NumericalPoint.normSquare ([] : List ℝ)) = 0 := by
    simp [NumericalPoint.normSquare, dot]
  constructor
  · refine ⟨_, abdoRackwitz_scenarioOrigin_atLineSearch, ?_⟩
    exact (((merit_decrease_shrunk_step Real.sqrt 10).1
      (scenarioOrigin.atLineSearch (9 / 10 : ℝ))
      (by show (0 : ℝ) < 1 / 2; norm_num) (by show (1 / 2 : ℝ) < 1; norm_num)).2 1 _
      abdoRackwitz_scenarioOrigin_atLineSearch
      (by show (1 / 2 : ℝ) * 1 ≥ (1 / 2) ^ 9; norm_num)
      (fun h => h.1 hn)).2.2.2
      (by
        show NumericalPoint.get [(1 : ℝ)] 0 = NumericalPoint.get [(1 : ℝ)] 0
        rfl)
  · refine ⟨_, sqp_scenarioOrigin_atLineSearch, ?_⟩
    exact (((merit_decrease_shrunk_step Real.sqrt 10).2
      (scenarioOrigin.sqpAtLineSearch (9 / 10 : ℝ))
      (by show (0 : ℝ) < 1 / 2; norm_num) (by show (1 / 2 : ℝ) < 1; norm_num)).2 1 _
      sqp_scenarioOrigin_atLineSearch
      (by show (1 / 2 : ℝ) * 1 ≥ (1 / 2) ^ 9; norm_num)
      (fun h => h.1 hn)).2.2.2
      (by
        show NumericalPoint.get [(1 : ℝ)] 0 = NumericalPoint.get [(1 : ℝ)] 0
        rfl)

/-- C12: for both solvers and `tau ≠ 0`, the value `alpha` returned by `computeLineSearch` is
the step actually used: whenever the anti-cycling interpolation is not applied (the previous
point has zero norm, or `compareA ≤ compareB` at the trial point), the new current point is
`oldCurrentPoint + alpha * currentDirection` and the new `currentLevelValue_` is the level
function at that point.  For `0 < tau < 1` the call returns as soon as the fuel allows ten
trial points. -/
theorem lineSearch_returns_step_used {K : Type} [LinearOrderedField K] (sqrt : K → K)
    (fuel : Nat) :
    (∀ s : AbdoRackwitz K, s.tau_ ≠ 0 →
      (0 < s.tau_ → s.tau_ < 1 → 10 ≤ fuel →
        ∃ alpha s1, AbdoRackwitz.computeLineSearch sqrt fuel s = some (alpha, s1))
      ∧ ∀ (alpha : K) (s1 : AbdoRackwitz K),
        AbdoRackwitz.computeLineSearch sqrt fuel s = some (alpha, s1) →
        (NumericalPoint.norm sqrt s.oldPoint_ = 0
          ∨ AbdoRackwitz.compareA sqrt s
              (NumericalPoint.add s.currentPoint_
                (NumericalPoint.smul alpha s.currentDirection_))
            ≤ AbdoRackwitz.compareB sqrt s
              (NumericalPoint.add s.currentPoint_
                (NumericalPoint.smul alpha s.currentDirection_))) →
        s1.currentPoint_
            = NumericalPoint.add s.currentPoint_
              (NumericalPoint.smul alpha s.currentDirection_)
          ∧ s1.currentLevelValue_
            = s.problem.levelFunction.eval
              (NumericalPoint.add s.currentPoint_
                (NumericalPoint.smul alpha s.currentDirection_)))
    ∧ (∀ s : SQP K, s.tau_ ≠ 0 →
      (0 < s.tau_ → s.tau_ < 1 → 10 ≤ fuel →
        ∃ alpha s1, SQP.computeLineSearch sqrt fuel s = some (alpha, s1))
      ∧ ∀ (alpha : K) (s1 : SQP K),
        SQP.computeLineSearch sqrt fuel s = some (alpha, s1) →
        (NumericalPoint.norm sqrt s.oldPoint_ = 0
          ∨ SQP.compareA sqrt s
              (NumericalPoint.add s.currentPoint_
                (NumericalPoint.smul alpha s.currentDirection_))
            ≤ SQP.compareB sqrt s
              (NumericalPoint.add s.currentPoint_
                (NumericalPoint.smul alpha s.currentDirection_))) →
        s1.currentPoint_
            = NumericalPoint.add s.currentPoint_
              (NumericalPoint.smul alpha s.currentDirection_)
          ∧ s1.currentLevelValue_
            = s.problem.levelFunction.eval
              (NumericalPoint.add s.currentPoint_
                (NumericalPoint.smul alpha s.currentDirection_))) := by
  constructor
  · intro s ht
    refine ⟨fun h0 h1 hf => abdoRackwitz_computeLineSearch_isSome sqrt fuel s h0 h1 hf, ?_⟩
    intro alpha s1 h hno
    obtain ⟨a, ha, -, hp, hl⟩ := abdoRackwitz_computeLineSearch_exit sqrt fuel s s1 alpha h
    have haa : alpha = a := by rw [ha]; field_simp
    subst haa
    have hni : ¬ AbdoRackwitz.interpolates sqrt s
        (NumericalPoint.add s.currentPoint_ (NumericalPoint.smul alpha s.currentDirection_)) := by
      rintro ⟨hb, -, hc⟩
      rcases hno with h0 | hle
      · exact hb h0
      · exact absurd hc (not_lt.mpr hle)
    rw [if_neg hni] at hp
    exact ⟨hp, by rw [hl, hp]⟩
  · intro s ht
    refine ⟨fun h0 h1 hf => sqp_computeLineSearch_isSome sqrt fuel s h0 h1 hf, ?_⟩
    intro alpha s1 h hno
    obtain ⟨a, ha, -, hp, hl⟩ := sqp_computeLineSearch_exit sqrt fuel s s1 alpha h
    have haa : alpha = a := by rw [ha]; field_simp
    subst haa
    have hni : ¬ SQP.interpolates sqrt s
        (NumericalPoint.add s.currentPoint_ (NumericalPoint.smul alpha s.currentDirection_)) := by
      rintro ⟨hb, -, hc⟩
      rcases hno with h0 | hle
      · exact hb h0
      · exact absurd hc (not_lt.mpr hle)
    rw [if_neg hni] at hp
    exact ⟨hp, by rw [hl, hp]⟩

/-- Witness of C12: the line searches of both solvers on `G(u) = u1`, `G0 = 0`, from `(1)`
along `(-1)` with `tau = 1/2` return `alpha = 1`; the previous point has zero norm, and the
new point is `(1) + 1 * (-1)`, with the level function there as new level value. -/
theorem lineSearch_returns_step_used_witness :
    (∃ s1, AbdoRackwitz.computeLineSearch Real.sqrt 10 (scenarioOrigin.atLineSearch (9 / 10 : ℝ))
        = some (1, s1)
      ∧ s1.currentPoint_ = NumericalPoint.add [1] (NumericalPoint.smul 1 [-1])
      ∧ s1.currentLevelValue_
        = (scenarioOrigin.levelFunction (K := ℝ)).eval
          (NumericalPoint.add [1] (NumericalPoint.smul 1 [-1])))
    ∧ (∃ s1, SQP.computeLineSearch Real.sqrt 10 (scenarioOrigin.sqpAtLineSearch (9 / 10 : ℝ))
        = some (1, s1)
      ∧ s1.currentPoint_ = NumericalPoint.add [1] (NumericalPoint.smul 1 [-1])
      ∧ s1.currentLevelValue_
        = (scenarioOrigin.levelFunction (K := ℝ)).eval
          (NumericalPoint.add [1] (NumericalPoint.smul 1 [-1]))) := by
  have hn : Real.sqrt (NumericalPoint.normSquare ([] : List ℝ)) = 0 := by
    simp [NumericalPoint.normSquare, dot]
  have hd : (scenarioOrigin.atLineSearch (9 / 10 : ℝ)).currentDirection_ = [-1] := by
    simp [scenarioOrigin.atLineSearch, AbdoRackwitz.computeDirection,
      AbdoRackwitz.evalGradient, AbdoRackwitz.runInit, AbdoRackwitz.new,
      AbdoRackwitz.initialise, scenarioOrigin.base, scenarioOrigin.problem,
      scenarioOrigin.levelFunction, NumericalPoint.normSquare, dot, NumericalPoint.get,
      NumericalPoint.add, NumericalPoint.smul, NumericalPoint.sub]
  constructor
  · have h := ((lineSearch_returns_step_used Real.sqrt 10).1
      (scenarioOrigin.atLineSearch (9 / 10 : ℝ))
      (by show (1 / 2 : ℝ) ≠ 0; norm_num)).2 1 _
      abdoRackwitz_scenarioOrigin_atLineSearch (Or.inl hn)
    rw [hd] at h
    exact ⟨_, abdoRackwitz_scenarioOrigin_atLineSearch, h⟩
  · exact ⟨_, sqp_scenarioOrigin_atLineSearch,
      ((lineSearch_returns_step_used Real.sqrt 10).2
        (scenarioOrigin.sqpAtLineSearch (9 / 10 : ℝ))
        (by show (1 / 2 : ℝ) ≠ 0; norm_num)).2 1 _
        sqp_scenarioOrigin_atLineSearch (Or.inl hn)⟩

/-- C13, the code at the failing input: the first line search of a run of `AbdoRackwitz` on
`G(u) = u1`, `G0 = 2`, started at `(-1)`, by a solver whose members hold `oldPoint_ = (3)`
and `oldLevelValue_ = -1`.  The interpolation is attempted (`oldPoint_` has the norm `3` and
`compareA = 1 > compareB = -1` at the trial point `(2)`) while
`oldLevelValue_ = currentLevelValue_ = -1`; the call returns normally, its new point being
the interpolated point, whose factor `StepBeta` is a quotient by
`oldLevelValue_ - currentLevelValue_ = 0`, and the run ends without any exception. -/
theorem degenerate_interpolation_returns :
    ∃ s1, AbdoRackwitz.computeLineSearch Real.sqrt 10
        (AbdoRackwitz.computeDirection (AbdoRackwitz.evalGradient
          (AbdoRackwitz.runInit (scenarioStale.stale (K := ℝ) 0 (-1))).solver))
        = some (1, s1)
      ∧ AbdoRackwitz.interpolates Real.sqrt
          (AbdoRackwitz.computeDirection (AbdoRackwitz.evalGradient
            (AbdoRackwitz.runInit (scenarioStale.stale (K := ℝ) 0 (-1))).solver)) [2]
      ∧ (AbdoRackwitz.computeDirection (AbdoRackwitz.evalGradient
          (AbdoRackwitz.runInit (scenarioStale.stale (K := ℝ) 0 (-1))).solver)).oldLevelValue_
        = (AbdoRackwitz.computeDirection (AbdoRackwitz.evalGradient
          (AbdoRackwitz.runInit (scenarioStale.stale (K := ℝ) 0 (-1))).solver)).currentLevelValue_
      ∧ s1.currentPoint_ = AbdoRackwitz.interpolatedPoint Real.sqrt
          (AbdoRackwitz.computeDirection (AbdoRackwitz.evalGradient
            (AbdoRackwitz.runInit (scenarioStale.stale (K := ℝ) 0 (-1))).solver))
      ∧ ∃ r, AbdoRackwitz.run Real.sqrt 10 (scenarioStale.stale (K := ℝ) 0 (-1)) = some r
        ∧ r.thrown = none ∧ r.solver = (AbdoRackwitz.updateErrors Real.sqrt 1 s1 1).solver := by
  have hg : NumericalPoint.normSquare
      ((AbdoRackwitz.runInit
          (scenarioStale.stale (K := ℝ) 0 (-1))).solver.problem.levelFunction.gradient
        (AbdoRackwitz.runInit (scenarioStale.stale 0 (-1))).solver.currentPoint_) ≠ 0 := by
    simp [AbdoRackwitz.runInit, AbdoRackwitz.new, AbdoRackwitz.initialise, scenarioStale.base,
      scenarioStale.fresh, scenarioStale.stale, scenarioStale.problem,
      scenarioOrigin.levelFunction, NumericalPoint.normSquare, dot]
  refine ⟨_, abdoRackwitz_scenarioStale_lineSearch 0 (-1), ?_, ?_, ?_, ?_⟩
  · simp only [AbdoRackwitz.interpolates, AbdoRackwitz.compareA, AbdoRackwitz.compareB,
      AbdoRackwitz.computeDirection,
      AbdoRackwitz.evalGradient, AbdoRackwitz.runInit, AbdoRackwitz.new,
      AbdoRackwitz.initialise,
      scenarioStale.base, scenarioStale.fresh, scenarioStale.stale,
      scenarioStale.problem, scenarioOrigin.levelFunction,
      NumericalPoint.norm, NumericalPoint.normSquare, dot, List.zipWith_cons_cons,
      List.zipWith_nil_right, List.zipWith_nil_left, List.map_cons, List.map_nil,
      List.sum_cons, List.sum_nil]
    norm_num [real_sqrt_four, real_sqrt_nine]
  · rfl
  · simp only [AbdoRackwitz.interpolatedPoint, AbdoRackwitz.StepBeta,
      AbdoRackwitz.computeDirection,
      AbdoRackwitz.evalGradient, AbdoRackwitz.runInit, AbdoRackwitz.new,
      AbdoRackwitz.initialise,
      scenarioStale.base, scenarioStale.fresh, scenarioStale.stale,
      scenarioStale.problem, scenarioOrigin.levelFunction,
      NumericalPoint.norm, NumericalPoint.normSquare, dot, NumericalPoint.add,
      NumericalPoint.smul, NumericalPoint.sdiv, NumericalPoint.get, List.zipWith_cons_cons,
      List.zipWith_nil_right, List.zipWith_nil_left, List.map_cons, List.map_nil,
      List.sum_cons, List.sum_nil]
    norm_num [real_sqrt_four, real_sqrt_nine]
  · refine ⟨_, ?_, rfl, rfl⟩
    rw [abdoRackwitz_run_of_zero_budget Real.sqrt 10 _ rfl]
    exact abdoRackwitz_iteration_of_lineSearch Real.sqrt 10 _ _ _ hg
      (abdoRackwitz_scenarioStale_lineSearch 0 (-1))

/-- C14, the code at the failing input: two `AbdoRackwitz` solvers with the same problem
(`G(u) = u1`, `G0 = 2`), tunables, convergence criteria, budget and starting point `(-1)`,
one freshly constructed, the other holding `oldPoint_ = (3)` and `oldLevelValue_ = 3`.  The
members `oldPoint_` and `oldLevelValue_` are not reset by `run`: the first line search of
the second solver uses the snapshot `(3)`, not the starting point.  The run of the fresh
solver ends at `(2)` with the convergence flag set; the run of the other one ends at
`(5/2)` with the flag unset.  For every solver of either class the part of `run` that
precedes the loop leaves `oldPoint_` and `oldLevelValue_` as they were on entry. -/
theorem run_depends_on_entry_snapshot :
    (scenarioStale.stale (K := ℝ) 0 3).toOptimizationSolverImplementation
        = (scenarioStale.fresh 0).toOptimizationSolverImplementation
      ∧ (scenarioStale.stale (K := ℝ) 0 3).tau_ = (scenarioStale.fresh 0).tau_
      ∧ (scenarioStale.stale (K := ℝ) 0 3).omega_ = (scenarioStale.fresh 0).omega_
      ∧ (scenarioStale.stale (K := ℝ) 0 3).smooth_ = (scenarioStale.fresh 0).smooth_
      ∧ (AbdoRackwitz.runInit (scenarioStale.stale (K := ℝ) 0 3)).solver.oldPoint_ = [3]
      ∧ (AbdoRackwitz.runInit (scenarioStale.stale (K := ℝ) 0 3)).solver.oldLevelValue_ = 3
      ∧ (scenarioStale.stale (K := ℝ) 0 3).startingPoint = [-1]
      ∧ (∃ r, AbdoRackwitz.run Real.sqrt 10 (scenarioStale.fresh (K := ℝ) 0) = some r
          ∧ r.thrown = none ∧ r.solver.currentPoint_ = [2] ∧ r.convergence = true)
      ∧ (∃ r, AbdoRackwitz.run Real.sqrt 10 (scenarioStale.stale (K := ℝ) 0 3) = some r
          ∧ r.thrown = none ∧ r.solver.currentPoint_ = [5 / 2] ∧ r.convergence = false)
      ∧ (∀ s : AbdoRackwitz ℝ, (AbdoRackwitz.runInit s).solver.oldPoint_ = s.oldPoint_
          ∧ (AbdoRackwitz.runInit s).solver.oldLevelValue_ = s.oldLevelValue_)
      ∧ (∀ s : SQP ℝ, (SQP.runInit s).solver.oldPoint_ = s.oldPoint_
          ∧ (SQP.runInit s).solver.oldLevelValue_ = s.oldLevelValue_) := by
  refine ⟨rfl, rfl, rfl, rfl, rfl, rfl, rfl, ?_, ?_, fun _ => ⟨rfl, rfl⟩, fun _ => ⟨rfl, rfl⟩⟩
  · obtain ⟨r, hr, h⟩ := abdoRackwitz_scenarioStale_fresh_iteration 0
    refine ⟨r, ?_, h.1, h.2.1, h.2.2.2⟩
    rw [abdoRackwitz_run_of_zero_budget Real.sqrt 10 _ rfl]
    exact hr
  · obtain ⟨r, hr, h⟩ := abdoRackwitz_scenarioStale_iteration 0
    refine ⟨r, ?_, h.1, h.2.1, h.2.2.2⟩
    rw [abdoRackwitz_run_of_zero_budget Real.sqrt 10 _ rfl]
    exact hr

/-- C15, the code at the failing input: the `AbdoRackwitz` solver at its first line search on
`G(u) = u1` from `(1)`, whose `currentGradient_` is `(1)`, is saved, and the storage is loaded
into a freshly constructed solver, whose `currentGradient_` is empty.  Whatever the base
class writes and reads, the loaded solver has the eight other attributes of the saved one,
but its `currentGradient_` is still empty: `load` never reads the attribute
`currentGradient_` that `save` wrote. -/
theorem load_misses_currentGradient
    (baseSave : Advocate ℝ → OptimizationSolverImplementation ℝ → Advocate ℝ)
    (baseLoad : Advocate ℝ → OptimizationSolverImplementation ℝ →
      OptimizationSolverImplementation ℝ)
    (adv : Advocate ℝ) :
    (AbdoRackwitz.save baseSave adv (scenarioOrigin.atLineSearch (1 / 10000))).attributes
        ("currentGradient_") = some (StoredValue.point [1])
      ∧ (scenarioOrigin.atLineSearch (1 / 10000 : ℝ)).currentGradient_ = [1]
      ∧ (AbdoRackwitz.load baseLoad
          (AbdoRackwitz.save baseSave adv (scenarioOrigin.atLineSearch (1 / 10000)))
          scenarioOrigin.abdoRackwitz).currentGradient_ = []
      ∧ (AbdoRackwitz.load baseLoad
          (AbdoRackwitz.save baseSave adv (scenarioOrigin.atLineSearch (1 / 10000)))
          scenarioOrigin.abdoRackwitz).currentPoint_ = [1]
      ∧ (AbdoRackwitz.load baseLoad
          (AbdoRackwitz.save baseSave adv (scenarioOrigin.atLineSearch (1 / 10000)))
          scenarioOrigin.abdoRackwitz).currentDirection_
        = (scenarioOrigin.atLineSearch (1 / 10000 : ℝ)).currentDirection_ := by
  have h := abdoRackwitz_load_save baseSave baseLoad adv
    (scenarioOrigin.atLineSearch (1 / 10000 : ℝ)) scenarioOrigin.abdoRackwitz
  refine ⟨?_, rfl, ?_, ?_, h.2.2.2.2.2.1⟩
  · simp +decide only [AbdoRackwitz.save, Advocate.saveAttribute, if_true, if_false]
    rfl
  · rw [h.2.2.2.2.2.2.2.2]
    rfl
  · rw [h.2.2.2.2.1]
    rfl

/-- Counterexample to C16: in the arithmetic of doubles the quotient `1 / xi` of `1` by
`xi = 2 ^ 1000` is `2 ^ (-1000)` and the quotient `sigma / xi` of `sigma = 2 ^ (-1000)` by
`xi` underflows to `0`.  With the threshold `1e-6`, on the default object, the call
`setMuSigmaXi(0, 2 ^ (-1000), 2 ^ 1000)` has `sigma > 0`, yet it throws
`InvalidArgumentException`, from the constructor `Frechet(alpha, beta, gamma)`, which is
given `beta = 0`; and `mu_`, `sigma_` and `xi_` have been assigned before, so the object is
not left unchanged. -/
theorem setMuSigmaXi_underflow_counterexample :
    (1 / 2 ^ 1000 : ℚ) > 0
      ∧ GeneralizedExtremeValue.underflowingDiv (1 / 2 ^ 1075 : ℚ) 1 (2 ^ 1000) = 1 / 2 ^ 1000
      ∧ GeneralizedExtremeValue.underflowingDiv (1 / 2 ^ 1075 : ℚ) (1 / 2 ^ 1000) (2 ^ 1000) = 0
      ∧ (GeneralizedExtremeValue.setMuSigmaXiRounded
          (GeneralizedExtremeValue.underflowingDiv (1 / 2 ^ 1075 : ℚ)) (1 / 1000000)
          GeneralizedExtremeValue.default 0 (1 / 2 ^ 1000) (2 ^ 1000)).2
        = some Exception.InvalidArgumentException
      ∧ (GeneralizedExtremeValue.setMuSigmaXiRounded
          (GeneralizedExtremeValue.underflowingDiv (1 / 2 ^ 1075 : ℚ)) (1 / 1000000)
          GeneralizedExtremeValue.default 0 (1 / 2 ^ 1000) (2 ^ 1000)).1
        = { (GeneralizedExtremeValue.default : GeneralizedExtremeValue ℚ) with
            mu_ := 0, sigma_ := 1 / 2 ^ 1000, xi_ := 2 ^ 1000 }
      ∧ (GeneralizedExtremeValue.setMuSigmaXiRounded
          (GeneralizedExtremeValue.underflowingDiv (1 / 2 ^ 1075 : ℚ)) (1 / 1000000)
          GeneralizedExtremeValue.default 0 (1 / 2 ^ 1000) (2 ^ 1000)).1
        ≠ GeneralizedExtremeValue.default := by
  have hs : (1 / 2 ^ 1000 : ℚ) > 0 := by positivity
  have hx : ((2 : ℚ) ^ 1000) > 1 / 1000000 := by
    have h1 : (1 : ℚ) ≤ 2 ^ 1000 := one_le_pow₀ (by norm_num)
    have h2 : (1 / 1000000 : ℚ) < 1 := by norm_num
    linarith
  have hnx : ¬ ((2 : ℚ) ^ 1000 < -(1 / 1000000)) := by
    have h1 : (0 : ℚ) < 2 ^ 1000 := by positivity
    have h2 : (-(1 / 1000000) : ℚ) < 0 := by norm_num
    intro h
    linarith
  have hq : (1 / 2 ^ 1000 : ℚ) / 2 ^ 1000 = 1 / 2 ^ 2000 := by
    rw [div_div, ← pow_add]
  have hu : GeneralizedExtremeValue.underflowingDiv (1 / 2 ^ 1075 : ℚ) (1 / 2 ^ 1000)
      (2 ^ 1000) = 0 := by
    unfold GeneralizedExtremeValue.underflowingDiv
    rw [if_pos]
    rw [hq, abs_of_pos (by positivity)]
    apply one_div_lt_one_div_of_lt (by positivity)
    exact pow_lt_pow_right₀ (by norm_num) (by norm_num)
  have he : GeneralizedExtremeValue.underflowingDiv (1 / 2 ^ 1075 : ℚ) 1 (2 ^ 1000)
      = 1 / 2 ^ 1000 := by
    unfold GeneralizedExtremeValue.underflowingDiv
    rw [if_neg]
    rw [abs_of_pos (by positivity), not_lt]
    apply one_div_le_one_div_of_le (by positivity)
    exact pow_le_pow_right₀ (by norm_num) (by norm_num)
  obtain ⟨-, hsig, -, -, hiff, hunch⟩ := setMuSigmaXiRounded_of_pos
    (GeneralizedExtremeValue.underflowingDiv (1 / 2 ^ 1075 : ℚ)) (1 / 1000000)
    GeneralizedExtremeValue.default 0 (1 / 2 ^ 1000) (2 ^ 1000) hs
  have hthrow : (GeneralizedExtremeValue.setMuSigmaXiRounded
      (GeneralizedExtremeValue.underflowingDiv (1 / 2 ^ 1075 : ℚ)) (1 / 1000000)
      GeneralizedExtremeValue.default 0 (1 / 2 ^ 1000) (2 ^ 1000)).2
      = some Exception.InvalidArgumentException := by
    apply hiff.mpr
    rw [if_neg hnx, if_pos hx, hu]
    exact Or.inr (lt_irrefl 0)
  refine ⟨hs, he, hu, hthrow, hunch hthrow, ?_⟩
  intro h
  have h2 : (GeneralizedExtremeValue.setMuSigmaXiRounded
      (GeneralizedExtremeValue.underflowingDiv (1 / 2 ^ 1075 : ℚ)) (1 / 1000000)
      GeneralizedExtremeValue.default 0 (1 / 2 ^ 1000) (2 ^ 1000)).1.sigma_
      = (GeneralizedExtremeValue.default : GeneralizedExtremeValue ℚ).sigma_ := by
    rw [h]
  rw [hsig] at h2
  have h3 : (1 / 2 ^ 1000 : ℚ) = 1 := h2
  have h4 : (1 / 2 ^ 1000 : ℚ) < 1 := by
    rw [div_lt_one (by positivity)]
    exact one_lt_pow₀ (by norm_num) (by norm_num)
  linarith

/-- C16 as amended.  Whatever the rounding of the quotients (`div x y` is the value computed
for `x / y`): `GeneralizedExtremeValue::setMuSigmaXi(mu, sigma, xi)` throws
`InvalidArgumentException` and leaves the object unchanged when `sigma > 0` does not hold;
when `sigma > 0` it first assigns `mu_`, `sigma_` and `xi_`, it throws nothing else than
`InvalidArgumentException`, it throws exactly when the constructor of the actual
distribution is given an `alpha` or a `beta` that is not positive, and the object is then
the former one with `mu_`, `sigma_` and `xi_` replaced, the actual distribution being the
former one.  In exact arithmetic (`div` is the division of the field and `setMuSigmaXiRounded`
is `setMuSigmaXi`) and for a non-negative value `xiEpsilon` of the resource
`GeneralizedExtremeValue-XiThreshold`, the constructors are given positive arguments:
`setMuSigmaXi` throws if and only if `sigma > 0` does not hold, and throws nothing otherwise;
when it throws, the object is left unchanged; when it succeeds, `getMu`, `getSigma`, `getXi`
and `getParameter` return the values passed.  The same then holds of the constructor with
three parameters, which builds no object when `sigma > 0` fails, and of `setMu`, `setSigma`
and `setXi`, which pass the stored values of the other parameters; `setParameter` throws if
and only if the point does not have exactly `3` components or its component `1` is not
positive. -/
theorem setMuSigmaXi_rejects_iff {K : Type} [LinearOrderedField K] (xiEpsilon : K)
    (g : GeneralizedExtremeValue K) (mu sigma xi : K) :
    (∀ div : K → K → K,
      (¬ (sigma > 0) →
        GeneralizedExtremeValue.setMuSigmaXiRounded div xiEpsilon g mu sigma xi
          = (g, some Exception.InvalidArgumentException))
      ∧ (sigma > 0 →
        (GeneralizedExtremeValue.setMuSigmaXiRounded div xiEpsilon g mu sigma xi).1.mu_ = mu
          ∧ (GeneralizedExtremeValue.setMuSigmaXiRounded div xiEpsilon g mu sigma xi).1.sigma_
            = sigma
          ∧ (GeneralizedExtremeValue.setMuSigmaXiRounded div xiEpsilon g mu sigma xi).1.xi_ = xi
          ∧ ((GeneralizedExtremeValue.setMuSigmaXiRounded div xiEpsilon g mu sigma xi).2 = none
            ∨ (GeneralizedExtremeValue.setMuSigmaXiRounded div xiEpsilon g mu sigma xi).2
              = some Exception.InvalidArgumentException)
          ∧ ((GeneralizedExtremeValue.setMuSigmaXiRounded div xiEpsilon g mu sigma xi).2
              = some Exception.InvalidArgumentException
            ↔ (if xi < -xiEpsilon then ¬ (div (-sigma) xi > 0) ∨ ¬ (div (-1) xi > 0)
              else if xi > xiEpsilon then ¬ (div 1 xi > 0) ∨ ¬ (div sigma xi > 0)
              else ¬ (div 1 sigma > 0)))
          ∧ ((GeneralizedExtremeValue.setMuSigmaXiRounded div xiEpsilon g mu sigma xi).2
              = some Exception.InvalidArgumentException →
            (GeneralizedExtremeValue.setMuSigmaXiRounded div xiEpsilon g mu sigma xi).1
              = { g with mu_ := mu, sigma_ := sigma, xi_ := xi })))
    ∧ GeneralizedExtremeValue.setMuSigmaXiRounded (fun x y => x / y) xiEpsilon g mu sigma xi
      = GeneralizedExtremeValue.setMuSigmaXi xiEpsilon g mu sigma xi
    ∧ (0 ≤ xiEpsilon →
      (((GeneralizedExtremeValue.setMuSigmaXi xiEpsilon g mu sigma xi).2
          = some Exception.InvalidArgumentException ↔ ¬ (sigma > 0))
        ∧ ((GeneralizedExtremeValue.setMuSigmaXi xiEpsilon g mu sigma xi).2 = none ↔ sigma > 0)
        ∧ (¬ (sigma > 0) → (GeneralizedExtremeValue.setMuSigmaXi xiEpsilon g mu sigma xi).1 = g)
        ∧ (sigma > 0 →
            (GeneralizedExtremeValue.setMuSigmaXi xiEpsilon g mu sigma xi).1.getMu = mu
            ∧ (GeneralizedExtremeValue.setMuSigmaXi xiEpsilon g mu sigma xi).1.getSigma = sigma
            ∧ (GeneralizedExtremeValue.setMuSigmaXi xiEpsilon g mu sigma xi).1.getXi = xi
            ∧ (GeneralizedExtremeValue.setMuSigmaXi xiEpsilon g mu sigma xi).1.getParameter
              = [mu, sigma, xi]))
      ∧ ((GeneralizedExtremeValue.new xiEpsilon g mu sigma xi
            = Except.error Exception.InvalidArgumentException ↔ ¬ (sigma > 0))
        ∧ (sigma > 0 → ∃ g1, GeneralizedExtremeValue.new xiEpsilon g mu sigma xi = Except.ok g1
            ∧ g1.getMu = mu ∧ g1.getSigma = sigma ∧ g1.getXi = xi
            ∧ g1.getParameter = [mu, sigma, xi]))
      ∧ (((GeneralizedExtremeValue.setMu xiEpsilon g mu).2
            = some Exception.InvalidArgumentException ↔ ¬ (g.sigma_ > 0))
        ∧ (¬ (g.sigma_ > 0) → (GeneralizedExtremeValue.setMu xiEpsilon g mu).1 = g)
        ∧ (g.sigma_ > 0 → (GeneralizedExtremeValue.setMu xiEpsilon g mu).2 = none
            ∧ (GeneralizedExtremeValue.setMu xiEpsilon g mu).1.getParameter
              = [mu, g.sigma_, g.xi_]))
      ∧ (((GeneralizedExtremeValue.setSigma xiEpsilon g sigma).2
            = some Exception.InvalidArgumentException ↔ ¬ (sigma > 0))
        ∧ (¬ (sigma > 0) → (GeneralizedExtremeValue.setSigma xiEpsilon g sigma).1 = g)
        ∧ (sigma > 0 → (GeneralizedExtremeValue.setSigma xiEpsilon g sigma).2 = none
            ∧ (GeneralizedExtremeValue.setSigma xiEpsilon g sigma).1.getParameter
              = [g.mu_, sigma, g.xi_]))
      ∧ (((GeneralizedExtremeValue.setXi xiEpsilon g xi).2
            = some Exception.InvalidArgumentException ↔ ¬ (g.sigma_ > 0))
        ∧ (¬ (g.sigma_ > 0) → (GeneralizedExtremeValue.setXi xiEpsilon g xi).1 = g)
        ∧ (g.sigma_ > 0 → (GeneralizedExtremeValue.setXi xiEpsilon g xi).2 = none
            ∧ (GeneralizedExtremeValue.setXi xiEpsilon g xi).1.getParameter
              = [g.mu_, g.sigma_, xi]))
      ∧ (∀ parameter : List K,
          ((GeneralizedExtremeValue.setParameter xiEpsilon g parameter).2
            = some Exception.InvalidArgumentException
            ↔ (parameter.length ≠ 3 ∨ ¬ (NumericalPoint.get parameter 1 > 0)))
          ∧ ((GeneralizedExtremeValue.setParameter xiEpsilon g parameter).2 = none
            ↔ (parameter.length = 3 ∧ NumericalPoint.get parameter 1 > 0))
          ∧ ((GeneralizedExtremeValue.setParameter xiEpsilon g parameter).2 ≠ none →
              (GeneralizedExtremeValue.setParameter xiEpsilon g parameter).1 = g)
          ∧ ((GeneralizedExtremeValue.setParameter xiEpsilon g parameter).2 = none →
              (GeneralizedExtremeValue.setParameter xiEpsilon g parameter).1.getParameter
                = parameter))) :=
  ⟨fun div =>
      ⟨setMuSigmaXiRounded_of_not_pos div xiEpsilon g mu sigma xi,
        setMuSigmaXiRounded_of_pos div xiEpsilon g mu sigma xi⟩,
    setMuSigmaXiRounded_exact xiEpsilon g mu sigma xi,
    fun hx => setMuSigmaXi_exact_family xiEpsilon hx g mu sigma xi⟩

/-- Witness of the amended C16: with the threshold `1e-6`, on the default object, in exact
arithmetic, the call `setMuSigmaXi(1, 2, 1/2)` succeeds and `getParameter` returns
`(1, 2, 1/2)`; the call `setMuSigmaXi(1, 0, 1/2)` throws and leaves the object unchanged;
`setParameter` throws on the point `(1, 2)` of dimension `2`. -/
theorem setMuSigmaXi_rejects_iff_witness :
    (0 : ℝ) ≤ 1 / 1000000
      ∧ (GeneralizedExtremeValue.setMuSigmaXi (1 / 1000000 : ℝ)
          GeneralizedExtremeValue.default 1 2 (1 / 2)).2 = none
      ∧ (GeneralizedExtremeValue.setMuSigmaXi (1 / 1000000 : ℝ)
          GeneralizedExtremeValue.default 1 2 (1 / 2)).1.getParameter = [1, 2, 1 / 2]
      ∧ (GeneralizedExtremeValue.setMuSigmaXi (1 / 1000000 : ℝ)
          GeneralizedExtremeValue.default 1 0 (1 / 2)).2
        = some Exception.InvalidArgumentException
      ∧ (GeneralizedExtremeValue.setMuSigmaXi (1 / 1000000 : ℝ)
          GeneralizedExtremeValue.default 1 0 (1 / 2)).1 = GeneralizedExtremeValue.default
      ∧ (GeneralizedExtremeValue.setParameter (1 / 1000000 : ℝ)
          GeneralizedExtremeValue.default [1, 2]).2
        = some Exception.InvalidArgumentException := by
  have hx : (0 : ℝ) ≤ 1 / 1000000 := by norm_num
  have h2 : (2 : ℝ) > 0 := by norm_num
  have h0 : ¬ ((0 : ℝ) > 0) := lt_irrefl 0
  have ha := (setMuSigmaXi_rejects_iff (1 / 1000000 : ℝ) GeneralizedExtremeValue.default 1 2
    (1 / 2)).2.2 hx
  have hb := (setMuSigmaXi_rejects_iff (1 / 1000000 : ℝ) GeneralizedExtremeValue.default 1 0
    (1 / 2)).2.2 hx
  refine ⟨hx, ha.1.2.1.mpr h2, (ha.1.2.2.2 h2).2.2.2, hb.1.1.mpr h0, hb.1.2.2.1 h0, ?_⟩
  exact (ha.2.2.2.2.2 [1, 2]).1.mpr (Or.inl (by decide))

/-- C17: the direction of `AbdoRackwitz::run`.  For a solver whose gradient has the dimension
of its current point `u` and `normSquare` of the gradient `g` nonzero, the statements of
`run` set `lambda = (G(u) - G0 - dot(g, u)) / normSquare(g)` (with `G(u)` the stored level
value) and `d = -lambda * g - u`; the full-step point `u + d` equals `-lambda * g`,
satisfies the linearised constraint `G(u) + dot(g, d) = G0`, and has the least `normSquare`,
hence the least Euclidean norm for a monotone square root, among all points `v` of the same
dimension with `G(u) + dot(g, v - u) = G0`. -/
theorem direction_is_projection {K : Type} [LinearOrderedField K] (sqrt : K → K)
    (s : AbdoRackwitz K)
    (hlen : s.currentGradient_.length = s.currentPoint_.length)
    (hg : NumericalPoint.normSquare s.currentGradient_ ≠ 0) :
    (AbdoRackwitz.computeDirection s).currentLambda_
        = (s.currentLevelValue_ - s.problem.levelValue
            - dot s.currentGradient_ s.currentPoint_)
          / NumericalPoint.normSquare s.currentGradient_
      ∧ (AbdoRackwitz.computeDirection s).currentDirection_
        = NumericalPoint.sub
          (NumericalPoint.smul (-(AbdoRackwitz.computeDirection s).currentLambda_)
            s.currentGradient_)
          s.currentPoint_
      ∧ NumericalPoint.add s.currentPoint_ (AbdoRackwitz.computeDirection s).currentDirection_
        = NumericalPoint.smul (-(AbdoRackwitz.computeDirection s).currentLambda_)
          s.currentGradient_
      ∧ s.currentLevelValue_
          + dot s.currentGradient_ (AbdoRackwitz.computeDirection s).currentDirection_
        = s.problem.levelValue
      ∧ ∀ v : List K, v.length = s.currentPoint_.length →
          s.currentLevelValue_ + dot s.currentGradient_ (NumericalPoint.sub v s.currentPoint_)
            = s.problem.levelValue →
          NumericalPoint.normSquare (NumericalPoint.add s.currentPoint_
              (AbdoRackwitz.computeDirection s).currentDirection_)
            ≤ NumericalPoint.normSquare v
          ∧ ((∀ x y : K, x ≤ y → sqrt x ≤ sqrt y) →
            NumericalPoint.norm sqrt (NumericalPoint.add s.currentPoint_
                (AbdoRackwitz.computeDirection s).currentDirection_)
              ≤ NumericalPoint.norm sqrt v) := by
  obtain ⟨h1, h2, h3⟩ := abdoRackwitz_direction s hlen hg
  refine ⟨rfl, rfl, h1, h2, ?_⟩
  intro v hv hc
  exact ⟨h3 v hv hc, fun hmono => hmono _ _ (h3 v hv hc)⟩

/-- Witness of C17: the first iteration of Scenario A, `u = 0`, `g = (1, 2, -3, 4)`,
`G(u) = 0`, `G0 = 2`: the full-step point is `(1/15) * g`, of norm at most that of the point
`v = (2, 0, 0, 0)`, which satisfies the linearised constraint. -/
theorem direction_is_projection_witness :
    (AbdoRackwitz.evalGradient
        (AbdoRackwitz.runInit (scenarioA.abdoRackwitz (K := ℝ))).solver).currentGradient_.length
      = (AbdoRackwitz.evalGradient
        (AbdoRackwitz.runInit (scenarioA.abdoRackwitz (K := ℝ))).solver).currentPoint_.length
    ∧ NumericalPoint.normSquare (AbdoRackwitz.evalGradient
        (AbdoRackwitz.runInit (scenarioA.abdoRackwitz (K := ℝ))).solver).currentGradient_ ≠ 0
    ∧ NumericalPoint.add [0, 0, 0, 0]
        (AbdoRackwitz.computeDirection (AbdoRackwitz.evalGradient
          (AbdoRackwitz.runInit (scenarioA.abdoRackwitz (K := ℝ))).solver)).currentDirection_
      = [1 / 15, 2 / 15, -3 / 15, 4 / 15]
    ∧ NumericalPoint.norm Real.sqrt (NumericalPoint.add [0, 0, 0, 0]
        (AbdoRackwitz.computeDirection (AbdoRackwitz.evalGradient
          (AbdoRackwitz.runInit (scenarioA.abdoRackwitz (K := ℝ))).solver)).currentDirection_)
      ≤ NumericalPoint.norm Real.sqrt [2, 0, 0, 0] := by
  have hlen : (AbdoRackwitz.evalGradient
        (AbdoRackwitz.runInit (scenarioA.abdoRackwitz (K := ℝ))).solver).currentGradient_.length
      = (AbdoRackwitz.evalGradient
        (AbdoRackwitz.runInit (scenarioA.abdoRackwitz (K := ℝ))).solver).currentPoint_.length :=
    rfl
  have hg : NumericalPoint.normSquare (AbdoRackwitz.evalGradient
        (AbdoRackwitz.runInit (scenarioA.abdoRackwitz (K := ℝ))).solver).currentGradient_
      ≠ 0 := by
    show NumericalPoint.normSquare ([1, 2, -3, 4] : List ℝ) ≠ 0
    norm_num [NumericalPoint.normSquare, dot]
  have h := direction_is_projection Real.sqrt _ hlen hg
  refine ⟨hlen, hg, ?_, ?_⟩
  · simp only [AbdoRackwitz.computeDirection,
      AbdoRackwitz.evalGradient, AbdoRackwitz.runInit, AbdoRackwitz.new,
      AbdoRackwitz.initialise, scenarioA.abdoRackwitz, scenarioA.base, scenarioA.problem,
      scenarioA.levelFunction, NumericalPoint.normSquare, dot, NumericalPoint.get,
      NumericalPoint.add, NumericalPoint.smul, NumericalPoint.sub, List.zipWith_cons_cons,
      List.zipWith_nil_right, List.zipWith_nil_left, List.map_cons, List.map_nil,
      List.sum_cons, List.sum_nil, List.getD_cons_zero, List.getD_cons_succ]
    norm_num
  · refine (h.2.2.2.2 [2, 0, 0, 0] rfl ?_).2 (fun x y hxy => Real.sqrt_le_sqrt hxy)
    simp only [
      AbdoRackwitz.evalGradient, AbdoRackwitz.runInit, AbdoRackwitz.new,
      AbdoRackwitz.initialise, scenarioA.abdoRackwitz, scenarioA.base, scenarioA.problem,
      scenarioA.levelFunction, NumericalPoint.normSquare, dot, NumericalPoint.get,
      NumericalPoint.add, NumericalPoint.smul, NumericalPoint.sub, List.zipWith_cons_cons,
      List.zipWith_nil_right, List.zipWith_nil_left, List.map_cons, List.map_nil,
      List.sum_cons, List.sum_nil, List.getD_cons_zero, List.getD_cons_succ]
    norm_num

/-- C18: the system assembled by `SQP::run` at every iteration.  Let `rk` be the state after
`k` iterations of a run started from `s` (whose previous point has the dimension `n` of the
starting point, or a null norm), `lambda = rk.currentLambda_` the multiplier left by the
previous iteration (`0` for `k = 0`), `H = rk.currentHessian_` the stored Hessian, `u` the
current point and `g` the gradient evaluated by iteration `k + 1`.  The statements of that
iteration assemble a matrix `M` of dimension `n + 1`, symmetric, with
`M(i, j) = lambda * H(i, j)` for `i ≠ j < n`, `M(i, i) = lambda * H(i, i) + 2`,
`M(i, n) = M(n, i) = g[i]` and `M(n, n) = 0`, whatever the matrix held before, and a second
member `b` of dimension `n + 1` with `b[i] = -u[i]` and `b[n] = -(G(u) - G0)`; the first `n`
components of `solveLinearSystem(M, b)` become the direction and the last the new
`lambda`. -/
theorem system_assembly {K : Type} [LinearOrderedField K] (sqrt : K → K)
    (solveLinearSystem : SymmetricMatrix K → List K → List K) (fuel : Nat) (s : SQP K)
    (hold : s.oldPoint_.length = s.startingPoint.length
      ∨ NumericalPoint.norm sqrt s.oldPoint_ = 0)
    (k : Nat) (rk : SQP.RunState K)
    (hk : iterateBody (SQP.iteration sqrt solveLinearSystem fuel) (SQP.runInit s) k = some rk) :
    rk.solver.currentPoint_.length = s.startingPoint.length
      ∧ (k = 0 → rk.solver.currentLambda_ = 0)
      ∧ (SQP.evalGradient rk.solver).currentGradient_
        = s.problem.levelFunction.gradient rk.solver.currentPoint_
      ∧ (SQP.computeDirection solveLinearSystem
          (SQP.evalGradient rk.solver)).currentSystemMatrix_.dim = s.startingPoint.length + 1
      ∧ (∀ i j, (SQP.computeDirection solveLinearSystem
          (SQP.evalGradient rk.solver)).currentSystemMatrix_.get i j
          = (SQP.computeDirection solveLinearSystem
            (SQP.evalGradient rk.solver)).currentSystemMatrix_.get j i)
      ∧ (∀ i j, i < s.startingPoint.length → j < s.startingPoint.length → i ≠ j →
          (SQP.computeDirection solveLinearSystem
            (SQP.evalGradient rk.solver)).currentSystemMatrix_.get i j
          = rk.solver.currentLambda_ * rk.solver.currentHessian_.get i j)
      ∧ (∀ i, i < s.startingPoint.length →
          (SQP.computeDirection solveLinearSystem
            (SQP.evalGradient rk.solver)).currentSystemMatrix_.get i i
          = rk.solver.currentLambda_ * rk.solver.currentHessian_.get i i + 2)
      ∧ (∀ i, i < s.startingPoint.length →
          (SQP.computeDirection solveLinearSystem
            (SQP.evalGradient rk.solver)).currentSystemMatrix_.get i s.startingPoint.length
            = NumericalPoint.get (s.problem.levelFunction.gradient rk.solver.currentPoint_) i
          ∧ (SQP.computeDirection solveLinearSystem
            (SQP.evalGradient rk.solver)).currentSystemMatrix_.get s.startingPoint.length i
            = NumericalPoint.get (s.problem.levelFunction.gradient rk.solver.currentPoint_) i)
      ∧ (SQP.computeDirection solveLinearSystem
          (SQP.evalGradient rk.solver)).currentSystemMatrix_.get
            s.startingPoint.length s.startingPoint.length = 0
      ∧ (SQP.computeDirection solveLinearSystem
          (SQP.evalGradient rk.solver)).currentSecondMember_.length
        = s.startingPoint.length + 1
      ∧ (∀ i, i < s.startingPoint.length →
          NumericalPoint.get (SQP.computeDirection solveLinearSystem
            (SQP.evalGradient rk.solver)).currentSecondMember_ i
          = -(NumericalPoint.get rk.solver.currentPoint_ i))
      ∧ NumericalPoint.get (SQP.computeDirection solveLinearSystem
            (SQP.evalGradient rk.solver)).currentSecondMember_ s.startingPoint.length
        = -(rk.solver.currentLevelValue_ - s.problem.levelValue)
      ∧ (SQP.computeDirection solveLinearSystem
          (SQP.evalGradient rk.solver)).currentDirection_.length = s.startingPoint.length
      ∧ (∀ i, i < s.startingPoint.length →
          NumericalPoint.get (SQP.computeDirection solveLinearSystem
            (SQP.evalGradient rk.solver)).currentDirection_ i
          = NumericalPoint.get (solveLinearSystem
            (SQP.computeDirection solveLinearSystem
              (SQP.evalGradient rk.solver)).currentSystemMatrix_
            (SQP.computeDirection solveLinearSystem
              (SQP.evalGradient rk.solver)).currentSecondMember_) i)
      ∧ (SQP.computeDirection solveLinearSystem (SQP.evalGradient rk.solver)).currentLambda_
        = NumericalPoint.get (solveLinearSystem
            (SQP.computeDirection solveLinearSystem
              (SQP.evalGradient rk.solver)).currentSystemMatrix_
            (SQP.computeDirection solveLinearSystem
              (SQP.evalGradient rk.solver)).currentSecondMember_) s.startingPoint.length := by
  obtain ⟨hp, hd, hnn, hb, hdir, -⟩ :=
    sqp_iterateBody_dimensioned sqrt solveLinearSystem fuel s hold k rk hk
  have hprob : rk.solver.problem = s.problem := by
    have h := (sqp_iterateBody_problem sqrt solveLinearSystem fuel (SQP.runInit s) k rk hk)
    exact h
  obtain ⟨hdim, hoff, hdiag, hborder, hcorner⟩ := sqp_assembled_matrix (SQP.evalGradient rk.solver)
  have hpe : (SQP.evalGradient rk.solver).currentPoint_.length = s.startingPoint.length := hp
  rw [hpe] at hoff hdiag hborder hcorner
  obtain ⟨hbl, hbi, hbn⟩ := sqp_assembled_secondMember
    { SQP.evalGradient rk.solver with
      currentSystemMatrix_ := SQP.assembleSystemMatrix (SQP.evalGradient rk.solver) }
    rk.solver.problem.levelValue
    (by
      show rk.solver.currentSecondMember_.length = rk.solver.currentPoint_.length + 1
      rw [hb, hp])
  obtain ⟨hcl, hci⟩ := sqp_copied_direction
    { SQP.evalGradient rk.solver with
      currentSystemMatrix_ := SQP.assembleSystemMatrix (SQP.evalGradient rk.solver)
      currentSecondMember_ := SQP.assembleSecondMember
        { SQP.evalGradient rk.solver with
          currentSystemMatrix_ := SQP.assembleSystemMatrix (SQP.evalGradient rk.solver) }
        rk.solver.problem.levelValue }
    (solveLinearSystem (SQP.assembleSystemMatrix (SQP.evalGradient rk.solver))
      (SQP.assembleSecondMember
        { SQP.evalGradient rk.solver with
          currentSystemMatrix_ := SQP.assembleSystemMatrix (SQP.evalGradient rk.solver) }
        rk.solver.problem.levelValue))
    (by
      show rk.solver.currentDirection_.length = rk.solver.currentPoint_.length
      rw [hdir, hp])
  have hg : (SQP.evalGradient rk.solver).currentGradient_
      = s.problem.levelFunction.gradient rk.solver.currentPoint_ := by
    show rk.solver.problem.levelFunction.gradient rk.solver.currentPoint_ = _
    rw [hprob]
  refine ⟨hp, ?_, hg, ?_, fun i j => symmetricMatrix_get_comm _ i j, hoff, hdiag, ?_, ?_, ?_,
    ?_, ?_, ?_, ?_, ?_⟩
  · intro h0
    subst h0
    have h1 : some (SQP.runInit s) = some rk := hk
    simp only [Option.some.injEq] at h1
    subst h1
    rfl
  · show (SQP.assembleSystemMatrix (SQP.evalGradient rk.solver)).dim = _
    rw [hdim]
    exact hd
  · intro i hi
    rw [← hg]
    exact hborder i hi
  · show (SQP.assembleSystemMatrix (SQP.evalGradient rk.solver)).get _ _ = 0
    rw [hcorner]
    exact hnn
  · rw [← hp]
    exact hbl
  · intro i hi
    exact hbi i (by rw [← hp] at hi; exact hi)
  · rw [← hprob, ← hp]
    exact hbn
  · rw [← hp]
    exact hcl
  · intro i hi
    exact hci i (by rw [← hp] at hi; exact hi)
  · rw [← hp]
    rfl

/-- Witness of C18: Scenario A with an exact solver and a freshly constructed `SQP` solver,
whose previous point has a null norm: after one iteration, the matrix assembled by the
second iteration has dimension `5`, the diagonal entry `lambda * H(0, 0) + 2`, the border
entry `g[0]` and a null corner. -/
theorem system_assembly_witness :
    ∃ solveLinearSystem : SymmetricMatrix ℝ → List ℝ → List ℝ,
      ExactSolver solveLinearSystem
      ∧ NumericalPoint.norm Real.sqrt (scenarioA.sqp (K := ℝ)).oldPoint_ = 0
      ∧ ∃ r1, iterateBody (SQP.iteration Real.sqrt solveLinearSystem 10)
            (SQP.runInit scenarioA.sqp) 1 = some r1
        ∧ (SQP.computeDirection solveLinearSystem
            (SQP.evalGradient r1.solver)).currentSystemMatrix_.dim = 5
        ∧ (SQP.computeDirection solveLinearSystem
            (SQP.evalGradient r1.solver)).currentSystemMatrix_.get 0 0
          = r1.solver.currentLambda_ * r1.solver.currentHessian_.get 0 0 + 2
        ∧ (SQP.computeDirection solveLinearSystem
            (SQP.evalGradient r1.solver)).currentSystemMatrix_.get 0 4
          = NumericalPoint.get
            ((scenarioA.sqp (K := ℝ)).problem.levelFunction.gradient r1.solver.currentPoint_) 0
        ∧ (SQP.computeDirection solveLinearSystem
            (SQP.evalGradient r1.solver)).currentSystemMatrix_.get 4 4 = 0 := by
  obtain ⟨solveLinearSystem, hs⟩ := exactSolver_exists (K := ℝ)
  have hn : NumericalPoint.norm Real.sqrt (scenarioA.sqp (K := ℝ)).oldPoint_ = 0 := by
    show Real.sqrt (NumericalPoint.normSquare ([] : List ℝ)) = 0
    simp [NumericalPoint.normSquare, dot]
  obtain ⟨r1, hr1⟩ := sqp_iteration_isSome Real.sqrt solveLinearSystem 10
    (SQP.runInit (scenarioA.sqp (K := ℝ)))
    (by show (0 : ℝ) < 1 / 2; norm_num) (by show (1 / 2 : ℝ) < 1; norm_num) (le_refl 10)
  have hk : iterateBody (SQP.iteration Real.sqrt solveLinearSystem 10)
      (SQP.runInit scenarioA.sqp) 1 = some r1 := hr1
  have h := system_assembly Real.sqrt solveLinearSystem 10 scenarioA.sqp (Or.inr hn) 1 r1 hk
  refine ⟨solveLinearSystem, hs, hn, r1, hk, h.2.2.2.1, ?_, ?_, h.2.2.2.2.2.2.2.2.1⟩
  · exact h.2.2.2.2.2.2.1 0 (by show 0 < 4; norm_num)
  · exact (h.2.2.2.2.2.2.2.1 0 (by show 0 < 4; norm_num)).1

/-- C19, the code at the failing input: `SQP` on `G(u) = u1 ^ 3`, `G0 = 4`, started at `(1)`,
with an exact solver.  The first iteration ends at the point `(3/2)` without convergence, so
a second iteration is performed; the Hessian of the level function at `(3/2)` is `(9)`, but
the stored Hessian is still `(6)`, the one evaluated before the loop at the starting point,
and the second iteration assembles the system from it: the entry `(0, 0)` is
`lambda * 6 + 2 = -4`, not `lambda * 9 + 2 = -7`. -/
theorem hessian_evaluated_once (solveLinearSystem : SymmetricMatrix ℝ → List ℝ → List ℝ)
    (hs : ExactSolver solveLinearSystem) :
    ∃ r1, SQP.iteration Real.sqrt solveLinearSystem 10 (SQP.runInit scenarioCubic.sqp)
        = some r1
      ∧ r1.thrown = none ∧ r1.convergence = false
      ∧ r1.iterationNumber ≤ r1.solver.maximumIterationsNumber
      ∧ r1.solver.currentPoint_ = [3 / 2]
      ∧ r1.solver.currentLambda_ = -1
      ∧ (r1.solver.problem.levelFunction.hessian r1.solver.currentPoint_).get 0 0 = 9
      ∧ r1.solver.currentHessian_
        = (scenarioCubic.sqp (K := ℝ)).problem.levelFunction.hessian
          (scenarioCubic.sqp (K := ℝ)).startingPoint
      ∧ r1.solver.currentHessian_.get 0 0 = 6
      ∧ (SQP.computeDirection solveLinearSystem
          (SQP.evalGradient r1.solver)).currentSystemMatrix_.get 0 0 = -4 := by
  obtain ⟨r1, hr1, hth, hp, hl, hc⟩ := sqp_scenarioCubic_iteration solveLinearSystem hs
  have hH : r1.solver.currentHessian_
      = (scenarioCubic.sqp (K := ℝ)).problem.levelFunction.hessian
        (scenarioCubic.sqp (K := ℝ)).startingPoint :=
    sqp_iterateBody_hessian Real.sqrt solveLinearSystem 10 scenarioCubic.sqp 1 r1 hr1
  obtain ⟨hn, -, -, hm, hprob, -⟩ :=
    sqp_iteration_frame Real.sqrt solveLinearSystem 10 _ r1 hr1
  have hH6 : r1.solver.currentHessian_.get 0 0 = 6 := by
    rw [hH]
    simp [scenarioCubic.sqp, SQP.new, SQP.initialise, scenarioCubic.base,
      scenarioCubic.problem, scenarioCubic.levelFunction, SymmetricMatrix.get,
      NumericalPoint.get]
  refine ⟨r1, hr1, hth, hc, ?_, hp, hl, ?_, hH, hH6, ?_⟩
  · rw [hn, hm]
    show 0 + 1 ≤ 100
    norm_num
  · rw [hprob, hp]
    simp [SQP.runInit, scenarioCubic.sqp, SQP.new, SQP.initialise, scenarioCubic.base,
      scenarioCubic.problem, scenarioCubic.levelFunction, SymmetricMatrix.get,
      NumericalPoint.get]
    norm_num
  · have hd := (sqp_assembled_matrix (SQP.evalGradient r1.solver)).2.2.1 0
      (by
        show 0 < r1.solver.currentPoint_.length
        rw [hp]
        exact Nat.zero_lt_one)
    have hd' : (SQP.computeDirection solveLinearSystem
        (SQP.evalGradient r1.solver)).currentSystemMatrix_.get 0 0
        = r1.solver.currentLambda_ * r1.solver.currentHessian_.get 0 0 + 2 := hd
    rw [hd', hl, hH6]
    norm_num

/-- Witness of C19: an exact solver, and the run on `G(u) = u1 ^ 3` that it gives. -/
theorem hessian_evaluated_once_witness :
    ∃ solveLinearSystem : SymmetricMatrix ℝ → List ℝ → List ℝ,
      ExactSolver solveLinearSystem
      ∧ ∃ r1, SQP.iteration Real.sqrt solveLinearSystem 10 (SQP.runInit scenarioCubic.sqp)
          = some r1
        ∧ r1.solver.currentPoint_ = [3 / 2]
        ∧ (r1.solver.problem.levelFunction.hessian r1.solver.currentPoint_).get 0 0 = 9
        ∧ r1.solver.currentHessian_.get 0 0 = 6 := by
  obtain ⟨solveLinearSystem, hs⟩ := exactSolver_exists (K := ℝ)
  obtain ⟨r1, hr1, -, -, -, hp, -, h9, -, h6, -⟩ := hessian_evaluated_once solveLinearSystem hs
  exact ⟨solveLinearSystem, hs, r1, hr1, hp, h9, h6⟩

/-- C20, counterexample: the first iteration of `SQP` on `G(u) = u1`, `G0 = 0`, from the
point `u = (1)`, where `g = (1)`, `H = 0` and `lambda = 0`.  The assembled system
`2 d + mu = -1`, `d = -1` is nonsingular, its only solution is `(d, mu) = (-1, 1)`, which
every exact solver returns and `run` copies into the direction and the multiplier; the
claimed equation `(2 I + lambda H) d + mu g = -2 u` fails for it: `2 * (-1) + 1 = -1`, not
`-2`. -/
theorem kkt_counterexample :
    IsSolution
        (SQP.assembleSystemMatrix (SQP.evalGradient
          (SQP.runInit (scenarioOrigin.sqp (K := ℝ))).solver))
        (SQP.assembleSecondMember
          { SQP.evalGradient (SQP.runInit (scenarioOrigin.sqp (K := ℝ))).solver with
            currentSystemMatrix_ := SQP.assembleSystemMatrix (SQP.evalGradient
              (SQP.runInit (scenarioOrigin.sqp (K := ℝ))).solver) }
          (scenarioOrigin.sqp (K := ℝ)).problem.levelValue)
        [-1, 1]
      ∧ (∀ y, IsSolution
          (SQP.assembleSystemMatrix (SQP.evalGradient
            (SQP.runInit (scenarioOrigin.sqp (K := ℝ))).solver))
          (SQP.assembleSecondMember
            { SQP.evalGradient (SQP.runInit (scenarioOrigin.sqp (K := ℝ))).solver with
              currentSystemMatrix_ := SQP.assembleSystemMatrix (SQP.evalGradient
                (SQP.runInit (scenarioOrigin.sqp (K := ℝ))).solver) }
            (scenarioOrigin.sqp (K := ℝ)).problem.levelValue) y → y = [-1, 1])
      ∧ (∀ solveLinearSystem : SymmetricMatrix ℝ → List ℝ → List ℝ,
          ExactSolver solveLinearSystem →
          (SQP.computeDirection solveLinearSystem (SQP.evalGradient
            (SQP.runInit (scenarioOrigin.sqp (K := ℝ))).solver)).currentDirection_ = [-1]
          ∧ (SQP.computeDirection solveLinearSystem (SQP.evalGradient
            (SQP.runInit (scenarioOrigin.sqp (K := ℝ))).solver)).currentLambda_ = 1)
      ∧ (SQP.evalGradient (SQP.runInit (scenarioOrigin.sqp (K := ℝ))).solver).currentPoint_
        = [1]
      ∧ (SQP.evalGradient (SQP.runInit (scenarioOrigin.sqp (K := ℝ))).solver).currentGradient_
        = [1]
      ∧ (SQP.evalGradient (SQP.runInit (scenarioOrigin.sqp (K := ℝ))).solver).currentLambda_
        = 0
      ∧ ¬ (2 * (-1 : ℝ)
          + (SQP.evalGradient (SQP.runInit (scenarioOrigin.sqp (K := ℝ))).solver).currentLambda_
            * ((SQP.evalGradient
                (SQP.runInit (scenarioOrigin.sqp (K := ℝ))).solver).currentHessian_.get 0 0
              * (-1))
          + 1 * NumericalPoint.get (SQP.evalGradient
              (SQP.runInit (scenarioOrigin.sqp (K := ℝ))).solver).currentGradient_ 0
          = -2 * NumericalPoint.get (SQP.evalGradient
              (SQP.runInit (scenarioOrigin.sqp (K := ℝ))).solver).currentPoint_ 0) := by
  obtain ⟨-, hb, hsol, huniq⟩ := sqp_scenarioOrigin_system
  have hlv : (scenarioOrigin.sqp (K := ℝ)).problem.levelValue = 0 := rfl
  have r1 : List.range 1 = [0] := rfl
  rw [hlv, hb]
  refine ⟨hsol, huniq, ?_, rfl, rfl, rfl, ?_⟩
  · intro solveLinearSystem hs
    have hx := hs _ _ _ hsol huniq
    have hlv2 : (SQP.evalGradient
        (SQP.runInit (scenarioOrigin.sqp (K := ℝ))).solver).problem.levelValue = 0 := rfl
    unfold SQP.computeDirection
    simp only [hlv2, hb, hx]
    simp [SQP.copyDirection, SQP.evalGradient, SQP.runInit, SQP.new, SQP.initialise,
      scenarioOrigin.base, scenarioOrigin.abdoRackwitz, scenarioOrigin.sqp, r1,
      NumericalPoint.get, NumericalPoint.zero, List.replicate]
  · show ¬ (2 * (-1 : ℝ) + 0 * ((SymmetricMatrix.zero (K := ℝ) 1).get 0 0 * (-1))
      + 1 * NumericalPoint.get [(1 : ℝ)] 0 = -2 * NumericalPoint.get [(1 : ℝ)] 0)
    simp [NumericalPoint.get]

/-- C20, amended: the step of `SQP::run` solves the assembled system, whose second member is
`-u`, not `-2 u`.  Let `rk` be the state after `k` iterations of a run started from `s` (whose
previous point has the dimension `n` of the starting point, or a null norm), with the gradient
`g` at the current point `u` of dimension `n`, `lambda = rk.currentLambda_`,
`H = rk.currentHessian_`.  If the system assembled by the next iteration is nonsingular, with
the solution `x`, and the solver is exact, then the computed direction `d` and the new
multiplier `mu` satisfy `2 d[i] + lambda * (H d)[i] + mu * g[i] = -u[i]` for every `i < n`,
that is `(2 I + lambda H) d + mu g = -u`, and `dot(g, d) = G0 - G(u)`, with `G(u)` the stored
level value. -/
theorem step_solves_assembled_system {K : Type} [LinearOrderedField K] (sqrt : K → K)
    (solveLinearSystem : SymmetricMatrix K → List K → List K) (fuel : Nat) (s : SQP K)
    (hold : s.oldPoint_.length = s.startingPoint.length
      ∨ NumericalPoint.norm sqrt s.oldPoint_ = 0)
    (k : Nat) (rk : SQP.RunState K)
    (hk : iterateBody (SQP.iteration sqrt solveLinearSystem fuel) (SQP.runInit s) k = some rk)
    (hg : (s.problem.levelFunction.gradient rk.solver.currentPoint_).length
      = s.startingPoint.length)
    (hs : ExactSolver solveLinearSystem) (x : List K)
    (hx : IsSolution
      (SQP.computeDirection solveLinearSystem (SQP.evalGradient rk.solver)).currentSystemMatrix_
      (SQP.computeDirection solveLinearSystem (SQP.evalGradient rk.solver)).currentSecondMember_
      x)
    (hu : ∀ y, IsSolution
      (SQP.computeDirection solveLinearSystem (SQP.evalGradient rk.solver)).currentSystemMatrix_
      (SQP.computeDirection solveLinearSystem (SQP.evalGradient rk.solver)).currentSecondMember_
      y → y = x) :
    (∀ i, i < s.startingPoint.length →
      2 * NumericalPoint.get (SQP.computeDirection solveLinearSystem
            (SQP.evalGradient rk.solver)).currentDirection_ i
        + rk.solver.currentLambda_ * ((List.range s.startingPoint.length).map
            (fun j => rk.solver.currentHessian_.get i j
              * NumericalPoint.get (SQP.computeDirection solveLinearSystem
                  (SQP.evalGradient rk.solver)).currentDirection_ j)).sum
        + (SQP.computeDirection solveLinearSystem (SQP.evalGradient rk.solver)).currentLambda_
          * NumericalPoint.get (s.problem.levelFunction.gradient rk.solver.currentPoint_) i
      = -(NumericalPoint.get rk.solver.currentPoint_ i))
    ∧ dot (s.problem.levelFunction.gradient rk.solver.currentPoint_)
        (SQP.computeDirection solveLinearSystem (SQP.evalGradient rk.solver)).currentDirection_
      = s.problem.levelValue - rk.solver.currentLevelValue_ := by
  obtain ⟨hp, hd, hnn, hb, hdir, -⟩ :=
    sqp_iterateBody_dimensioned sqrt solveLinearSystem fuel s hold k rk hk
  have hprob : rk.solver.problem = s.problem :=
    sqp_iterateBody_problem sqrt solveLinearSystem fuel (SQP.runInit s) k rk hk
  have hsol : solveLinearSystem
      (SQP.computeDirection solveLinearSystem (SQP.evalGradient rk.solver)).currentSystemMatrix_
      (SQP.computeDirection solveLinearSystem (SQP.evalGradient rk.solver)).currentSecondMember_
      = x := hs _ _ x hx hu
  have hgrad : (SQP.evalGradient rk.solver).currentGradient_
      = s.problem.levelFunction.gradient rk.solver.currentPoint_ := by
    show rk.solver.problem.levelFunction.gradient rk.solver.currentPoint_ = _
    rw [hprob]
  obtain ⟨hrows, hlast⟩ := sqp_system_rows (SQP.evalGradient rk.solver)
    rk.solver.problem.levelValue x
    (by show rk.solver.currentSystemMatrix_.dim = rk.solver.currentPoint_.length + 1
        rw [hd, hp])
    (by show rk.solver.currentSystemMatrix_.get rk.solver.currentPoint_.length
          rk.solver.currentPoint_.length = 0
        rw [hp]; exact hnn)
    (by show rk.solver.currentSecondMember_.length = rk.solver.currentPoint_.length + 1
        rw [hb, hp])
    hx
  obtain ⟨hcl, hci⟩ := sqp_copied_direction
    { SQP.evalGradient rk.solver with
      currentSystemMatrix_ := SQP.assembleSystemMatrix (SQP.evalGradient rk.solver)
      currentSecondMember_ := SQP.assembleSecondMember
        { SQP.evalGradient rk.solver with
          currentSystemMatrix_ := SQP.assembleSystemMatrix (SQP.evalGradient rk.solver) }
        rk.solver.problem.levelValue }
    (solveLinearSystem
      (SQP.computeDirection solveLinearSystem (SQP.evalGradient rk.solver)).currentSystemMatrix_
      (SQP.computeDirection solveLinearSystem (SQP.evalGradient rk.solver)).currentSecondMember_)
    (by
      show rk.solver.currentDirection_.length = rk.solver.currentPoint_.length
      rw [hdir, hp])
  have hpe : (SQP.evalGradient rk.solver).currentPoint_.length = s.startingPoint.length := hp
  rw [hpe, hgrad] at hrows hlast
  have hlamx : (SQP.computeDirection solveLinearSystem
      (SQP.evalGradient rk.solver)).currentLambda_
      = NumericalPoint.get x s.startingPoint.length := by
    have h1 : (SQP.computeDirection solveLinearSystem
        (SQP.evalGradient rk.solver)).currentLambda_
        = NumericalPoint.get (solveLinearSystem
          (SQP.computeDirection solveLinearSystem
            (SQP.evalGradient rk.solver)).currentSystemMatrix_
          (SQP.computeDirection solveLinearSystem
            (SQP.evalGradient rk.solver)).currentSecondMember_)
          rk.solver.currentPoint_.length := rfl
    rw [h1, hsol, hp]
  have hdi : ∀ i, i < s.startingPoint.length →
      NumericalPoint.get (SQP.computeDirection solveLinearSystem
        (SQP.evalGradient rk.solver)).currentDirection_ i = NumericalPoint.get x i := by
    intro i hi
    have h1 : NumericalPoint.get (SQP.computeDirection solveLinearSystem
        (SQP.evalGradient rk.solver)).currentDirection_ i
        = NumericalPoint.get (solveLinearSystem
          (SQP.computeDirection solveLinearSystem
            (SQP.evalGradient rk.solver)).currentSystemMatrix_
          (SQP.computeDirection solveLinearSystem
            (SQP.evalGradient rk.solver)).currentSecondMember_) i :=
      hci i (by rw [← hp] at hi; exact hi)
    rw [h1, hsol]
  have hdl : (SQP.computeDirection solveLinearSystem
      (SQP.evalGradient rk.solver)).currentDirection_.length = s.startingPoint.length := by
    rw [← hp]
    exact hcl
  have hrows' : ∀ i, i < s.startingPoint.length →
      2 * NumericalPoint.get x i
        + rk.solver.currentLambda_ * ((List.range s.startingPoint.length).map
            (fun j => rk.solver.currentHessian_.get i j * NumericalPoint.get x j)).sum
        + NumericalPoint.get x s.startingPoint.length
          * NumericalPoint.get (s.problem.levelFunction.gradient rk.solver.currentPoint_) i
      = -(NumericalPoint.get rk.solver.currentPoint_ i) := hrows
  have hlast' : ((List.range s.startingPoint.length).map
      (fun j => NumericalPoint.get (s.problem.levelFunction.gradient rk.solver.currentPoint_) j
        * NumericalPoint.get x j)).sum
      = -(rk.solver.currentLevelValue_ - rk.solver.problem.levelValue) := hlast
  constructor
  · intro i hi
    have hsum : ((List.range s.startingPoint.length).map
        (fun j => rk.solver.currentHessian_.get i j
          * NumericalPoint.get (SQP.computeDirection solveLinearSystem
              (SQP.evalGradient rk.solver)).currentDirection_ j)).sum
        = ((List.range s.startingPoint.length).map
        (fun j => rk.solver.currentHessian_.get i j * NumericalPoint.get x j)).sum := by
      apply sum_range_congr
      intro j hj
      rw [hdi j hj]
    rw [hdi i hi, hlamx, hsum]
    exact hrows' i hi
  · rw [dot_eq_sum_range _ _ _ hg hdl]
    have hc : ((List.range s.startingPoint.length).map
        (fun j => NumericalPoint.get (s.problem.levelFunction.gradient rk.solver.currentPoint_) j
          * NumericalPoint.get (SQP.computeDirection solveLinearSystem
            (SQP.evalGradient rk.solver)).currentDirection_ j)).sum
        = ((List.range s.startingPoint.length).map
        (fun j => NumericalPoint.get (s.problem.levelFunction.gradient rk.solver.currentPoint_) j
          * NumericalPoint.get x j)).sum := by
      apply sum_range_congr
      intro j hj
      rw [hdi j hj]
    rw [hc, hlast', hprob]
    ring

/-- Witness of C20, amended: the first iteration of `SQP` on `G(u) = u1`, `G0 = 0`, from the
point `(1)`, with an exact solver; the assembled system has the only solution `(-1, 1)`, and
the computed step satisfies `2 d + mu = -1` and `dot(g, d) = 0 - 1`. -/
theorem step_solves_assembled_system_witness :
    ∃ solveLinearSystem : SymmetricMatrix ℝ → List ℝ → List ℝ,
      ExactSolver solveLinearSystem
      ∧ IsSolution
        (SQP.computeDirection solveLinearSystem (SQP.evalGradient
          (SQP.runInit (scenarioOrigin.sqp (K := ℝ))).solver)).currentSystemMatrix_
        (SQP.computeDirection solveLinearSystem (SQP.evalGradient
          (SQP.runInit (scenarioOrigin.sqp (K := ℝ))).solver)).currentSecondMember_
        [-1, 1]
      ∧ (∀ i, i < 1 →
        2 * NumericalPoint.get (SQP.computeDirection solveLinearSystem (SQP.evalGradient
              (SQP.runInit (scenarioOrigin.sqp (K := ℝ))).solver)).currentDirection_ i
          + (SQP.runInit (scenarioOrigin.sqp (K := ℝ))).solver.currentLambda_
            * ((List.range 1).map
              (fun j => (SQP.runInit (scenarioOrigin.sqp (K := ℝ))).solver.currentHessian_.get i j
                * NumericalPoint.get (SQP.computeDirection solveLinearSystem (SQP.evalGradient
                    (SQP.runInit (scenarioOrigin.sqp (K := ℝ))).solver)).currentDirection_ j)).sum
          + (SQP.computeDirection solveLinearSystem (SQP.evalGradient
              (SQP.runInit (scenarioOrigin.sqp (K := ℝ))).solver)).currentLambda_
            * NumericalPoint.get [(1 : ℝ)] i
        = -(NumericalPoint.get [(1 : ℝ)] i))
      ∧ dot [(1 : ℝ)]
          (SQP.computeDirection solveLinearSystem (SQP.evalGradient
            (SQP.runInit (scenarioOrigin.sqp (K := ℝ))).solver)).currentDirection_
        = 0 - 1 := by
  obtain ⟨solveLinearSystem, hs⟩ := exactSolver_exists (K := ℝ)
  obtain ⟨-, hb, hsol, huniq⟩ := sqp_scenarioOrigin_system
  have hn : NumericalPoint.norm Real.sqrt (scenarioOrigin.sqp (K := ℝ)).oldPoint_ = 0 := by
    show Real.sqrt (NumericalPoint.normSquare ([] : List ℝ)) = 0
    simp [NumericalPoint.normSquare, dot]
  have hb' : (SQP.computeDirection solveLinearSystem (SQP.evalGradient
      (SQP.runInit (scenarioOrigin.sqp (K := ℝ))).solver)).currentSecondMember_ = [-1, -1] := hb
  have hx : IsSolution
      (SQP.computeDirection solveLinearSystem (SQP.evalGradient
        (SQP.runInit (scenarioOrigin.sqp (K := ℝ))).solver)).currentSystemMatrix_
      (SQP.computeDirection solveLinearSystem (SQP.evalGradient
        (SQP.runInit (scenarioOrigin.sqp (K := ℝ))).solver)).currentSecondMember_
      [-1, 1] := by
    rw [hb']
    exact hsol
  have hu : ∀ y, IsSolution
      (SQP.computeDirection solveLinearSystem (SQP.evalGradient
        (SQP.runInit (scenarioOrigin.sqp (K := ℝ))).solver)).currentSystemMatrix_
      (SQP.computeDirection solveLinearSystem (SQP.evalGradient
        (SQP.runInit (scenarioOrigin.sqp (K := ℝ))).solver)).currentSecondMember_
      y → y = [-1, 1] := by
    rw [hb']
    exact huniq
  have h := step_solves_assembled_system Real.sqrt solveLinearSystem 10 scenarioOrigin.sqp
    (Or.inr hn) 0 (SQP.runInit scenarioOrigin.sqp) rfl rfl hs [-1, 1] hx hu
  exact ⟨solveLinearSystem, hs, hx, h.1, h.2⟩

/-- C21, counterexample: the `AbdoRackwitz` state at the feasible point `(0)` of `G(u) = u1`,
`G0 = 0`, with the gradient `(1)`, the direction `(1)`, `omega = 9/10`, `smooth = 6/5` and
`sigma = 0` on entry.  The stored level value is `G(u) = G0 = 0` and the updated `sigma` is
`1`.  The threshold of the code is `omega * dot(u - sigma * gradient, direction) = -9/10`,
the factor of the gradient being `-1`; with the mathematical sign, `sign(0) = 0`, the claimed
threshold is `omega * dot(u, direction) = 0`. -/
theorem threshold_sign_counterexample :
    (scenarioOrigin.atFeasiblePoint (9 / 10 : ℝ)).currentLevelValue_
        = (scenarioOrigin.atFeasiblePoint (9 / 10 : ℝ)).problem.levelFunction.eval
          (scenarioOrigin.atFeasiblePoint (9 / 10 : ℝ)).currentPoint_
      ∧ (scenarioOrigin.atFeasiblePoint (9 / 10 : ℝ)).currentLevelValue_
        = (scenarioOrigin.atFeasiblePoint (9 / 10 : ℝ)).problem.levelValue
      ∧ AbdoRackwitz.sigmaUpdate Real.sqrt (scenarioOrigin.atFeasiblePoint (9 / 10 : ℝ)) = 1
      ∧ AbdoRackwitz.levelIncrement Real.sqrt (scenarioOrigin.atFeasiblePoint (9 / 10 : ℝ))
        = -(9 / 10)
      ∧ (scenarioOrigin.atFeasiblePoint (9 / 10 : ℝ)).omega_
          * dot (NumericalPoint.add (scenarioOrigin.atFeasiblePoint (9 / 10 : ℝ)).currentPoint_
              (NumericalPoint.smul
                (AbdoRackwitz.sigmaUpdate Real.sqrt (scenarioOrigin.atFeasiblePoint (9 / 10 : ℝ))
                  * ((SignType.sign
                      ((scenarioOrigin.atFeasiblePoint (9 / 10 : ℝ)).currentLevelValue_
                        - (scenarioOrigin.atFeasiblePoint (9 / 10 : ℝ)).problem.levelValue)
                      : SignType) : ℝ))
                (scenarioOrigin.atFeasiblePoint (9 / 10 : ℝ)).currentGradient_))
            (scenarioOrigin.atFeasiblePoint (9 / 10 : ℝ)).currentDirection_
        = 0
      ∧ AbdoRackwitz.levelIncrement Real.sqrt (scenarioOrigin.atFeasiblePoint (9 / 10 : ℝ))
        ≠ (scenarioOrigin.atFeasiblePoint (9 / 10 : ℝ)).omega_
          * dot (NumericalPoint.add (scenarioOrigin.atFeasiblePoint (9 / 10 : ℝ)).currentPoint_
              (NumericalPoint.smul
                (AbdoRackwitz.sigmaUpdate Real.sqrt (scenarioOrigin.atFeasiblePoint (9 / 10 : ℝ))
                  * ((SignType.sign
                      ((scenarioOrigin.atFeasiblePoint (9 / 10 : ℝ)).currentLevelValue_
                        - (scenarioOrigin.atFeasiblePoint (9 / 10 : ℝ)).problem.levelValue)
                      : SignType) : ℝ))
                (scenarioOrigin.atFeasiblePoint (9 / 10 : ℝ)).currentGradient_))
            (scenarioOrigin.atFeasiblePoint (9 / 10 : ℝ)).currentDirection_ := by
  have hsig : AbdoRackwitz.sigmaUpdate Real.sqrt (scenarioOrigin.atFeasiblePoint (9 / 10 : ℝ))
      = 1 := by
    simp only [AbdoRackwitz.sigmaUpdate, scenarioOrigin.atFeasiblePoint,
      scenarioOrigin.atLineSearch, AbdoRackwitz.computeDirection,
      AbdoRackwitz.evalGradient, AbdoRackwitz.runInit, AbdoRackwitz.new,
      AbdoRackwitz.initialise, scenarioOrigin.base, scenarioOrigin.problem,
      scenarioOrigin.levelFunction, NumericalPoint.norm, NumericalPoint.normSquare, dot,
      List.zipWith_cons_cons, List.zipWith_nil_right, List.map_cons, List.map_nil,
      List.sum_cons, List.sum_nil]
    norm_num
  have hli : AbdoRackwitz.levelIncrement Real.sqrt (scenarioOrigin.atFeasiblePoint (9 / 10 : ℝ))
      = -(9 / 10) := by
    rw [AbdoRackwitz.levelIncrement, hsig]
    simp [scenarioOrigin.atFeasiblePoint, scenarioOrigin.atLineSearch,
      AbdoRackwitz.computeDirection,
      AbdoRackwitz.evalGradient, AbdoRackwitz.runInit, AbdoRackwitz.new,
      AbdoRackwitz.initialise, scenarioOrigin.base, scenarioOrigin.problem,
      scenarioOrigin.levelFunction, NumericalPoint.normSquare, dot, NumericalPoint.get,
      NumericalPoint.add, NumericalPoint.smul, NumericalPoint.sub]
  have hspec : (scenarioOrigin.atFeasiblePoint (9 / 10 : ℝ)).omega_
      * dot (NumericalPoint.add (scenarioOrigin.atFeasiblePoint (9 / 10 : ℝ)).currentPoint_
          (NumericalPoint.smul
            (AbdoRackwitz.sigmaUpdate Real.sqrt (scenarioOrigin.atFeasiblePoint (9 / 10 : ℝ))
              * ((SignType.sign
                  ((scenarioOrigin.atFeasiblePoint (9 / 10 : ℝ)).currentLevelValue_
                    - (scenarioOrigin.atFeasiblePoint (9 / 10 : ℝ)).problem.levelValue)
                  : SignType) : ℝ))
            (scenarioOrigin.atFeasiblePoint (9 / 10 : ℝ)).currentGradient_))
        (scenarioOrigin.atFeasiblePoint (9 / 10 : ℝ)).currentDirection_
      = 0 := by
    rw [hsig]
    simp [scenarioOrigin.atFeasiblePoint, scenarioOrigin.atLineSearch,
      AbdoRackwitz.computeDirection,
      AbdoRackwitz.evalGradient, AbdoRackwitz.runInit, AbdoRackwitz.new,
      AbdoRackwitz.initialise, scenarioOrigin.base, scenarioOrigin.problem,
      scenarioOrigin.levelFunction, NumericalPoint.normSquare, dot, NumericalPoint.get,
      NumericalPoint.add, NumericalPoint.smul, NumericalPoint.sub]
  refine ⟨?_, rfl, hsig, hli, hspec, ?_⟩
  · show (0 : ℝ) = NumericalPoint.get [(0 : ℝ)] 0
    rfl
  · rw [hli, hspec]
    norm_num

/-- C21, amended: the sufficient-decrease threshold, for both solvers and every state.  The
backtracking loop of `computeLineSearch` is run with the threshold
`Delta = omega * dot(u + sigma * s * gradient, direction)`, where `sigma` is the updated
penalty weight `max(sigma + 1, smooth * norm(u) / norm(gradient))` and the factor `s` is `1`
when the stored level value is greater than `G0` and `-1` otherwise.  When the stored level
value differs from `G0`, `s` is the sign of their difference; at a feasible point `s = -1`,
not `0`, so that `Delta = omega * dot(u - sigma * gradient, direction)`, which for points of
the same dimension is `omega * (dot(u, direction) - sigma * dot(gradient, direction))`. -/
theorem threshold_two_valued_sign {K : Type} [LinearOrderedField K] (sqrt : K → K)
    (fuel : Nat) :
    (∀ s : AbdoRackwitz K,
      (AbdoRackwitz.computeLineSearch sqrt fuel s).map (fun p => p.1)
          = (AbdoRackwitz.lineSearchLoop s s.problem.levelValue
              (AbdoRackwitz.sigmaUpdate sqrt s) (AbdoRackwitz.currentTheta sqrt s) (s.tau_ ^ 9)
              (AbdoRackwitz.levelIncrement sqrt s) fuel 1).map (fun r => r.step / s.tau_)
        ∧ AbdoRackwitz.levelIncrement sqrt s
          = s.omega_ * dot
            (NumericalPoint.add s.currentPoint_
              (NumericalPoint.smul
                (AbdoRackwitz.sigmaUpdate sqrt s
                  * (if s.currentLevelValue_ > s.problem.levelValue then 1 else -1))
                s.currentGradient_))
            s.currentDirection_
        ∧ AbdoRackwitz.sigmaUpdate sqrt s
          = max (s.currentSigma_ + 1)
            (s.smooth_ * NumericalPoint.norm sqrt s.currentPoint_
              / NumericalPoint.norm sqrt s.currentGradient_)
        ∧ (s.currentLevelValue_ ≠ s.problem.levelValue →
            AbdoRackwitz.levelIncrement sqrt s
              = s.omega_ * dot
                (NumericalPoint.add s.currentPoint_
                  (NumericalPoint.smul
                    (AbdoRackwitz.sigmaUpdate sqrt s
                      * ((SignType.sign (s.currentLevelValue_ - s.problem.levelValue)
                        : SignType) : K))
                    s.currentGradient_))
                s.currentDirection_)
        ∧ (s.currentLevelValue_ = s.problem.levelValue →
            AbdoRackwitz.levelIncrement sqrt s
                = s.omega_ * dot
                  (NumericalPoint.add s.currentPoint_
                    (NumericalPoint.smul (-AbdoRackwitz.sigmaUpdate sqrt s) s.currentGradient_))
                  s.currentDirection_
              ∧ (s.currentGradient_.length = s.currentPoint_.length →
                s.currentDirection_.length = s.currentPoint_.length →
                AbdoRackwitz.levelIncrement sqrt s
                  = s.omega_ * (dot s.currentPoint_ s.currentDirection_
                    - AbdoRackwitz.sigmaUpdate sqrt s
                      * dot s.currentGradient_ s.currentDirection_))))
    ∧ (∀ s : SQP K,
      (SQP.computeLineSearch sqrt fuel s).map (fun p => p.1)
          = (SQP.lineSearchLoop s s.problem.levelValue
              (SQP.sigmaUpdate sqrt s) (SQP.currentTheta sqrt s) (s.tau_ ^ 9)
              (SQP.levelIncrement sqrt s) fuel 1).map (fun r => r.step / s.tau_)
        ∧ SQP.levelIncrement sqrt s
          = s.omega_ * dot
            (NumericalPoint.add s.currentPoint_
              (NumericalPoint.smul
                (SQP.sigmaUpdate sqrt s
                  * (if s.currentLevelValue_ > s.problem.levelValue then 1 else -1))
                s.currentGradient_))
            s.currentDirection_
        ∧ SQP.sigmaUpdate sqrt s
          = max (s.currentSigma_ + 1)
            (s.smooth_ * NumericalPoint.norm sqrt s.currentPoint_
              / NumericalPoint.norm sqrt s.currentGradient_)
        ∧ (s.currentLevelValue_ ≠ s.problem.levelValue →
            SQP.levelIncrement sqrt s
              = s.omega_ * dot
                (NumericalPoint.add s.currentPoint_
                  (NumericalPoint.smul
                    (SQP.sigmaUpdate sqrt s
                      * ((SignType.sign (s.currentLevelValue_ - s.problem.levelValue)
                        : SignType) : K))
                    s.currentGradient_))
                s.currentDirection_)
        ∧ (s.currentLevelValue_ = s.problem.levelValue →
            SQP.levelIncrement sqrt s
                = s.omega_ * dot
                  (NumericalPoint.add s.currentPoint_
                    (NumericalPoint.smul (-SQP.sigmaUpdate sqrt s) s.currentGradient_))
                  s.currentDirection_
              ∧ (s.currentGradient_.length = s.currentPoint_.length →
                s.currentDirection_.length = s.currentPoint_.length →
                SQP.levelIncrement sqrt s
                  = s.omega_ * (dot s.currentPoint_ s.currentDirection_
                    - SQP.sigmaUpdate sqrt s
                      * dot s.currentGradient_ s.currentDirection_)))) := by
  constructor
  · intro s
    refine ⟨?_, rfl, rfl, ?_, ?_⟩
    · rw [abdoRackwitz_computeLineSearch_eq, Option.map_map]
      rfl
    · intro hne
      unfold AbdoRackwitz.levelIncrement
      rcases lt_or_gt_of_ne hne with hlt | hgt
      · have h1 : ¬ s.currentLevelValue_ > s.problem.levelValue := not_lt.mpr (le_of_lt hlt)
        rw [if_neg h1, sign_neg (sub_neg.mpr hlt)]
        simp
      · rw [if_pos hgt, sign_pos (sub_pos.mpr hgt)]
        simp
    · intro heq
      have h1 : ¬ s.currentLevelValue_ > s.problem.levelValue := by
        rw [heq]
        exact lt_irrefl _
      have e : AbdoRackwitz.levelIncrement sqrt s
          = s.omega_ * dot
            (NumericalPoint.add s.currentPoint_
              (NumericalPoint.smul (-AbdoRackwitz.sigmaUpdate sqrt s) s.currentGradient_))
            s.currentDirection_ := by
        unfold AbdoRackwitz.levelIncrement
        rw [if_neg h1, mul_neg, mul_one]
      refine ⟨e, ?_⟩
      intro hg hd
      rw [e, dot_add_smul _ _ _ _ hg hd]
      ring
  · intro s
    refine ⟨?_, rfl, rfl, ?_, ?_⟩
    · rw [sqp_computeLineSearch_eq, Option.map_map]
      rfl
    · intro hne
      unfold SQP.levelIncrement
      rcases lt_or_gt_of_ne hne with hlt | hgt
      · have h1 : ¬ s.currentLevelValue_ > s.problem.levelValue := not_lt.mpr (le_of_lt hlt)
        rw [if_neg h1, sign_neg (sub_neg.mpr hlt)]
        simp
      · rw [if_pos hgt, sign_pos (sub_pos.mpr hgt)]
        simp
    · intro heq
      have h1 : ¬ s.currentLevelValue_ > s.problem.levelValue := by
        rw [heq]
        exact lt_irrefl _
      have e : SQP.levelIncrement sqrt s
          = s.omega_ * dot
            (NumericalPoint.add s.currentPoint_
              (NumericalPoint.smul (-SQP.sigmaUpdate sqrt s) s.currentGradient_))
            s.currentDirection_ := by
        unfold SQP.levelIncrement
        rw [if_neg h1, mul_neg, mul_one]
      refine ⟨e, ?_⟩
      intro hg hd
      rw [e, dot_add_smul _ _ _ _ hg hd]
      ring

/-- Witness of C21, amended: at the feasible point `(0)` of `G(u) = u1`, `G0 = 0`, with the
gradient `(1)`, the direction `(1)` and `omega = 9/10`, the threshold of `AbdoRackwitz` is
`omega * (dot(u, direction) - sigma * dot(gradient, direction))`. -/
theorem threshold_two_valued_sign_witness :
    AbdoRackwitz.levelIncrement Real.sqrt (scenarioOrigin.atFeasiblePoint (9 / 10 : ℝ))
      = (scenarioOrigin.atFeasiblePoint (9 / 10 : ℝ)).omega_
        * (dot (scenarioOrigin.atFeasiblePoint (9 / 10 : ℝ)).currentPoint_
            (scenarioOrigin.atFeasiblePoint (9 / 10 : ℝ)).currentDirection_
          - AbdoRackwitz.sigmaUpdate Real.sqrt (scenarioOrigin.atFeasiblePoint (9 / 10 : ℝ))
            * dot (scenarioOrigin.atFeasiblePoint (9 / 10 : ℝ)).currentGradient_
              (scenarioOrigin.atFeasiblePoint (9 / 10 : ℝ)).currentDirection_) :=
  ((((threshold_two_valued_sign Real.sqrt 10).1
    (scenarioOrigin.atFeasiblePoint (9 / 10 : ℝ))).2.2.2.2 rfl).2 rfl rfl)

/-- C23: the anti-cycling interpolation, for both solvers in exact real arithmetic, `tau ≠ 0`,
on a state whose direction has the dimension of the current point and whose previous point
has that dimension or a null norm (the library throws otherwise).  After a call of
`computeLineSearch` that returns `alpha`, with `t` the last trial point
`currentPoint + alpha * direction`: the correction is applied exactly when the previous
point has a norm that is not null, the two quotients
`compareA = dot(previous, t) / (norm(previous) * norm(t))` and
`compareB = dot(current, t) / (norm(current) * norm(t))` are defined, that is the current
point and `t` have norms that are not null, and `compareA > compareB`.  When one of these
conditions fails the new point is `t` and the new level value is `G(t)`.  When they hold,
with `oldLevelValue ≠ currentLevelValue` and a sum `previous + current` that is not the null
point, the new point is `StepBeta * (previous + current) / norm(previous + current)`, its
norm is `|StepBeta|`, the new level value is `G` at the new point, and `StepBeta` is the
value at `G0` of the affine function of the level that takes the value `norm(previous)` at
`oldLevelValue` and `norm(current)` at `currentLevelValue`. -/
theorem anti_cycling_interpolation (fuel : Nat) :
    (∀ s : AbdoRackwitz ℝ, s.tau_ ≠ 0 →
      s.currentDirection_.length = s.currentPoint_.length →
      (s.oldPoint_.length = s.currentPoint_.length
        ∨ NumericalPoint.norm Real.sqrt s.oldPoint_ = 0) →
      ∀ (alpha : ℝ) (s1 : AbdoRackwitz ℝ),
        AbdoRackwitz.computeLineSearch Real.sqrt fuel s = some (alpha, s1) →
        (¬ (NumericalPoint.norm Real.sqrt s.oldPoint_ ≠ 0
              ∧ NumericalPoint.norm Real.sqrt s.currentPoint_ ≠ 0
              ∧ NumericalPoint.norm Real.sqrt
                  (NumericalPoint.add s.currentPoint_
                    (NumericalPoint.smul alpha s.currentDirection_)) ≠ 0
              ∧ dot s.oldPoint_
                    (NumericalPoint.add s.currentPoint_
                      (NumericalPoint.smul alpha s.currentDirection_))
                  / (NumericalPoint.norm Real.sqrt s.oldPoint_
                    * NumericalPoint.norm Real.sqrt
                      (NumericalPoint.add s.currentPoint_
                        (NumericalPoint.smul alpha s.currentDirection_)))
                > dot s.currentPoint_
                    (NumericalPoint.add s.currentPoint_
                      (NumericalPoint.smul alpha s.currentDirection_))
                  / (NumericalPoint.norm Real.sqrt s.currentPoint_
                    * NumericalPoint.norm Real.sqrt
                      (NumericalPoint.add s.currentPoint_
                        (NumericalPoint.smul alpha s.currentDirection_)))) →
            s1.currentPoint_
                = (NumericalPoint.add s.currentPoint_
                  (NumericalPoint.smul alpha s.currentDirection_))
              ∧ s1.currentLevelValue_
                = s.problem.levelFunction.eval
                  (NumericalPoint.add s.currentPoint_
                    (NumericalPoint.smul alpha s.currentDirection_)))
          ∧ ((NumericalPoint.norm Real.sqrt s.oldPoint_ ≠ 0
              ∧ NumericalPoint.norm Real.sqrt s.currentPoint_ ≠ 0
              ∧ NumericalPoint.norm Real.sqrt
                  (NumericalPoint.add s.currentPoint_
                    (NumericalPoint.smul alpha s.currentDirection_)) ≠ 0
              ∧ dot s.oldPoint_
                    (NumericalPoint.add s.currentPoint_
                      (NumericalPoint.smul alpha s.currentDirection_))
                  / (NumericalPoint.norm Real.sqrt s.oldPoint_
                    * NumericalPoint.norm Real.sqrt
                      (NumericalPoint.add s.currentPoint_
                        (NumericalPoint.smul alpha s.currentDirection_)))
                > dot s.currentPoint_
                    (NumericalPoint.add s.currentPoint_
                      (NumericalPoint.smul alpha s.currentDirection_))
                  / (NumericalPoint.norm Real.sqrt s.currentPoint_
                    * NumericalPoint.norm Real.sqrt
                      (NumericalPoint.add s.currentPoint_
                        (NumericalPoint.smul alpha s.currentDirection_)))) →
            s.oldLevelValue_ ≠ s.currentLevelValue_ →
            (∃ x ∈ NumericalPoint.add s.oldPoint_ s.currentPoint_, x ≠ 0) →
            s1.currentPoint_
                = NumericalPoint.sdiv
                  (NumericalPoint.smul (AbdoRackwitz.StepBeta Real.sqrt s)
                    (NumericalPoint.add s.oldPoint_ s.currentPoint_))
                  (NumericalPoint.norm Real.sqrt
                    (NumericalPoint.add s.oldPoint_ s.currentPoint_))
              ∧ NumericalPoint.norm Real.sqrt s1.currentPoint_
                = |AbdoRackwitz.StepBeta Real.sqrt s|
              ∧ s1.currentLevelValue_ = s.problem.levelFunction.eval s1.currentPoint_
              ∧ (∀ m b : ℝ,
                  m * s.oldLevelValue_ + b = NumericalPoint.norm Real.sqrt s.oldPoint_ →
                  m * s.currentLevelValue_ + b
                    = NumericalPoint.norm Real.sqrt s.currentPoint_ →
                  AbdoRackwitz.StepBeta Real.sqrt s = m * s.problem.levelValue + b)
              ∧ ∃ m b : ℝ,
                  m * s.oldLevelValue_ + b = NumericalPoint.norm Real.sqrt s.oldPoint_
                    ∧ m * s.currentLevelValue_ + b
                      = NumericalPoint.norm Real.sqrt s.currentPoint_))
    ∧ (∀ s : SQP ℝ, s.tau_ ≠ 0 →
      s.currentDirection_.length = s.currentPoint_.length →
      (s.oldPoint_.length = s.currentPoint_.length
        ∨ NumericalPoint.norm Real.sqrt s.oldPoint_ = 0) →
      ∀ (alpha : ℝ) (s1 : SQP ℝ),
        SQP.computeLineSearch Real.sqrt fuel s = some (alpha, s1) →
        (¬ (NumericalPoint.norm Real.sqrt s.oldPoint_ ≠ 0
              ∧ NumericalPoint.norm Real.sqrt s.currentPoint_ ≠ 0
              ∧ NumericalPoint.norm Real.sqrt
                  (NumericalPoint.add s.currentPoint_
                    (NumericalPoint.smul alpha s.currentDirection_)) ≠ 0
              ∧ dot s.oldPoint_
                    (NumericalPoint.add s.currentPoint_
                      (NumericalPoint.smul alpha s.currentDirection_))
                  / (NumericalPoint.norm Real.sqrt s.oldPoint_
                    * NumericalPoint.norm Real.sqrt
                      (NumericalPoint.add s.currentPoint_
                        (NumericalPoint.smul alpha s.currentDirection_)))
                > dot s.currentPoint_
                    (NumericalPoint.add s.currentPoint_
                      (NumericalPoint.smul alpha s.currentDirection_))
                  / (NumericalPoint.norm Real.sqrt s.currentPoint_
                    * NumericalPoint.norm Real.sqrt
                      (NumericalPoint.add s.currentPoint_
                        (NumericalPoint.smul alpha s.currentDirection_)))) →
            s1.currentPoint_
                = (NumericalPoint.add s.currentPoint_
                  (NumericalPoint.smul alpha s.currentDirection_))
              ∧ s1.currentLevelValue_
                = s.problem.levelFunction.eval
                  (NumericalPoint.add s.currentPoint_
                    (NumericalPoint.smul alpha s.currentDirection_)))
          ∧ ((NumericalPoint.norm Real.sqrt s.oldPoint_ ≠ 0
              ∧ NumericalPoint.norm Real.sqrt s.currentPoint_ ≠ 0
              ∧ NumericalPoint.norm Real.sqrt
                  (NumericalPoint.add s.currentPoint_
                    (NumericalPoint.smul alpha s.currentDirection_)) ≠ 0
              ∧ dot s.oldPoint_
                    (NumericalPoint.add s.currentPoint_
                      (NumericalPoint.smul alpha s.currentDirection_))
                  / (NumericalPoint.norm Real.sqrt s.oldPoint_
                    * NumericalPoint.norm Real.sqrt
                      (NumericalPoint.add s.currentPoint_
                        (NumericalPoint.smul alpha s.currentDirection_)))
                > dot s.currentPoint_
                    (NumericalPoint.add s.currentPoint_
                      (NumericalPoint.smul alpha s.currentDirection_))
                  / (NumericalPoint.norm Real.sqrt s.currentPoint_
                    * NumericalPoint.norm Real.sqrt
                      (NumericalPoint.add s.currentPoint_
                        (NumericalPoint.smul alpha s.currentDirection_)))) →
            s.oldLevelValue_ ≠ s.currentLevelValue_ →
            (∃ x ∈ NumericalPoint.add s.oldPoint_ s.currentPoint_, x ≠ 0) →
            s1.currentPoint_
                = NumericalPoint.sdiv
                  (NumericalPoint.smul (SQP.StepBeta Real.sqrt s)
                    (NumericalPoint.add s.oldPoint_ s.currentPoint_))
                  (NumericalPoint.norm Real.sqrt
                    (NumericalPoint.add s.oldPoint_ s.currentPoint_))
              ∧ NumericalPoint.norm Real.sqrt s1.currentPoint_
                = |SQP.StepBeta Real.sqrt s|
              ∧ s1.currentLevelValue_ = s.problem.levelFunction.eval s1.currentPoint_
              ∧ (∀ m b : ℝ,
                  m * s.oldLevelValue_ + b = NumericalPoint.norm Real.sqrt s.oldPoint_ →
                  m * s.currentLevelValue_ + b
                    = NumericalPoint.norm Real.sqrt s.currentPoint_ →
                  SQP.StepBeta Real.sqrt s = m * s.problem.levelValue + b)
              ∧ ∃ m b : ℝ,
                  m * s.oldLevelValue_ + b = NumericalPoint.norm Real.sqrt s.oldPoint_
                    ∧ m * s.currentLevelValue_ + b
                      = NumericalPoint.norm Real.sqrt s.currentPoint_)) := by
  constructor
  · intro s ht _ _ alpha s1 h
    obtain ⟨a, ha, -, hp, hl⟩ := abdoRackwitz_computeLineSearch_exit Real.sqrt fuel s s1 alpha h
    have haa : alpha = a := by rw [ha]; field_simp
    subst haa
    constructor
    · intro hno
      have hni : ¬ AbdoRackwitz.interpolates Real.sqrt s
          (NumericalPoint.add s.currentPoint_
            (NumericalPoint.smul alpha s.currentDirection_)) :=
        fun hi => hno ((abdoRackwitz_interpolates_iff Real.sqrt s _).mp hi)
      rw [if_neg hni] at hp
      exact ⟨hp, by rw [hl, hp]⟩
    · intro hc hne hnz
      have hi : AbdoRackwitz.interpolates Real.sqrt s
          (NumericalPoint.add s.currentPoint_
            (NumericalPoint.smul alpha s.currentDirection_)) :=
        (abdoRackwitz_interpolates_iff Real.sqrt s _).mpr hc
      rw [if_pos hi] at hp
      refine ⟨hp, ?_, hl, abdoRackwitz_stepBeta_affine Real.sqrt s hne⟩
      rw [hp]
      exact abdoRackwitz_interpolatedPoint_norm s hnz
  · intro s ht _ _ alpha s1 h
    obtain ⟨a, ha, -, hp, hl⟩ := sqp_computeLineSearch_exit Real.sqrt fuel s s1 alpha h
    have haa : alpha = a := by rw [ha]; field_simp
    subst haa
    constructor
    · intro hno
      have hni : ¬ SQP.interpolates Real.sqrt s
          (NumericalPoint.add s.currentPoint_
            (NumericalPoint.smul alpha s.currentDirection_)) :=
        fun hi => hno ((sqp_interpolates_iff Real.sqrt s _).mp hi)
      rw [if_neg hni] at hp
      exact ⟨hp, by rw [hl, hp]⟩
    · intro hc hne hnz
      have hi : SQP.interpolates Real.sqrt s
          (NumericalPoint.add s.currentPoint_
            (NumericalPoint.smul alpha s.currentDirection_)) :=
        (sqp_interpolates_iff Real.sqrt s _).mpr hc
      rw [if_pos hi] at hp
      refine ⟨hp, ?_, hl, sqp_stepBeta_affine Real.sqrt s hne⟩
      rw [hp]
      exact sqp_interpolatedPoint_norm s hnz

/-- Witness of C23: the first line search of a run of `AbdoRackwitz` on `G(u) = u1`, `G0 = 2`,
started at `(-1)`, by a solver that holds the previous point `(3)` with its level value `3`:
the points `(3)`, `(-1)` and the trial point `(2)` have the norms `3`, `1` and `2`, the trial
point is replaced (`compareA = 1 > compareB = -1`), the levels `3` and `-1` differ, the sum
`(3) + (-1)` is not null, and the new point has the norm `|StepBeta|`. -/
theorem anti_cycling_interpolation_witness :
    ∃ s1, AbdoRackwitz.computeLineSearch Real.sqrt 10
        (AbdoRackwitz.computeDirection (AbdoRackwitz.evalGradient
          (AbdoRackwitz.runInit (scenarioStale.stale 0 (3 : ℝ))).solver)) = some (1, s1)
      ∧ NumericalPoint.norm Real.sqrt s1.currentPoint_
        = |AbdoRackwitz.StepBeta Real.sqrt
            (AbdoRackwitz.computeDirection (AbdoRackwitz.evalGradient
              (AbdoRackwitz.runInit (scenarioStale.stale 0 (3 : ℝ))).solver))|
      ∧ AbdoRackwitz.StepBeta Real.sqrt
          (AbdoRackwitz.computeDirection (AbdoRackwitz.evalGradient
            (AbdoRackwitz.runInit (scenarioStale.stale 0 (3 : ℝ))).solver))
        = (1 / 2) * 2 + 3 / 2 := by
  have hi : AbdoRackwitz.interpolates Real.sqrt
      (AbdoRackwitz.computeDirection (AbdoRackwitz.evalGradient
        (AbdoRackwitz.runInit (scenarioStale.stale 0 (3 : ℝ))).solver))
      (NumericalPoint.add
        (AbdoRackwitz.computeDirection (AbdoRackwitz.evalGradient
          (AbdoRackwitz.runInit (scenarioStale.stale 0 (3 : ℝ))).solver)).currentPoint_
        (NumericalPoint.smul 1
          (AbdoRackwitz.computeDirection (AbdoRackwitz.evalGradient
            (AbdoRackwitz.runInit (scenarioStale.stale 0 (3 : ℝ))).solver)).currentDirection_))
      := by
    simp only [AbdoRackwitz.interpolates, AbdoRackwitz.compareA, AbdoRackwitz.compareB,
      AbdoRackwitz.computeDirection,
      AbdoRackwitz.evalGradient, AbdoRackwitz.runInit, AbdoRackwitz.new,
      AbdoRackwitz.initialise, scenarioStale.base, scenarioStale.fresh, scenarioStale.stale,
      scenarioStale.problem, scenarioOrigin.levelFunction,
      NumericalPoint.norm, NumericalPoint.normSquare, dot, NumericalPoint.add,
      NumericalPoint.smul, NumericalPoint.sub, NumericalPoint.get,
      List.zipWith_cons_cons, List.zipWith_nil_right, List.zipWith_nil_left, List.map_cons,
      List.map_nil, List.sum_cons, List.sum_nil, List.getD_cons_zero, List.getD_cons_succ]
    norm_num [real_sqrt_four, real_sqrt_nine]
  obtain ⟨-, hrep⟩ := (anti_cycling_interpolation 10).1
    (AbdoRackwitz.computeDirection (AbdoRackwitz.evalGradient
      (AbdoRackwitz.runInit (scenarioStale.stale 0 (3 : ℝ))).solver))
    (by show (1 / 2 : ℝ) ≠ 0; norm_num) rfl (Or.inl rfl) 1 _
    (abdoRackwitz_scenarioStale_lineSearch 0 3)
  obtain ⟨-, hnorm, -, haff, -⟩ := hrep
    ((abdoRackwitz_interpolates_iff Real.sqrt _ _).mp hi)
    (by
      show (3 : ℝ) ≠ NumericalPoint.get [(-1 : ℝ)] 0
      norm_num [NumericalPoint.get])
    ⟨2, by
      simp [AbdoRackwitz.computeDirection, AbdoRackwitz.evalGradient, AbdoRackwitz.runInit,
        AbdoRackwitz.new, AbdoRackwitz.initialise, scenarioStale.base, scenarioStale.fresh,
        scenarioStale.stale, NumericalPoint.add]
      norm_num, by norm_num⟩
  refine ⟨_, abdoRackwitz_scenarioStale_lineSearch 0 3, hnorm, ?_⟩
  refine haff (1 / 2) (3 / 2) ?_ ?_
  · show (1 / 2 : ℝ) * 3 + 3 / 2 = Real.sqrt (NumericalPoint.normSquare [(3 : ℝ)])
    simp only [NumericalPoint.normSquare, dot, List.zipWith_cons_cons, List.zipWith_nil_right,
      List.sum_cons, List.sum_nil]
    norm_num [real_sqrt_nine]
  · show (1 / 2 : ℝ) * NumericalPoint.get [(-1 : ℝ)] 0 + 3 / 2
      = Real.sqrt (NumericalPoint.normSquare [(-1 : ℝ)])
    simp [NumericalPoint.normSquare, dot, NumericalPoint.get]
    norm_num

/-- C24: state advance and frame of the line search, for both solvers.  The points of a
state have consistent dimensions when the gradient and the direction have the dimension of
the current point and the previous point has that dimension or a null norm; the library
throws on the sum or the dot product of two points of different dimensions.  For
`0 < tau < 1` and consistent dimensions the call returns as soon as the fuel allows ten trial
points.  After every call that returns, `oldPoint_` is the current point held before the
call and `oldLevelValue_` the level value held before the call; `currentGradient_`,
`currentDirection_`, `currentLambda_`, `tau_`, `omega_`, `smooth_` (for `SQP` also the
Hessian, the system matrix and the second member) are unchanged; the new state is the old one
with only `currentSigma_`, `currentPoint_`, `currentLevelValue_`, `oldPoint_` and
`oldLevelValue_` replaced; and, the dimensions being consistent on entry, the dimension of
`currentPoint_` is preserved and is that of `currentDirection_`. -/
theorem lineSearch_frame {K : Type} [LinearOrderedField K] (sqrt : K → K) (fuel : Nat) :
    (∀ s : AbdoRackwitz K,
      (0 < s.tau_ → s.tau_ < 1 → 10 ≤ fuel →
        s.currentGradient_.length = s.currentPoint_.length →
        s.currentDirection_.length = s.currentPoint_.length →
        (s.oldPoint_.length = s.currentPoint_.length
          ∨ NumericalPoint.norm sqrt s.oldPoint_ = 0) →
        ∃ alpha s1, AbdoRackwitz.computeLineSearch sqrt fuel s = some (alpha, s1))
      ∧ ∀ (alpha : K) (s1 : AbdoRackwitz K),
        AbdoRackwitz.computeLineSearch sqrt fuel s = some (alpha, s1) →
        s1.oldPoint_ = s.currentPoint_ ∧ s1.oldLevelValue_ = s.currentLevelValue_
          ∧ s1.currentGradient_ = s.currentGradient_
          ∧ s1.currentDirection_ = s.currentDirection_
          ∧ s1.currentLambda_ = s.currentLambda_
          ∧ s1.tau_ = s.tau_ ∧ s1.omega_ = s.omega_ ∧ s1.smooth_ = s.smooth_
          ∧ s1 = { s with
              currentSigma_ := s1.currentSigma_
              currentPoint_ := s1.currentPoint_
              currentLevelValue_ := s1.currentLevelValue_
              oldPoint_ := s.currentPoint_
              oldLevelValue_ := s.currentLevelValue_ }
          ∧ (s.currentDirection_.length = s.currentPoint_.length →
              (s.oldPoint_.length = s.currentPoint_.length
                ∨ NumericalPoint.norm sqrt s.oldPoint_ = 0) →
              s1.currentPoint_.length = s.currentPoint_.length
                ∧ s1.currentPoint_.length = s1.currentDirection_.length))
    ∧ (∀ s : SQP K,
      (0 < s.tau_ → s.tau_ < 1 → 10 ≤ fuel →
        s.currentGradient_.length = s.currentPoint_.length →
        s.currentDirection_.length = s.currentPoint_.length →
        (s.oldPoint_.length = s.currentPoint_.length
          ∨ NumericalPoint.norm sqrt s.oldPoint_ = 0) →
        ∃ alpha s1, SQP.computeLineSearch sqrt fuel s = some (alpha, s1))
      ∧ ∀ (alpha : K) (s1 : SQP K),
        SQP.computeLineSearch sqrt fuel s = some (alpha, s1) →
        s1.oldPoint_ = s.currentPoint_ ∧ s1.oldLevelValue_ = s.currentLevelValue_
          ∧ s1.currentGradient_ = s.currentGradient_
          ∧ s1.currentDirection_ = s.currentDirection_
          ∧ s1.currentLambda_ = s.currentLambda_
          ∧ s1.tau_ = s.tau_ ∧ s1.omega_ = s.omega_ ∧ s1.smooth_ = s.smooth_
          ∧ s1.currentHessian_ = s.currentHessian_
          ∧ s1.currentSystemMatrix_ = s.currentSystemMatrix_
          ∧ s1.currentSecondMember_ = s.currentSecondMember_
          ∧ s1 = { s with
              currentSigma_ := s1.currentSigma_
              currentPoint_ := s1.currentPoint_
              currentLevelValue_ := s1.currentLevelValue_
              oldPoint_ := s.currentPoint_
              oldLevelValue_ := s.currentLevelValue_ }
          ∧ (s.currentDirection_.length = s.currentPoint_.length →
              (s.oldPoint_.length = s.currentPoint_.length
                ∨ NumericalPoint.norm sqrt s.oldPoint_ = 0) →
              s1.currentPoint_.length = s.currentPoint_.length
                ∧ s1.currentPoint_.length = s1.currentDirection_.length)) := by
  constructor
  · intro s
    refine ⟨fun h0 h1 hf _ _ _ => abdoRackwitz_computeLineSearch_isSome sqrt fuel s h0 h1 hf,
      ?_⟩
    intro alpha s1 h
    obtain ⟨-, ht, ho, hsm, hg, hd, hl, hop, holv, -⟩ :=
      abdoRackwitz_computeLineSearch_frame sqrt fuel s s1 alpha h
    exact ⟨hop, holv, hg, hd, hl, ht, ho, hsm,
      abdoRackwitz_computeLineSearch_only sqrt fuel s s1 alpha h,
      fun hdl hold => abdoRackwitz_lineSearch_length sqrt fuel s s1 alpha h hdl hold⟩
  · intro s
    refine ⟨fun h0 h1 hf _ _ _ => sqp_computeLineSearch_isSome sqrt fuel s h0 h1 hf, ?_⟩
    intro alpha s1 h
    obtain ⟨-, ht, ho, hsm, hg, hd, hl, hop, holv, -⟩ :=
      sqp_computeLineSearch_frame sqrt fuel s s1 alpha h
    have honly := sqp_computeLineSearch_only sqrt fuel s s1 alpha h
    refine ⟨hop, holv, hg, hd, hl, ht, ho, hsm, ?_, ?_, ?_, honly,
      fun hdl hold => sqp_lineSearch_length sqrt fuel s s1 alpha h hdl hold⟩
    · rw [honly]
    · rw [honly]
    · rw [honly]

/-- Witness of C24: the line searches of both solvers on `G(u) = u1`, `G0 = 0`, from `(1)`
along `(-1)` with `tau = 1/2` return; the previous point is empty, the direction and the
point have the dimension `1`, and so has the new point. -/
theorem lineSearch_frame_witness :
    (∃ s1, AbdoRackwitz.computeLineSearch Real.sqrt 10 (scenarioOrigin.atLineSearch (9 / 10 : ℝ))
        = some (1, s1)
      ∧ s1.oldPoint_ = (scenarioOrigin.atLineSearch (9 / 10 : ℝ)).currentPoint_
      ∧ s1.currentPoint_.length = (scenarioOrigin.atLineSearch (9 / 10 : ℝ)).currentPoint_.length
      ∧ s1.currentPoint_.length = s1.currentDirection_.length)
    ∧ (∃ s1, SQP.computeLineSearch Real.sqrt 10 (scenarioOrigin.sqpAtLineSearch (9 / 10 : ℝ))
        = some (1, s1)
      ∧ s1.oldPoint_ = (scenarioOrigin.sqpAtLineSearch (9 / 10 : ℝ)).currentPoint_
      ∧ s1.currentPoint_.length
        = (scenarioOrigin.sqpAtLineSearch (9 / 10 : ℝ)).currentPoint_.length
      ∧ s1.currentPoint_.length = s1.currentDirection_.length) := by
  have hn : NumericalPoint.norm Real.sqrt ([] : List ℝ) = 0 := by
    simp [NumericalPoint.norm, NumericalPoint.normSquare, dot]
  constructor
  · have h := ((lineSearch_frame Real.sqrt 10).1
      (scenarioOrigin.atLineSearch (9 / 10 : ℝ))).2 1 _
      abdoRackwitz_scenarioOrigin_atLineSearch
    exact ⟨_, abdoRackwitz_scenarioOrigin_atLineSearch, h.1,
      h.2.2.2.2.2.2.2.2.2 (by
        simp [scenarioOrigin.atLineSearch, AbdoRackwitz.computeDirection,
          AbdoRackwitz.evalGradient, AbdoRackwitz.runInit, AbdoRackwitz.new,
          AbdoRackwitz.initialise, scenarioOrigin.base, scenarioOrigin.problem,
          scenarioOrigin.levelFunction, NumericalPoint.smul, NumericalPoint.sub])
        (Or.inr hn)⟩
  · have h := ((lineSearch_frame Real.sqrt 10).2
      (scenarioOrigin.sqpAtLineSearch (9 / 10 : ℝ))).2 1 _
      sqp_scenarioOrigin_atLineSearch
    exact ⟨_, sqp_scenarioOrigin_atLineSearch, h.1,
      h.2.2.2.2.2.2.2.2.2.2.2.2 rfl (Or.inr hn)⟩

/-- C25: the line search is shared by the two solvers.  An `AbdoRackwitz` solver and an `SQP`
solver that hold the same state of the line search (level function, level value, `tau`,
`omega`, `smooth`, `currentSigma`, `currentPoint`, `currentDirection`, `currentLevelValue`,
`currentGradient`, `oldPoint`, `oldLevelValue`) get the same outcome from their
`computeLineSearch`, whatever the fuel: either both run out of fuel, or both return, with the
same step and the same state of the line search afterwards. -/
theorem lineSearch_shared {K : Type} [LinearOrderedField K] (sqrt : K → K) (fuel : Nat)
    (a : AbdoRackwitz K) (q : SQP K) (h : a.lineSearchState = q.lineSearchState) :
    (AbdoRackwitz.computeLineSearch sqrt fuel a).map
        (fun p => (p.1, AbdoRackwitz.lineSearchState p.2))
      = (SQP.computeLineSearch sqrt fuel q).map
        (fun p => (p.1, SQP.lineSearchState p.2)) :=
  computeLineSearch_shared sqrt fuel a q h

/-- Witness of C25: at the first line search of a run on `G(u) = u1`, `G0 = 0`, started at
`(1)` with `tau = 1/2`, `omega = 9/10`, `smooth = 6/5`, the two solvers hold the same state
of the line search, and both return the step `1` and the same state. -/
theorem lineSearch_shared_witness :
    (scenarioOrigin.atLineSearch (9 / 10 : ℝ)).lineSearchState
        = (scenarioOrigin.sqpAtLineSearch (9 / 10 : ℝ)).lineSearchState
      ∧ (∃ s1, AbdoRackwitz.computeLineSearch Real.sqrt 10
          (scenarioOrigin.atLineSearch (9 / 10 : ℝ)) = some (1, s1))
      ∧ (AbdoRackwitz.computeLineSearch Real.sqrt 10
            (scenarioOrigin.atLineSearch (9 / 10 : ℝ))).map
          (fun p => (p.1, AbdoRackwitz.lineSearchState p.2))
        = (SQP.computeLineSearch Real.sqrt 10
            (scenarioOrigin.sqpAtLineSearch (9 / 10 : ℝ))).map
          (fun p => (p.1, SQP.lineSearchState p.2)) := by
  have hv : (scenarioOrigin.atLineSearch (9 / 10 : ℝ)).lineSearchState
      = (scenarioOrigin.sqpAtLineSearch (9 / 10 : ℝ)).lineSearchState := by
    simp [AbdoRackwitz.lineSearchState, SQP.lineSearchState, scenarioOrigin.atLineSearch,
      scenarioOrigin.sqpAtLineSearch, AbdoRackwitz.computeDirection,
      AbdoRackwitz.evalGradient, AbdoRackwitz.runInit, AbdoRackwitz.new,
      AbdoRackwitz.initialise, SQP.runInit, SQP.new, SQP.initialise, scenarioOrigin.base,
      scenarioOrigin.problem, scenarioOrigin.levelFunction, NumericalPoint.normSquare, dot,
      NumericalPoint.get, NumericalPoint.add, NumericalPoint.smul, NumericalPoint.sub,
      NumericalPoint.zero]
  exact ⟨hv, ⟨_, abdoRackwitz_scenarioOrigin_atLineSearch⟩,
    lineSearch_shared Real.sqrt 10 _ _ hv⟩

/-- C26: the divisions by the norm of the gradient are guarded, for both solvers (exact real
arithmetic).  In an iteration of `run()` whose gradient has a null `normSquare`, the loop
body raises the exception without calling `computeLineSearch` (it returns whatever the fuel,
even the fuel `0` with which no line search returns).  Otherwise the iteration is the line
search on the state with the direction computed, followed by the update of the errors; in
that state the gradient is the one just evaluated, its norm, the divisor of the update of
`sigma`, is not `0`, and for `AbdoRackwitz` the multiplier is
`(G - G0 - dot(gradient, u)) / normSquare(gradient)` with a divisor that is not `0`. -/
theorem gradient_divisions_guarded (fuel : Nat) :
    (∀ r : AbdoRackwitz.RunState ℝ,
      (NumericalPoint.normSquare
          (r.solver.problem.levelFunction.gradient r.solver.currentPoint_) = 0 →
        AbdoRackwitz.iteration Real.sqrt fuel r = some
          { r with
            solver :=
              { AbdoRackwitz.evalGradient r.solver with
                result := r.solver.result.update r.solver.currentPoint_
                  (r.iterationNumber + 1) }
            iterationNumber := r.iterationNumber + 1
            thrown := some Exception.InternalException })
      ∧ (NumericalPoint.normSquare
          (r.solver.problem.levelFunction.gradient r.solver.currentPoint_) ≠ 0 →
        AbdoRackwitz.iteration Real.sqrt fuel r
            = (AbdoRackwitz.computeLineSearch Real.sqrt fuel
                (AbdoRackwitz.computeDirection (AbdoRackwitz.evalGradient r.solver))).map
              (fun p => AbdoRackwitz.updateErrors Real.sqrt p.1 p.2 (r.iterationNumber + 1))
          ∧ (AbdoRackwitz.computeDirection (AbdoRackwitz.evalGradient r.solver)).currentGradient_
            = r.solver.problem.levelFunction.gradient r.solver.currentPoint_
          ∧ NumericalPoint.norm Real.sqrt
              (AbdoRackwitz.computeDirection
                (AbdoRackwitz.evalGradient r.solver)).currentGradient_ ≠ 0
          ∧ (AbdoRackwitz.computeDirection (AbdoRackwitz.evalGradient r.solver)).currentLambda_
            = (r.solver.currentLevelValue_ - r.solver.problem.levelValue
                - dot (r.solver.problem.levelFunction.gradient r.solver.currentPoint_)
                  r.solver.currentPoint_)
              / NumericalPoint.normSquare
                (r.solver.problem.levelFunction.gradient r.solver.currentPoint_)))
    ∧ (∀ (solveLinearSystem : SymmetricMatrix ℝ → List ℝ → List ℝ) (r : SQP.RunState ℝ),
      (NumericalPoint.normSquare
          (r.solver.problem.levelFunction.gradient r.solver.currentPoint_) = 0 →
        SQP.iteration Real.sqrt solveLinearSystem fuel r = some
          { r with
            solver :=
              { SQP.evalGradient r.solver with
                result := r.solver.result.update r.solver.currentPoint_
                  (r.iterationNumber + 1) }
            iterationNumber := r.iterationNumber + 1
            thrown := some Exception.InternalException })
      ∧ (NumericalPoint.normSquare
          (r.solver.problem.levelFunction.gradient r.solver.currentPoint_) ≠ 0 →
        SQP.iteration Real.sqrt solveLinearSystem fuel r
            = (SQP.computeLineSearch Real.sqrt fuel
                (SQP.computeDirection solveLinearSystem (SQP.evalGradient r.solver))).map
              (fun p => SQP.updateErrors Real.sqrt p.1 p.2 (r.iterationNumber + 1))
          ∧ (SQP.computeDirection solveLinearSystem
              (SQP.evalGradient r.solver)).currentGradient_
            = r.solver.problem.levelFunction.gradient r.solver.currentPoint_
          ∧ NumericalPoint.norm Real.sqrt
              (SQP.computeDirection solveLinearSystem
                (SQP.evalGradient r.solver)).currentGradient_ ≠ 0)) := by
  constructor
  · intro r
    refine ⟨fun hg => abdoRackwitz_iteration_of_gradient_zero Real.sqrt fuel r hg, ?_⟩
    intro hg
    refine ⟨?_, rfl, ?_, rfl⟩
    · cases hls : AbdoRackwitz.computeLineSearch Real.sqrt fuel
          (AbdoRackwitz.computeDirection (AbdoRackwitz.evalGradient r.solver)) with
      | none =>
        unfold AbdoRackwitz.iteration
        have hg1 : NumericalPoint.normSquare
            (AbdoRackwitz.evalGradient r.solver).currentGradient_ ≠ 0 := hg
        simp only [hg1, if_false, hls]
        rfl
      | some p =>
        obtain ⟨alpha, s1⟩ := p
        rw [abdoRackwitz_iteration_of_lineSearch Real.sqrt fuel r alpha s1 hg hls]
        rfl
    · intro h0
      exact hg ((norm_real_eq_zero _).mp h0)
  · intro solveLinearSystem r
    refine ⟨fun hg => sqp_iteration_of_gradient_zero Real.sqrt solveLinearSystem fuel r hg, ?_⟩
    intro hg
    refine ⟨?_, rfl, ?_⟩
    · cases hls : SQP.computeLineSearch Real.sqrt fuel
          (SQP.computeDirection solveLinearSystem (SQP.evalGradient r.solver)) with
      | none =>
        unfold SQP.iteration
        have hg1 : NumericalPoint.normSquare
            (SQP.evalGradient r.solver).currentGradient_ ≠ 0 := hg
        simp only [hg1, if_false, hls]
        rfl
      | some p =>
        obtain ⟨alpha, s1⟩ := p
        rw [sqp_iteration_of_lineSearch Real.sqrt solveLinearSystem fuel r alpha s1 hg hls]
        rfl
    · intro h0
      exact hg ((norm_real_eq_zero _).mp h0)

/-- Witness of C26: the first iteration of a run of `AbdoRackwitz` on `G(u) = u1`, `G0 = 0`,
started at `(1)`: the gradient `(1)` has the `normSquare` `1`, the line search is called, and
the norm of the gradient it divides by is not `0`. -/
theorem gradient_divisions_guarded_witness :
    NumericalPoint.normSquare
        ((AbdoRackwitz.runInit (scenarioOrigin.abdoRackwitz (K := ℝ))).solver.problem.levelFunction.gradient
          (AbdoRackwitz.runInit (scenarioOrigin.abdoRackwitz (K := ℝ))).solver.currentPoint_) ≠ 0
      ∧ NumericalPoint.norm Real.sqrt
          (AbdoRackwitz.computeDirection (AbdoRackwitz.evalGradient
            (AbdoRackwitz.runInit
              (scenarioOrigin.abdoRackwitz (K := ℝ))).solver)).currentGradient_ ≠ 0 := by
  have hg : NumericalPoint.normSquare
      ((AbdoRackwitz.runInit (scenarioOrigin.abdoRackwitz (K := ℝ))).solver.problem.levelFunction.gradient
        (AbdoRackwitz.runInit (scenarioOrigin.abdoRackwitz (K := ℝ))).solver.currentPoint_)
      ≠ 0 := by
    simp [AbdoRackwitz.runInit, AbdoRackwitz.new, AbdoRackwitz.initialise, scenarioOrigin.base,
      scenarioOrigin.abdoRackwitz, scenarioOrigin.problem, scenarioOrigin.levelFunction,
      NumericalPoint.normSquare, dot]
  exact ⟨hg, (((gradient_divisions_guarded 10).1
    (AbdoRackwitz.runInit scenarioOrigin.abdoRackwitz)).2 hg).2.2.1⟩

/-- C27: a null direction means a stationary feasible point, for both solvers in exact real
arithmetic with `0 < tau < 1`, for a level function whose gradient has the dimension of its
argument and a run started with a previous point that has the dimension of the starting point
or a null norm (the sums and dot products of the library then receive operands of one
dimension and do not throw).  Let `rk` be the state after `k` iterations of the run, with
the current point `u` having a nonzero component and a gradient of nonzero `normSquare`, and
suppose the direction computed by the next iteration is the null point (for `SQP`, with a
linear solver whose output solves the assembled system).  Then `G(u) = G0`; with any fuel of
at least one trial point the line search returns the step `1` after that one trial point,
applies no interpolation whatever the previous point held by `rk`, and leaves the point
unchanged; the iteration returns with
`absoluteError = relativeError = constraintError = residualError = 0`; and when
`maximumAbsoluteError` and `maximumRelativeError` are positive, or `maximumResidualError` and
`maximumConstraintError` are, the convergence flag is set and the loop of `run()` stops
there. -/
theorem null_direction_converges (fuel : Nat) :
    (∀ (s : AbdoRackwitz ℝ) (k : Nat) (rk : AbdoRackwitz.RunState ℝ),
      iterateBody (AbdoRackwitz.iteration Real.sqrt fuel) (AbdoRackwitz.runInit s) k = some rk →
      0 < s.tau_ → s.tau_ < 1 → 1 ≤ fuel →
      (s.oldPoint_.length = s.startingPoint.length
        ∨ NumericalPoint.norm Real.sqrt s.oldPoint_ = 0) →
      (∀ u : List ℝ, u.length = s.startingPoint.length →
        (s.problem.levelFunction.gradient u).length = s.startingPoint.length) →
      NumericalPoint.normSquare
        (s.problem.levelFunction.gradient rk.solver.currentPoint_) ≠ 0 →
      (AbdoRackwitz.computeDirection (AbdoRackwitz.evalGradient rk.solver)).currentDirection_
        = NumericalPoint.zero rk.solver.currentPoint_.length →
      (∃ x ∈ rk.solver.currentPoint_, x ≠ 0) →
      s.problem.levelFunction.eval rk.solver.currentPoint_ = s.problem.levelValue
        ∧ (∃ s1, AbdoRackwitz.computeLineSearch Real.sqrt fuel
              (AbdoRackwitz.computeDirection (AbdoRackwitz.evalGradient rk.solver))
            = some (1, s1)
          ∧ s1.currentPoint_ = rk.solver.currentPoint_)
        ∧ ¬ AbdoRackwitz.interpolates Real.sqrt
            (AbdoRackwitz.computeDirection (AbdoRackwitz.evalGradient rk.solver))
            (NumericalPoint.add rk.solver.currentPoint_
              (NumericalPoint.smul 1
                (AbdoRackwitz.computeDirection
                  (AbdoRackwitz.evalGradient rk.solver)).currentDirection_))
        ∧ ∃ r1, AbdoRackwitz.iteration Real.sqrt fuel rk = some r1
          ∧ r1.thrown = none
          ∧ r1.solver.currentPoint_ = rk.solver.currentPoint_
          ∧ r1.absoluteError = 0 ∧ r1.relativeError = 0
          ∧ r1.constraintError = 0 ∧ r1.residualError = 0
          ∧ ((0 < rk.solver.maximumAbsoluteError ∧ 0 < rk.solver.maximumRelativeError)
              ∨ (0 < rk.solver.maximumResidualError
                ∧ 0 < rk.solver.maximumConstraintError) →
            r1.convergence = true ∧ AbdoRackwitz.runLoop Real.sqrt fuel r1 = some r1))
    ∧ (∀ (solveLinearSystem : SymmetricMatrix ℝ → List ℝ → List ℝ) (s : SQP ℝ) (k : Nat)
        (rk : SQP.RunState ℝ),
      iterateBody (SQP.iteration Real.sqrt solveLinearSystem fuel) (SQP.runInit s) k
        = some rk →
      0 < s.tau_ → s.tau_ < 1 → 1 ≤ fuel →
      (s.oldPoint_.length = s.startingPoint.length
        ∨ NumericalPoint.norm Real.sqrt s.oldPoint_ = 0) →
      (∀ u : List ℝ, u.length = s.startingPoint.length →
        (s.problem.levelFunction.gradient u).length = s.startingPoint.length) →
      NumericalPoint.normSquare
        (s.problem.levelFunction.gradient rk.solver.currentPoint_) ≠ 0 →
      IsSolution
        (SQP.computeDirection solveLinearSystem
          (SQP.evalGradient rk.solver)).currentSystemMatrix_
        (SQP.computeDirection solveLinearSystem
          (SQP.evalGradient rk.solver)).currentSecondMember_
        (solveLinearSystem
          (SQP.computeDirection solveLinearSystem
            (SQP.evalGradient rk.solver)).currentSystemMatrix_
          (SQP.computeDirection solveLinearSystem
            (SQP.evalGradient rk.solver)).currentSecondMember_) →
      (SQP.computeDirection solveLinearSystem (SQP.evalGradient rk.solver)).currentDirection_
        = NumericalPoint.zero rk.solver.currentPoint_.length →
      (∃ x ∈ rk.solver.currentPoint_, x ≠ 0) →
      s.problem.levelFunction.eval rk.solver.currentPoint_ = s.problem.levelValue
        ∧ (∃ s1, SQP.computeLineSearch Real.sqrt fuel
              (SQP.computeDirection solveLinearSystem (SQP.evalGradient rk.solver))
            = some (1, s1)
          ∧ s1.currentPoint_ = rk.solver.currentPoint_)
        ∧ ¬ SQP.interpolates Real.sqrt
            (SQP.computeDirection solveLinearSystem (SQP.evalGradient rk.solver))
            (NumericalPoint.add rk.solver.currentPoint_
              (NumericalPoint.smul 1
                (SQP.computeDirection solveLinearSystem
                  (SQP.evalGradient rk.solver)).currentDirection_))
        ∧ ∃ r1, SQP.iteration Real.sqrt solveLinearSystem fuel rk = some r1
          ∧ r1.thrown = none
          ∧ r1.solver.currentPoint_ = rk.solver.currentPoint_
          ∧ r1.absoluteError = 0 ∧ r1.relativeError = 0
          ∧ r1.constraintError = 0 ∧ r1.residualError = 0
          ∧ ((0 < rk.solver.maximumAbsoluteError ∧ 0 < rk.solver.maximumRelativeError)
              ∨ (0 < rk.solver.maximumResidualError
                ∧ 0 < rk.solver.maximumConstraintError) →
            r1.convergence = true
              ∧ SQP.runLoop Real.sqrt solveLinearSystem fuel r1 = some r1)) := by
  constructor
  · intro s k rk hk h0 h1 hf hold hgrad hg hd hu
    have hdim := abdoRackwitz_iterateBody_dimensioned Real.sqrt fuel s hgrad hold k rk hk
    have hlen : (s.problem.levelFunction.gradient rk.solver.currentPoint_).length
        = rk.solver.currentPoint_.length := by
      rw [hgrad _ hdim.1, hdim.1]
    obtain ⟨hp, hlv, -⟩ := abdoRackwitz_level_consistency Real.sqrt fuel s k rk hk
    have htau : rk.solver.tau_ = s.tau_ :=
      (abdoRackwitz_iterateBody_frame Real.sqrt fuel (AbdoRackwitz.runInit s) k rk hk).2.2
    have ht : rk.solver.tau_ ≠ 0 := by rw [htau]; exact ne_of_gt h0
    have hun : NumericalPoint.normSquare rk.solver.currentPoint_ ≠ 0 :=
      (normSquare_ne_zero_iff _).mpr hu
    rw [← hp] at hg hlen hlv
    obtain ⟨hG, hres⟩ := abdoRackwitz_null_direction_kkt (AbdoRackwitz.evalGradient rk.solver)
      hlen hg hd
    have hG1 : rk.solver.currentLevelValue_ = rk.solver.problem.levelValue := hG
    obtain ⟨hls, hni⟩ := abdoRackwitz_lineSearch_null_direction fuel
      (AbdoRackwitz.computeDirection (AbdoRackwitz.evalGradient rk.solver)) ht hd hlv hun hf
    obtain ⟨r1, hit, hth, hpt, -, habs, hrel, hcon, hrs, hconv⟩ :=
      abdoRackwitz_iteration_null_direction fuel rk ht hf hg hd hlv hG1 hres hun
    refine ⟨?_, ⟨_, hls, rfl⟩, hni, r1, hit, hth, hpt, habs, hrel, hcon, hrs, hconv⟩
    rw [← hp, ← hlv, hG1]
  · intro solveLinearSystem s k rk hk h0 h1 hf hold hgrad hg hx hd hu
    have hlen : (s.problem.levelFunction.gradient rk.solver.currentPoint_).length
        = rk.solver.currentPoint_.length := by
      have hdim0 :=
        sqp_iterateBody_dimensioned Real.sqrt solveLinearSystem fuel s hold k rk hk
      rw [hgrad _ hdim0.1, hdim0.1]
    obtain ⟨hp, hlv, -⟩ :=
      sqp_level_consistency Real.sqrt solveLinearSystem fuel s k rk hk
    have htau : rk.solver.tau_ = s.tau_ :=
      (sqp_iterateBody_frame Real.sqrt solveLinearSystem fuel (SQP.runInit s) k rk hk).2.2
    have ht : rk.solver.tau_ ≠ 0 := by rw [htau]; exact ne_of_gt h0
    have hun : NumericalPoint.normSquare rk.solver.currentPoint_ ≠ 0 :=
      (normSquare_ne_zero_iff _).mpr hu
    have hdim := sqp_iterateBody_dimensioned Real.sqrt solveLinearSystem fuel s hold k rk hk
    rw [← hp] at hg hlen hlv
    have hdim1 : SQP.Dimensioned Real.sqrt s.startingPoint.length (SQP.evalGradient rk.solver) :=
      hdim
    obtain ⟨hG, hres⟩ := sqp_null_direction_kkt Real.sqrt solveLinearSystem
      s.startingPoint.length (SQP.evalGradient rk.solver) hdim1
      (by
        show (rk.solver.problem.levelFunction.gradient rk.solver.currentPoint_).length = _
        rw [hlen, hdim.1])
      hx hd
    have hG1 : rk.solver.currentLevelValue_ = rk.solver.problem.levelValue := hG
    obtain ⟨hls, hni⟩ := sqp_lineSearch_null_direction fuel
      (SQP.computeDirection solveLinearSystem (SQP.evalGradient rk.solver)) ht hd hlv hun hf
    obtain ⟨r1, hit, hth, hpt, -, habs, hrel, hcon, hrs, hconv⟩ :=
      sqp_iteration_null_direction solveLinearSystem fuel rk ht hf hg hd hlv hG1 hres hun
    refine ⟨?_, ⟨_, hls, rfl⟩, hni, r1, hit, hth, hpt, habs, hrel, hcon, hrs, hconv⟩
    rw [← hp, ← hlv, hG1]

/-- Witness of C27: the first iteration of a run on `G(u) = u1`, `G0 = 1`, started at the
solution `(1)` with `tau = 1/2`, an empty previous point and all four bounds at `1e-5`, with
a fuel of one trial point.  The gradient is `(1)`; the direction computed by `AbdoRackwitz`,
and by `SQP` with
an exact linear solver, is `(0)`; the iteration returns with the four errors at `0` and the
convergence flag set. -/
theorem null_direction_converges_witness :
    (∃ r1, AbdoRackwitz.iteration Real.sqrt 1
        (AbdoRackwitz.runInit (scenarioStationary.abdoRackwitz (K := ℝ))) = some r1
      ∧ r1.solver.currentPoint_ = [1]
      ∧ r1.absoluteError = 0 ∧ r1.relativeError = 0
      ∧ r1.constraintError = 0 ∧ r1.residualError = 0
      ∧ r1.convergence = true)
    ∧ (∀ solveLinearSystem : SymmetricMatrix ℝ → List ℝ → List ℝ,
      ExactSolver solveLinearSystem →
      ∃ r1, SQP.iteration Real.sqrt solveLinearSystem 1
          (SQP.runInit (scenarioStationary.sqp (K := ℝ))) = some r1
        ∧ r1.solver.currentPoint_ = [1]
        ∧ r1.absoluteError = 0 ∧ r1.relativeError = 0
        ∧ r1.constraintError = 0 ∧ r1.residualError = 0
        ∧ r1.convergence = true) := by
  constructor
  · obtain ⟨-, -, -, r1, hit, -, hpt, habs, hrel, hcon, hrs, hconv⟩ :=
      (null_direction_converges 1).1 scenarioStationary.abdoRackwitz 0
        (AbdoRackwitz.runInit scenarioStationary.abdoRackwitz) rfl
        (by show (0 : ℝ) < 1 / 2; norm_num) (by show (1 / 2 : ℝ) < 1; norm_num) (le_refl _)
        (Or.inr (by
          show Real.sqrt (NumericalPoint.normSquare ([] : List ℝ)) = 0
          simp [NumericalPoint.normSquare, dot]))
        (fun _ _ => rfl)
        (by
          simp [AbdoRackwitz.runInit, AbdoRackwitz.new, AbdoRackwitz.initialise,
            scenarioStationary.base, scenarioStationary.abdoRackwitz,
            scenarioStationary.problem, scenarioOrigin.levelFunction,
            NumericalPoint.normSquare, dot])
        (by
          simp [AbdoRackwitz.computeDirection, AbdoRackwitz.evalGradient, AbdoRackwitz.runInit,
            AbdoRackwitz.new, AbdoRackwitz.initialise, scenarioStationary.base,
            scenarioStationary.abdoRackwitz, scenarioStationary.problem,
            scenarioOrigin.levelFunction, NumericalPoint.normSquare, dot, NumericalPoint.get,
            NumericalPoint.smul, NumericalPoint.sub, NumericalPoint.zero])
        ⟨1, by simp [AbdoRackwitz.runInit, AbdoRackwitz.new, AbdoRackwitz.initialise,
            scenarioStationary.base, scenarioStationary.abdoRackwitz], one_ne_zero⟩
    exact ⟨r1, hit, hpt, habs, hrel, hcon, hrs,
      (hconv (Or.inl ⟨by show (0 : ℝ) < 1 / 100000; norm_num,
        by show (0 : ℝ) < 1 / 100000; norm_num⟩)).1⟩
  · intro solveLinearSystem hs
    obtain ⟨hx, hd⟩ := sqp_scenarioStationary_direction solveLinearSystem hs
    obtain ⟨-, -, -, r1, hit, -, hpt, habs, hrel, hcon, hrs, hconv⟩ :=
      (null_direction_converges 1).2 solveLinearSystem scenarioStationary.sqp 0
        (SQP.runInit scenarioStationary.sqp) rfl
        (by show (0 : ℝ) < 1 / 2; norm_num) (by show (1 / 2 : ℝ) < 1; norm_num) (le_refl _)
        (Or.inr (by
          show Real.sqrt (NumericalPoint.normSquare ([] : List ℝ)) = 0
          simp [NumericalPoint.normSquare, dot]))
        (fun _ _ => rfl)
        (by
          simp [SQP.runInit, SQP.new, SQP.initialise,
            scenarioStationary.base, scenarioStationary.sqp,
            scenarioStationary.problem, scenarioOrigin.levelFunction,
            NumericalPoint.normSquare, dot])
        hx hd
        ⟨1, by simp [SQP.runInit, SQP.new, SQP.initialise,
            scenarioStationary.base, scenarioStationary.sqp], one_ne_zero⟩
    exact ⟨r1, hit, hpt, habs, hrel, hcon, hrs,
      (hconv (Or.inl ⟨by show (0 : ℝ) < 1 / 100000; norm_num,
        by show (0 : ℝ) < 1 / 100000; norm_num⟩)).1⟩

/-- C28: the level value is consistent with the point, for both solvers and a deterministic
level function `G`.  At the start of the loop of `run()` the stored `currentLevelValue_` is
`G(currentPoint_)`; after every call of `computeLineSearch` that returns, whether the trial
point is kept or replaced by the interpolated point, it is `G` at the new current point;
hence after any number of iterations of `run()` it is `G(currentPoint_)`, and every entry
stored in the result holds `G(point)` as value and `|G(point) - G0|` as constraint error.
For `0 < tau < 1`, a fuel of at least `10`, a budget with `maxIterationsNumber + 1 < 2 ^ 32`
(the counter, an unsigned machine integer of 32 bits at least, does not wrap around), a
level function whose gradient has the dimension of its argument and a previous point that
has the dimension of the starting point or a null norm (the library does not throw), `run()`
returns and its result has that property. -/
theorem level_value_invariant {K : Type} [LinearOrderedField K] (sqrt : K → K) (fuel : Nat) :
    (∀ s : AbdoRackwitz K,
      (AbdoRackwitz.runInit s).solver.currentLevelValue_
          = s.problem.levelFunction.eval (AbdoRackwitz.runInit s).solver.currentPoint_
        ∧ (∀ (alpha : K) (s1 : AbdoRackwitz K),
            AbdoRackwitz.computeLineSearch sqrt fuel s = some (alpha, s1) →
            s1.currentLevelValue_ = s.problem.levelFunction.eval s1.currentPoint_)
        ∧ (∀ (k : Nat) (rk : AbdoRackwitz.RunState K),
            iterateBody (AbdoRackwitz.iteration sqrt fuel) (AbdoRackwitz.runInit s) k = some rk →
            rk.solver.currentLevelValue_
                = s.problem.levelFunction.eval rk.solver.currentPoint_
              ∧ ∀ e ∈ rk.solver.result.history,
                  e.value = s.problem.levelFunction.eval e.point
                    ∧ e.constraintError
                      = |s.problem.levelFunction.eval e.point - s.problem.levelValue|)
        ∧ (0 < s.tau_ → s.tau_ < 1 → 10 ≤ fuel →
            s.maximumIterationsNumber + 1 < 2 ^ 32 →
            (∀ u : List K, u.length = s.startingPoint.length →
              (s.problem.levelFunction.gradient u).length = s.startingPoint.length) →
            (s.oldPoint_.length = s.startingPoint.length
              ∨ NumericalPoint.norm sqrt s.oldPoint_ = 0) →
            ∃ r, AbdoRackwitz.run sqrt fuel s = some r
              ∧ r.solver.currentLevelValue_
                = s.problem.levelFunction.eval r.solver.currentPoint_
              ∧ ∀ e ∈ r.solver.result.history,
                  e.value = s.problem.levelFunction.eval e.point
                    ∧ e.constraintError
                      = |s.problem.levelFunction.eval e.point - s.problem.levelValue|))
    ∧ (∀ (solveLinearSystem : SymmetricMatrix K → List K → List K) (s : SQP K),
      (SQP.runInit s).solver.currentLevelValue_
          = s.problem.levelFunction.eval (SQP.runInit s).solver.currentPoint_
        ∧ (∀ (alpha : K) (s1 : SQP K),
            SQP.computeLineSearch sqrt fuel s = some (alpha, s1) →
            s1.currentLevelValue_ = s.problem.levelFunction.eval s1.currentPoint_)
        ∧ (∀ (k : Nat) (rk : SQP.RunState K),
            iterateBody (SQP.iteration sqrt solveLinearSystem fuel) (SQP.runInit s) k
              = some rk →
            rk.solver.currentLevelValue_
                = s.problem.levelFunction.eval rk.solver.currentPoint_
              ∧ ∀ e ∈ rk.solver.result.history,
                  e.value = s.problem.levelFunction.eval e.point
                    ∧ e.constraintError
                      = |s.problem.levelFunction.eval e.point - s.problem.levelValue|)
        ∧ (0 < s.tau_ → s.tau_ < 1 → 10 ≤ fuel →
            s.maximumIterationsNumber + 1 < 2 ^ 32 →
            (∀ u : List K, u.length = s.startingPoint.length →
              (s.problem.levelFunction.gradient u).length = s.startingPoint.length) →
            (s.oldPoint_.length = s.startingPoint.length
              ∨ NumericalPoint.norm sqrt s.oldPoint_ = 0) →
            ∃ r, SQP.run sqrt solveLinearSystem fuel s = some r
              ∧ r.solver.currentLevelValue_
                = s.problem.levelFunction.eval r.solver.currentPoint_
              ∧ ∀ e ∈ r.solver.result.history,
                  e.value = s.problem.levelFunction.eval e.point
                    ∧ e.constraintError
                      = |s.problem.levelFunction.eval e.point - s.problem.levelValue|)) := by
  constructor
  · intro s
    refine ⟨rfl, ?_, ?_, ?_⟩
    · intro alpha s1 h
      obtain ⟨a, -, -, -, hl⟩ := abdoRackwitz_computeLineSearch_exit sqrt fuel s s1 alpha h
      exact hl
    · intro k rk hk
      exact (abdoRackwitz_level_consistency sqrt fuel s k rk hk).2
    · intro h0 h1 hf _ _ _
      obtain ⟨n, r, hrun, hit, -⟩ := abdoRackwitz_run_first_exit sqrt fuel s h0 h1 hf
      exact ⟨r, hrun, (abdoRackwitz_level_consistency sqrt fuel s n r hit).2⟩
  · intro solveLinearSystem s
    refine ⟨rfl, ?_, ?_, ?_⟩
    · intro alpha s1 h
      obtain ⟨a, -, -, -, hl⟩ := sqp_computeLineSearch_exit sqrt fuel s s1 alpha h
      exact hl
    · intro k rk hk
      exact (sqp_level_consistency sqrt solveLinearSystem fuel s k rk hk).2
    · intro h0 h1 hf _ _ _
      obtain ⟨n, r, hrun, hit, -⟩ :=
        sqp_run_first_exit sqrt solveLinearSystem fuel s h0 h1 hf
      exact ⟨r, hrun, (sqp_level_consistency sqrt solveLinearSystem fuel s n r hit).2⟩

/-- Witness of C28: a run of a new `AbdoRackwitz` solver on `G(u) = u1`, `G0 = 0`, whose
gradient is the constant point `(1)`, started at `(1)` with `tau = 1/2` returns, and its
result stores entries whose constraint error is `|G(point) - G0|`. -/
theorem level_value_invariant_witness :
    ∃ r, AbdoRackwitz.run Real.sqrt 10 (scenarioOrigin.abdoRackwitz (K := ℝ)) = some r
      ∧ r.solver.currentLevelValue_
        = (scenarioOrigin.abdoRackwitz (K := ℝ)).problem.levelFunction.eval
          r.solver.currentPoint_
      ∧ ∀ e ∈ r.solver.result.history,
          e.value = (scenarioOrigin.abdoRackwitz (K := ℝ)).problem.levelFunction.eval e.point
            ∧ e.constraintError
              = |(scenarioOrigin.abdoRackwitz (K := ℝ)).problem.levelFunction.eval e.point
                - (scenarioOrigin.abdoRackwitz (K := ℝ)).problem.levelValue| :=
  ((level_value_invariant Real.sqrt 10).1 scenarioOrigin.abdoRackwitz).2.2.2
    (by show (0 : ℝ) < 1 / 2; norm_num) (by show (1 / 2 : ℝ) < 1; norm_num) (le_refl _)
    (by
      show (scenarioOrigin.abdoRackwitz (K := ℝ)).maximumIterationsNumber + 1 < 2 ^ 32
      simp [scenarioOrigin.abdoRackwitz, AbdoRackwitz.new, AbdoRackwitz.initialise,
        scenarioOrigin.base])
    (fun _ _ => rfl)
    (Or.inr (by
      show Real.sqrt (NumericalPoint.normSquare ([] : List ℝ)) = 0
      simp [NumericalPoint.normSquare, dot]))

/-- C29: the meaning of `absoluteError`, for both solvers in exact real arithmetic with
`0 < tau < 1`.  In an iteration of `run()` that goes through the line search (the gradient
has a nonzero `normSquare`), with a direction of the dimension of the current point, the
loop body returns as soon as the fuel allows ten trial points; and whenever the line search
returns `alpha` and applies no interpolation, the new point is
`previousPoint + alpha * direction` and the stored
`absoluteError = |alpha| * norm(direction)` is `norm(newPoint - previousPoint)`. -/
theorem absoluteError_is_distance (fuel : Nat) :
    (∀ r : AbdoRackwitz.RunState ℝ, 0 < r.solver.tau_ → r.solver.tau_ < 1 →
      NumericalPoint.normSquare
        (r.solver.problem.levelFunction.gradient r.solver.currentPoint_) ≠ 0 →
      (AbdoRackwitz.computeDirection (AbdoRackwitz.evalGradient r.solver)).currentDirection_.length
        = r.solver.currentPoint_.length →
      (10 ≤ fuel → ∃ r1, AbdoRackwitz.iteration Real.sqrt fuel r = some r1)
      ∧ ∀ (r1 : AbdoRackwitz.RunState ℝ) (alpha : ℝ) (s1 : AbdoRackwitz ℝ),
        AbdoRackwitz.iteration Real.sqrt fuel r = some r1 →
        AbdoRackwitz.computeLineSearch Real.sqrt fuel
          (AbdoRackwitz.computeDirection (AbdoRackwitz.evalGradient r.solver))
          = some (alpha, s1) →
        ¬ AbdoRackwitz.interpolates Real.sqrt
          (AbdoRackwitz.computeDirection (AbdoRackwitz.evalGradient r.solver))
          (NumericalPoint.add r.solver.currentPoint_
            (NumericalPoint.smul alpha
              (AbdoRackwitz.computeDirection
                (AbdoRackwitz.evalGradient r.solver)).currentDirection_)) →
        r1.solver.currentPoint_
            = NumericalPoint.add r.solver.currentPoint_
              (NumericalPoint.smul alpha r1.solver.currentDirection_)
          ∧ r1.absoluteError = |alpha| * NumericalPoint.norm Real.sqrt r1.solver.currentDirection_
          ∧ r1.solver.result.absoluteError = r1.absoluteError
          ∧ r1.absoluteError
            = NumericalPoint.norm Real.sqrt
              (NumericalPoint.sub r1.solver.currentPoint_ r.solver.currentPoint_))
    ∧ (∀ (solveLinearSystem : SymmetricMatrix ℝ → List ℝ → List ℝ) (r : SQP.RunState ℝ),
      0 < r.solver.tau_ → r.solver.tau_ < 1 →
      NumericalPoint.normSquare
        (r.solver.problem.levelFunction.gradient r.solver.currentPoint_) ≠ 0 →
      (SQP.computeDirection solveLinearSystem
          (SQP.evalGradient r.solver)).currentDirection_.length
        = r.solver.currentPoint_.length →
      (10 ≤ fuel → ∃ r1, SQP.iteration Real.sqrt solveLinearSystem fuel r = some r1)
      ∧ ∀ (r1 : SQP.RunState ℝ) (alpha : ℝ) (s1 : SQP ℝ),
        SQP.iteration Real.sqrt solveLinearSystem fuel r = some r1 →
        SQP.computeLineSearch Real.sqrt fuel
          (SQP.computeDirection solveLinearSystem (SQP.evalGradient r.solver))
          = some (alpha, s1) →
        ¬ SQP.interpolates Real.sqrt
          (SQP.computeDirection solveLinearSystem (SQP.evalGradient r.solver))
          (NumericalPoint.add r.solver.currentPoint_
            (NumericalPoint.smul alpha
              (SQP.computeDirection solveLinearSystem
                (SQP.evalGradient r.solver)).currentDirection_)) →
        r1.solver.currentPoint_
            = NumericalPoint.add r.solver.currentPoint_
              (NumericalPoint.smul alpha r1.solver.currentDirection_)
          ∧ r1.absoluteError = |alpha| * NumericalPoint.norm Real.sqrt r1.solver.currentDirection_
          ∧ r1.solver.result.absoluteError = r1.absoluteError
          ∧ r1.absoluteError
            = NumericalPoint.norm Real.sqrt
              (NumericalPoint.sub r1.solver.currentPoint_ r.solver.currentPoint_)) := by
  constructor
  · intro r h0 h1 hg hlen
    refine ⟨fun hf => abdoRackwitz_iteration_isSome Real.sqrt fuel r h0 h1 hf, ?_⟩
    intro r1 alpha s1 hit hls hno
    rw [abdoRackwitz_iteration_of_lineSearch Real.sqrt fuel r alpha s1 hg hls] at hit
    have hr1 : r1 = AbdoRackwitz.updateErrors Real.sqrt alpha s1 (r.iterationNumber + 1) :=
      (Option.some.inj hit).symm
    subst hr1
    obtain ⟨a, ha, -, hp, -⟩ := abdoRackwitz_computeLineSearch_exit Real.sqrt fuel _ s1 alpha hls
    have ht : (AbdoRackwitz.computeDirection (AbdoRackwitz.evalGradient r.solver)).tau_ ≠ 0 :=
      ne_of_gt h0
    have haa : alpha = a := by rw [ha]; field_simp
    subst haa
    have hdir : s1.currentDirection_
        = (AbdoRackwitz.computeDirection (AbdoRackwitz.evalGradient r.solver)).currentDirection_ :=
      (abdoRackwitz_computeLineSearch_frame Real.sqrt fuel _ s1 alpha hls).2.2.2.2.2.1
    have hno1 : ¬ AbdoRackwitz.interpolates Real.sqrt
        (AbdoRackwitz.computeDirection (AbdoRackwitz.evalGradient r.solver))
        (NumericalPoint.add
          (AbdoRackwitz.computeDirection (AbdoRackwitz.evalGradient r.solver)).currentPoint_
          (NumericalPoint.smul alpha
            (AbdoRackwitz.computeDirection
              (AbdoRackwitz.evalGradient r.solver)).currentDirection_)) := hno
    rw [if_neg hno1] at hp
    have hp1 : s1.currentPoint_ = NumericalPoint.add r.solver.currentPoint_
        (NumericalPoint.smul alpha s1.currentDirection_) := by
      rw [hp, hdir]
      rfl
    refine ⟨hp1, rfl, rfl, ?_⟩
    show |alpha| * NumericalPoint.norm Real.sqrt s1.currentDirection_
      = NumericalPoint.norm Real.sqrt (NumericalPoint.sub s1.currentPoint_ r.solver.currentPoint_)
    rw [hp1, sub_add_smul alpha _ _ (by rw [hdir]; exact hlen), norm_smul_real]
  · intro solveLinearSystem r h0 h1 hg hlen
    refine ⟨fun hf => sqp_iteration_isSome Real.sqrt solveLinearSystem fuel r h0 h1 hf, ?_⟩
    intro r1 alpha s1 hit hls hno
    rw [sqp_iteration_of_lineSearch Real.sqrt solveLinearSystem fuel r alpha s1 hg hls] at hit
    have hr1 : r1 = SQP.updateErrors Real.sqrt alpha s1 (r.iterationNumber + 1) :=
      (Option.some.inj hit).symm
    subst hr1
    obtain ⟨a, ha, -, hp, -⟩ := sqp_computeLineSearch_exit Real.sqrt fuel _ s1 alpha hls
    have ht : (SQP.computeDirection solveLinearSystem (SQP.evalGradient r.solver)).tau_ ≠ 0 :=
      ne_of_gt h0
    have haa : alpha = a := by rw [ha]; field_simp
    subst haa
    have hdir : s1.currentDirection_
        = (SQP.computeDirection solveLinearSystem
            (SQP.evalGradient r.solver)).currentDirection_ :=
      (sqp_computeLineSearch_frame Real.sqrt fuel _ s1 alpha hls).2.2.2.2.2.1
    have hno1 : ¬ SQP.interpolates Real.sqrt
        (SQP.computeDirection solveLinearSystem (SQP.evalGradient r.solver))
        (NumericalPoint.add
          (SQP.computeDirection solveLinearSystem (SQP.evalGradient r.solver)).currentPoint_
          (NumericalPoint.smul alpha
            (SQP.computeDirection solveLinearSystem
              (SQP.evalGradient r.solver)).currentDirection_)) := hno
    rw [if_neg hno1] at hp
    have hp1 : s1.currentPoint_ = NumericalPoint.add r.solver.currentPoint_
        (NumericalPoint.smul alpha s1.currentDirection_) := by
      rw [hp, hdir]
      rfl
    refine ⟨hp1, rfl, rfl, ?_⟩
    show |alpha| * NumericalPoint.norm Real.sqrt s1.currentDirection_
      = NumericalPoint.norm Real.sqrt (NumericalPoint.sub s1.currentPoint_ r.solver.currentPoint_)
    rw [hp1, sub_add_smul alpha _ _ (by rw [hdir]; exact hlen), norm_smul_real]

/-- Witness of C29: the first iteration of a run of `AbdoRackwitz` on `G(u) = u1`, `G0 = 0`,
started at `(1)` with `tau = 1/2` and `omega = 9/10`: the line search returns `alpha = 1`
without interpolation (the previous point is empty) and the stored `absoluteError` is the
distance between the new point and the starting point. -/
theorem absoluteError_is_distance_witness :
    ∃ r1, AbdoRackwitz.iteration Real.sqrt 10
        (AbdoRackwitz.runInit (AbdoRackwitz.new scenarioOrigin.base (1 / 2) (9 / 10 : ℝ) (6 / 5) 0))
        = some r1
      ∧ r1.absoluteError
        = NumericalPoint.norm Real.sqrt
          (NumericalPoint.sub r1.solver.currentPoint_
            (AbdoRackwitz.runInit
              (AbdoRackwitz.new scenarioOrigin.base (1 / 2) (9 / 10 : ℝ) (6 / 5)
                0)).solver.currentPoint_) := by
  have hg : NumericalPoint.normSquare
      ((AbdoRackwitz.runInit (AbdoRackwitz.new scenarioOrigin.base (1 / 2) (9 / 10 : ℝ) (6 / 5)
          0)).solver.problem.levelFunction.gradient
        (AbdoRackwitz.runInit (AbdoRackwitz.new scenarioOrigin.base (1 / 2) (9 / 10 : ℝ) (6 / 5)
          0)).solver.currentPoint_) ≠ 0 := by
    simp [AbdoRackwitz.runInit, AbdoRackwitz.new, AbdoRackwitz.initialise, scenarioOrigin.base,
      scenarioOrigin.problem, scenarioOrigin.levelFunction, NumericalPoint.normSquare, dot]
  have hn : NumericalPoint.norm Real.sqrt ([] : List ℝ) = 0 := by
    simp [NumericalPoint.norm, NumericalPoint.normSquare, dot]
  have hls : AbdoRackwitz.computeLineSearch Real.sqrt 10
      (AbdoRackwitz.computeDirection (AbdoRackwitz.evalGradient
        (AbdoRackwitz.runInit (AbdoRackwitz.new scenarioOrigin.base (1 / 2) (9 / 10 : ℝ) (6 / 5)
          0)).solver)) = some (1, _) := abdoRackwitz_scenarioOrigin_atLineSearch
  have hit := abdoRackwitz_iteration_of_lineSearch Real.sqrt 10
    (AbdoRackwitz.runInit (AbdoRackwitz.new scenarioOrigin.base (1 / 2) (9 / 10 : ℝ) (6 / 5) 0))
    1 _ hg hls
  exact ⟨_, hit,
    ((((absoluteError_is_distance 10).1
      (AbdoRackwitz.runInit (AbdoRackwitz.new scenarioOrigin.base (1 / 2) (9 / 10 : ℝ) (6 / 5) 0))
      (by show (0 : ℝ) < 1 / 2; norm_num) (by show (1 / 2 : ℝ) < 1; norm_num) hg
      (by
        simp [AbdoRackwitz.computeDirection, AbdoRackwitz.evalGradient, AbdoRackwitz.runInit,
          AbdoRackwitz.new, AbdoRackwitz.initialise, scenarioOrigin.base,
          scenarioOrigin.problem, scenarioOrigin.levelFunction, NumericalPoint.smul,
          NumericalPoint.sub])).2 _ 1 _ hit hls (fun h => h.1 hn)).2.2.2)⟩

/-- C30: the acceptance test enforced by the backtracking loop, for both solvers and
`0 < tau < 1`.  Let `j + 1` be the number of trial points of a call of `computeLineSearch`
(`j ≤ 9`, a fuel of `j` executions of the loop body is not enough, every larger fuel returns
`alpha = tau ^ j`).  The loop stops after at most `9` trial points exactly when
`tau * alpha ≥ minStep = tau ^ 9`, and then the last trial point
`t = currentPoint + alpha * direction` satisfies
`theta(t) ≤ currentTheta + tau * alpha * Delta`, where `theta` uses the updated `sigma`,
`Delta` is `levelIncrement` and `currentTheta` is `theta(currentPoint)` when the stored level
value is the level function at the current point: the threshold is scaled by the shrunk step
`tau * alpha`. -/
theorem acceptance_test_enforced {K : Type} [LinearOrderedField K] (sqrt : K → K) :
    (∀ s : AbdoRackwitz K, 0 < s.tau_ → s.tau_ < 1 →
      ∃ j, j ≤ 9
        ∧ (∀ fuel, fuel ≤ j → AbdoRackwitz.computeLineSearch sqrt fuel s = none)
        ∧ (∀ fuel, j < fuel →
            ∃ s1, AbdoRackwitz.computeLineSearch sqrt fuel s = some (s.tau_ ^ j, s1))
        ∧ (j + 1 ≤ 9 ↔ s.tau_ * s.tau_ ^ j ≥ s.tau_ ^ 9)
        ∧ (j + 1 ≤ 9 →
            AbdoRackwitz.theta s (AbdoRackwitz.sigmaUpdate sqrt s)
                (NumericalPoint.add s.currentPoint_
                  (NumericalPoint.smul (s.tau_ ^ j) s.currentDirection_))
              ≤ AbdoRackwitz.currentTheta sqrt s
                + s.tau_ * s.tau_ ^ j * AbdoRackwitz.levelIncrement sqrt s
            ∧ (s.currentLevelValue_ = s.problem.levelFunction.eval s.currentPoint_ →
              AbdoRackwitz.theta s (AbdoRackwitz.sigmaUpdate sqrt s)
                  (NumericalPoint.add s.currentPoint_
                    (NumericalPoint.smul (s.tau_ ^ j) s.currentDirection_))
                ≤ AbdoRackwitz.theta s (AbdoRackwitz.sigmaUpdate sqrt s) s.currentPoint_
                  + s.tau_ * s.tau_ ^ j * AbdoRackwitz.levelIncrement sqrt s)))
    ∧ (∀ s : SQP K, 0 < s.tau_ → s.tau_ < 1 →
      ∃ j, j ≤ 9
        ∧ (∀ fuel, fuel ≤ j → SQP.computeLineSearch sqrt fuel s = none)
        ∧ (∀ fuel, j < fuel →
            ∃ s1, SQP.computeLineSearch sqrt fuel s = some (s.tau_ ^ j, s1))
        ∧ (j + 1 ≤ 9 ↔ s.tau_ * s.tau_ ^ j ≥ s.tau_ ^ 9)
        ∧ (j + 1 ≤ 9 →
            SQP.theta s (SQP.sigmaUpdate sqrt s)
                (NumericalPoint.add s.currentPoint_
                  (NumericalPoint.smul (s.tau_ ^ j) s.currentDirection_))
              ≤ SQP.currentTheta sqrt s + s.tau_ * s.tau_ ^ j * SQP.levelIncrement sqrt s
            ∧ (s.currentLevelValue_ = s.problem.levelFunction.eval s.currentPoint_ →
              SQP.theta s (SQP.sigmaUpdate sqrt s)
                  (NumericalPoint.add s.currentPoint_
                    (NumericalPoint.smul (s.tau_ ^ j) s.currentDirection_))
                ≤ SQP.theta s (SQP.sigmaUpdate sqrt s) s.currentPoint_
                  + s.tau_ * s.tau_ ^ j * SQP.levelIncrement sqrt s))) := by
  have hiff : ∀ (t : K) (j : Nat), 0 < t → t < 1 → (j + 1 ≤ 9 ↔ t * t ^ j ≥ t ^ 9) := by
    intro t j h0 h1
    rw [← pow_succ']
    constructor
    · intro h
      exact pow_le_pow_of_le_one (le_of_lt h0) (le_of_lt h1) h
    · intro h
      by_contra hlt
      have hlt9 : 9 < j + 1 := by omega
      have := pow_lt_pow_right_of_lt_one₀ h0 h1 hlt9
      exact absurd h (not_le.mpr this)
  constructor
  · intro s h0 h1
    obtain ⟨j, hj, hnone, hsome, -, hexit⟩ := abdoRackwitz_computeLineSearch_count sqrt s h0 h1
    refine ⟨j, hj, hnone, hsome, hiff s.tau_ j h0 h1, ?_⟩
    intro hj9
    have hle := hexit (by omega)
    rw [pow_succ'] at hle
    refine ⟨hle, ?_⟩
    intro hlv
    have hct : AbdoRackwitz.currentTheta sqrt s
        = AbdoRackwitz.theta s (AbdoRackwitz.sigmaUpdate sqrt s) s.currentPoint_ := by
      unfold AbdoRackwitz.currentTheta AbdoRackwitz.theta
      rw [hlv]
    rw [← hct]
    exact hle
  · intro s h0 h1
    obtain ⟨j, hj, hnone, hsome, -, hexit⟩ := sqp_computeLineSearch_count sqrt s h0 h1
    refine ⟨j, hj, hnone, hsome, hiff s.tau_ j h0 h1, ?_⟩
    intro hj9
    have hle := hexit (by omega)
    rw [pow_succ'] at hle
    refine ⟨hle, ?_⟩
    intro hlv
    have hct : SQP.currentTheta sqrt s
        = SQP.theta s (SQP.sigmaUpdate sqrt s) s.currentPoint_ := by
      unfold SQP.currentTheta SQP.theta
      rw [hlv]
    rw [← hct]
    exact hle

/-- Witness of C30: the line searches of both solvers on `G(u) = u1`, `G0 = 0`, from `(1)`
along `(-1)` with `tau = 1/2` and `omega = 9/10` stop after one trial point, at
`alpha = 1`, and the trial point `(1) + 1 * (-1)` meets the test scaled by `tau * alpha`. -/
theorem acceptance_test_enforced_witness :
    (∃ s1, AbdoRackwitz.computeLineSearch Real.sqrt 10 (scenarioOrigin.atLineSearch (9 / 10 : ℝ))
        = some (1, s1)
      ∧ AbdoRackwitz.theta (scenarioOrigin.atLineSearch (9 / 10 : ℝ))
          (AbdoRackwitz.sigmaUpdate Real.sqrt (scenarioOrigin.atLineSearch (9 / 10 : ℝ)))
          (NumericalPoint.add (scenarioOrigin.atLineSearch (9 / 10 : ℝ)).currentPoint_
            (NumericalPoint.smul 1 (scenarioOrigin.atLineSearch (9 / 10 : ℝ)).currentDirection_))
        ≤ AbdoRackwitz.currentTheta Real.sqrt (scenarioOrigin.atLineSearch (9 / 10 : ℝ))
          + (scenarioOrigin.atLineSearch (9 / 10 : ℝ)).tau_ * 1
            * AbdoRackwitz.levelIncrement Real.sqrt (scenarioOrigin.atLineSearch (9 / 10 : ℝ)))
    ∧ (∃ s1, SQP.computeLineSearch Real.sqrt 10 (scenarioOrigin.sqpAtLineSearch (9 / 10 : ℝ))
        = some (1, s1)
      ∧ SQP.theta (scenarioOrigin.sqpAtLineSearch (9 / 10 : ℝ))
          (SQP.sigmaUpdate Real.sqrt (scenarioOrigin.sqpAtLineSearch (9 / 10 : ℝ)))
          (NumericalPoint.add (scenarioOrigin.sqpAtLineSearch (9 / 10 : ℝ)).currentPoint_
            (NumericalPoint.smul 1
              (scenarioOrigin.sqpAtLineSearch (9 / 10 : ℝ)).currentDirection_))
        ≤ SQP.currentTheta Real.sqrt (scenarioOrigin.sqpAtLineSearch (9 / 10 : ℝ))
          + (scenarioOrigin.sqpAtLineSearch (9 / 10 : ℝ)).tau_ * 1
            * SQP.levelIncrement Real.sqrt (scenarioOrigin.sqpAtLineSearch (9 / 10 : ℝ))) := by
  constructor
  · obtain ⟨j, hj, -, hsome, hiff, hacc⟩ :=
      (acceptance_test_enforced Real.sqrt).1 (scenarioOrigin.atLineSearch (9 / 10 : ℝ))
        (by show (0 : ℝ) < 1 / 2; norm_num) (by show (1 / 2 : ℝ) < 1; norm_num)
    obtain ⟨s2, h2⟩ := hsome 10 (by omega)
    rw [abdoRackwitz_scenarioOrigin_atLineSearch] at h2
    simp only [Option.some.injEq, Prod.mk.injEq] at h2
    have h1j : (scenarioOrigin.atLineSearch (9 / 10 : ℝ)).tau_ ^ j = 1 := h2.1.symm
    rw [h1j] at hiff hacc
    refine ⟨_, abdoRackwitz_scenarioOrigin_atLineSearch, ?_⟩
    exact (hacc (hiff.mpr (by show (1 / 2 : ℝ) * 1 ≥ (1 / 2) ^ 9; norm_num))).1
  · obtain ⟨j, hj, -, hsome, hiff, hacc⟩ :=
      (acceptance_test_enforced Real.sqrt).2 (scenarioOrigin.sqpAtLineSearch (9 / 10 : ℝ))
        (by show (0 : ℝ) < 1 / 2; norm_num) (by show (1 / 2 : ℝ) < 1; norm_num)
    obtain ⟨s2, h2⟩ := hsome 10 (by omega)
    rw [sqp_scenarioOrigin_atLineSearch] at h2
    simp only [Option.some.injEq, Prod.mk.injEq] at h2
    have h1j : (scenarioOrigin.sqpAtLineSearch (9 / 10 : ℝ)).tau_ ^ j = 1 := h2.1.symm
    rw [h1j] at hiff hacc
    refine ⟨_, sqp_scenarioOrigin_atLineSearch, ?_⟩
    exact (hacc (hiff.mpr (by show (1 / 2 : ℝ) * 1 ≥ (1 / 2) ^ 9; norm_num))).1

/-- C31: the Frechet and Gumbel round trips of `GeneralizedExtremeValue`, in exact
arithmetic, for a non-negative threshold `xiEpsilon` and `sigma > 0`.  For `xi > xiEpsilon`,
`setMuSigmaXi(mu, sigma, xi)` succeeds and builds
`Frechet(alpha = 1/xi, beta = sigma/xi, gamma = mu - sigma/xi)`; `setActualDistribution` on
that distribution, applied to any object, succeeds, keeps the distribution and stores
`(mu, sigma, xi)`, so that on the object built by `setMuSigmaXi` it changes nothing.  For
`xi = 0` the same holds with `Gumbel(1/sigma, mu)` and the parameters `(mu, sigma, 0)`. -/
theorem frechet_gumbel_round_trip {K : Type} [LinearOrderedField K] (xiEpsilon : K)
    (hx : 0 ≤ xiEpsilon) (g g2 : GeneralizedExtremeValue K) (mu sigma xi : K)
    (h : sigma > 0) :
    (xi > xiEpsilon →
      (GeneralizedExtremeValue.setMuSigmaXi xiEpsilon g mu sigma xi).2 = none
        ∧ (GeneralizedExtremeValue.setMuSigmaXi xiEpsilon g mu sigma xi).1.getActualDistribution
          = Distribution.frechet ⟨1 / xi, sigma / xi, mu - sigma / xi⟩
        ∧ (GeneralizedExtremeValue.setActualDistribution g2
            (Distribution.frechet ⟨1 / xi, sigma / xi, mu - sigma / xi⟩)).2 = none
        ∧ (GeneralizedExtremeValue.setActualDistribution g2
            (Distribution.frechet ⟨1 / xi, sigma / xi, mu - sigma / xi⟩)).1.getMu = mu
        ∧ (GeneralizedExtremeValue.setActualDistribution g2
            (Distribution.frechet ⟨1 / xi, sigma / xi, mu - sigma / xi⟩)).1.getSigma = sigma
        ∧ (GeneralizedExtremeValue.setActualDistribution g2
            (Distribution.frechet ⟨1 / xi, sigma / xi, mu - sigma / xi⟩)).1.getXi = xi
        ∧ (GeneralizedExtremeValue.setActualDistribution g2
            (Distribution.frechet
              ⟨1 / xi, sigma / xi, mu - sigma / xi⟩)).1.getActualDistribution
          = Distribution.frechet ⟨1 / xi, sigma / xi, mu - sigma / xi⟩
        ∧ GeneralizedExtremeValue.setActualDistribution
            (GeneralizedExtremeValue.setMuSigmaXi xiEpsilon g mu sigma xi).1
            (GeneralizedExtremeValue.setMuSigmaXi xiEpsilon g mu sigma
              xi).1.getActualDistribution
          = ((GeneralizedExtremeValue.setMuSigmaXi xiEpsilon g mu sigma xi).1, none))
    ∧ (xi = 0 →
      (GeneralizedExtremeValue.setMuSigmaXi xiEpsilon g mu sigma xi).2 = none
        ∧ (GeneralizedExtremeValue.setMuSigmaXi xiEpsilon g mu sigma xi).1.getActualDistribution
          = Distribution.gumbel ⟨1 / sigma, mu⟩
        ∧ (GeneralizedExtremeValue.setActualDistribution g2
            (Distribution.gumbel ⟨1 / sigma, mu⟩)).2 = none
        ∧ (GeneralizedExtremeValue.setActualDistribution g2
            (Distribution.gumbel ⟨1 / sigma, mu⟩)).1.getMu = mu
        ∧ (GeneralizedExtremeValue.setActualDistribution g2
            (Distribution.gumbel ⟨1 / sigma, mu⟩)).1.getSigma = sigma
        ∧ (GeneralizedExtremeValue.setActualDistribution g2
            (Distribution.gumbel ⟨1 / sigma, mu⟩)).1.getXi = 0
        ∧ (GeneralizedExtremeValue.setActualDistribution g2
            (Distribution.gumbel ⟨1 / sigma, mu⟩)).1.getActualDistribution
          = Distribution.gumbel ⟨1 / sigma, mu⟩
        ∧ GeneralizedExtremeValue.setActualDistribution
            (GeneralizedExtremeValue.setMuSigmaXi xiEpsilon g mu sigma xi).1
            (GeneralizedExtremeValue.setMuSigmaXi xiEpsilon g mu sigma
              xi).1.getActualDistribution
          = ((GeneralizedExtremeValue.setMuSigmaXi xiEpsilon g mu sigma xi).1, none)) := by
  have hs : sigma ≠ 0 := ne_of_gt h
  have he := setMuSigmaXi_of_pos xiEpsilon hx g mu sigma xi h
  constructor
  · intro hxi
    have h1 : ¬ xi < -xiEpsilon := by
      intro hlt
      linarith
    have hxi0 : xi ≠ 0 := by
      intro h0
      rw [h0] at hxi
      exact absurd hxi (not_lt.mpr hx)
    rw [if_neg h1, if_pos hxi] at he
    have e1 : (1 : K) / (1 / xi) = xi := by field_simp
    have e2 : sigma / xi * (1 / (1 / xi)) = sigma := by field_simp
    have e3 : mu - sigma / xi + sigma / xi = mu := by ring
    have e4 : sigma / xi * xi = sigma := by field_simp
    rw [he, setActualDistribution_frechet]
    refine ⟨rfl, rfl, rfl, e3, e2, e1, rfl, ?_⟩
    simp only [GeneralizedExtremeValue.getActualDistribution, setActualDistribution_frechet, e1,
      e3, e4]
  · intro hxi
    have h1 : ¬ xi < -xiEpsilon := by
      intro hlt
      rw [hxi] at hlt
      linarith
    have h2 : ¬ xi > xiEpsilon := by
      intro hgt
      rw [hxi] at hgt
      exact absurd hgt (not_lt.mpr hx)
    rw [if_neg h1, if_neg h2] at he
    have e1 : (1 : K) / (1 / sigma) = sigma := by field_simp
    rw [he, setActualDistribution_gumbel]
    refine ⟨rfl, rfl, rfl, rfl, e1, rfl, rfl, ?_⟩
    simp only [GeneralizedExtremeValue.getActualDistribution, setActualDistribution_gumbel, e1,
      hxi]

/-- Witness of C31: with the threshold `1e-6`, from the default object,
`setMuSigmaXi(3, 2, 1/2)` builds `Frechet(2, 4, -1)`, from which `setActualDistribution`
recovers `(3, 2, 1/2)`; and `setMuSigmaXi(3, 2, 0)` builds `Gumbel(1/2, 3)`, from which
`setActualDistribution` recovers `(3, 2, 0)`. -/
theorem frechet_gumbel_round_trip_witness :
    ((GeneralizedExtremeValue.setMuSigmaXi (1 / 1000000 : ℚ) GeneralizedExtremeValue.default
          3 2 (1 / 2)).1.getActualDistribution = Distribution.frechet ⟨2, 4, -1⟩
      ∧ (GeneralizedExtremeValue.setActualDistribution (GeneralizedExtremeValue.default (K := ℚ))
          (Distribution.frechet ⟨2, 4, -1⟩)).1.getParameter = [3, 2, 1 / 2])
    ∧ ((GeneralizedExtremeValue.setMuSigmaXi (1 / 1000000 : ℚ) GeneralizedExtremeValue.default
          3 2 0).1.getActualDistribution = Distribution.gumbel ⟨1 / 2, 3⟩
      ∧ (GeneralizedExtremeValue.setActualDistribution (GeneralizedExtremeValue.default (K := ℚ))
          (Distribution.gumbel ⟨1 / 2, 3⟩)).1.getParameter = [3, 2, 0]) := by
  have hF := (frechet_gumbel_round_trip (1 / 1000000 : ℚ) (by norm_num)
    GeneralizedExtremeValue.default GeneralizedExtremeValue.default 3 2 (1 / 2)
    (by norm_num)).1 (by norm_num)
  have hG := (frechet_gumbel_round_trip (1 / 1000000 : ℚ) (by norm_num)
    GeneralizedExtremeValue.default GeneralizedExtremeValue.default 3 2 0
    (by norm_num)).2 rfl
  have a1 : (1 : ℚ) / (1 / 2) = 2 := by norm_num
  have a2 : (2 : ℚ) / (1 / 2) = 4 := by norm_num
  have a3 : (3 : ℚ) - 4 = -1 := by norm_num
  rw [a1, a2, a3] at hF
  obtain ⟨-, hFd, -, hFm, hFs, hFx, -, -⟩ := hF
  obtain ⟨-, hGd, -, hGm, hGs, hGx, -, -⟩ := hG
  refine ⟨⟨hFd, ?_⟩, ⟨hGd, ?_⟩⟩
  · show [(GeneralizedExtremeValue.setActualDistribution GeneralizedExtremeValue.default
        (Distribution.frechet ⟨2, 4, -1⟩)).1.getMu,
      (GeneralizedExtremeValue.setActualDistribution GeneralizedExtremeValue.default
        (Distribution.frechet ⟨2, 4, -1⟩)).1.getSigma,
      (GeneralizedExtremeValue.setActualDistribution GeneralizedExtremeValue.default
        (Distribution.frechet ⟨2, 4, -1⟩)).1.getXi] = [3, 2, 1 / 2]
    rw [hFm, hFs, hFx]
  · show [(GeneralizedExtremeValue.setActualDistribution GeneralizedExtremeValue.default
        (Distribution.gumbel ⟨1 / 2, 3⟩)).1.getMu,
      (GeneralizedExtremeValue.setActualDistribution GeneralizedExtremeValue.default
        (Distribution.gumbel ⟨1 / 2, 3⟩)).1.getSigma,
      (GeneralizedExtremeValue.setActualDistribution GeneralizedExtremeValue.default
        (Distribution.gumbel ⟨1 / 2, 3⟩)).1.getXi] = [3, 2, 0]
    rw [hGm, hGs, hGx]

/-- C32: the sign of `sigma_` after the constructors and the mutators of
`GeneralizedExtremeValue`.  `sigma_ > 0` holds after the default constructor, after every
call of `setMuSigmaXi`, `setMu`, `setSigma`, `setXi`, `setParameter` and of the constructor
with three parameters that raises nothing, and after `setActualDistribution` on a Gumbel
(`alpha > 0`) or a Frechet (`alpha > 0`, `beta > 0`) distribution.  It fails after
`setActualDistribution` on a one-atom mixture of dimension `1` with a negative weight whose
atom is a Weibull (`alpha > 0`, `beta > 0`): the call raises nothing and stores
`sigma_ = weight * alpha / beta < 0`, after which `setMu` throws for every argument.  On the
opposite of a Weibull that `setMuSigmaXi(mu, sigma, xi)` builds for `xi` below minus the
threshold, `setActualDistribution` stores `(-mu, -sigma, xi)`. -/
theorem scale_sign_after_mutators {K : Type} [LinearOrderedField K] :
    (GeneralizedExtremeValue.default (K := K)).getSigma > 0
    ∧ (∀ (xiEpsilon : K) (g : GeneralizedExtremeValue K) (mu sigma xi : K),
        ((GeneralizedExtremeValue.setMuSigmaXi xiEpsilon g mu sigma xi).2 = none →
          (GeneralizedExtremeValue.setMuSigmaXi xiEpsilon g mu sigma xi).1.getSigma > 0)
        ∧ ((GeneralizedExtremeValue.setMu xiEpsilon g mu).2 = none →
          (GeneralizedExtremeValue.setMu xiEpsilon g mu).1.getSigma > 0)
        ∧ ((GeneralizedExtremeValue.setSigma xiEpsilon g sigma).2 = none →
          (GeneralizedExtremeValue.setSigma xiEpsilon g sigma).1.getSigma > 0)
        ∧ ((GeneralizedExtremeValue.setXi xiEpsilon g xi).2 = none →
          (GeneralizedExtremeValue.setXi xiEpsilon g xi).1.getSigma > 0)
        ∧ (∀ parameter : List K,
          (GeneralizedExtremeValue.setParameter xiEpsilon g parameter).2 = none →
          (GeneralizedExtremeValue.setParameter xiEpsilon g parameter).1.getSigma > 0)
        ∧ (∀ g1, GeneralizedExtremeValue.new xiEpsilon g mu sigma xi = Except.ok g1 →
          g1.getSigma > 0))
    ∧ (∀ (g : GeneralizedExtremeValue K) (d : Gumbel K), d.alpha > 0 →
        (GeneralizedExtremeValue.setActualDistribution g (Distribution.gumbel d)).2 = none
          ∧ (GeneralizedExtremeValue.setActualDistribution g
              (Distribution.gumbel d)).1.getSigma > 0)
    ∧ (∀ (g : GeneralizedExtremeValue K) (d : Frechet K), d.alpha > 0 → d.beta > 0 →
        (GeneralizedExtremeValue.setActualDistribution g (Distribution.frechet d)).2 = none
          ∧ (GeneralizedExtremeValue.setActualDistribution g
              (Distribution.frechet d)).1.getSigma > 0)
    ∧ (∀ (g : GeneralizedExtremeValue K) (d : Weibull K) (weight constant : K),
        d.alpha > 0 → d.beta > 0 → weight < 0 →
        (GeneralizedExtremeValue.setActualDistribution g
            (Distribution.randomMixture ⟨1, [Atom.weibull d], [weight], [constant]⟩)).2 = none
          ∧ (GeneralizedExtremeValue.setActualDistribution g
              (Distribution.randomMixture
                ⟨1, [Atom.weibull d], [weight], [constant]⟩)).1.getSigma
            = weight * d.alpha / d.beta
          ∧ (GeneralizedExtremeValue.setActualDistribution g
              (Distribution.randomMixture
                ⟨1, [Atom.weibull d], [weight], [constant]⟩)).1.getSigma < 0
          ∧ ∀ (xiEpsilon mu : K),
              (GeneralizedExtremeValue.setMu xiEpsilon
                (GeneralizedExtremeValue.setActualDistribution g
                  (Distribution.randomMixture
                    ⟨1, [Atom.weibull d], [weight], [constant]⟩)).1 mu).2
                = some Exception.InvalidArgumentException)
    ∧ (∀ (xiEpsilon : K) (g g2 : GeneralizedExtremeValue K) (mu sigma xi : K),
        0 ≤ xiEpsilon → sigma > 0 → xi < -xiEpsilon →
        (GeneralizedExtremeValue.setMuSigmaXi xiEpsilon g mu sigma xi).2 = none
          ∧ (GeneralizedExtremeValue.setMuSigmaXi xiEpsilon g mu sigma
              xi).1.getActualDistribution
            = Distribution.randomMixture
              ⟨1, [Atom.weibull ⟨-sigma / xi, -1 / xi, sigma / xi - mu⟩], [-1], [0]⟩
          ∧ (GeneralizedExtremeValue.setActualDistribution g2
              (GeneralizedExtremeValue.setMuSigmaXi xiEpsilon g mu sigma
                xi).1.getActualDistribution).2 = none
          ∧ (GeneralizedExtremeValue.setActualDistribution g2
              (GeneralizedExtremeValue.setMuSigmaXi xiEpsilon g mu sigma
                xi).1.getActualDistribution).1.getParameter
            = [-mu, -sigma, xi]) := by
  refine ⟨?_, ?_, ?_, ?_, ?_, ?_⟩
  · show (1 : K) > 0
    exact one_pos
  · intro xiEpsilon g mu sigma xi
    refine ⟨?_, ?_, ?_, ?_, ?_, ?_⟩
    · intro h
      obtain ⟨hs, he⟩ := setMuSigmaXi_success xiEpsilon g mu sigma xi h
      show (GeneralizedExtremeValue.setMuSigmaXi xiEpsilon g mu sigma xi).1.sigma_ > 0
      rw [he]
      exact hs
    · intro h
      obtain ⟨hs, he⟩ := setMuSigmaXi_success xiEpsilon g mu g.sigma_ g.xi_ h
      show (GeneralizedExtremeValue.setMuSigmaXi xiEpsilon g mu g.sigma_ g.xi_).1.sigma_ > 0
      rw [he]
      exact hs
    · intro h
      obtain ⟨hs, he⟩ := setMuSigmaXi_success xiEpsilon g g.mu_ sigma g.xi_ h
      show (GeneralizedExtremeValue.setMuSigmaXi xiEpsilon g g.mu_ sigma g.xi_).1.sigma_ > 0
      rw [he]
      exact hs
    · intro h
      obtain ⟨hs, he⟩ := setMuSigmaXi_success xiEpsilon g g.mu_ g.sigma_ xi h
      show (GeneralizedExtremeValue.setMuSigmaXi xiEpsilon g g.mu_ g.sigma_ xi).1.sigma_ > 0
      rw [he]
      exact hs
    · intro parameter h
      unfold GeneralizedExtremeValue.setParameter at h ⊢
      have hl3 : ¬ parameter.length ≠ 3 := by
        intro hne
        rw [if_pos hne] at h
        exact absurd h (by simp)
      rw [if_neg hl3] at h ⊢
      obtain ⟨hs, he⟩ := setMuSigmaXi_success xiEpsilon g _ _ _ h
      show (GeneralizedExtremeValue.setMuSigmaXi xiEpsilon g (NumericalPoint.get parameter 0)
        (NumericalPoint.get parameter 1) (NumericalPoint.get parameter 2)).1.sigma_ > 0
      rw [he]
      exact hs
    · intro g1 h
      unfold GeneralizedExtremeValue.new at h
      cases hr : GeneralizedExtremeValue.setMuSigmaXi xiEpsilon g mu sigma xi with
      | mk a b =>
        rw [hr] at h
        cases b with
        | some e => exact absurd h (by simp)
        | none =>
          simp only [Except.ok.injEq] at h
          subst h
          have h2 : (GeneralizedExtremeValue.setMuSigmaXi xiEpsilon g mu sigma xi).2 = none := by
            rw [hr]
          obtain ⟨hs, he⟩ := setMuSigmaXi_success xiEpsilon g mu sigma xi h2
          rw [hr] at he
          show a.sigma_ > 0
          have he' : a.sigma_ = sigma := he
          rw [he']
          exact hs
  · intro g d ha
    rw [setActualDistribution_gumbel]
    exact ⟨rfl, div_pos one_pos ha⟩
  · intro g d ha hb
    rw [setActualDistribution_frechet]
    exact ⟨rfl, mul_pos hb (div_pos one_pos ha)⟩
  · intro g d weight constant ha hb hw
    have hw0 : NumericalPoint.get [weight] 0 < 0 := hw
    have he := setActualDistribution_weibull g d [] [weight] [constant] rfl hw0
    have hg : NumericalPoint.get [weight] 0 = weight := rfl
    rw [hg] at he
    have hb0 : d.beta ≠ 0 := ne_of_gt hb
    have hval : -(weight * d.alpha) * (-1 / d.beta) = weight * d.alpha / d.beta := by
      field_simp
    have hneg : weight * d.alpha / d.beta < 0 :=
      div_neg_of_neg_of_pos (mul_neg_of_neg_of_pos hw ha) hb
    rw [he]
    refine ⟨rfl, hval, ?_, ?_⟩
    · show -(weight * d.alpha) * (-1 / d.beta) < 0
      rw [hval]
      exact hneg
    · intro xiEpsilon mu
      unfold GeneralizedExtremeValue.setMu
      rw [setMuSigmaXi_of_not_pos]
      show ¬ (-(weight * d.alpha) * (-1 / d.beta) > 0)
      rw [hval]
      exact not_lt.mpr (le_of_lt hneg)
  · intro xiEpsilon g g2 mu sigma xi hx hs hxi
    have he := setMuSigmaXi_of_pos xiEpsilon hx g mu sigma xi hs
    rw [if_pos hxi] at he
    have hxi0 : xi < 0 := by linarith
    have hxn : xi ≠ 0 := ne_of_lt hxi0
    rw [he]
    refine ⟨rfl, rfl, ?_, ?_⟩
    · show (GeneralizedExtremeValue.setActualDistribution g2
        (Distribution.randomMixture
          ⟨1, [Atom.weibull ⟨-sigma / xi, -1 / xi, sigma / xi - mu⟩], [-1], [0]⟩)).2 = none
      rw [setActualDistribution_weibull g2 _ [] [-1] [0] rfl
        (by show (-1 : K) < 0; exact neg_one_lt_zero)]
    · show (GeneralizedExtremeValue.setActualDistribution g2
        (Distribution.randomMixture
          ⟨1, [Atom.weibull ⟨-sigma / xi, -1 / xi, sigma / xi - mu⟩], [-1], [0]⟩)).1.getParameter
        = [-mu, -sigma, xi]
      rw [setActualDistribution_weibull g2 _ [] [-1] [0] rfl
        (by show (-1 : K) < 0; exact neg_one_lt_zero)]
      show [NumericalPoint.get [(0 : K)] 0
          + -(NumericalPoint.get [(-1 : K)] 0 * (-sigma / xi)) * (-1 / (-1 / xi))
            / (-1 / (-1 / xi))
          - (sigma / xi - mu) * NumericalPoint.get [(-1 : K)] 0,
        -(NumericalPoint.get [(-1 : K)] 0 * (-sigma / xi)) * (-1 / (-1 / xi)),
        -1 / (-1 / xi)] = [-mu, -sigma, xi]
      have g0 : NumericalPoint.get [(0 : K)] 0 = 0 := rfl
      have g1 : NumericalPoint.get [(-1 : K)] 0 = -1 := rfl
      rw [g0, g1]
      have e1 : (-1 : K) / (-1 / xi) = xi := by field_simp
      rw [e1]
      have e2 : -(-1 * (-sigma / xi)) * xi = -sigma := by field_simp
      rw [e2]
      have e3 : (0 : K) + -sigma / xi - (sigma / xi - mu) * -1 = -mu := by
        field_simp
        ring
      rw [e3]

/-- Witness of C32: from the default object, `setMuSigmaXi(3, 2, -1/2)` with the threshold
`1e-6` builds the opposite of `Weibull(4, 2, -7)`; `setActualDistribution` on that mixture
raises nothing and stores `(-3, -2, -1/2)`, a negative `sigma_`, and a later `setMu(0)`
throws. -/
theorem scale_sign_after_mutators_witness :
    (GeneralizedExtremeValue.setMuSigmaXi (1 / 1000000 : ℚ) GeneralizedExtremeValue.default
        3 2 (-1 / 2)).1.getActualDistribution
      = Distribution.randomMixture ⟨1, [Atom.weibull ⟨4, 2, -7⟩], [-1], [0]⟩
    ∧ (GeneralizedExtremeValue.setActualDistribution (GeneralizedExtremeValue.default (K := ℚ))
        (Distribution.randomMixture ⟨1, [Atom.weibull ⟨4, 2, -7⟩], [-1], [0]⟩)).2 = none
    ∧ (GeneralizedExtremeValue.setActualDistribution (GeneralizedExtremeValue.default (K := ℚ))
        (Distribution.randomMixture
          ⟨1, [Atom.weibull ⟨4, 2, -7⟩], [-1], [0]⟩)).1.getParameter = [-3, -2, -1 / 2]
    ∧ (GeneralizedExtremeValue.setActualDistribution (GeneralizedExtremeValue.default (K := ℚ))
        (Distribution.randomMixture
          ⟨1, [Atom.weibull ⟨4, 2, -7⟩], [-1], [0]⟩)).1.getSigma < 0
    ∧ (GeneralizedExtremeValue.setMu (1 / 1000000 : ℚ)
        (GeneralizedExtremeValue.setActualDistribution (GeneralizedExtremeValue.default (K := ℚ))
          (Distribution.randomMixture ⟨1, [Atom.weibull ⟨4, 2, -7⟩], [-1], [0]⟩)).1 0).2
      = some Exception.InvalidArgumentException := by
  have hR := (scale_sign_after_mutators (K := ℚ)).2.2.2.2.2 (1 / 1000000)
    GeneralizedExtremeValue.default GeneralizedExtremeValue.default 3 2 (-1 / 2)
    (by norm_num) (by norm_num) (by norm_num)
  have a1 : (-2 : ℚ) / (-1 / 2) = 4 := by norm_num
  have a2 : (-1 : ℚ) / (-1 / 2) = 2 := by norm_num
  have a3 : (2 : ℚ) / (-1 / 2) - 3 = -7 := by norm_num
  rw [a1, a2, a3] at hR
  obtain ⟨-, hd, hn, hp⟩ := hR
  rw [hd] at hn hp
  have hW := (scale_sign_after_mutators (K := ℚ)).2.2.2.2.1 GeneralizedExtremeValue.default
    ⟨4, 2, -7⟩ (-1) 0 (by norm_num) (by norm_num) (by norm_num)
  exact ⟨hd, hn, hp, hW.2.2.1, hW.2.2.2 (1 / 1000000) 0⟩
end OT
